import Mathlib

/-!
# PandoraPFA: main fragment removal algorithm

A shallow embedding of `src/Algorithms/FragmentRemoval/MainFragmentRemovalAlgorithm.cc`, followed
by the embeddings of `LoopingTracksAlgorithm::ReadSettings` and of
`MuonReconstructionAlgorithm::IsMatchedMCParticle`, each in a namespace of its own.

Conventions of the embedding:

* `Cluster *` is an address, a natural number (`ClusterPtr`); pointer comparison is comparison of
  addresses. A nullable pointer is an `Option ClusterPtr`.
* `float` values are exact rationals (`ℚ`): no rounding, no NaN, no infinities.
  The one operation that also has a rounded form is the subtraction of the energy correction
  (`energyCorrectionFloat`): its difference is rounded to binary32, to nearest with ties to even.
* `unsigned int` values are natural numbers; where the source adds or subtracts them the result is
  reduced modulo `2 ^ 32`.
* `ClusterList` is a `std::set<Cluster *>`. The current cluster list is the list of its elements in
  iteration order; the affected-cluster set, which is only cleared, inserted into and searched, is a
  `Finset`.
* `ClusterContactMap` is a `std::map<Cluster *, ClusterContactVector>`: a list of entries with
  strictly ascending keys (`ClusterContactMap.WF`), iterated front to back.
* Everything the algorithm obtains from the rest of the framework (cluster attributes, the current
  cluster list, the contact features, the geometry, the track-cluster compatibility, the muon hit
  list, the merge operation) is a field of `PandoraApi`, over an arbitrary type `W` of states of
  the framework.
* A non-success status that a function returns and a `StatusCodeException` it throws are the two
  constructors of `Abort`.
-/

namespace MainFragmentRemoval

/-! ## Data model -/

/-- The address of a cluster. -/
abbrev ClusterPtr := Nat

/-- The address of a track. -/
abbrev TrackPtr := Nat

/-- A pseudolayer index (`unsigned int`). -/
abbrev PseudoLayer := Nat

/-- The status codes the algorithm handles. -/
inductive StatusCode where
  | SUCCESS
  | FAILURE
  | NOT_FOUND
  | INVALID_PARAMETER
  | NOT_INITIALIZED
  deriving DecidableEq, Repr

/-- The two ways a call ends without success: it returns a status, or it throws one. -/
inductive Abort where
  | returned (status : StatusCode)
  | thrown (status : StatusCode)
  deriving DecidableEq, Repr

/-- The modulus of `unsigned int` arithmetic. -/
def UINT_MOD : Nat := 2 ^ 32

/-- Addition of two `unsigned int` values. -/
def uadd (a b : Nat) : Nat := (a + b) % UINT_MOD

/-- Subtraction of two `unsigned int` values. -/
def usub (a b : Nat) : Nat := (a + UINT_MOD - b % UINT_MOD) % UINT_MOD

/-- The conversion `static_cast<int>` of an `unsigned int`. -/
def toInt32 (a : Nat) : Int :=
  if a % UINT_MOD < 2 ^ 31 then ((a % UINT_MOD : Nat) : Int) else ((a % UINT_MOD : Nat) : Int) - 2 ^ 32

/-- The function `std::max` on floats: `(a < b) ? b : a`. -/
def stdMax (a b : ℚ) : ℚ := if a < b then b else a

/-- A three-vector. -/
structure CartesianVector where
  x : ℚ
  y : ℚ
  z : ℚ
  deriving DecidableEq, Repr

/-- The method `CartesianVector::GetDotProduct`. -/
def CartesianVector.GetDotProduct (a b : CartesianVector) : ℚ :=
  a.x * b.x + a.y * b.y + a.z * b.z

/-- The attributes of a cluster that the algorithm queries. -/
structure Cluster where
  /-- `GetAssociatedTrackList()` -/
  associatedTrackList : List TrackPtr
  /-- `GetNCaloHits()` -/
  nCaloHits : Nat
  /-- `GetHadronicEnergy()` -/
  hadronicEnergy : ℚ
  /-- `GetCorrectedHadronicEnergy()` -/
  correctedHadronicEnergy : ℚ
  /-- `GetInnerPseudoLayer()` -/
  innerPseudoLayer : PseudoLayer
  /-- `GetOuterPseudoLayer()` -/
  outerPseudoLayer : PseudoLayer
  /-- `GetOrderedCaloHitList()`: the occupied pseudolayers, innermost first, each with the hadronic
  energies of its hits. -/
  orderedCaloHitList : List (PseudoLayer × List ℚ)
  /-- `GetFitToAllHitsResult().IsFitSuccessful()` -/
  fitSuccessful : Bool
  /-- `GetFitToAllHitsResult().GetRadialDirectionCosine()` -/
  radialDirectionCosine : ℚ
  /-- `IsPhotonFast()` -/
  isPhotonFast : Bool
  /-- `GetShowerProfileStart()` -/
  showerProfileStart : ℚ
  /-- `GetShowerProfileDiscrepancy()` -/
  showerProfileDiscrepancy : ℚ
  /-- `ClusterHelper::IsClusterLeavingDetector(pCluster)` -/
  isLeavingDetector : Bool
  /-- `GetCentroid(GetOuterPseudoLayer()).GetUnitVector()` -/
  outerCentroidDirection : CartesianVector
  deriving DecidableEq, Repr

/-- The features of a contact between a daughter and a parent candidate. -/
structure ContactFeatures where
  /-- `GetNContactLayers()` -/
  nContactLayers : Nat
  /-- `GetContactFraction()` -/
  contactFraction : ℚ
  /-- `GetConeFraction1()` -/
  coneFraction1 : ℚ
  /-- `GetConeFraction2()` -/
  coneFraction2 : ℚ
  /-- `GetConeFraction3()` -/
  coneFraction3 : ℚ
  /-- `GetCloseHitFraction1()` -/
  closeHitFraction1 : ℚ
  /-- `GetCloseHitFraction2()` -/
  closeHitFraction2 : ℚ
  /-- `GetMeanDistanceToHelix()` -/
  meanDistanceToHelix : ℚ
  /-- `GetClosestDistanceToHelix()` -/
  closestDistanceToHelix : ℚ
  /-- `GetDistanceToClosestHit()` -/
  distanceToClosestHit : ℚ
  /-- `GetParentTrackEnergy()` -/
  parentTrackEnergy : ℚ
  deriving DecidableEq, Repr

/-- A cluster contact: the two clusters and the features. -/
structure ClusterContact extends ContactFeatures where
  /-- `GetDaughterCluster()` -/
  daughterCluster : ClusterPtr
  /-- `GetParentCluster()` -/
  parentCluster : ClusterPtr
  deriving DecidableEq, Repr

/-- The type `ClusterContactVector`. -/
abbrev ClusterContactVector := List ClusterContact

/-- The type `ClusterContactMap`: the entries in ascending key order. -/
abbrev ClusterContactMap := List (ClusterPtr × ClusterContactVector)

/-- The interface to the rest of the framework, whose state has type `W`. -/
structure PandoraApi (W : Type) where
  /-- `PandoraContentApi::GetCurrentClusterList`: a failure status, or the current list in
  iteration order. -/
  GetCurrentClusterList : W → Except StatusCode (List ClusterPtr)
  /-- The attributes of the cluster at an address. -/
  cluster : W → ClusterPtr → Cluster
  /-- The features computed by the constructor `ClusterContact(pDaughter, pParent)`. -/
  contactFeatures : W → ClusterPtr → ClusterPtr → ContactFeatures
  /-- `GeometryHelper::GetInstance()->GetECalBarrelParameters().GetNLayers()` -/
  nECalLayers : Nat
  /-- `ReclusterHelper::GetTrackClusterCompatibility(clusterEnergy, trackEnergy)` -/
  GetTrackClusterCompatibility : ℚ → ℚ → ℚ
  /-- `PandoraContentApi::GetOrderedCaloHitList` for the muon hit list name: a failure status, or
  the unit position vectors of the hits of the list, in the order of `GetCaloHitList`. -/
  muonHitDirections : W → Except StatusCode (List CartesianVector)
  /-- `PandoraContentApi::MergeAndDeleteClusters(pParent, pDaughter)` -/
  MergeAndDeleteClusters : W → ClusterPtr → ClusterPtr → Except StatusCode W

/-- The configuration: the members set by `ReadSettings`. -/
structure Settings where
  m_minDaughterCaloHits : Nat
  m_minDaughterHadronicEnergy : ℚ
  m_contactCutMaxDistance : ℚ
  m_contactCutNLayers : Nat
  m_contactCutConeFraction1 : ℚ
  m_contactCutCloseHitFraction1 : ℚ
  m_contactCutCloseHitFraction2 : ℚ
  m_contactCutMeanDistanceToHelix : ℚ
  m_contactCutClosestDistanceToHelix : ℚ
  m_contactCutLayersFromECal : Nat
  m_contactCutNearECalDistance : ℚ
  m_maxChi2 : ℚ
  m_maxGlobalChi2 : ℚ
  m_chi2Base : ℚ
  m_globalChi2Penalty : ℚ
  m_correctionLayerNHitLayers : Nat
  m_correctionLayerEnergyFraction : ℚ
  m_contactEvidenceNLayers1 : Nat
  m_contactEvidenceNLayers2 : Nat
  m_contactEvidenceNLayers3 : Nat
  m_contactEvidence1 : ℚ
  m_contactEvidence2 : ℚ
  m_contactEvidence3 : ℚ
  m_coneEvidenceFraction1 : ℚ
  m_coneEvidenceECalMultiplier : ℚ
  m_closestTrackEvidence1 : ℚ
  m_closestTrackEvidence1d : ℚ
  m_closestTrackEvidence2 : ℚ
  m_closestTrackEvidence2d : ℚ
  m_meanTrackEvidence1 : ℚ
  m_meanTrackEvidence1d : ℚ
  m_meanTrackEvidence2 : ℚ
  m_meanTrackEvidence2d : ℚ
  m_distanceEvidence1 : ℚ
  m_distanceEvidence1d : ℚ
  m_distanceEvidenceCloseFraction1Multiplier : ℚ
  m_distanceEvidenceCloseFraction2Multiplier : ℚ
  m_contactWeight : ℚ
  m_coneWeight : ℚ
  m_distanceWeight : ℚ
  m_trackExtrapolationWeight : ℚ
  m_layerCorrection1 : ℚ
  m_layerCorrection2 : ℚ
  m_layerCorrection3 : ℚ
  m_layerCorrection4 : ℚ
  m_layerCorrection5 : ℚ
  m_layerCorrection6 : ℚ
  m_nDeepInHCalLayers : Nat
  m_layerCorrectionLayerSpan : Nat
  m_layerCorrectionMinInnerLayer : Nat
  /-- Compared with the result of `std::abs` on an `int`: a signed member. -/
  m_layerCorrectionLayersFromECal : Int
  m_leavingCorrection : ℚ
  m_useMuonHitsInLeavingCorrection : Bool
  m_energyCorrectionThreshold : ℚ
  m_lowEnergyCorrectionThreshold : ℚ
  m_lowEnergyCorrectionNHitLayers1 : Nat
  m_lowEnergyCorrectionNHitLayers2 : Nat
  m_lowEnergyCorrection1 : ℚ
  m_lowEnergyCorrection2 : ℚ
  m_lowEnergyCorrection3 : ℚ
  m_angularCorrectionOffset : ℚ
  m_angularCorrectionConstant : ℚ
  m_angularCorrectionGradient : ℚ
  m_photonCorrectionEnergy1 : ℚ
  m_photonCorrectionEnergy2 : ℚ
  m_photonCorrectionEnergy3 : ℚ
  m_photonCorrectionShowerStart1 : ℚ
  m_photonCorrectionShowerStart2 : ℚ
  m_photonCorrectionShowerDiscrepancy1 : ℚ
  m_photonCorrectionShowerDiscrepancy2 : ℚ
  m_photonCorrection1 : ℚ
  m_photonCorrection2 : ℚ
  m_photonCorrection3 : ℚ
  m_photonCorrection4 : ℚ
  m_photonCorrection5 : ℚ
  m_photonCorrection6 : ℚ
  m_photonCorrection7 : ℚ
  m_minRequiredEvidence : ℚ

/-- The defaults assigned by `ReadSettings` before each read. -/
def defaultSettings : Settings where
  m_minDaughterCaloHits := 5
  m_minDaughterHadronicEnergy := 25 / 1000
  m_contactCutMaxDistance := 750
  m_contactCutNLayers := 0
  m_contactCutConeFraction1 := 25 / 100
  m_contactCutCloseHitFraction1 := 25 / 100
  m_contactCutCloseHitFraction2 := 15 / 100
  m_contactCutMeanDistanceToHelix := 250
  m_contactCutClosestDistanceToHelix := 150
  m_contactCutLayersFromECal := 10
  m_contactCutNearECalDistance := 250
  m_maxChi2 := 16
  m_maxGlobalChi2 := 9
  m_chi2Base := 5
  m_globalChi2Penalty := 5
  m_correctionLayerNHitLayers := 3
  m_correctionLayerEnergyFraction := 25 / 100
  m_contactEvidenceNLayers1 := 10
  m_contactEvidenceNLayers2 := 4
  m_contactEvidenceNLayers3 := 1
  m_contactEvidence1 := 2
  m_contactEvidence2 := 1
  m_contactEvidence3 := 1 / 2
  m_coneEvidenceFraction1 := 1 / 2
  m_coneEvidenceECalMultiplier := 1 / 2
  m_closestTrackEvidence1 := 200
  m_closestTrackEvidence1d := 100
  m_closestTrackEvidence2 := 50
  m_closestTrackEvidence2d := 20
  m_meanTrackEvidence1 := 200
  m_meanTrackEvidence1d := 100
  m_meanTrackEvidence2 := 50
  m_meanTrackEvidence2d := 50
  m_distanceEvidence1 := 100
  m_distanceEvidence1d := 100
  m_distanceEvidenceCloseFraction1Multiplier := 1
  m_distanceEvidenceCloseFraction2Multiplier := 2
  m_contactWeight := 1
  m_coneWeight := 1
  m_distanceWeight := 1
  m_trackExtrapolationWeight := 1
  m_layerCorrection1 := 2
  m_layerCorrection2 := 0
  m_layerCorrection3 := -1
  m_layerCorrection4 := -2
  m_layerCorrection5 := -2
  m_layerCorrection6 := -3
  m_nDeepInHCalLayers := 20
  m_layerCorrectionLayerSpan := 4
  m_layerCorrectionMinInnerLayer := 5
  m_layerCorrectionLayersFromECal := 4
  m_leavingCorrection := 5
  m_useMuonHitsInLeavingCorrection := true
  m_energyCorrectionThreshold := 3
  m_lowEnergyCorrectionThreshold := 3 / 2
  m_lowEnergyCorrectionNHitLayers1 := 6
  m_lowEnergyCorrectionNHitLayers2 := 4
  m_lowEnergyCorrection1 := -1
  m_lowEnergyCorrection2 := -1
  m_lowEnergyCorrection3 := -1
  m_angularCorrectionOffset := 3 / 4
  m_angularCorrectionConstant := -1 / 2
  m_angularCorrectionGradient := 2
  m_photonCorrectionEnergy1 := 2
  m_photonCorrectionEnergy2 := 1 / 2
  m_photonCorrectionEnergy3 := 1
  m_photonCorrectionShowerStart1 := 5
  m_photonCorrectionShowerStart2 := 5 / 2
  m_photonCorrectionShowerDiscrepancy1 := 8 / 10
  m_photonCorrectionShowerDiscrepancy2 := 1
  m_photonCorrection1 := 10
  m_photonCorrection2 := 100
  m_photonCorrection3 := 5
  m_photonCorrection4 := 10
  m_photonCorrection5 := 2
  m_photonCorrection6 := 2
  m_photonCorrection7 := 0
  m_minRequiredEvidence := 1 / 2

/-! ## The evidence model -/

section Evidence

variable {W : Type}

/-- The constructor `ClusterContact(pDaughterCluster, pParentCluster)`: it stores the two addresses
and the features computed for the pair. -/
def ClusterContact.create (api : PandoraApi W) (w : W) (pDaughterCluster pParentCluster : ClusterPtr) :
    ClusterContact :=
  { toContactFeatures := api.contactFeatures w pDaughterCluster pParentCluster
    daughterCluster := pDaughterCluster
    parentCluster := pParentCluster }

/-- The function `PassesClusterContactCuts`. -/
def PassesClusterContactCuts (cfg : Settings) (api : PandoraApi W) (w : W)
    (clusterContact : ClusterContact) : Bool :=
  if clusterContact.distanceToClosestHit > cfg.m_contactCutMaxDistance then
    false
  else if clusterContact.nContactLayers > cfg.m_contactCutNLayers ∨
      clusterContact.coneFraction1 > cfg.m_contactCutConeFraction1 ∨
      clusterContact.closeHitFraction1 > cfg.m_contactCutCloseHitFraction1 ∨
      clusterContact.closeHitFraction2 > cfg.m_contactCutCloseHitFraction2 ∨
      clusterContact.meanDistanceToHelix < cfg.m_contactCutMeanDistanceToHelix ∨
      clusterContact.closestDistanceToHelix < cfg.m_contactCutClosestDistanceToHelix then
    true
  else
    let nECalLayers := api.nECalLayers
    let daughterInnerLayer := (api.cluster w clusterContact.daughterCluster).innerPseudoLayer
    decide (clusterContact.distanceToClosestHit < cfg.m_contactCutNearECalDistance ∧
      uadd daughterInnerLayer cfg.m_contactCutLayersFromECal > nECalLayers)

/-- The contact-layer evidence of `GetTotalEvidenceForMerge` (block 1). -/
def contactEvidence (cfg : Settings) (clusterContact : ClusterContact) : ℚ :=
  let contactEvidence : ℚ :=
    if clusterContact.nContactLayers > cfg.m_contactEvidenceNLayers1 then cfg.m_contactEvidence1
    else if clusterContact.nContactLayers > cfg.m_contactEvidenceNLayers2 then cfg.m_contactEvidence2
    else if clusterContact.nContactLayers > cfg.m_contactEvidenceNLayers3 then cfg.m_contactEvidence3
    else 0
  contactEvidence * (1 + clusterContact.contactFraction)

/-- The cone evidence of `GetTotalEvidenceForMerge` (block 2). -/
def coneEvidence (cfg : Settings) (api : PandoraApi W) (w : W) (clusterContact : ClusterContact) : ℚ :=
  if clusterContact.coneFraction1 > cfg.m_coneEvidenceFraction1 then
    let coneEvidence := clusterContact.coneFraction1 + clusterContact.coneFraction2 +
      clusterContact.coneFraction3
    let nECalLayers := api.nECalLayers
    let daughterInnerLayer := (api.cluster w clusterContact.daughterCluster).innerPseudoLayer
    if daughterInnerLayer < nECalLayers then coneEvidence * cfg.m_coneEvidenceECalMultiplier
    else coneEvidence
  else 0

/-- The track-extrapolation evidence of `GetTotalEvidenceForMerge` (block 3). -/
def trackExtrapolationEvidence (cfg : Settings) (clusterContact : ClusterContact) : ℚ :=
  if clusterContact.closestDistanceToHelix < cfg.m_closestTrackEvidence1 then
    let e1 := (cfg.m_closestTrackEvidence1 - clusterContact.closestDistanceToHelix) /
      cfg.m_closestTrackEvidence1d
    let e2 := if clusterContact.closestDistanceToHelix < cfg.m_closestTrackEvidence2 then
        e1 + (cfg.m_closestTrackEvidence2 - clusterContact.closestDistanceToHelix) /
          cfg.m_closestTrackEvidence2d
      else e1
    let e3 := e2 + (cfg.m_meanTrackEvidence1 - clusterContact.meanDistanceToHelix) /
      cfg.m_meanTrackEvidence1d
    if clusterContact.meanDistanceToHelix < cfg.m_meanTrackEvidence2 then
      e3 + (cfg.m_meanTrackEvidence2 - clusterContact.closestDistanceToHelix) /
        cfg.m_meanTrackEvidence2d
    else e3
  else 0

/-- The distance-of-closest-approach evidence of `GetTotalEvidenceForMerge` (block 4). -/
def distanceEvidence (cfg : Settings) (clusterContact : ClusterContact) : ℚ :=
  if clusterContact.distanceToClosestHit < cfg.m_distanceEvidence1 then
    (cfg.m_distanceEvidence1 - clusterContact.distanceToClosestHit) / cfg.m_distanceEvidence1d +
      cfg.m_distanceEvidenceCloseFraction1Multiplier * clusterContact.closeHitFraction1 +
      cfg.m_distanceEvidenceCloseFraction2Multiplier * clusterContact.closeHitFraction2
  else 0

/-- The function `GetTotalEvidenceForMerge`. -/
def GetTotalEvidenceForMerge (cfg : Settings) (api : PandoraApi W) (w : W)
    (clusterContact : ClusterContact) : ℚ :=
  cfg.m_contactWeight * contactEvidence cfg clusterContact +
    cfg.m_coneWeight * coneEvidence cfg api w clusterContact +
    cfg.m_distanceWeight * distanceEvidence cfg clusterContact +
    cfg.m_trackExtrapolationWeight * trackExtrapolationEvidence cfg clusterContact

/-- The function `GetNCompatibleMuonHits`, on the member `m_muonDirectionVector`: the count and
the member afterwards. -/
def GetNCompatibleMuonHits (api : PandoraApi W) (w : W) (m_muonDirectionVector : List CartesianVector)
    (pParentCluster : ClusterPtr) : Nat × List CartesianVector :=
  let filled : Option (List CartesianVector) :=
    if m_muonDirectionVector.isEmpty then
      match api.muonHitDirections w with
      | .error _ => none
      | .ok muonHitList => some (m_muonDirectionVector ++ muonHitList)
    else some m_muonDirectionVector
  match filled with
  | none => (0, m_muonDirectionVector)
  | some muonDirectionVector =>
    let clusterDirection := (api.cluster w pParentCluster).outerCentroidDirection
    (muonDirectionVector.countP (fun d => decide (d.GetDotProduct clusterDirection > 4 / 5)),
      muonDirectionVector)

/-- The pair `(oldChi2, newChi2)` of a merge of a daughter of corrected energy
`daughterClusterEnergy` into a parent of the given cluster and track energy. -/
def chi2Pair (api : PandoraApi W) (daughterClusterEnergy parentClusterEnergy parentTrackEnergy : ℚ) :
    ℚ × ℚ :=
  let oldChi := api.GetTrackClusterCompatibility parentClusterEnergy parentTrackEnergy
  let newChi := api.GetTrackClusterCompatibility (daughterClusterEnergy + parentClusterEnergy)
    parentTrackEnergy
  (oldChi * oldChi, newChi * newChi)

/-- The local variable `chi2Evidence` of `GetRequiredEvidenceForMerge`. -/
def chi2Evidence (cfg : Settings) (api : PandoraApi W) (w : W) (pDaughterCluster : ClusterPtr)
    (clusterContact : ClusterContact) : ℚ :=
  let daughterCorrectedClusterEnergy := (api.cluster w pDaughterCluster).correctedHadronicEnergy
  let parentCorrectedClusterEnergy :=
    (api.cluster w clusterContact.parentCluster).correctedHadronicEnergy
  let parentTrackEnergy := clusterContact.parentTrackEnergy
  let chi2 := chi2Pair api daughterCorrectedClusterEnergy parentCorrectedClusterEnergy parentTrackEnergy
  cfg.m_chi2Base - (chi2.1 - chi2.2)

/-- The local variable `globalChi2Evidence` of `GetRequiredEvidenceForMerge`. -/
def globalChi2Evidence (cfg : Settings) (globalDeltaChi2 : ℚ) : ℚ :=
  cfg.m_chi2Base + cfg.m_globalChi2Penalty - globalDeltaChi2

/-- The local variable `usingGlobalChi2` of `GetRequiredEvidenceForMerge`. -/
def usingGlobalChi2 (cfg : Settings) (api : PandoraApi W) (w : W) (pDaughterCluster : ClusterPtr)
    (clusterContact : ClusterContact) (globalDeltaChi2 : ℚ) : Bool :=
  let daughterCorrectedClusterEnergy := (api.cluster w pDaughterCluster).correctedHadronicEnergy
  let parentCorrectedClusterEnergy :=
    (api.cluster w clusterContact.parentCluster).correctedHadronicEnergy
  let parentTrackEnergy := clusterContact.parentTrackEnergy
  let chi2 := chi2Pair api daughterCorrectedClusterEnergy parentCorrectedClusterEnergy parentTrackEnergy
  let oldChi2 := chi2.1
  let newChi2 := chi2.2
  decide ((newChi2 > oldChi2 ∧ newChi2 > cfg.m_maxGlobalChi2) ∨
    globalChi2Evidence cfg globalDeltaChi2 < chi2Evidence cfg api w pDaughterCluster clusterContact)

/-- The layer correction of `GetRequiredEvidenceForMerge` (block 1): six assignments in sequence,
each under its own condition. The two `static_cast<int>` values are subtracted as integers. -/
def layerCorrection (cfg : Settings) (nECalLayers : Nat) (innerLayer outerLayer correctionLayer : PseudoLayer) :
    ℚ :=
  let halfECal := nECalLayers / 2
  let l0 : ℚ := 0
  let l1 := if correctionLayer ≤ halfECal then cfg.m_layerCorrection1 else l0
  let l2 := if correctionLayer > halfECal ∧ correctionLayer ≤ nECalLayers then cfg.m_layerCorrection2
    else l1
  let l3 := if correctionLayer > nECalLayers then cfg.m_layerCorrection3 else l2
  let l4 := if correctionLayer > uadd nECalLayers cfg.m_nDeepInHCalLayers then cfg.m_layerCorrection4
    else l3
  let l5 := if usub outerLayer innerLayer < cfg.m_layerCorrectionLayerSpan ∧
      innerLayer > cfg.m_layerCorrectionMinInnerLayer then cfg.m_layerCorrection5 else l4
  if ((toInt32 correctionLayer - toInt32 nECalLayers).natAbs : Int) <
      cfg.m_layerCorrectionLayersFromECal then cfg.m_layerCorrection6 else l5

/-- The leaving-cluster correction of `GetRequiredEvidenceForMerge` (block 2), with the member
`m_muonDirectionVector` afterwards. -/
def leavingCorrection (cfg : Settings) (api : PandoraApi W) (w : W)
    (m_muonDirectionVector : List CartesianVector) (clusterContact : ClusterContact) :
    ℚ × List CartesianVector :=
  if (api.cluster w clusterContact.parentCluster).isLeavingDetector then
    if cfg.m_useMuonHitsInLeavingCorrection then
      let r := GetNCompatibleMuonHits api w m_muonDirectionVector clusterContact.parentCluster
      let nCompatibleMuonHits := r.1
      if !r.2.isEmpty then
        let c1 : ℚ := if nCompatibleMuonHits > 5 then 10 else cfg.m_leavingCorrection
        (if nCompatibleMuonHits = 0 then 2 else c1, r.2)
      else (cfg.m_leavingCorrection, r.2)
    else (cfg.m_leavingCorrection, m_muonDirectionVector)
  else (0, m_muonDirectionVector)

/-- The energy correction of `GetRequiredEvidenceForMerge` (block 3). -/
def energyCorrection (cfg : Settings) (daughterClusterEnergy : ℚ) : ℚ :=
  if daughterClusterEnergy < cfg.m_energyCorrectionThreshold then
    daughterClusterEnergy - cfg.m_energyCorrectionThreshold
  else 0

/-- The low-energy fragment correction of `GetRequiredEvidenceForMerge` (block 4). -/
def lowEnergyCorrection (cfg : Settings) (nECalLayers : Nat) (daughterClusterEnergy : ℚ)
    (nHitLayers : Nat) (correctionLayer : PseudoLayer) : ℚ :=
  if daughterClusterEnergy < cfg.m_lowEnergyCorrectionThreshold then
    let c0 : ℚ := 0
    let c1 := if nHitLayers < cfg.m_lowEnergyCorrectionNHitLayers1 then c0 + cfg.m_lowEnergyCorrection1
      else c0
    let c2 := if nHitLayers < cfg.m_lowEnergyCorrectionNHitLayers2 then c1 + cfg.m_lowEnergyCorrection2
      else c1
    if correctionLayer > nECalLayers then c2 + cfg.m_lowEnergyCorrection3 else c2
  else 0

/-- The angular correction of `GetRequiredEvidenceForMerge` (block 5). -/
def angularCorrection (cfg : Settings) (daughter : Cluster) : ℚ :=
  let radialDirectionCosine : ℚ :=
    if daughter.fitSuccessful then daughter.radialDirectionCosine else 0
  if radialDirectionCosine < cfg.m_angularCorrectionOffset then
    cfg.m_angularCorrectionConstant +
      (radialDirectionCosine - cfg.m_angularCorrectionOffset) * cfg.m_angularCorrectionGradient
  else 0

/-- The photon-cluster correction of `GetRequiredEvidenceForMerge` (block 6): seven assignments in
sequence, each under its own condition. -/
def photonCorrection (cfg : Settings) (daughter : Cluster) : ℚ :=
  if daughter.isPhotonFast then
    let daughterClusterEnergy := daughter.hadronicEnergy
    let showerStart := daughter.showerProfileStart
    let showerDiscrepancy := daughter.showerProfileDiscrepancy
    let p0 : ℚ := 0
    let p1 := if daughterClusterEnergy > cfg.m_photonCorrectionEnergy1 ∧
      showerStart < cfg.m_photonCorrectionShowerStart1 then cfg.m_photonCorrection1 else p0
    let p2 := if daughterClusterEnergy > cfg.m_photonCorrectionEnergy1 ∧
      showerStart < cfg.m_photonCorrectionShowerStart2 then cfg.m_photonCorrection2 else p1
    let p3 := if daughterClusterEnergy < cfg.m_photonCorrectionEnergy1 ∧
      showerStart < cfg.m_photonCorrectionShowerStart2 then cfg.m_photonCorrection3 else p2
    let p4 := if daughterClusterEnergy < cfg.m_photonCorrectionEnergy1 ∧
      showerStart < cfg.m_photonCorrectionShowerStart2 ∧
      showerDiscrepancy < cfg.m_photonCorrectionShowerDiscrepancy1 then cfg.m_photonCorrection4 else p3
    let p5 := if daughterClusterEnergy < cfg.m_photonCorrectionEnergy1 ∧
      showerStart > cfg.m_photonCorrectionShowerStart2 then cfg.m_photonCorrection5 else p4
    let p6 := if daughterClusterEnergy < cfg.m_photonCorrectionEnergy2 ∧
      (showerStart > cfg.m_photonCorrectionShowerStart2 ∨
        showerDiscrepancy > cfg.m_photonCorrectionShowerDiscrepancy2) then cfg.m_photonCorrection6
      else p5
    if daughterClusterEnergy < cfg.m_photonCorrectionEnergy3 ∧
      showerStart > cfg.m_photonCorrectionShowerStart2 then cfg.m_photonCorrection7 else p6
  else 0

/-- The local variable `requiredEvidence` of `GetRequiredEvidenceForMerge`, before the floor is
applied, with the member `m_muonDirectionVector` afterwards. -/
def requiredEvidenceSum (cfg : Settings) (api : PandoraApi W) (w : W)
    (m_muonDirectionVector : List CartesianVector) (pDaughterCluster : ClusterPtr)
    (clusterContact : ClusterContact) (correctionLayer : PseudoLayer) (globalDeltaChi2 : ℚ) :
    ℚ × List CartesianVector :=
  let daughter := api.cluster w pDaughterCluster
  let layer := layerCorrection cfg api.nECalLayers daughter.innerPseudoLayer daughter.outerPseudoLayer
    correctionLayer
  let leaving := leavingCorrection cfg api w m_muonDirectionVector clusterContact
  let energy := energyCorrection cfg daughter.hadronicEnergy
  let lowEnergy := lowEnergyCorrection cfg api.nECalLayers daughter.hadronicEnergy
    (daughter.orderedCaloHitList.length % UINT_MOD) correctionLayer
  let angular := angularCorrection cfg daughter
  let photon := photonCorrection cfg daughter
  (if usingGlobalChi2 cfg api w pDaughterCluster clusterContact globalDeltaChi2 then
      globalChi2Evidence cfg globalDeltaChi2 + layer + angular + energy + leaving.1 + photon
    else
      chi2Evidence cfg api w pDaughterCluster clusterContact + layer + angular + energy + leaving.1 +
        photon + lowEnergy,
    leaving.2)

/-- The function `GetRequiredEvidenceForMerge`: the value returned and the member
`m_muonDirectionVector` afterwards. -/
def GetRequiredEvidenceForMerge (cfg : Settings) (api : PandoraApi W) (w : W)
    (m_muonDirectionVector : List CartesianVector) (pDaughterCluster : ClusterPtr)
    (clusterContact : ClusterContact) (correctionLayer : PseudoLayer) (globalDeltaChi2 : ℚ) :
    ℚ × List CartesianVector :=
  let r := requiredEvidenceSum cfg api w m_muonDirectionVector pDaughterCluster clusterContact
    correctionLayer globalDeltaChi2
  (stdMax cfg.m_minRequiredEvidence r.1, r.2)

/-- The loop of `GetClusterCorrectionLayer` over the occupied layers, with the running
`energySum` and `layerCounter`; `none` when the loop ends without returning. -/
def correctionLayerLoop (cfg : Settings) (totalClusterEnergy : ℚ) :
    List (PseudoLayer × List ℚ) → ℚ → Nat → Option PseudoLayer
  | [], _, _ => none
  | (layer, hits) :: rest, energySum, layerCounter =>
    let energySum := hits.foldl (fun acc e => acc + e) energySum
    let layerCounter := uadd layerCounter 1
    if layerCounter ≥ cfg.m_correctionLayerNHitLayers ∨
        energySum > cfg.m_correctionLayerEnergyFraction * totalClusterEnergy then
      some layer
    else correctionLayerLoop cfg totalClusterEnergy rest energySum layerCounter

/-- The function `GetClusterCorrectionLayer`. -/
def GetClusterCorrectionLayer (cfg : Settings) (api : PandoraApi W) (w : W)
    (pDaughterCluster : ClusterPtr) : PseudoLayer :=
  let daughter := api.cluster w pDaughterCluster
  match correctionLayerLoop cfg daughter.hadronicEnergy daughter.orderedCaloHitList 0 0 with
  | some layer => layer
  | none => daughter.innerPseudoLayer

/-- The state of the loop of `PassesPreselection`. -/
structure PreselectionState where
  passesPreselection : Bool
  totalTrackEnergy : ℚ
  totalClusterEnergy : ℚ
  deriving DecidableEq, Repr

/-- The body of the loop of `PassesPreselection` for one contact. -/
def preselectionStep (cfg : Settings) (api : PandoraApi W) (w : W) (daughterClusterEnergy : ℚ)
    (st : PreselectionState) (clusterContact : ClusterContact) : PreselectionState :=
  let parentTrackEnergy := clusterContact.parentTrackEnergy
  let parentClusterEnergy := (api.cluster w clusterContact.parentCluster).correctedHadronicEnergy
  let chi2 := chi2Pair api daughterClusterEnergy parentClusterEnergy parentTrackEnergy
  let oldChi2 := chi2.1
  let newChi2 := chi2.2
  { passesPreselection :=
      if newChi2 < cfg.m_maxChi2 ∨ newChi2 < oldChi2 then true else st.passesPreselection
    totalTrackEnergy := st.totalTrackEnergy + parentTrackEnergy
    totalClusterEnergy := st.totalClusterEnergy + parentClusterEnergy }

/-- The function `PassesPreselection`: the value returned and the value written to
`globalDeltaChi2`. -/
def PassesPreselection (cfg : Settings) (api : PandoraApi W) (w : W) (pDaughterCluster : ClusterPtr)
    (clusterContactVector : ClusterContactVector) : Bool × ℚ :=
  let daughterClusterEnergy := (api.cluster w pDaughterCluster).correctedHadronicEnergy
  let st := clusterContactVector.foldl (preselectionStep cfg api w daughterClusterEnergy)
    { passesPreselection := false, totalTrackEnergy := 0, totalClusterEnergy := 0 }
  let chi2Total := chi2Pair api daughterClusterEnergy st.totalClusterEnergy st.totalTrackEnergy
  let oldChi2Total := chi2Total.1
  let newChi2Total := chi2Total.2
  let globalDeltaChi2 := oldChi2Total - newChi2Total
  (if newChi2Total < cfg.m_maxGlobalChi2 ∨ newChi2Total < oldChi2Total then true
    else st.passesPreselection,
    globalDeltaChi2)

end Evidence

/-! ## The contact map -/

/-- The method `std::map::find`: the vector stored under a key, if any. -/
def ClusterContactMap.find : ClusterContactMap → ClusterPtr → Option ClusterContactVector
  | [], _ => none
  | (key, vector) :: rest, k => if key = k then some vector else ClusterContactMap.find rest k

/-- The method `std::map::erase` at the position of a key: the entry of the key is removed. -/
def ClusterContactMap.erase : ClusterContactMap → ClusterPtr → ClusterContactMap
  | [], _ => []
  | (key, vector) :: rest, k =>
    if key = k then rest else (key, vector) :: ClusterContactMap.erase rest k

/-- The statement `clusterContactMap[k].push_back(c)`: `operator[]` creates an empty vector at
the position of the key when the key is absent. -/
def ClusterContactMap.pushBack : ClusterContactMap → ClusterPtr → ClusterContact → ClusterContactMap
  | [], k, c => [(k, [c])]
  | (key, vector) :: rest, k, c =>
    if key = k then (key, vector ++ [c]) :: rest
    else if k < key then (k, [c]) :: (key, vector) :: rest
    else (key, vector) :: ClusterContactMap.pushBack rest k c

/-- The keys of a map, in iteration order. -/
def ClusterContactMap.keys (m : ClusterContactMap) : List ClusterPtr := m.map Prod.fst

/-- The representation invariant of `std::map`: strictly ascending keys. -/
def ClusterContactMap.WF (m : ClusterContactMap) : Prop := m.keys.Pairwise (· < ·)

instance (m : ClusterContactMap) : Decidable m.WF := by
  unfold ClusterContactMap.WF; infer_instance

/-! ## The contact graph builder -/

section Builder

variable {W : Type}

/-- The body of the inner loop of `GetClusterContactMap`, for one parent candidate. -/
def parentStep (cfg : Settings) (api : PandoraApi W) (w : W) (pDaughterCluster : ClusterPtr)
    (clusterContactMap : ClusterContactMap) (pParentCluster : ClusterPtr) : ClusterContactMap :=
  if pDaughterCluster = pParentCluster then clusterContactMap
  else if (api.cluster w pParentCluster).associatedTrackList.isEmpty then clusterContactMap
  else
    let clusterContact := ClusterContact.create api w pDaughterCluster pParentCluster
    if PassesClusterContactCuts cfg api w clusterContact then
      clusterContactMap.pushBack pDaughterCluster clusterContact
    else clusterContactMap

/-- The body of the outer loop of `GetClusterContactMap`, for one daughter candidate. -/
def daughterStep (cfg : Settings) (api : PandoraApi W) (w : W) (pClusterList : List ClusterPtr)
    (isFirstPass : Bool) (affectedClusters : Finset ClusterPtr)
    (clusterContactMap : ClusterContactMap) (pDaughterCluster : ClusterPtr) : ClusterContactMap :=
  if !isFirstPass ∧ pDaughterCluster ∉ affectedClusters then clusterContactMap
  else
    let clusterContactMap :=
      if !isFirstPass then
        match clusterContactMap.find pDaughterCluster with
        | some _ => clusterContactMap.erase pDaughterCluster
        | none => clusterContactMap
      else clusterContactMap
    if !(api.cluster w pDaughterCluster).associatedTrackList.isEmpty then clusterContactMap
    else if (api.cluster w pDaughterCluster).nCaloHits < cfg.m_minDaughterCaloHits ∨
        (api.cluster w pDaughterCluster).hadronicEnergy < cfg.m_minDaughterHadronicEnergy then
      clusterContactMap
    else pClusterList.foldl (parentStep cfg api w pDaughterCluster) clusterContactMap

/-- The function `GetClusterContactMap`: a failure status, or the values of `isFirstPass` and of
`clusterContactMap` on return. -/
def GetClusterContactMap (cfg : Settings) (api : PandoraApi W) (w : W) (isFirstPass : Bool)
    (affectedClusters : Finset ClusterPtr) (clusterContactMap : ClusterContactMap) :
    Except Abort (Bool × ClusterContactMap) :=
  match api.GetCurrentClusterList w with
  | .error status => .error (.returned status)
  | .ok pClusterList =>
    .ok (false,
      pClusterList.foldl (daughterStep cfg api w pClusterList isFirstPass affectedClusters)
        clusterContactMap)

end Builder

/-! ## The merge selector -/

section Selector

variable {W : Type}

/-- The variables of `GetClusterMergingCandidates` that its loops update, with the member
`m_muonDirectionVector`. -/
structure SelectorState where
  highestExcessEvidence : ℚ
  pBestParentCluster : Option ClusterPtr
  pBestDaughterCluster : Option ClusterPtr
  m_muonDirectionVector : List CartesianVector
  deriving DecidableEq, Repr

/-- The inner loop of `GetClusterMergingCandidates`, over the contacts of one daughter. -/
def selectContacts (cfg : Settings) (api : PandoraApi W) (w : W) (pDaughterCluster : ClusterPtr)
    (daughterCorrectionLayer : PseudoLayer) (globalDeltaChi2 : ℚ) :
    List ClusterContact → SelectorState → Except Abort SelectorState
  | [], st => .ok st
  | clusterContact :: rest, st =>
    if pDaughterCluster ≠ clusterContact.daughterCluster then
      .error (.thrown StatusCode.FAILURE)
    else
      let totalEvidence := GetTotalEvidenceForMerge cfg api w clusterContact
      let required := GetRequiredEvidenceForMerge cfg api w st.m_muonDirectionVector
        pDaughterCluster clusterContact daughterCorrectionLayer globalDeltaChi2
      let excessEvidence := totalEvidence - required.1
      let st :=
        if excessEvidence > st.highestExcessEvidence then
          { highestExcessEvidence := excessEvidence
            pBestParentCluster := some clusterContact.parentCluster
            pBestDaughterCluster := some pDaughterCluster
            m_muonDirectionVector := required.2 }
        else { st with m_muonDirectionVector := required.2 }
      selectContacts cfg api w pDaughterCluster daughterCorrectionLayer globalDeltaChi2 rest st

/-- The outer loop of `GetClusterMergingCandidates`, over the entries of the map. -/
def selectEntries (cfg : Settings) (api : PandoraApi W) (w : W) :
    ClusterContactMap → SelectorState → Except Abort SelectorState
  | [], st => .ok st
  | (pDaughterCluster, clusterContactVector) :: rest, st =>
    let preselection := PassesPreselection cfg api w pDaughterCluster clusterContactVector
    if !preselection.1 then selectEntries cfg api w rest st
    else
      let daughterCorrectionLayer := GetClusterCorrectionLayer cfg api w pDaughterCluster
      match selectContacts cfg api w pDaughterCluster daughterCorrectionLayer preselection.2
          clusterContactVector st with
      | .error e => .error e
      | .ok st => selectEntries cfg api w rest st

/-- The function `GetClusterMergingCandidates`, called with the given values of the two output
pointers and of the member `m_muonDirectionVector`: the exception thrown, or the state on return
with status success. -/
def GetClusterMergingCandidates (cfg : Settings) (api : PandoraApi W) (w : W)
    (clusterContactMap : ClusterContactMap) (pBestParentCluster pBestDaughterCluster : Option ClusterPtr)
    (m_muonDirectionVector : List CartesianVector) : Except Abort SelectorState :=
  selectEntries cfg api w clusterContactMap
    { highestExcessEvidence := 0
      pBestParentCluster := pBestParentCluster
      pBestDaughterCluster := pBestDaughterCluster
      m_muonDirectionVector := m_muonDirectionVector }

end Selector

/-! ## The incremental invalidator -/

/-- The second inner loop of `GetAffectedClusters`: the key is inserted at the first contact whose
parent is the merge parent or the merge daughter, and the loop is left. -/
def affectedByParent (pBestParentCluster pBestDaughterCluster key : ClusterPtr) :
    List ClusterContact → Finset ClusterPtr → Finset ClusterPtr
  | [], affectedClusters => affectedClusters
  | clusterContact :: rest, affectedClusters =>
    if clusterContact.parentCluster = pBestParentCluster ∨
        clusterContact.parentCluster = pBestDaughterCluster then
      insert key affectedClusters
    else affectedByParent pBestParentCluster pBestDaughterCluster key rest affectedClusters

/-- The body of the outer loop of `GetAffectedClusters`, for one entry of the map. -/
def affectedStep (pBestParentCluster pBestDaughterCluster : ClusterPtr)
    (affectedClusters : Finset ClusterPtr) (entry : ClusterPtr × ClusterContactVector) :
    Finset ClusterPtr :=
  if entry.1 = pBestDaughterCluster then
    entry.2.foldl (fun acc clusterContact => insert clusterContact.parentCluster acc) affectedClusters
  else affectedByParent pBestParentCluster pBestDaughterCluster entry.1 entry.2 affectedClusters

/-- The function `GetAffectedClusters`: a failure status, or the set `affectedClusters` on
return. -/
def GetAffectedClusters (clusterContactMap : ClusterContactMap)
    (pBestParentCluster pBestDaughterCluster : ClusterPtr) (_affectedClusters : Finset ClusterPtr) :
    Except Abort (Finset ClusterPtr) :=
  match clusterContactMap.find pBestDaughterCluster with
  | none => .error (.returned StatusCode.FAILURE)
  | some _ =>
    .ok (clusterContactMap.foldl (affectedStep pBestParentCluster pBestDaughterCluster) ∅)

/-! ## The merge loop -/

section Loop

variable {W : Type}

/-- The variables of `Run` that live across iterations, with the state of the framework and the
member `m_muonDirectionVector`. -/
structure RunState (W : Type) where
  world : W
  isFirstPass : Bool
  affectedClusters : Finset ClusterPtr
  clusterContactMap : ClusterContactMap
  m_muonDirectionVector : List CartesianVector

/-- The state in which `Run` enters its loop. -/
def RunState.initial (w : W) (m_muonDirectionVector : List CartesianVector) : RunState W :=
  { world := w
    isFirstPass := true
    affectedClusters := ∅
    clusterContactMap := []
    m_muonDirectionVector := m_muonDirectionVector }

/-- One iteration of the loop of `Run`: the abort, or the state after the iteration together with
the pair `(parent, daughter)` that was merged; `shouldRecalculate` is true exactly when there is
such a pair. -/
def RunIteration (cfg : Settings) (api : PandoraApi W) (s : RunState W) :
    Except Abort (Option (ClusterPtr × ClusterPtr) × RunState W) :=
  match GetClusterContactMap cfg api s.world s.isFirstPass s.affectedClusters s.clusterContactMap with
  | .error e => .error e
  | .ok (isFirstPass, clusterContactMap) =>
    match GetClusterMergingCandidates cfg api s.world clusterContactMap none none
        s.m_muonDirectionVector with
    | .error e => .error e
    | .ok sel =>
      match sel.pBestParentCluster, sel.pBestDaughterCluster with
      | some pBestParentCluster, some pBestDaughterCluster =>
        match GetAffectedClusters clusterContactMap pBestParentCluster pBestDaughterCluster
            s.affectedClusters with
        | .error e => .error e
        | .ok affectedClusters =>
          match api.MergeAndDeleteClusters s.world pBestParentCluster pBestDaughterCluster with
          | .error status => .error (.returned status)
          | .ok world =>
            .ok (some (pBestParentCluster, pBestDaughterCluster),
              { world := world
                isFirstPass := isFirstPass
                affectedClusters := affectedClusters
                clusterContactMap := clusterContactMap.erase pBestDaughterCluster
                m_muonDirectionVector := sel.m_muonDirectionVector })
      | _, _ =>
        .ok (none,
          { world := s.world
            isFirstPass := isFirstPass
            affectedClusters := s.affectedClusters
            clusterContactMap := clusterContactMap
            m_muonDirectionVector := sel.m_muonDirectionVector })

/-- What a call of `Run` did. -/
structure RunResult (W : Type) where
  /-- The status returned, or the abort. -/
  status : Except Abort StatusCode
  /-- The state of the framework when `Run` ends. -/
  world : W
  /-- The state of the framework at the start of each iteration, first iteration first. -/
  worlds : List W
  /-- The pairs `(parent, daughter)` of the merges performed, first merge first. -/
  merges : List (ClusterPtr × ClusterPtr)
  /-- The member `m_muonDirectionVector` when `Run` returns success: it has been cleared. It is
  not tracked (`none`) when `Run` is aborted. -/
  m_muonDirectionVector : Option (List CartesianVector)

/-- The loop of `Run`, with a bound on the number of iterations: `none` when the bound is reached
before the loop ends. -/
def RunLoop (cfg : Settings) (api : PandoraApi W) : Nat → RunState W → Option (RunResult W)
  | 0, _ => none
  | fuel + 1, s =>
    match RunIteration cfg api s with
    | .error e =>
      some { status := .error e, world := s.world, worlds := [s.world], merges := [],
             m_muonDirectionVector := none }
    | .ok (none, s') =>
      some { status := .ok StatusCode.SUCCESS, world := s'.world, worlds := [s.world], merges := [],
             m_muonDirectionVector := some [] }
    | .ok (some merged, s') =>
      match RunLoop cfg api fuel s' with
      | none => none
      | some r => some { r with worlds := s.world :: r.worlds, merges := merged :: r.merges }

/-- The function `Run`, started with the given value of the member `m_muonDirectionVector`. -/
def Run (cfg : Settings) (api : PandoraApi W) (w : W) (m_muonDirectionVector : List CartesianVector)
    (fuel : Nat) : Option (RunResult W) :=
  RunLoop cfg api fuel (RunState.initial w m_muonDirectionVector)

/-- The number of clusters of the current cluster list; zero when the list cannot be obtained. -/
def clusterCount (api : PandoraApi W) (w : W) : Nat :=
  match api.GetCurrentClusterList w with
  | .ok pClusterList => pClusterList.length
  | .error _ => 0

end Loop

/-! ## Reading the configuration -/

/-- What `XmlHelper::ReadValue` does for one key: it stores a value and returns success, or it
returns not-found, or it returns another status; in the last two cases nothing is stored. -/
inductive XmlRead (α : Type) where
  | value (v : α)
  | notFound
  | failure (status : StatusCode)

/-- The status that `XmlHelper::ReadValue` returns. -/
def XmlRead.status {α : Type} : XmlRead α → StatusCode
  | .value _ => StatusCode.SUCCESS
  | .notFound => StatusCode.NOT_FOUND
  | .failure status => status

/-- The content of the variable passed to `XmlHelper::ReadValue` after the call. -/
def XmlRead.store {α : Type} : XmlRead α → α → α
  | .value v, _ => v
  | .notFound, current => current
  | .failure _, current => current

/-- The configuration input `xmlHandle`: what reading each key gives, at each of the four types
that `ReadSettings` reads. -/
structure TiXmlHandle where
  readUInt : String → XmlRead Nat
  readFloat : String → XmlRead ℚ
  readBool : String → XmlRead Bool
  readInt : String → XmlRead Int

/-- The macro `PANDORA_RETURN_RESULT_IF_AND_IF(STATUS_CODE_SUCCESS, STATUS_CODE_NOT_FOUND, !=,
XmlHelper::ReadValue(...))` on a variable holding `current`: the status returned from
`ReadSettings`, or the content of the variable when `ReadSettings` goes on. -/
def readValue {α : Type} (r : XmlRead α) (current : α) : Except StatusCode α :=
  if r.status ≠ StatusCode.SUCCESS ∧ r.status ≠ StatusCode.NOT_FOUND then .error r.status
  else .ok (r.store current)

/-- One read of `ReadSettings`: the key, the default assigned to the member before the read, and
the member; for a `float` member also whether the read is followed by
`if (0.f == member) return STATUS_CODE_INVALID_PARAMETER;`. -/
inductive ReadStep where
  | uint (key : String) (default : Nat) (set : Settings → Nat → Settings)
  | float (key : String) (default : ℚ) (set : Settings → ℚ → Settings) (rejectZero : Bool)
  | bool (key : String) (default : Bool) (set : Settings → Bool → Settings)
  | int (key : String) (default : Int) (set : Settings → Int → Settings)

/-- The key of a read. -/
def ReadStep.key : ReadStep → String
  | .uint key _ _ => key
  | .float key _ _ _ => key
  | .bool key _ _ => key
  | .int key _ _ => key

/-- The status that `XmlHelper::ReadValue` returns for a read. -/
def ReadStep.status (xml : TiXmlHandle) : ReadStep → StatusCode
  | .uint key _ _ => (xml.readUInt key).status
  | .float key _ _ _ => (xml.readFloat key).status
  | .bool key _ _ => (xml.readBool key).status
  | .int key _ _ => (xml.readInt key).status

/-- One read of `ReadSettings` on the members so far: the status returned from `ReadSettings`,
or the members after the read. -/
def ReadStep.run (xml : TiXmlHandle) : ReadStep → Settings → Except StatusCode Settings
  | .uint key default set, cfg =>
    match readValue (xml.readUInt key) default with
    | .error status => .error status
    | .ok v => .ok (set cfg v)
  | .float key default set rejectZero, cfg =>
    match readValue (xml.readFloat key) default with
    | .error status => .error status
    | .ok v =>
      if rejectZero = true ∧ 0 = v then .error StatusCode.INVALID_PARAMETER else .ok (set cfg v)
  | .bool key default set, cfg =>
    match readValue (xml.readBool key) default with
    | .error status => .error status
    | .ok v => .ok (set cfg v)
  | .int key default set, cfg =>
    match readValue (xml.readInt key) default with
    | .error status => .error status
    | .ok v => .ok (set cfg v)

/-- The reads of a list in sequence, stopping at the first status returned. -/
def runSteps (xml : TiXmlHandle) : List ReadStep → Settings → Except StatusCode Settings
  | [], cfg => .ok cfg
  | step :: rest, cfg =>
    match step.run xml cfg with
    | .error status => .error status
    | .ok cfg => runSteps xml rest cfg

/-- The reads of `ReadSettings` under the comment `// Initial daughter cluster selection`. -/
def readInitialDaughterClusterSelection : List ReadStep :=
  [ ReadStep.uint "MinDaughterCaloHits" 5
      (fun cfg v => { cfg with m_minDaughterCaloHits := v }),
    ReadStep.float "MinDaughterHadronicEnergy" (25 / 1000)
      (fun cfg v => { cfg with m_minDaughterHadronicEnergy := v }) false ]

/-- The reads of `ReadSettings` under the comment `// Cluster contact cuts`. -/
def readClusterContactCuts : List ReadStep :=
  [ ReadStep.float "ContactCutMaxDistance" 750
      (fun cfg v => { cfg with m_contactCutMaxDistance := v }) false,
    ReadStep.uint "ContactCutNLayers" 0
      (fun cfg v => { cfg with m_contactCutNLayers := v }),
    ReadStep.float "ContactCutConeFraction1" (25 / 100)
      (fun cfg v => { cfg with m_contactCutConeFraction1 := v }) false,
    ReadStep.float "ContactCutCloseHitFraction1" (25 / 100)
      (fun cfg v => { cfg with m_contactCutCloseHitFraction1 := v }) false,
    ReadStep.float "ContactCutCloseHitFraction2" (15 / 100)
      (fun cfg v => { cfg with m_contactCutCloseHitFraction2 := v }) false,
    ReadStep.float "ContactCutMeanDistanceToHelix" 250
      (fun cfg v => { cfg with m_contactCutMeanDistanceToHelix := v }) false,
    ReadStep.float "ContactCutClosestDistanceToHelix" 150
      (fun cfg v => { cfg with m_contactCutClosestDistanceToHelix := v }) false,
    ReadStep.uint "ContactCutLayersFromECal" 10
      (fun cfg v => { cfg with m_contactCutLayersFromECal := v }),
    ReadStep.float "ContactCutNearECalDistance" 250
      (fun cfg v => { cfg with m_contactCutNearECalDistance := v }) false ]

/-- The reads of `ReadSettings` under the comment `// Track-cluster consistency Chi2 values`. -/
def readTrackClusterConsistencyChi2Values : List ReadStep :=
  [ ReadStep.float "MaxChi2" 16
      (fun cfg v => { cfg with m_maxChi2 := v }) false,
    ReadStep.float "MaxGlobalChi2" 9
      (fun cfg v => { cfg with m_maxGlobalChi2 := v }) false,
    ReadStep.float "Chi2Base" 5
      (fun cfg v => { cfg with m_chi2Base := v }) false,
    ReadStep.float "GlobalChi2Penalty" 5
      (fun cfg v => { cfg with m_globalChi2Penalty := v }) false ]

/-- The reads of `ReadSettings` under the comment `// Correction layer parameters`. -/
def readCorrectionLayerParameters : List ReadStep :=
  [ ReadStep.uint "CorrectionLayerNHitLayers" 3
      (fun cfg v => { cfg with m_correctionLayerNHitLayers := v }),
    ReadStep.float "CorrectionLayerEnergyFraction" (25 / 100)
      (fun cfg v => { cfg with m_correctionLayerEnergyFraction := v }) false ]

/-- The reads of `ReadSettings` under the comment `// Total evidence: Contact evidence`. -/
def readTotalEvidenceContactEvidence : List ReadStep :=
  [ ReadStep.uint "ContactEvidenceNLayers1" 10
      (fun cfg v => { cfg with m_contactEvidenceNLayers1 := v }),
    ReadStep.uint "ContactEvidenceNLayers2" 4
      (fun cfg v => { cfg with m_contactEvidenceNLayers2 := v }),
    ReadStep.uint "ContactEvidenceNLayers3" 1
      (fun cfg v => { cfg with m_contactEvidenceNLayers3 := v }),
    ReadStep.float "ContactEvidence1" 2
      (fun cfg v => { cfg with m_contactEvidence1 := v }) false,
    ReadStep.float "ContactEvidence2" 1
      (fun cfg v => { cfg with m_contactEvidence2 := v }) false,
    ReadStep.float "ContactEvidence3" (1 / 2)
      (fun cfg v => { cfg with m_contactEvidence3 := v }) false ]

/-- The reads of `ReadSettings` under the comment `// Cone evidence`. -/
def readConeEvidence : List ReadStep :=
  [ ReadStep.float "ConeEvidenceFraction1" (1 / 2)
      (fun cfg v => { cfg with m_coneEvidenceFraction1 := v }) false,
    ReadStep.float "ConeEvidenceECalMultiplier" (1 / 2)
      (fun cfg v => { cfg with m_coneEvidenceECalMultiplier := v }) false ]

/-- The reads of `ReadSettings` under the comment `// Track extrapolation evidence`. -/
def readTrackExtrapolationEvidence : List ReadStep :=
  [ ReadStep.float "ClosestTrackEvidence1" 200
      (fun cfg v => { cfg with m_closestTrackEvidence1 := v }) false,
    ReadStep.float "ClosestTrackEvidence1d" 100
      (fun cfg v => { cfg with m_closestTrackEvidence1d := v }) true,
    ReadStep.float "ClosestTrackEvidence2" 50
      (fun cfg v => { cfg with m_closestTrackEvidence2 := v }) false,
    ReadStep.float "ClosestTrackEvidence2d" 20
      (fun cfg v => { cfg with m_closestTrackEvidence2d := v }) true,
    ReadStep.float "MeanTrackEvidence1" 200
      (fun cfg v => { cfg with m_meanTrackEvidence1 := v }) false,
    ReadStep.float "MeanTrackEvidence1d" 100
      (fun cfg v => { cfg with m_meanTrackEvidence1d := v }) true,
    ReadStep.float "MeanTrackEvidence2" 50
      (fun cfg v => { cfg with m_meanTrackEvidence2 := v }) false,
    ReadStep.float "MeanTrackEvidence2d" 50
      (fun cfg v => { cfg with m_meanTrackEvidence2d := v }) true ]

/-- The reads of `ReadSettings` under the comment `// Distance of closest approach evidence`. -/
def readDistanceOfClosestApproachEvidence : List ReadStep :=
  [ ReadStep.float "DistanceEvidence1" 100
      (fun cfg v => { cfg with m_distanceEvidence1 := v }) false,
    ReadStep.float "DistanceEvidence1d" 100
      (fun cfg v => { cfg with m_distanceEvidence1d := v }) true,
    ReadStep.float "DistanceEvidenceCloseFraction1Multiplier" 1
      (fun cfg v => { cfg with m_distanceEvidenceCloseFraction1Multiplier := v }) false,
    ReadStep.float "DistanceEvidenceCloseFraction2Multiplier" 2
      (fun cfg v => { cfg with m_distanceEvidenceCloseFraction2Multiplier := v }) false ]

/-- The reads of `ReadSettings` under the comment `// Evidence weightings`. -/
def readEvidenceWeightings : List ReadStep :=
  [ ReadStep.float "ContactWeight" 1
      (fun cfg v => { cfg with m_contactWeight := v }) false,
    ReadStep.float "ConeWeight" 1
      (fun cfg v => { cfg with m_coneWeight := v }) false,
    ReadStep.float "DistanceWeight" 1
      (fun cfg v => { cfg with m_distanceWeight := v }) false,
    ReadStep.float "TrackExtrapolationWeight" 1
      (fun cfg v => { cfg with m_trackExtrapolationWeight := v }) false ]

/-- The reads of `ReadSettings` under the comment `// Required evidence: Layer correction`. -/
def readRequiredEvidenceLayerCorrection : List ReadStep :=
  [ ReadStep.float "LayerCorrection1" 2
      (fun cfg v => { cfg with m_layerCorrection1 := v }) false,
    ReadStep.float "LayerCorrection2" 0
      (fun cfg v => { cfg with m_layerCorrection2 := v }) false,
    ReadStep.float "LayerCorrection3" (-1)
      (fun cfg v => { cfg with m_layerCorrection3 := v }) false,
    ReadStep.float "LayerCorrection4" (-2)
      (fun cfg v => { cfg with m_layerCorrection4 := v }) false,
    ReadStep.float "LayerCorrection5" (-2)
      (fun cfg v => { cfg with m_layerCorrection5 := v }) false,
    ReadStep.float "LayerCorrection6" (-3)
      (fun cfg v => { cfg with m_layerCorrection6 := v }) false,
    ReadStep.uint "NDeepInHCalLayers" 20
      (fun cfg v => { cfg with m_nDeepInHCalLayers := v }),
    ReadStep.uint "LayerCorrectionLayerSpan" 4
      (fun cfg v => { cfg with m_layerCorrectionLayerSpan := v }),
    ReadStep.uint "LayerCorrectionMinInnerLayer" 5
      (fun cfg v => { cfg with m_layerCorrectionMinInnerLayer := v }),
    ReadStep.int "LayerCorrectionLayersFromECal" 4
      (fun cfg v => { cfg with m_layerCorrectionLayersFromECal := v }) ]

/-- The reads of `ReadSettings` under the comment `// Leaving correction`. -/
def readLeavingCorrection : List ReadStep :=
  [ ReadStep.float "LeavingCorrection" 5
      (fun cfg v => { cfg with m_leavingCorrection := v }) false,
    ReadStep.float "LeavingCorrection" 5
      (fun cfg v => { cfg with m_leavingCorrection := v }) false,
    ReadStep.bool "UseMuonHitsInLeavingCorrection" true
      (fun cfg v => { cfg with m_useMuonHitsInLeavingCorrection := v }) ]

/-- The reads of `ReadSettings` under the comment `// Energy correction`. -/
def readEnergyCorrection : List ReadStep :=
  [ ReadStep.float "EnergyCorrectionThreshold" 3
      (fun cfg v => { cfg with m_energyCorrectionThreshold := v }) false ]

/-- The reads of `ReadSettings` under the comment `// Low energy correction`. -/
def readLowEnergyCorrection : List ReadStep :=
  [ ReadStep.float "LowEnergyCorrectionThreshold" (3 / 2)
      (fun cfg v => { cfg with m_lowEnergyCorrectionThreshold := v }) false,
    ReadStep.uint "LowEnergyCorrectionNHitLayers1" 6
      (fun cfg v => { cfg with m_lowEnergyCorrectionNHitLayers1 := v }),
    ReadStep.uint "LowEnergyCorrectionNHitLayers2" 4
      (fun cfg v => { cfg with m_lowEnergyCorrectionNHitLayers2 := v }),
    ReadStep.float "LowEnergyCorrection1" (-1)
      (fun cfg v => { cfg with m_lowEnergyCorrection1 := v }) false,
    ReadStep.float "LowEnergyCorrection2" (-1)
      (fun cfg v => { cfg with m_lowEnergyCorrection2 := v }) false,
    ReadStep.float "LowEnergyCorrection3" (-1)
      (fun cfg v => { cfg with m_lowEnergyCorrection3 := v }) false ]

/-- The reads of `ReadSettings` under the comment `// Angular correction`. -/
def readAngularCorrection : List ReadStep :=
  [ ReadStep.float "AngularCorrectionOffset" (3 / 4)
      (fun cfg v => { cfg with m_angularCorrectionOffset := v }) false,
    ReadStep.float "AngularCorrectionConstant" (-1 / 2)
      (fun cfg v => { cfg with m_angularCorrectionConstant := v }) false,
    ReadStep.float "AngularCorrectionGradient" 2
      (fun cfg v => { cfg with m_angularCorrectionGradient := v }) false ]

/-- The reads of `ReadSettings` under the comment `// Photon correction`. -/
def readPhotonCorrection : List ReadStep :=
  [ ReadStep.float "PhotonCorrectionEnergy1" 2
      (fun cfg v => { cfg with m_photonCorrectionEnergy1 := v }) false,
    ReadStep.float "PhotonCorrectionEnergy2" (1 / 2)
      (fun cfg v => { cfg with m_photonCorrectionEnergy2 := v }) false,
    ReadStep.float "PhotonCorrectionEnergy3" 1
      (fun cfg v => { cfg with m_photonCorrectionEnergy3 := v }) false,
    ReadStep.float "PhotonCorrectionShowerStart1" 5
      (fun cfg v => { cfg with m_photonCorrectionShowerStart1 := v }) false,
    ReadStep.float "PhotonCorrectionShowerStart2" (5 / 2)
      (fun cfg v => { cfg with m_photonCorrectionShowerStart2 := v }) false,
    ReadStep.float "PhotonCorrectionShowerDiscrepancy1" (8 / 10)
      (fun cfg v => { cfg with m_photonCorrectionShowerDiscrepancy1 := v }) false,
    ReadStep.float "PhotonCorrectionShowerDiscrepancy2" 1
      (fun cfg v => { cfg with m_photonCorrectionShowerDiscrepancy2 := v }) false,
    ReadStep.float "PhotonCorrection1" 10
      (fun cfg v => { cfg with m_photonCorrection1 := v }) false,
    ReadStep.float "PhotonCorrection2" 100
      (fun cfg v => { cfg with m_photonCorrection2 := v }) false,
    ReadStep.float "PhotonCorrection3" 5
      (fun cfg v => { cfg with m_photonCorrection3 := v }) false,
    ReadStep.float "PhotonCorrection4" 10
      (fun cfg v => { cfg with m_photonCorrection4 := v }) false,
    ReadStep.float "PhotonCorrection5" 2
      (fun cfg v => { cfg with m_photonCorrection5 := v }) false,
    ReadStep.float "PhotonCorrection6" 2
      (fun cfg v => { cfg with m_photonCorrection6 := v }) false,
    ReadStep.float "PhotonCorrection7" 0
      (fun cfg v => { cfg with m_photonCorrection7 := v }) false,
    ReadStep.float "MinRequiredEvidence" (1 / 2)
      (fun cfg v => { cfg with m_minRequiredEvidence := v }) false ]

/-- The reads of `ReadSettings`, in the order of the source. -/
def readSteps : List ReadStep :=
  readInitialDaughterClusterSelection ++
    readClusterContactCuts ++
    readTrackClusterConsistencyChi2Values ++
    readCorrectionLayerParameters ++
    readTotalEvidenceContactEvidence ++
    readConeEvidence ++
    readTrackExtrapolationEvidence ++
    readDistanceOfClosestApproachEvidence ++
    readEvidenceWeightings ++
    readRequiredEvidenceLayerCorrection ++
    readLeavingCorrection ++
    readEnergyCorrection ++
    readLowEnergyCorrection ++
    readAngularCorrection ++
    readPhotonCorrection

/-- The function `ReadSettings`, started with the members holding `members`: the status returned
when it is not success, or the members on return with success. -/
def ReadSettings (xml : TiXmlHandle) (members : Settings) : Except StatusCode Settings :=
  runSteps xml readSteps members

/-- A read leaves a `float` member alone: its setter does not change what `get` reads. -/
def StepKeeps (get : Settings → ℚ) : ReadStep → Prop
  | .uint _ _ set => ∀ cfg v, get (set cfg v) = get cfg
  | .float _ _ set _ => ∀ cfg v, get (set cfg v) = get cfg
  | .bool _ _ set => ∀ cfg v, get (set cfg v) = get cfg
  | .int _ _ set => ∀ cfg v, get (set cfg v) = get cfg

/-- A read sets a `float` member and is followed by the check against zero. -/
def StepSets (get : Settings → ℚ) : ReadStep → Prop
  | .float _ _ set true => ∀ cfg v, get (set cfg v) = v
  | _ => False

/-- The step function of the contact-layer evidence under the default thresholds `10`, `4`, `1`
and tier values `2`, `1`, `0.5`. -/
def defaultContactTier (n : Nat) : ℚ :=
  if n > 10 then 2 else if n > 4 then 1 else if n > 1 then 1 / 2 else 0

/-! ## Closed forms used in the statements -/

section ClosedForms

variable {W : Type}

/-- The daughter selection cuts of `GetClusterContactMap`: no associated track, and neither the
hit count nor the hadronic energy below its minimum. -/
def admissibleDaughter (cfg : Settings) (api : PandoraApi W) (w : W) (pDaughterCluster : ClusterPtr) :
    Bool :=
  (api.cluster w pDaughterCluster).associatedTrackList.isEmpty &&
    !decide ((api.cluster w pDaughterCluster).nCaloHits < cfg.m_minDaughterCaloHits ∨
      (api.cluster w pDaughterCluster).hadronicEnergy < cfg.m_minDaughterHadronicEnergy)

/-- The contacts that the inner loop of `GetClusterContactMap` pushes for one daughter, in the
order of the cluster list: one for each other cluster that has a track and whose contact passes
`PassesClusterContactCuts`. -/
def contactsOfDaughter (cfg : Settings) (api : PandoraApi W) (w : W) (pClusterList : List ClusterPtr)
    (pDaughterCluster : ClusterPtr) : List ClusterContact :=
  pClusterList.filterMap fun pParentCluster =>
    if pDaughterCluster = pParentCluster then none
    else if (api.cluster w pParentCluster).associatedTrackList.isEmpty then none
    else if PassesClusterContactCuts cfg api w
        (ClusterContact.create api w pDaughterCluster pParentCluster) then
      some (ClusterContact.create api w pDaughterCluster pParentCluster)
    else none

/-- The entry of a key after contacts are pushed under it: unchanged when there is none to push,
otherwise the former vector (empty when the key was absent) followed by the contacts. -/
def appendEntry (former : Option ClusterContactVector) (contacts : List ClusterContact) :
    Option ClusterContactVector :=
  match contacts with
  | [] => former
  | _ :: _ => some (former.getD [] ++ contacts)

/-- The entry of a cluster of the current list after a pass of `GetClusterContactMap`, from its
entry before the pass. -/
def rebuiltEntry (cfg : Settings) (api : PandoraApi W) (w : W) (pClusterList : List ClusterPtr)
    (isFirstPass : Bool) (affectedClusters : Finset ClusterPtr)
    (former : Option ClusterContactVector) (pDaughterCluster : ClusterPtr) :
    Option ClusterContactVector :=
  if !isFirstPass ∧ pDaughterCluster ∉ affectedClusters then former
  else
    appendEntry (if isFirstPass then former else none)
      (if admissibleDaughter cfg api w pDaughterCluster then
        contactsOfDaughter cfg api w pClusterList pDaughterCluster
      else [])

/-- The excess evidence that `GetClusterMergingCandidates` computes for a contact of the entry
of a daughter: `GetTotalEvidenceForMerge` minus `GetRequiredEvidenceForMerge`, the latter with the
daughter's correction layer and the `globalDeltaChi2` that `PassesPreselection` yields for the
entry, at the given value of the member `m_muonDirectionVector`. -/
def excessEvidence (cfg : Settings) (api : PandoraApi W) (w : W)
    (m_muonDirectionVector : List CartesianVector) (pDaughterCluster : ClusterPtr)
    (clusterContactVector : ClusterContactVector) (clusterContact : ClusterContact) : ℚ :=
  GetTotalEvidenceForMerge cfg api w clusterContact -
    (GetRequiredEvidenceForMerge cfg api w m_muonDirectionVector pDaughterCluster clusterContact
      (GetClusterCorrectionLayer cfg api w pDaughterCluster)
      (PassesPreselection cfg api w pDaughterCluster clusterContactVector).2).1

/-- The values the member `m_muonDirectionVector` can have during a call that started with the
value `start`: that value, or, when that value is empty, the directions of the muon hit list. -/
def CacheFrom (api : PandoraApi W) (w : W) (start current : List CartesianVector) : Prop :=
  current = start ∨ (start = [] ∧ api.muonHitDirections w = .ok current)

/-- The invariant of the contact map: every contact's stored daughter is the key of its entry. -/
def KeyIsDaughter (m : ClusterContactMap) : Prop :=
  ∀ e ∈ m, ∀ c ∈ e.2, c.daughterCluster = e.1

/-- Modelled from the spec: the effect of `PandoraContentApi::MergeAndDeleteClusters(P, D)`,
whose code is not part of the sources. A successful merge removes the daughter `D` from the
current cluster list and leaves the track associations of every other cluster unchanged. -/
def MergeRemovesDaughter (api : PandoraApi W) : Prop :=
  ∀ (w w' : W) (P D : ClusterPtr), api.MergeAndDeleteClusters w P D = .ok w' →
    (∀ l, api.GetCurrentClusterList w = .ok l →
      api.GetCurrentClusterList w' = .ok (l.filter (· ≠ D))) ∧
    ∀ C, C ≠ D →
      (api.cluster w' C).associatedTrackList = (api.cluster w C).associatedTrackList

/-- The invariant of the contact map in `Run`, for the cluster list `l` of the state `w`: the keys
are strictly ascending, every key is a cluster of the list without a track, and every contact
stores its key as daughter and has as parent a cluster of the list with a track. -/
def MapGood (api : PandoraApi W) (w : W) (l : List ClusterPtr) (m : ClusterContactMap) : Prop :=
  m.WF ∧ ∀ e ∈ m, e.1 ∈ l ∧ (api.cluster w e.1).associatedTrackList = [] ∧
    ∀ c ∈ e.2, c.daughterCluster = e.1 ∧ c.parentCluster ∈ l ∧
      (api.cluster w c.parentCluster).associatedTrackList ≠ []

/-- The invariant of the loop of `Run`: when the current cluster list can be obtained, the contact
map is good for it. -/
def RunInv (api : PandoraApi W) (s : RunState W) : Prop :=
  ∀ l, api.GetCurrentClusterList s.world = .ok l → MapGood api s.world l s.clusterContactMap

/-- The iterations of the loop of `Run` that end in a merge: `Iterates cfg api s merges s'` says
that the loop, entered in state `s`, is back at its head in state `s'` after the merges of the
pairs `merges`, in this order, one in each iteration. -/
inductive Iterates (cfg : Settings) (api : PandoraApi W) :
    RunState W → List (ClusterPtr × ClusterPtr) → RunState W → Prop where
  | done (s : RunState W) : Iterates cfg api s [] s
  | step (s s1 s2 : RunState W) (merged : ClusterPtr × ClusterPtr)
      (merges : List (ClusterPtr × ClusterPtr))
      (hfirst : RunIteration cfg api s = .ok (some merged, s1))
      (hrest : Iterates cfg api s1 merges s2) : Iterates cfg api s (merged :: merges) s2

/-- The value paired with the last condition of a list that holds; `0` when none holds. -/
def lastMatch (conditions : List (Bool × ℚ)) : ℚ :=
  match (conditions.filter (fun p => p.1)).getLast? with
  | some p => p.2
  | none => 0

/-- The seven conditions of the photon-cluster correction of `GetRequiredEvidenceForMerge`, in the
order of the source, each with the correction that it selects. -/
def photonConditions (cfg : Settings) (daughter : Cluster) : List (Bool × ℚ) :=
  [(decide (daughter.hadronicEnergy > cfg.m_photonCorrectionEnergy1 ∧
      daughter.showerProfileStart < cfg.m_photonCorrectionShowerStart1), cfg.m_photonCorrection1),
    (decide (daughter.hadronicEnergy > cfg.m_photonCorrectionEnergy1 ∧
      daughter.showerProfileStart < cfg.m_photonCorrectionShowerStart2), cfg.m_photonCorrection2),
    (decide (daughter.hadronicEnergy < cfg.m_photonCorrectionEnergy1 ∧
      daughter.showerProfileStart < cfg.m_photonCorrectionShowerStart2), cfg.m_photonCorrection3),
    (decide (daughter.hadronicEnergy < cfg.m_photonCorrectionEnergy1 ∧
      daughter.showerProfileStart < cfg.m_photonCorrectionShowerStart2 ∧
      daughter.showerProfileDiscrepancy < cfg.m_photonCorrectionShowerDiscrepancy1),
      cfg.m_photonCorrection4),
    (decide (daughter.hadronicEnergy < cfg.m_photonCorrectionEnergy1 ∧
      daughter.showerProfileStart > cfg.m_photonCorrectionShowerStart2), cfg.m_photonCorrection5),
    (decide (daughter.hadronicEnergy < cfg.m_photonCorrectionEnergy2 ∧
      (daughter.showerProfileStart > cfg.m_photonCorrectionShowerStart2 ∨
        daughter.showerProfileDiscrepancy > cfg.m_photonCorrectionShowerDiscrepancy2)),
      cfg.m_photonCorrection6),
    (decide (daughter.hadronicEnergy < cfg.m_photonCorrectionEnergy3 ∧
      daughter.showerProfileStart > cfg.m_photonCorrectionShowerStart2), cfg.m_photonCorrection7)]

/-- The member `m_muonDirectionVector` after a call of `GetNCompatibleMuonHits` that started with
the value `m_muonDirectionVector`: that value when it is not empty, otherwise the directions of the
hits of the muon hit list, and empty when that list cannot be obtained. -/
def muonDirectionCache (api : PandoraApi W) (w : W) (m_muonDirectionVector : List CartesianVector) :
    List CartesianVector :=
  if m_muonDirectionVector.isEmpty then
    match api.muonHitDirections w with
    | .ok muonHitList => muonHitList
    | .error _ => []
  else m_muonDirectionVector

/-- The number of directions of a list whose dot product with the direction of the parent at its
outer layer exceeds `0.8`. -/
def compatibleDirections (api : PandoraApi W) (w : W) (directions : List CartesianVector)
    (pParentCluster : ClusterPtr) : Nat :=
  directions.countP
    (fun d => decide (d.GetDotProduct (api.cluster w pParentCluster).outerCentroidDirection > 4 / 5))

/-- The hadronic energy of the hits of the first `n` occupied layers. -/
def accumulatedEnergy (layers : List (PseudoLayer × List ℚ)) (n : Nat) : ℚ :=
  ((layers.take n).map (fun layer => layer.2.sum)).sum

/-- The condition under which the loop of `GetClusterCorrectionLayer` returns at the occupied layer
of index `i` (counted from `0` at the inner edge): `i + 1` occupied layers have been counted and
this reaches `m_correctionLayerNHitLayers`, or the energy accumulated so far exceeds
`m_correctionLayerEnergyFraction` times the total energy. -/
def correctionLayerReached (cfg : Settings) (totalClusterEnergy : ℚ)
    (layers : List (PseudoLayer × List ℚ)) (i : Nat) : Prop :=
  i + 1 ≥ cfg.m_correctionLayerNHitLayers ∨
    accumulatedEnergy layers (i + 1) > cfg.m_correctionLayerEnergyFraction * totalClusterEnergy

/-- The condition of the claim on the correction layer alone: the energy accumulated up to the
occupied layer of index `i` exceeds `m_correctionLayerEnergyFraction` times the total energy. -/
def energyFractionReached (cfg : Settings) (totalClusterEnergy : ℚ)
    (layers : List (PseudoLayer × List ℚ)) (i : Nat) : Prop :=
  accumulatedEnergy layers (i + 1) > cfg.m_correctionLayerEnergyFraction * totalClusterEnergy

/-- A contact of a preselected entry whose stored daughter is not the key of the entry: the
condition under which the scan of `GetClusterMergingCandidates` throws. -/
def ScannedMismatch (cfg : Settings) (api : PandoraApi W) (w : W) (m : ClusterContactMap) : Prop :=
  ∃ e ∈ m, (PassesPreselection cfg api w e.1 e.2).1 = true ∧ ∃ c ∈ e.2, c.daughterCluster ≠ e.1

/-- The update of the running best of `GetClusterMergingCandidates` (`highestExcessEvidence`,
`pBestParentCluster`, `pBestDaughterCluster`) by one candidate, given by its excess evidence, its
parent and its daughter: the candidate replaces the running best only when its excess evidence is
strictly greater. -/
def pickStep (best : ℚ × Option ClusterPtr × Option ClusterPtr)
    (candidate : ℚ × ClusterPtr × ClusterPtr) : ℚ × Option ClusterPtr × Option ClusterPtr :=
  if candidate.1 > best.1 then (candidate.1, some candidate.2.1, some candidate.2.2) else best

/-- The candidates that `GetClusterMergingCandidates` examines, in the order in which it examines
them: the entries of the map in key order, the entries that fail preselection left out, and the
contacts of an entry in the order of its vector, each with its excess evidence, its parent and its
daughter. -/
def mergeCandidates (cfg : Settings) (api : PandoraApi W) (w : W)
    (m_muonDirectionVector : List CartesianVector) (m : ClusterContactMap) :
    List (ℚ × ClusterPtr × ClusterPtr) :=
  m.flatMap fun e =>
    if (PassesPreselection cfg api w e.1 e.2).1 then
      e.2.map fun c => (excessEvidence cfg api w m_muonDirectionVector e.1 e.2 c, c.parentCluster, e.1)
    else []

/-- The assumption on a merge of `D` into `P` that takes the state `w`, with cluster list `l`, to
the state `w'`: the list afterwards is `l` without `D`, the attributes of every cluster other than
`P` and `D` are unchanged, and so are the contact features of every pair of clusters other than
`P` and `D`. -/
def MergeChangesOnlyParent (api : PandoraApi W) (w w' : W) (l : List ClusterPtr)
    (P D : ClusterPtr) : Prop :=
  api.GetCurrentClusterList w = .ok l ∧
    api.GetCurrentClusterList w' = .ok (l.filter (· ≠ D)) ∧
    (∀ C, C ≠ P → C ≠ D → api.cluster w' C = api.cluster w C) ∧
    ∀ K X, K ≠ P → K ≠ D → X ≠ P → X ≠ D →
      api.contactFeatures w' K X = api.contactFeatures w K X

/-- The merge brings no unaffected cluster into contact with the parent: after the merge, in the
state `w'`, the contact with `P` of a cluster of the list that is outside the affected set and
passes the daughter cuts fails `PassesClusterContactCuts`, when `P` has a track. -/
def NoNewContactWithParent (cfg : Settings) (api : PandoraApi W) (w' : W) (l : List ClusterPtr)
    (affectedClusters : Finset ClusterPtr) (P : ClusterPtr) : Prop :=
  ∀ K ∈ l, K ∉ affectedClusters → admissibleDaughter cfg api w' K = true →
    (api.cluster w' P).associatedTrackList ≠ [] →
    PassesClusterContactCuts cfg api w' (ClusterContact.create api w' K P) = false

end ClosedForms

/-! ## The subtraction of the energy correction in binary32

Everywhere else the arithmetic of `float` values is taken as exact. The energy correction of
`GetRequiredEvidenceForMerge` is a difference of two `float` values that is stored in a `float`;
whether it is strictly monotone in the daughter's energy depends on the rounding of that
difference, so it is given a second form here, with the difference rounded to binary32. -/

section Binary32

/-- Rounding of a rational number to the nearest integer, a tie going to the even integer. -/
def roundNearestEven (x : ℚ) : Int :=
  if Int.fract x < 1 / 2 then ⌊x⌋
  else if 1 / 2 < Int.fract x then ⌊x⌋ + 1
  else if ⌊x⌋ % 2 = 0 then ⌊x⌋ else ⌊x⌋ + 1

/-- The binary exponent at which binary32 places a magnitude: the exponent of the power of two
at or below it, and `-126` for every positive magnitude below `2 ^ (-126)` (the subnormal range).
At the magnitude `0` the logarithm is `0` by convention; `0` is rounded to `0` at any spacing. -/
def float32Exponent (x : ℚ) : Int := max (Int.log 2 x) (-126)

/-- The spacing of the binary32 values around a magnitude: `24` significant bits. -/
def float32Ulp (x : ℚ) : ℚ := 2 ^ (float32Exponent x - 23)

/-- The binary32 value nearest to a magnitude, a tie going to the even significand. -/
def float32RoundMagnitude (x : ℚ) : ℚ := roundNearestEven (x / float32Ulp x) * float32Ulp x

/-- Rounding to binary32 in the default mode of IEEE 754 (to nearest, ties to even), which acts on
the magnitude and keeps the sign. The result is the one of binary32 as long as it is finite, that
is for magnitudes below `2 ^ 128 - 2 ^ 103`; an infinity is not a value of this model. -/
def float32Round (x : ℚ) : ℚ :=
  if x < 0 then -float32RoundMagnitude (-x) else float32RoundMagnitude x

/-- The largest finite binary32 value, `(2 ^ 24 - 1) * 2 ^ 104`. -/
def float32Max : ℚ := 2 ^ 128 - 2 ^ 104

/-- The energy correction of `GetRequiredEvidenceForMerge` (lines 357-362) with the `float`
subtraction rounded to binary32. -/
def energyCorrectionFloat (cfg : Settings) (daughterClusterEnergy : ℚ) : ℚ :=
  if daughterClusterEnergy < cfg.m_energyCorrectionThreshold then
    float32Round (daughterClusterEnergy - cfg.m_energyCorrectionThreshold)
  else 0

end Binary32

/-! ## A small detector state

Three clusters: cluster `1` has a track, clusters `2` and `3` have none; cluster `2` has six hits
and passes the daughter cuts, cluster `3` has three hits and fails them. The state of the framework
is the current cluster list, and a merge removes the daughter from it. -/

section Example

/-- The attributes of the example clusters. -/
def exampleCluster (p : ClusterPtr) : Cluster :=
  { associatedTrackList := if p = 1 then [7] else []
    nCaloHits := if p = 3 then 3 else 6
    hadronicEnergy := if p = 1 then 10 else 3 / 100
    correctedHadronicEnergy := if p = 1 then 997 / 100 else 3 / 100
    innerPseudoLayer := if p = 1 then 1 else 20
    outerPseudoLayer := if p = 1 then 40 else 32
    orderedCaloHitList := [(20, [1 / 100]), (21, [1 / 100]), (22, [1 / 100])]
    fitSuccessful := true
    radialDirectionCosine := 9 / 10
    isPhotonFast := false
    showerProfileStart := 0
    showerProfileDiscrepancy := 0
    isLeavingDetector := false
    outerCentroidDirection := { x := 1, y := 0, z := 0 } }

/-- The features of every example contact: twelve contact layers, close-hit fraction `0.3`,
closest helix distance `40`. -/
def exampleFeatures : ContactFeatures :=
  { nContactLayers := 12
    contactFraction := 1
    coneFraction1 := 0
    coneFraction2 := 0
    coneFraction3 := 0
    closeHitFraction1 := 3 / 10
    closeHitFraction2 := 3 / 10
    meanDistanceToHelix := 40
    closestDistanceToHelix := 40
    distanceToClosestHit := 10
    parentTrackEnergy := 10 }

/-- The example framework: its state is the current cluster list. -/
def exampleApi : PandoraApi (List ClusterPtr) :=
  { GetCurrentClusterList := fun w => .ok w
    cluster := fun _ p => exampleCluster p
    contactFeatures := fun _ _ _ => exampleFeatures
    nECalLayers := 30
    GetTrackClusterCompatibility := fun clusterEnergy trackEnergy => clusterEnergy - trackEnergy
    muonHitDirections := fun _ => .error StatusCode.NOT_FOUND
    MergeAndDeleteClusters := fun w _ pDaughterCluster => .ok (w.filter (· ≠ pDaughterCluster)) }

/-- The contact of a daughter with a parent in the example. -/
def exampleContact (pDaughterCluster pParentCluster : ClusterPtr) : ClusterContact :=
  ClusterContact.create exampleApi [] pDaughterCluster pParentCluster

/-- A contact map over clusters `1` to `5`: the entry of `2` holds a contact with parent `1`, the
entry of `3` contacts with parents `1` and `4`, the entry of `5` a contact with parent `4`. -/
def exampleMap : ClusterContactMap :=
  [(2, [exampleContact 2 1]), (3, [exampleContact 3 1, exampleContact 3 4]),
    (5, [exampleContact 5 4])]

/-- A contact map over clusters `1` and `2`: the entry of `2` holds its contact with `1`. -/
def exampleSmallMap : ClusterContactMap := [(2, [exampleContact 2 1])]

/-- The state in which the selector returns on `exampleSmallMap`. -/
def exampleSelected : SelectorState :=
  { highestExcessEvidence := 46 / 5
    pBestParentCluster := some 1
    pBestDaughterCluster := some 2
    m_muonDirectionVector := [] }

/-- A contact of daughter `2` with parent `1` that passes no gate of the total evidence: no
contact layer, no cone fraction, helix distances `500`, closest-hit distance `300`. -/
def exampleFarContact : ClusterContact :=
  { nContactLayers := 0
    contactFraction := 0
    coneFraction1 := 0
    coneFraction2 := 0
    coneFraction3 := 0
    closeHitFraction1 := 0
    closeHitFraction2 := 0
    meanDistanceToHelix := 500
    closestDistanceToHelix := 500
    distanceToClosestHit := 300
    parentTrackEnergy := 10
    daughterCluster := 2
    parentCluster := 1 }

/-- A contact of daughter `2` with parent `1` whose closest helix distance is `40` and whose mean
helix distance is `45`: both are inside every band of the default track-extrapolation evidence. -/
def exampleHelixContact : ClusterContact :=
  { exampleFeatures with
    meanDistanceToHelix := 45
    closestDistanceToHelix := 40
    daughterCluster := 2
    parentCluster := 1 }

/-- A configuration input without any key. -/
def exampleEmptyXml : TiXmlHandle :=
  { readUInt := fun _ => .notFound
    readFloat := fun _ => .notFound
    readBool := fun _ => .notFound
    readInt := fun _ => .notFound }

/-- A configuration input whose only key is the given one, a `float` with value `0`. -/
def exampleZeroXml (key : String) : TiXmlHandle :=
  { exampleEmptyXml with readFloat := fun k => if k = key then .value 0 else .notFound }

/-- The state of the loop of `Run` in the example with clusters `1` and `2`, after the merge of
cluster `2` into cluster `1`. -/
def exampleStateAfterMerge : RunState (List ClusterPtr) :=
  { world := [1]
    isFirstPass := false
    affectedClusters := {1}
    clusterContactMap := []
    m_muonDirectionVector := [] }

/-- The example framework, except that the current cluster list cannot be obtained when fewer
than two clusters are left. -/
def exampleFailingApi : PandoraApi (List ClusterPtr) :=
  { exampleApi with
    GetCurrentClusterList := fun w =>
      if w.length < 2 then .error StatusCode.FAILURE else .ok w }

/-- A contact of daughter `2` with parent `1` whose closest helix distance `150` is inside the
first closest-distance band of the default configuration and whose mean helix distance `400` is
outside the first mean-distance band. -/
def exampleWideContact : ClusterContact :=
  { exampleFeatures with
    meanDistanceToHelix := 400
    closestDistanceToHelix := 150
    daughterCluster := 2
    parentCluster := 1 }

/-- A photon-like cluster of hadronic energy `1.5` whose shower starts at `3`. -/
def examplePhotonCluster : Cluster :=
  { exampleCluster 2 with
    hadronicEnergy := 3 / 2
    isPhotonFast := true
    showerProfileStart := 3
    showerProfileDiscrepancy := 0 }

/-- A cluster of hadronic energy `1` with four occupied layers: one hit of energy `0.01` in each
of the layers `20`, `21` and `22`, and one hit of energy `0.97` in layer `23`. -/
def exampleDeepCluster : Cluster :=
  { exampleCluster 2 with
    nCaloHits := 4
    hadronicEnergy := 1
    correctedHadronicEnergy := 1
    outerPseudoLayer := 23
    orderedCaloHitList := [(20, [1 / 100]), (21, [1 / 100]), (22, [1 / 100]), (23, [97 / 100])] }

/-- The example framework with cluster `2` replaced by the cluster with four occupied layers. -/
def exampleDeepApi : PandoraApi (List ClusterPtr) :=
  { exampleApi with cluster := fun _ p => if p = 2 then exampleDeepCluster else exampleCluster p }

/-- The example framework with parent cluster `1` leaving the detector and a muon hit list of six
hits in the direction of the outer layer of the parent. -/
def exampleMuonApi : PandoraApi (List ClusterPtr) :=
  { exampleApi with
    cluster := fun _ p => { exampleCluster p with isLeavingDetector := decide (p = 1) }
    muonHitDirections := fun _ => .ok (List.replicate 6 { x := 1, y := 0, z := 0 }) }

/-- A contact with parent `1` and parent track energy `0` whose stored daughter is `3`. -/
def exampleStrayContact : ClusterContact :=
  { exampleFeatures with
    parentTrackEnergy := 0
    daughterCluster := 3
    parentCluster := 1 }

/-- A contact map whose only entry, of key `2`, fails preselection and holds a contact whose stored
daughter is `3`. -/
def exampleSkippedMap : ClusterContactMap := [(2, [exampleStrayContact])]

/-- A contact map whose only entry, of key `2`, passes preselection and holds a contact whose
stored daughter is `3`. -/
def exampleMismatchMap : ClusterContactMap := [(2, [exampleContact 3 1])]

/-- The example framework with every cluster moved into the hadronic section: inner pseudolayer
`60` and outer pseudolayer `70`, where the ECal has `30` layers. -/
def exampleHCalApi : PandoraApi (List ClusterPtr) :=
  { exampleApi with
    cluster := fun _ p => { exampleCluster p with innerPseudoLayer := 60, outerPseudoLayer := 70 } }

/-- A contact of daughter `2` with parent `1` that passes none of the six feature cuts of
`PassesClusterContactCuts` and whose closest-hit distance `200` is below
`m_contactCutNearECalDistance`. -/
def exampleNearContact : ClusterContact :=
  { exampleFarContact with distanceToClosestHit := 200 }

/-- A contact map over clusters `1`, `2` and `4`: the entries of `2` and of `4` each hold a contact
with parent `1`, and the two contacts have the same excess evidence. -/
def exampleTieMap : ClusterContactMap := [(2, [exampleContact 2 1]), (4, [exampleContact 4 1])]

/-- The example framework in which cluster `4` is far from cluster `1`: their contact has the
features of the example contact that passes no cut. With `grows` set this is so only as long as
cluster `2` is in the cluster list: the merge of cluster `2` into cluster `1` brings cluster `1`
close to cluster `4`, and their contact then has the features of the other example contacts. -/
def exampleSparseApi (grows : Bool) : PandoraApi (List ClusterPtr) :=
  { exampleApi with
    contactFeatures := fun w pDaughterCluster pParentCluster =>
      if pDaughterCluster = 4 ∧ pParentCluster = 1 ∧ (2 ∈ w ∨ grows = false) then
        exampleFarContact.toContactFeatures
      else exampleFeatures }

/-- The features of a contact that passes the contact cuts by its one contact layer and passes no
gate of the total evidence: cone and close-hit fractions `0`, helix distances `500`, closest-hit
distance `300`. -/
def exampleWeakFeatures : ContactFeatures :=
  { nContactLayers := 1
    contactFraction := 0
    coneFraction1 := 0
    coneFraction2 := 0
    coneFraction3 := 0
    closeHitFraction1 := 0
    closeHitFraction2 := 0
    meanDistanceToHelix := 500
    closestDistanceToHelix := 500
    distanceToClosestHit := 300
    parentTrackEnergy := 10 }

/-- The example framework in which every contact has the weak features. -/
def exampleWeakApi : PandoraApi (List ClusterPtr) :=
  { exampleApi with contactFeatures := fun _ _ _ => exampleWeakFeatures }

/-- The contact of daughter `2` with parent `1` in the weak example. -/
def exampleWeakContact : ClusterContact :=
  ClusterContact.create exampleWeakApi [] 2 1

/-- The example framework in which cluster `4` stays far from cluster `1` and cluster `6` has a
track as cluster `1` has: cluster `6` has the attributes of cluster `1`. -/
def exampleTwoTrackApi : PandoraApi (List ClusterPtr) :=
  { exampleSparseApi false with
    cluster := fun _ p => if p = 6 then exampleCluster 1 else exampleCluster p }

/-- The map that the first pass builds in the example with two tracks on the clusters `1`, `2`,
`4`, `5` and `6`: clusters `2` and `5` are in contact with both tracked clusters, cluster `4` with
cluster `6` only. -/
def exampleTwoTrackMap : ClusterContactMap :=
  [(2, [exampleContact 2 1, exampleContact 2 6]), (4, [exampleContact 4 6]),
    (5, [exampleContact 5 1, exampleContact 5 6])]

/-- The map of the example with two tracks after the merge of cluster `2` into cluster `1`. -/
def exampleTwoTrackMerged : ClusterContactMap :=
  [(4, [exampleContact 4 6]), (5, [exampleContact 5 1, exampleContact 5 6])]

end Example

end MainFragmentRemoval

/-! # Looping tracks: reading the configuration

A shallow embedding of `LoopingTracksAlgorithm::ReadSettings` of
`src/Algorithms/TopologicalAssociation/LoopingTracksAlgorithm.cc`. -/

namespace LoopingTracks

/-- The members set by `LoopingTracksAlgorithm::ReadSettings`. The class declaration is not part
of the sources: a member whose default is written with a decimal point is a `float`, the others
are `unsigned int`. -/
structure Settings where
  m_nLayersToFit : Nat
  m_fitChi2Cut : ℚ
  m_nDeepInHCalLayers : Nat
  m_canMergeMinMipFraction : ℚ
  m_canMergeMaxRms : ℚ
  m_minHitsInCluster : Nat
  m_minOccupiedLayersInCluster : Nat
  m_maxOuterLayerDifference : Nat
  m_maxCentroidDifference : ℚ
  m_fitDirectionDotProductCutECal : ℚ
  m_fitDirectionDotProductCutHCal : ℚ
  m_closestHitDistanceCutECal : ℚ
  m_closestHitDistanceCutHCal : ℚ
  m_fitResultsClosestApproachCutECal : ℚ
  m_fitResultsClosestApproachCutHCal : ℚ
  m_nGoodFeaturesForClusterMerge : Nat
  m_goodFeaturesMaxFitDotProduct : ℚ
  m_goodFeaturesMaxFitApproach : ℚ
  m_goodFeaturesMaxLayerDifference : Nat
  m_goodFeaturesMinMipFraction : ℚ

/-- One step of `ReadSettings`: a member is assigned its default, then
`PANDORA_RETURN_RESULT_IF_AND_IF(STATUS_CODE_SUCCESS, STATUS_CODE_NOT_FOUND, !=,
XmlHelper::ReadValue(xmlHandle, key, member))` reads a key into a member. -/
def assignAndRead {α : Type} (assign : Settings → Settings) (r : MainFragmentRemoval.XmlRead α)
    (get : Settings → α) (set : Settings → α → Settings) (members : Settings) :
    Except MainFragmentRemoval.StatusCode Settings :=
  let members := assign members
  match MainFragmentRemoval.readValue r (get members) with
  | .error status => .error status
  | .ok v => .ok (set members v)

/-- The steps of `ReadSettings`, in the order of the source. -/
def readSteps (xml : MainFragmentRemoval.TiXmlHandle) :
    List (Settings → Except MainFragmentRemoval.StatusCode Settings) :=
  [ assignAndRead (fun s => { s with m_nLayersToFit := 5 })
      (xml.readUInt "NLayersToFit") (fun s => s.m_nLayersToFit)
      (fun s v => { s with m_nLayersToFit := v }),
    assignAndRead (fun s => { s with m_fitChi2Cut := 100 })
      (xml.readFloat "FitChi2Cut") (fun s => s.m_fitChi2Cut)
      (fun s v => { s with m_fitChi2Cut := v }),
    assignAndRead (fun s => { s with m_nDeepInHCalLayers := 10 })
      (xml.readUInt "NDeepInHCalLayers") (fun s => s.m_nDeepInHCalLayers)
      (fun s v => { s with m_nDeepInHCalLayers := v }),
    assignAndRead (fun s => { s with m_canMergeMinMipFraction := (7 / 10) })
      (xml.readFloat "CanMergeMinMipFraction") (fun s => s.m_canMergeMinMipFraction)
      (fun s v => { s with m_canMergeMinMipFraction := v }),
    assignAndRead (fun s => { s with m_canMergeMaxRms := 5 })
      (xml.readFloat "CanMergeMaxRms") (fun s => s.m_canMergeMaxRms)
      (fun s v => { s with m_canMergeMaxRms := v }),
    assignAndRead (fun s => { s with m_minHitsInCluster := 4 })
      (xml.readUInt "MinHitsInCluster") (fun s => s.m_minHitsInCluster)
      (fun s v => { s with m_minHitsInCluster := v }),
    assignAndRead (fun s => { s with m_minOccupiedLayersInCluster := 2 })
      (xml.readUInt "MinOccupiedLayersInCluster") (fun s => s.m_minOccupiedLayersInCluster)
      (fun s v => { s with m_minOccupiedLayersInCluster := v }),
    assignAndRead (fun s => { s with m_maxOuterLayerDifference := 6 })
      (xml.readUInt "MaxOuterLayerDifference") (fun s => s.m_maxOuterLayerDifference)
      (fun s v => { s with m_maxOuterLayerDifference := v }),
    assignAndRead (fun s => { s with m_maxCentroidDifference := 2000 })
      (xml.readFloat "MaxCentroidDifference") (fun s => s.m_maxCentroidDifference)
      (fun s v => { s with m_maxCentroidDifference := v }),
    assignAndRead (fun s => { s with m_fitDirectionDotProductCutECal := (-1 / 10) })
      (xml.readFloat "FitDirectionDotProductCutECal") (fun s => s.m_fitDirectionDotProductCutECal)
      (fun s v => { s with m_fitDirectionDotProductCutECal := v }),
    assignAndRead (fun s => { s with m_fitDirectionDotProductCutHCal := 0 })
      (xml.readFloat "FitDirectionDotProductCutHCal") (fun s => s.m_fitDirectionDotProductCutHCal)
      (fun s v => { s with m_fitDirectionDotProductCutHCal := v }),
    assignAndRead (fun s => { s with m_closestHitDistanceCutECal := 250 })
      (xml.readFloat "ClosestHitDistanceCutECal") (fun s => s.m_closestHitDistanceCutECal)
      (fun s v => { s with m_closestHitDistanceCutECal := v }),
    assignAndRead (fun s => { s with m_closestHitDistanceCutHCal := 500 })
      (xml.readFloat "ClosestHitDistanceCutHCal") (fun s => s.m_closestHitDistanceCutHCal)
      (fun s v => { s with m_closestHitDistanceCutHCal := v }),
    assignAndRead (fun s => { s with m_fitResultsClosestApproachCutECal := 50 })
      (xml.readFloat "FitResultsClosestApproachCutECal") (fun s => s.m_fitResultsClosestApproachCutECal)
      (fun s v => { s with m_fitResultsClosestApproachCutECal := v }),
    assignAndRead (fun s => { s with m_fitResultsClosestApproachCutHCal := 200 })
      (xml.readFloat "FitResultsClosestApproachCutHCal") (fun s => s.m_fitResultsClosestApproachCutHCal)
      (fun s v => { s with m_fitResultsClosestApproachCutHCal := v }),
    assignAndRead (fun s => { s with m_nGoodFeaturesForClusterMerge := 2 })
      (xml.readUInt "NGoodFeaturesForClusterMerge") (fun s => s.m_nGoodFeaturesForClusterMerge)
      (fun s v => { s with m_nGoodFeaturesForClusterMerge := v }),
    assignAndRead (fun s => { s with m_goodFeaturesMaxFitDotProduct := (-1 / 2) })
      (xml.readUInt "NGoodFeaturesForClusterMerge") (fun s => s.m_nGoodFeaturesForClusterMerge)
      (fun s v => { s with m_nGoodFeaturesForClusterMerge := v }),
    assignAndRead (fun s => { s with m_goodFeaturesMaxFitApproach := 50 })
      (xml.readFloat "GoodFeaturesMaxFitApproach") (fun s => s.m_goodFeaturesMaxFitApproach)
      (fun s v => { s with m_goodFeaturesMaxFitApproach := v }),
    assignAndRead (fun s => { s with m_goodFeaturesMaxLayerDifference := 4 })
      (xml.readUInt "GoodFeaturesMaxLayerDifference") (fun s => s.m_goodFeaturesMaxLayerDifference)
      (fun s v => { s with m_goodFeaturesMaxLayerDifference := v }),
    assignAndRead (fun s => { s with m_goodFeaturesMinMipFraction := (9 / 10) })
      (xml.readFloat "GoodFeaturesMinMipFraction") (fun s => s.m_goodFeaturesMinMipFraction)
      (fun s v => { s with m_goodFeaturesMinMipFraction := v }) ]

/-- The steps of a list in sequence, stopping at the first status returned. -/
def runSteps : List (Settings → Except MainFragmentRemoval.StatusCode Settings) → Settings →
    Except MainFragmentRemoval.StatusCode Settings
  | [], members => .ok members
  | step :: rest, members =>
    match step members with
    | .error status => .error status
    | .ok members => runSteps rest members

/-- The function `LoopingTracksAlgorithm::ReadSettings`, started with the members holding
`members`: the status returned when it is not success, or the members on return with success. -/
def ReadSettings (xml : MainFragmentRemoval.TiXmlHandle) (members : Settings) :
    Except MainFragmentRemoval.StatusCode Settings :=
  runSteps (readSteps xml) members

/-- A configuration input in which every key is present: every `unsigned int` has the value `7`
and every `float` the value `1/4`. -/
def exampleFullXml : MainFragmentRemoval.TiXmlHandle :=
  { readUInt := fun _ => .value 7
    readFloat := fun _ => .value (1 / 4)
    readBool := fun _ => .value true
    readInt := fun _ => .value 7 }

/-- Members that all hold zero. -/
def exampleZeroMembers : Settings :=
  { m_nLayersToFit := 0, m_fitChi2Cut := 0, m_nDeepInHCalLayers := 0,
    m_canMergeMinMipFraction := 0, m_canMergeMaxRms := 0, m_minHitsInCluster := 0,
    m_minOccupiedLayersInCluster := 0, m_maxOuterLayerDifference := 0,
    m_maxCentroidDifference := 0, m_fitDirectionDotProductCutECal := 0,
    m_fitDirectionDotProductCutHCal := 0, m_closestHitDistanceCutECal := 0,
    m_closestHitDistanceCutHCal := 0, m_fitResultsClosestApproachCutECal := 0,
    m_fitResultsClosestApproachCutHCal := 0, m_nGoodFeaturesForClusterMerge := 0,
    m_goodFeaturesMaxFitDotProduct := 0, m_goodFeaturesMaxFitApproach := 0,
    m_goodFeaturesMaxLayerDifference := 0, m_goodFeaturesMinMipFraction := 0 }

end LoopingTracks

/-! # Muon reconstruction: matching of MC particles

A shallow embedding of `MuonReconstructionAlgorithm::IsMatchedMCParticle` of
`src/Algorithms/MuonReconstructionAlgorithm.cc`. An `MCParticle *` is an address, and the memory
gives the MC particle at each address. The recursion of the function is bounded by a number of
nested calls (`fuel`); the result is `none` when the bound is reached. -/

namespace MuonReconstruction

/-- The address of an MC particle. -/
abbrev MCParticlePtr := Nat

/-- The type `Uid` of the unique identifier of an MC particle. -/
abbrev Uid := Nat

/-- The attributes of an MC particle that `IsMatchedMCParticle` queries. -/
structure MCParticle where
  /-- `GetUid()` -/
  uid : Uid
  /-- `GetDaughterList()`, in iteration order. -/
  daughterList : List MCParticlePtr
  deriving DecidableEq, Repr

/-- The memory: the MC particle at each address. -/
abbrev MCParticleStore := MCParticlePtr → MCParticle

/-- The loop of `IsMatchedMCParticle` over the daughter list, with the recursive call as a
parameter: `none` when a recursive call does not return. -/
def daughterLoop (store : MCParticleStore) (uid : Uid) (recurse : MCParticlePtr → Option Bool) :
    List MCParticlePtr → Option Bool
  | [] => some false
  | pDaughter :: rest =>
    if uid = (store pDaughter).uid then some true
    else
      match recurse pDaughter with
      | none => none
      | some true => some true
      | some false => daughterLoop store uid recurse rest

/-- The function `IsMatchedMCParticle` with at most `fuel` nested calls. -/
def IsMatchedMCParticle (store : MCParticleStore) : Nat → MCParticlePtr → Uid → Option Bool
  | 0, _, _ => none
  | fuel + 1, pMCParticle, uid =>
    if uid = (store pMCParticle).uid then some true
    else
      daughterLoop store uid (fun pDaughter => IsMatchedMCParticle store fuel pDaughter uid)
        (store pMCParticle).daughterList

/-- The daughter relation: `d` is in the daughter list of `p`. -/
def IsDaughter (store : MCParticleStore) (p d : MCParticlePtr) : Prop :=
  d ∈ (store p).daughterList

/-- The particle `q` is `p` or a descendant of `p`: it is reachable from `p` through daughter
lists. -/
def Reaches (store : MCParticleStore) (p q : MCParticlePtr) : Prop :=
  Relation.ReflTransGen (IsDaughter store) p q

/-- The daughter tree of `p` is finite and acyclic: every particle reachable from `p` has a
height, and a daughter is lower than its parent. Daughter lists being finite, this is the case
exactly when finitely many particles are reachable from `p` and none of them is its own
descendant. -/
def FiniteAcyclicFrom (store : MCParticleStore) (height : MCParticlePtr → Nat)
    (p : MCParticlePtr) : Prop :=
  ∀ q d, Reaches store p q → IsDaughter store q d → height d < height q

/-- An example memory: particle `1` has the daughters `2` and `3`, particle `2` has the daughter
`4`, every other particle has no daughter; the uid of the particle at address `a` is `10 * a`. -/
def exampleStore : MCParticleStore := fun a =>
  { uid := 10 * a
    daughterList := if a = 1 then [2, 3] else if a = 2 then [4] else [] }

/-- The heights of the particles of the example memory. -/
def exampleHeight (a : MCParticlePtr) : Nat :=
  if a = 1 then 2 else if a = 2 then 1 else 0

end MuonReconstruction

/-! # Theorems -/

namespace MainFragmentRemoval

/-! ## Required evidence -/

section RequiredEvidenceTheorems

variable {W : Type}

/-- C1: for every configuration, framework state, value of the muon-direction cache, daughter,
contact, correction layer and `globalDeltaChi2`, the value returned by
`GetRequiredEvidenceForMerge` is at least the configured floor `m_minRequiredEvidence`. -/
theorem C1_required_evidence_at_least_floor (cfg : Settings) (api : PandoraApi W) (w : W)
    (m_muonDirectionVector : List CartesianVector) (pDaughterCluster : ClusterPtr)
    (clusterContact : ClusterContact) (correctionLayer : PseudoLayer) (globalDeltaChi2 : ℚ) :
    cfg.m_minRequiredEvidence ≤
      (GetRequiredEvidenceForMerge cfg api w m_muonDirectionVector pDaughterCluster clusterContact
        correctionLayer globalDeltaChi2).1 := by
  simp only [GetRequiredEvidenceForMerge, stdMax]
  split
  · exact le_of_lt (by assumption)
  · exact le_refl _

/-- On rationals `std::max` is the maximum. -/
theorem stdMax_eq_max (a b : ℚ) : stdMax a b = max a b := by
  unfold stdMax
  split
  · rw [max_eq_right (le_of_lt (by assumption))]
  · rw [max_eq_left (not_lt.mp (by assumption))]

/-- C8: the value returned by `GetRequiredEvidenceForMerge` is the maximum of the floor and
`B + layer + angular + energy + leaving + photon + L`, where under the global basis `B` is the
global evidence value and `L = 0`, and under the local basis `B` is the local chi2 evidence and
`L` is the low-energy correction; and under the global basis the value returned is the same for
every choice of the six low-energy-correction parameters. -/
theorem C8_required_evidence_formula (cfg : Settings) (api : PandoraApi W) (w : W)
    (m_muonDirectionVector : List CartesianVector) (pDaughterCluster : ClusterPtr)
    (clusterContact : ClusterContact) (correctionLayer : PseudoLayer) (globalDeltaChi2 : ℚ) :
    (GetRequiredEvidenceForMerge cfg api w m_muonDirectionVector pDaughterCluster clusterContact
        correctionLayer globalDeltaChi2).1 =
      max cfg.m_minRequiredEvidence
        ((if usingGlobalChi2 cfg api w pDaughterCluster clusterContact globalDeltaChi2 then
            globalChi2Evidence cfg globalDeltaChi2
          else chi2Evidence cfg api w pDaughterCluster clusterContact) +
          layerCorrection cfg api.nECalLayers (api.cluster w pDaughterCluster).innerPseudoLayer
            (api.cluster w pDaughterCluster).outerPseudoLayer correctionLayer +
          angularCorrection cfg (api.cluster w pDaughterCluster) +
          energyCorrection cfg (api.cluster w pDaughterCluster).hadronicEnergy +
          (leavingCorrection cfg api w m_muonDirectionVector clusterContact).1 +
          photonCorrection cfg (api.cluster w pDaughterCluster) +
          (if usingGlobalChi2 cfg api w pDaughterCluster clusterContact globalDeltaChi2 then 0
          else lowEnergyCorrection cfg api.nECalLayers (api.cluster w pDaughterCluster).hadronicEnergy
            ((api.cluster w pDaughterCluster).orderedCaloHitList.length % UINT_MOD) correctionLayer)) ∧
    (usingGlobalChi2 cfg api w pDaughterCluster clusterContact globalDeltaChi2 = true →
      ∀ (threshold : ℚ) (nHitLayers1 nHitLayers2 : Nat) (correction1 correction2 correction3 : ℚ),
        (GetRequiredEvidenceForMerge
          { cfg with
            m_lowEnergyCorrectionThreshold := threshold
            m_lowEnergyCorrectionNHitLayers1 := nHitLayers1
            m_lowEnergyCorrectionNHitLayers2 := nHitLayers2
            m_lowEnergyCorrection1 := correction1
            m_lowEnergyCorrection2 := correction2
            m_lowEnergyCorrection3 := correction3 }
          api w m_muonDirectionVector pDaughterCluster clusterContact correctionLayer
          globalDeltaChi2).1 =
        (GetRequiredEvidenceForMerge cfg api w m_muonDirectionVector pDaughterCluster clusterContact
          correctionLayer globalDeltaChi2).1) := by
  constructor
  · simp only [GetRequiredEvidenceForMerge, requiredEvidenceSum, stdMax_eq_max]
    split <;> simp
  · intro hglobal threshold nHitLayers1 nHitLayers2 correction1 correction2 correction3
    have hglobal' : usingGlobalChi2
        { cfg with
          m_lowEnergyCorrectionThreshold := threshold
          m_lowEnergyCorrectionNHitLayers1 := nHitLayers1
          m_lowEnergyCorrectionNHitLayers2 := nHitLayers2
          m_lowEnergyCorrection1 := correction1
          m_lowEnergyCorrection2 := correction2
          m_lowEnergyCorrection3 := correction3 }
        api w pDaughterCluster clusterContact globalDeltaChi2 = true := hglobal
    simp only [GetRequiredEvidenceForMerge, requiredEvidenceSum, hglobal, hglobal', if_true]
    rfl

/-- C9: in `GetRequiredEvidenceForMerge` the global basis is used exactly when the per-contact
`newChi2` exceeds both `oldChi2` and `m_maxGlobalChi2`, or the global evidence value
`m_chi2Base + m_globalChi2Penalty - globalDeltaChi2` is strictly smaller than the local value
`m_chi2Base - (oldChi2 - newChi2)`; here `oldChi` is the compatibility of the parent's corrected
energy with the parent track energy and `newChi` the same with the daughter's corrected energy
added. The value returned is the floored global sum in that case and the floored local sum
otherwise. -/
theorem C9_global_basis_condition (cfg : Settings) (api : PandoraApi W) (w : W)
    (m_muonDirectionVector : List CartesianVector) (pDaughterCluster : ClusterPtr)
    (clusterContact : ClusterContact) (correctionLayer : PseudoLayer) (globalDeltaChi2 : ℚ) :
    let oldChi := api.GetTrackClusterCompatibility
      (api.cluster w clusterContact.parentCluster).correctedHadronicEnergy
      clusterContact.parentTrackEnergy
    let newChi := api.GetTrackClusterCompatibility
      ((api.cluster w pDaughterCluster).correctedHadronicEnergy +
        (api.cluster w clusterContact.parentCluster).correctedHadronicEnergy)
      clusterContact.parentTrackEnergy
    let oldChi2 := oldChi * oldChi
    let newChi2 := newChi * newChi
    let globalEvidence := cfg.m_chi2Base + cfg.m_globalChi2Penalty - globalDeltaChi2
    let localEvidence := cfg.m_chi2Base - (oldChi2 - newChi2)
    let corrections :=
      layerCorrection cfg api.nECalLayers (api.cluster w pDaughterCluster).innerPseudoLayer
        (api.cluster w pDaughterCluster).outerPseudoLayer correctionLayer +
      angularCorrection cfg (api.cluster w pDaughterCluster) +
      energyCorrection cfg (api.cluster w pDaughterCluster).hadronicEnergy +
      (leavingCorrection cfg api w m_muonDirectionVector clusterContact).1 +
      photonCorrection cfg (api.cluster w pDaughterCluster)
    (usingGlobalChi2 cfg api w pDaughterCluster clusterContact globalDeltaChi2 = true ↔
      (newChi2 > oldChi2 ∧ newChi2 > cfg.m_maxGlobalChi2) ∨ globalEvidence < localEvidence) ∧
    (GetRequiredEvidenceForMerge cfg api w m_muonDirectionVector pDaughterCluster clusterContact
        correctionLayer globalDeltaChi2).1 =
      max cfg.m_minRequiredEvidence
        (if (newChi2 > oldChi2 ∧ newChi2 > cfg.m_maxGlobalChi2) ∨ globalEvidence < localEvidence then
          globalEvidence + corrections
        else
          localEvidence + corrections +
            lowEnergyCorrection cfg api.nECalLayers (api.cluster w pDaughterCluster).hadronicEnergy
              ((api.cluster w pDaughterCluster).orderedCaloHitList.length % UINT_MOD)
              correctionLayer) := by
  intro oldChi newChi oldChi2 newChi2 globalEvidence localEvidence corrections
  have key : usingGlobalChi2 cfg api w pDaughterCluster clusterContact globalDeltaChi2 = true ↔
      (newChi2 > oldChi2 ∧ newChi2 > cfg.m_maxGlobalChi2) ∨ globalEvidence < localEvidence := by
    simp only [usingGlobalChi2, chi2Pair, globalChi2Evidence, chi2Evidence, decide_eq_true_eq]
  refine ⟨key, ?_⟩
  simp only [GetRequiredEvidenceForMerge, requiredEvidenceSum, stdMax_eq_max]
  by_cases h : usingGlobalChi2 cfg api w pDaughterCluster clusterContact globalDeltaChi2 = true
  · rw [if_pos h, if_pos (key.mp h)]
    simp only [globalChi2Evidence, globalEvidence, corrections]
    congr 1
    ring
  · rw [if_neg h, if_neg (fun h' => h (key.mpr h'))]
    simp only [chi2Evidence, chi2Pair, localEvidence, corrections, oldChi2, newChi2, oldChi, newChi]
    congr 1
    ring

end RequiredEvidenceTheorems

/-! ## Preselection -/

section PreselectionTheorems

variable {W : Type}

/-- The loop of `PassesPreselection` adds up the parent energies and raises the flag at the
contacts whose merge has an acceptable or improved chi2. -/
theorem preselection_foldl (cfg : Settings) (api : PandoraApi W) (w : W) (daughterClusterEnergy : ℚ)
    (contacts : List ClusterContact) (st : PreselectionState) :
    let final := contacts.foldl (preselectionStep cfg api w daughterClusterEnergy) st
    (final.passesPreselection = true ↔
      st.passesPreselection = true ∨
        ∃ c ∈ contacts,
          (chi2Pair api daughterClusterEnergy
              (api.cluster w c.parentCluster).correctedHadronicEnergy c.parentTrackEnergy).2 <
              cfg.m_maxChi2 ∨
            (chi2Pair api daughterClusterEnergy
              (api.cluster w c.parentCluster).correctedHadronicEnergy c.parentTrackEnergy).2 <
            (chi2Pair api daughterClusterEnergy
              (api.cluster w c.parentCluster).correctedHadronicEnergy c.parentTrackEnergy).1) ∧
    final.totalTrackEnergy = st.totalTrackEnergy + (contacts.map (·.parentTrackEnergy)).sum ∧
    final.totalClusterEnergy = st.totalClusterEnergy +
      (contacts.map (fun c => (api.cluster w c.parentCluster).correctedHadronicEnergy)).sum := by
  induction contacts generalizing st with
  | nil => simp
  | cons c rest ih =>
    have h := ih (preselectionStep cfg api w daughterClusterEnergy st c)
    simp only [List.foldl_cons, List.map_cons, List.sum_cons, List.mem_cons, exists_eq_or_imp]
    simp only at h
    obtain ⟨h1, h2, h3⟩ := h
    refine ⟨?_, ?_, ?_⟩
    · rw [h1]
      simp only [preselectionStep]
      by_cases hc : (chi2Pair api daughterClusterEnergy
              (api.cluster w c.parentCluster).correctedHadronicEnergy c.parentTrackEnergy).2 <
              cfg.m_maxChi2 ∨
            (chi2Pair api daughterClusterEnergy
              (api.cluster w c.parentCluster).correctedHadronicEnergy c.parentTrackEnergy).2 <
            (chi2Pair api daughterClusterEnergy
              (api.cluster w c.parentCluster).correctedHadronicEnergy c.parentTrackEnergy).1
      · simp [hc]
      · simp [hc]
    · rw [h2]
      simp only [preselectionStep]
      ring
    · rw [h3]
      simp only [preselectionStep]
      ring

/-- C7: with the track-cluster compatibility an arbitrary function, `PassesPreselection` returns
true exactly when some contact has `newChi2 < m_maxChi2` or `newChi2 < oldChi2`, or the aggregate
over all contacts (the sums of the parents' corrected energies and of the parent track energies)
has `newChi2Total < m_maxGlobalChi2` or `newChi2Total < oldChi2Total`; and `globalDeltaChi2` is set
to `oldChi2Total - newChi2Total`. -/
theorem C7_passes_preselection_iff (cfg : Settings) (api : PandoraApi W) (w : W)
    (pDaughterCluster : ClusterPtr) (contacts : ClusterContactVector) :
    let chi := api.GetTrackClusterCompatibility
    let daughterEnergy := (api.cluster w pDaughterCluster).correctedHadronicEnergy
    let parentEnergy := fun (c : ClusterContact) =>
      (api.cluster w c.parentCluster).correctedHadronicEnergy
    let oldChi2 := fun (c : ClusterContact) =>
      chi (parentEnergy c) c.parentTrackEnergy * chi (parentEnergy c) c.parentTrackEnergy
    let newChi2 := fun (c : ClusterContact) =>
      chi (daughterEnergy + parentEnergy c) c.parentTrackEnergy *
        chi (daughterEnergy + parentEnergy c) c.parentTrackEnergy
    let totalClusterEnergy := (contacts.map parentEnergy).sum
    let totalTrackEnergy := (contacts.map (·.parentTrackEnergy)).sum
    let oldChi2Total :=
      chi totalClusterEnergy totalTrackEnergy * chi totalClusterEnergy totalTrackEnergy
    let newChi2Total :=
      chi (daughterEnergy + totalClusterEnergy) totalTrackEnergy *
        chi (daughterEnergy + totalClusterEnergy) totalTrackEnergy
    ((PassesPreselection cfg api w pDaughterCluster contacts).1 = true ↔
      (∃ c ∈ contacts, newChi2 c < cfg.m_maxChi2 ∨ newChi2 c < oldChi2 c) ∨
        (newChi2Total < cfg.m_maxGlobalChi2 ∨ newChi2Total < oldChi2Total)) ∧
    (PassesPreselection cfg api w pDaughterCluster contacts).2 = oldChi2Total - newChi2Total := by
  intro chi daughterEnergy parentEnergy oldChi2 newChi2 totalClusterEnergy totalTrackEnergy
    oldChi2Total newChi2Total
  have h := preselection_foldl cfg api w daughterEnergy contacts
    { passesPreselection := false, totalTrackEnergy := 0, totalClusterEnergy := 0 }
  simp only [zero_add, Bool.false_eq_true, false_or] at h
  obtain ⟨h1, h2, h3⟩ := h
  have e1 : (PassesPreselection cfg api w pDaughterCluster contacts).2 =
      oldChi2Total - newChi2Total := by
    simp only [PassesPreselection]
    rw [h2, h3]
    rfl
  refine ⟨?_, e1⟩
  simp only [PassesPreselection]
  rw [h2, h3]
  by_cases hg : newChi2Total < cfg.m_maxGlobalChi2 ∨ newChi2Total < oldChi2Total
  · have hg' : (chi2Pair api daughterEnergy totalClusterEnergy totalTrackEnergy).2 <
        cfg.m_maxGlobalChi2 ∨
        (chi2Pair api daughterEnergy totalClusterEnergy totalTrackEnergy).2 <
          (chi2Pair api daughterEnergy totalClusterEnergy totalTrackEnergy).1 := hg
    simp only [daughterEnergy, totalClusterEnergy, totalTrackEnergy, parentEnergy] at hg'
    rw [if_pos hg']
    simp only [true_iff]
    exact Or.inr hg
  · have hg' : ¬ ((chi2Pair api daughterEnergy totalClusterEnergy totalTrackEnergy).2 <
        cfg.m_maxGlobalChi2 ∨
        (chi2Pair api daughterEnergy totalClusterEnergy totalTrackEnergy).2 <
          (chi2Pair api daughterEnergy totalClusterEnergy totalTrackEnergy).1) := hg
    simp only [daughterEnergy, totalClusterEnergy, totalTrackEnergy, parentEnergy] at hg'
    rw [if_neg hg', h1]
    constructor
    · intro hex
      exact Or.inl hex
    · intro hor
      rcases hor with hex | hgl
      · exact hex
      · exact absurd hgl hg

end PreselectionTheorems

/-! ## Facts about the contact map -/

section MapTheorems

theorem ClusterContactMap.WF_nil : ClusterContactMap.WF [] := by
  simp [ClusterContactMap.WF, ClusterContactMap.keys]

theorem ClusterContactMap.WF_cons {key : ClusterPtr} {vector : ClusterContactVector}
    {rest : ClusterContactMap} :
    ClusterContactMap.WF ((key, vector) :: rest) ↔
      (∀ e ∈ rest, key < e.1) ∧ ClusterContactMap.WF rest := by
  simp [ClusterContactMap.WF, ClusterContactMap.keys, List.pairwise_cons]

theorem ClusterContactMap.mem_of_find {m : ClusterContactMap} {k : ClusterPtr}
    {v : ClusterContactVector} (h : m.find k = some v) : (k, v) ∈ m := by
  induction m with
  | nil => simp [ClusterContactMap.find] at h
  | cons e rest ih =>
    obtain ⟨key, vector⟩ := e
    simp only [ClusterContactMap.find] at h
    by_cases hk : key = k
    · rw [if_pos hk] at h
      simp only [Option.some.injEq] at h
      subst hk h
      exact List.mem_cons_self _ _
    · rw [if_neg hk] at h
      exact List.mem_cons_of_mem _ (ih h)

theorem ClusterContactMap.find_of_mem {m : ClusterContactMap} (hwf : m.WF) {k : ClusterPtr}
    {v : ClusterContactVector} (h : (k, v) ∈ m) : m.find k = some v := by
  induction m with
  | nil => simp at h
  | cons e rest ih =>
    obtain ⟨key, vector⟩ := e
    rw [ClusterContactMap.WF_cons] at hwf
    simp only [ClusterContactMap.find]
    rcases List.mem_cons.mp h with heq | hmem
    · simp only [Prod.mk.injEq] at heq
      obtain ⟨h1, h2⟩ := heq
      subst h1 h2
      simp
    · have hlt := hwf.1 (k, v) hmem
      simp only at hlt
      rw [if_neg (Nat.ne_of_lt hlt)]
      exact ih hwf.2 hmem

theorem ClusterContactMap.find_iff_mem {m : ClusterContactMap} (hwf : m.WF) {k : ClusterPtr}
    {v : ClusterContactVector} : m.find k = some v ↔ (k, v) ∈ m :=
  ⟨ClusterContactMap.mem_of_find, ClusterContactMap.find_of_mem hwf⟩

theorem ClusterContactMap.find_none_of_lt {m : ClusterContactMap} {k : ClusterPtr}
    (h : ∀ e ∈ m, k < e.1) : m.find k = none := by
  induction m with
  | nil => rfl
  | cons e rest ih =>
    obtain ⟨key, vector⟩ := e
    simp only [ClusterContactMap.find]
    have hlt := h (key, vector) (List.mem_cons_self _ _)
    simp only at hlt
    rw [if_neg (Nat.ne_of_gt hlt)]
    exact ih (fun e he => h e (List.mem_cons_of_mem _ he))

theorem ClusterContactMap.mem_erase {m : ClusterContactMap} (hwf : m.WF) {k : ClusterPtr}
    {e : ClusterPtr × ClusterContactVector} : e ∈ m.erase k ↔ e ∈ m ∧ e.1 ≠ k := by
  induction m with
  | nil => simp [ClusterContactMap.erase]
  | cons e' rest ih =>
    obtain ⟨key, vector⟩ := e'
    rw [ClusterContactMap.WF_cons] at hwf
    simp only [ClusterContactMap.erase]
    by_cases hk : key = k
    · rw [if_pos hk]
      subst hk
      constructor
      · intro he
        exact ⟨List.mem_cons_of_mem _ he, Nat.ne_of_gt (hwf.1 e he)⟩
      · rintro ⟨he, hne⟩
        rcases List.mem_cons.mp he with heq | hmem
        · subst heq
          exact absurd rfl hne
        · exact hmem
    · rw [if_neg hk]
      simp only [List.mem_cons, ih hwf.2]
      constructor
      · rintro (heq | ⟨hmem, hne⟩)
        · subst heq
          exact ⟨Or.inl rfl, hk⟩
        · exact ⟨Or.inr hmem, hne⟩
      · rintro ⟨heq | hmem, hne⟩
        · exact Or.inl heq
        · exact Or.inr ⟨hmem, hne⟩

theorem ClusterContactMap.WF_erase {m : ClusterContactMap} (hwf : m.WF) (k : ClusterPtr) :
    (m.erase k).WF := by
  induction m with
  | nil => simpa [ClusterContactMap.erase] using hwf
  | cons e' rest ih =>
    obtain ⟨key, vector⟩ := e'
    have hwf' := ClusterContactMap.WF_cons.mp hwf
    simp only [ClusterContactMap.erase]
    by_cases hk : key = k
    · rw [if_pos hk]
      exact hwf'.2
    · rw [if_neg hk]
      rw [ClusterContactMap.WF_cons]
      refine ⟨?_, ih hwf'.2⟩
      intro e he
      exact hwf'.1 e ((ClusterContactMap.mem_erase hwf'.2).mp he).1

theorem ClusterContactMap.find_erase {m : ClusterContactMap} (hwf : m.WF) (k k' : ClusterPtr) :
    (m.erase k).find k' = if k' = k then none else m.find k' := by
  induction m with
  | nil => simp [ClusterContactMap.erase, ClusterContactMap.find]
  | cons e' rest ih =>
    obtain ⟨key, vector⟩ := e'
    have hwf' := ClusterContactMap.WF_cons.mp hwf
    simp only [ClusterContactMap.erase]
    by_cases hk : key = k
    · rw [if_pos hk]
      subst hk
      by_cases hk' : k' = key
      · rw [if_pos hk']
        subst hk'
        exact ClusterContactMap.find_none_of_lt hwf'.1
      · rw [if_neg hk']
        simp only [ClusterContactMap.find]
        rw [if_neg (fun h => hk' h.symm)]
    · rw [if_neg hk]
      simp only [ClusterContactMap.find]
      by_cases hkk : key = k'
      · rw [if_pos hkk, if_pos hkk]
        subst hkk
        rw [if_neg hk]
      · rw [if_neg hkk, if_neg hkk]
        exact ih hwf'.2

theorem ClusterContactMap.mem_pushBack {m : ClusterContactMap} {k : ClusterPtr} {c : ClusterContact}
    {e : ClusterPtr × ClusterContactVector} (he : e ∈ m.pushBack k c) : e ∈ m ∨ e.1 = k := by
  induction m with
  | nil =>
    simp only [ClusterContactMap.pushBack, List.mem_singleton] at he
    subst he
    exact Or.inr rfl
  | cons e' rest ih =>
    obtain ⟨key, vector⟩ := e'
    simp only [ClusterContactMap.pushBack] at he
    by_cases hk : key = k
    · rw [if_pos hk] at he
      rcases List.mem_cons.mp he with heq | hmem
      · subst heq
        exact Or.inr hk
      · exact Or.inl (List.mem_cons_of_mem _ hmem)
    · rw [if_neg hk] at he
      by_cases hlt : k < key
      · rw [if_pos hlt] at he
        rcases List.mem_cons.mp he with heq | hmem
        · subst heq
          exact Or.inr rfl
        · exact Or.inl hmem
      · rw [if_neg hlt] at he
        rcases List.mem_cons.mp he with heq | hmem
        · subst heq
          exact Or.inl (List.mem_cons_self _ _)
        · rcases ih hmem with h | h
          · exact Or.inl (List.mem_cons_of_mem _ h)
          · exact Or.inr h

theorem ClusterContactMap.WF_pushBack {m : ClusterContactMap} (hwf : m.WF) (k : ClusterPtr)
    (c : ClusterContact) : (m.pushBack k c).WF := by
  induction m with
  | nil => simp [ClusterContactMap.pushBack, ClusterContactMap.WF, ClusterContactMap.keys]
  | cons e' rest ih =>
    obtain ⟨key, vector⟩ := e'
    have hwf' := ClusterContactMap.WF_cons.mp hwf
    simp only [ClusterContactMap.pushBack]
    by_cases hk : key = k
    · rw [if_pos hk]
      exact ClusterContactMap.WF_cons.mpr hwf'
    · rw [if_neg hk]
      by_cases hlt : k < key
      · rw [if_pos hlt]
        rw [ClusterContactMap.WF_cons]
        refine ⟨?_, hwf⟩
        intro e he
        rcases List.mem_cons.mp he with heq | hmem
        · subst heq
          exact hlt
        · exact lt_trans hlt (hwf'.1 e hmem)
      · rw [if_neg hlt]
        rw [ClusterContactMap.WF_cons]
        refine ⟨?_, ih hwf'.2⟩
        intro e he
        rcases ClusterContactMap.mem_pushBack he with h | h
        · exact hwf'.1 e h
        · rw [h]
          exact lt_of_le_of_ne (not_lt.mp hlt) hk

theorem ClusterContactMap.find_pushBack {m : ClusterContactMap} (hwf : m.WF) (k k' : ClusterPtr)
    (c : ClusterContact) :
    (m.pushBack k c).find k' =
      if k' = k then some ((m.find k).getD [] ++ [c]) else m.find k' := by
  induction m with
  | nil =>
    simp only [ClusterContactMap.pushBack, ClusterContactMap.find]
    by_cases hk' : k' = k
    · rw [if_pos hk', if_pos hk'.symm]
      simp
    · rw [if_neg hk', if_neg (fun h => hk' h.symm)]
  | cons e' rest ih =>
    obtain ⟨key, vector⟩ := e'
    have hwf' := ClusterContactMap.WF_cons.mp hwf
    simp only [ClusterContactMap.pushBack]
    by_cases hk : key = k
    · rw [if_pos hk]
      subst hk
      by_cases hk' : k' = key
      · subst hk'
        simp [ClusterContactMap.find]
      · have hk'' : ¬ key = k' := fun h => hk' h.symm
        simp [ClusterContactMap.find, hk', hk'']
    · rw [if_neg hk]
      by_cases hlt : k < key
      · rw [if_pos hlt]
        have hnone : ClusterContactMap.find ((key, vector) :: rest) k = none := by
          apply ClusterContactMap.find_none_of_lt
          intro e he
          rcases List.mem_cons.mp he with heq | hmem
          · subst heq
            exact hlt
          · exact lt_trans hlt (hwf'.1 e hmem)
        rw [hnone]
        by_cases hk' : k' = k
        · rw [if_pos hk']
          subst hk'
          simp [ClusterContactMap.find]
        · rw [if_neg hk']
          conv_lhs => rw [ClusterContactMap.find]
          rw [if_neg (fun h => hk' h.symm)]
      · rw [if_neg hlt]
        simp only [ClusterContactMap.find]
        rw [if_neg hk]
        by_cases hkk : key = k'
        · rw [if_pos hkk, if_pos hkk]
          subst hkk
          rw [if_neg hk]
        · rw [if_neg hkk, if_neg hkk]
          exact ih hwf'.2

end MapTheorems

/-! ## The incremental invalidator: the affected set -/

section InvalidatorTheorems

theorem mem_foldl_insert_parents (C : ClusterPtr) (contacts : List ClusterContact)
    (acc : Finset ClusterPtr) :
    C ∈ contacts.foldl (fun acc clusterContact => insert clusterContact.parentCluster acc) acc ↔
      C ∈ acc ∨ ∃ c ∈ contacts, c.parentCluster = C := by
  induction contacts generalizing acc with
  | nil => simp
  | cons c rest ih =>
    simp only [List.foldl_cons, ih, Finset.mem_insert, List.mem_cons, exists_eq_or_imp]
    constructor
    · rintro ((h | h) | h)
      · exact Or.inr (Or.inl h.symm)
      · exact Or.inl h
      · exact Or.inr (Or.inr h)
    · rintro (h | h | h)
      · exact Or.inl (Or.inr h)
      · exact Or.inl (Or.inl h.symm)
      · exact Or.inr h

theorem mem_affectedByParent (P D key C : ClusterPtr) (contacts : List ClusterContact)
    (acc : Finset ClusterPtr) :
    C ∈ affectedByParent P D key contacts acc ↔
      C ∈ acc ∨ (C = key ∧ ∃ c ∈ contacts, c.parentCluster = P ∨ c.parentCluster = D) := by
  induction contacts with
  | nil => simp [affectedByParent]
  | cons c rest ih =>
    simp only [affectedByParent, List.mem_cons, exists_eq_or_imp]
    by_cases hc : c.parentCluster = P ∨ c.parentCluster = D
    · rw [if_pos hc]
      simp only [Finset.mem_insert]
      constructor
      · rintro (h | h)
        · exact Or.inr ⟨h, Or.inl hc⟩
        · exact Or.inl h
      · rintro (h | ⟨h, _⟩)
        · exact Or.inr h
        · exact Or.inl h
    · rw [if_neg hc, ih]
      constructor
      · rintro (h | ⟨h1, h2⟩)
        · exact Or.inl h
        · exact Or.inr ⟨h1, Or.inr h2⟩
      · rintro (h | ⟨h1, h2 | h2⟩)
        · exact Or.inl h
        · exact absurd h2 hc
        · exact Or.inr ⟨h1, h2⟩

theorem mem_foldl_affectedStep (P D C : ClusterPtr) (m : ClusterContactMap)
    (acc : Finset ClusterPtr) :
    C ∈ m.foldl (affectedStep P D) acc ↔
      C ∈ acc ∨ (∃ e ∈ m, e.1 = D ∧ ∃ c ∈ e.2, c.parentCluster = C) ∨
        (∃ e ∈ m, e.1 ≠ D ∧ e.1 = C ∧ ∃ c ∈ e.2, c.parentCluster = P ∨ c.parentCluster = D) := by
  induction m generalizing acc with
  | nil => simp
  | cons e rest ih =>
    simp only [List.foldl_cons, ih, List.mem_cons, exists_eq_or_imp]
    by_cases he : e.1 = D
    · have hs : affectedStep P D acc e =
          e.2.foldl (fun acc clusterContact => insert clusterContact.parentCluster acc) acc := by
        simp [affectedStep, he]
      rw [hs, mem_foldl_insert_parents]
      constructor
      · rintro ((h | h) | h | h)
        · exact Or.inl h
        · exact Or.inr (Or.inl (Or.inl ⟨he, h⟩))
        · exact Or.inr (Or.inl (Or.inr h))
        · exact Or.inr (Or.inr (Or.inr h))
      · rintro (h | (⟨_, h⟩ | h) | (⟨h1, _⟩ | h))
        · exact Or.inl (Or.inl h)
        · exact Or.inl (Or.inr h)
        · exact Or.inr (Or.inl h)
        · exact absurd he h1
        · exact Or.inr (Or.inr h)
    · have hs : affectedStep P D acc e = affectedByParent P D e.1 e.2 acc := by
        simp [affectedStep, he]
      rw [hs, mem_affectedByParent]
      constructor
      · rintro ((h | ⟨h1, h2⟩) | h | h)
        · exact Or.inl h
        · exact Or.inr (Or.inr (Or.inl ⟨he, h1.symm, h2⟩))
        · exact Or.inr (Or.inl (Or.inr h))
        · exact Or.inr (Or.inr (Or.inr h))
      · rintro (h | (⟨h1, _⟩ | h) | (⟨_, h1, h2⟩ | h))
        · exact Or.inl (Or.inl h)
        · exact absurd h1 he
        · exact Or.inr (Or.inl h)
        · exact Or.inl (Or.inr ⟨h1.symm, h2⟩)
        · exact Or.inr (Or.inr h)

/-- C2: for every contact map (strictly ascending keys) that has an entry for the daughter `D`,
every parent `P` and every prior content of the affected set, `GetAffectedClusters` succeeds, and
a cluster `C` is in the affected set afterwards exactly when `C` is the parent of some contact in
the entry of `D`, or `C` differs from `D` and is a key whose entry holds a contact whose parent is
`P` or `D`. -/
theorem C2_affected_clusters_exact (m : ClusterContactMap) (P D : ClusterPtr)
    (prior : Finset ClusterPtr) (entryD : ClusterContactVector) (hwf : m.WF)
    (hD : m.find D = some entryD) :
    ∃ affected, GetAffectedClusters m P D prior = .ok affected ∧
      ∀ C, C ∈ affected ↔
        (∃ c ∈ entryD, c.parentCluster = C) ∨
          (C ≠ D ∧ ∃ entryC, m.find C = some entryC ∧
            ∃ c ∈ entryC, c.parentCluster = P ∨ c.parentCluster = D) := by
  refine ⟨m.foldl (affectedStep P D) ∅, ?_, ?_⟩
  · simp only [GetAffectedClusters, hD]
  · intro C
    rw [mem_foldl_affectedStep]
    simp only [Finset.not_mem_empty, false_or]
    constructor
    · rintro (⟨e, he, h1, h2⟩ | ⟨e, he, h1, h2, h3⟩)
      · left
        obtain ⟨k, v⟩ := e
        simp only at h1 h2
        subst h1
        have := ClusterContactMap.find_of_mem hwf he
        rw [hD] at this
        simp only [Option.some.injEq] at this
        subst this
        exact h2
      · right
        obtain ⟨k, v⟩ := e
        simp only at h1 h2 h3
        subst h2
        exact ⟨h1, v, ClusterContactMap.find_of_mem hwf he, h3⟩
    · rintro (h | ⟨h1, v, h2, h3⟩)
      · exact Or.inl ⟨(D, entryD), ClusterContactMap.mem_of_find hD, rfl, h⟩
      · exact Or.inr ⟨(C, v), ClusterContactMap.mem_of_find h2, h1, rfl, h3⟩

/-- C2 at the example map with parent `1` and daughter `2`: the map is well-formed, has an entry
for `2`, and the affected set is characterised as stated. -/
theorem C2_affected_clusters_exact_witness :
    exampleMap.WF ∧ exampleMap.find 2 = some [exampleContact 2 1] ∧
      ∃ affected, GetAffectedClusters exampleMap 1 2 {9} = .ok affected ∧
        ∀ C, C ∈ affected ↔
          (∃ c ∈ [exampleContact 2 1], c.parentCluster = C) ∨
            (C ≠ 2 ∧ ∃ entryC, exampleMap.find C = some entryC ∧
              ∃ c ∈ entryC, c.parentCluster = 1 ∨ c.parentCluster = 2) :=
  ⟨by decide, rfl, C2_affected_clusters_exact exampleMap 1 2 {9} [exampleContact 2 1] (by decide) rfl⟩

end InvalidatorTheorems

/-! ## The contact graph builder -/

section BuilderTheorems

variable {W : Type}

theorem foldl_parentStep (cfg : Settings) (api : PandoraApi W) (w : W) (d : ClusterPtr)
    (parents : List ClusterPtr) (m : ClusterContactMap) :
    parents.foldl (parentStep cfg api w d) m =
      (contactsOfDaughter cfg api w parents d).foldl (fun m c => m.pushBack d c) m := by
  induction parents generalizing m with
  | nil => rfl
  | cons p rest ih =>
    simp only [List.foldl_cons, contactsOfDaughter, List.filterMap_cons]
    rw [ih]
    by_cases h1 : d = p
    · simp [parentStep, h1, contactsOfDaughter]
    · by_cases h2 : (api.cluster w p).associatedTrackList.isEmpty = true
      · simp [parentStep, h1, h2, contactsOfDaughter]
      · by_cases h3 : PassesClusterContactCuts cfg api w (ClusterContact.create api w d p) = true
        · simp [parentStep, h1, h2, h3, contactsOfDaughter]
        · simp [parentStep, h1, h2, h3, contactsOfDaughter]

theorem foldl_pushBack_spec (d : ClusterPtr) (contacts : List ClusterContact)
    (m : ClusterContactMap) (hwf : m.WF) :
    (contacts.foldl (fun m c => m.pushBack d c) m).WF ∧
      ∀ k, (contacts.foldl (fun m c => m.pushBack d c) m).find k =
        if k = d then appendEntry (m.find d) contacts else m.find k := by
  induction contacts generalizing m with
  | nil =>
    refine ⟨hwf, fun k => ?_⟩
    by_cases hk : k = d
    · simp [appendEntry, hk]
    · simp [hk]
  | cons c rest ih =>
    simp only [List.foldl_cons]
    obtain ⟨h1, h2⟩ := ih (m.pushBack d c) (ClusterContactMap.WF_pushBack hwf d c)
    refine ⟨h1, fun k => ?_⟩
    rw [h2 k]
    by_cases hk : k = d
    · rw [if_pos hk, if_pos hk, ClusterContactMap.find_pushBack hwf, if_pos rfl]
      cases rest with
      | nil => simp [appendEntry]
      | cons c' rest' => simp [appendEntry]
    · rw [if_neg hk, if_neg hk, ClusterContactMap.find_pushBack hwf, if_neg hk]

theorem mem_contactsOfDaughter (cfg : Settings) (api : PandoraApi W) (w : W)
    (parents : List ClusterPtr) (d : ClusterPtr) (c : ClusterContact)
    (hc : c ∈ contactsOfDaughter cfg api w parents d) :
    c.daughterCluster = d ∧ c.parentCluster ∈ parents ∧ c.parentCluster ≠ d ∧
      (api.cluster w c.parentCluster).associatedTrackList ≠ [] ∧
      PassesClusterContactCuts cfg api w c = true ∧
      c = ClusterContact.create api w d c.parentCluster := by
  simp only [contactsOfDaughter, List.mem_filterMap] at hc
  obtain ⟨p, hp, hc⟩ := hc
  by_cases h1 : d = p
  · simp [h1] at hc
  · by_cases h2 : (api.cluster w p).associatedTrackList.isEmpty = true
    · simp [h1, h2] at hc
    · by_cases h3 : PassesClusterContactCuts cfg api w (ClusterContact.create api w d p) = true
      · have h2' : (api.cluster w p).associatedTrackList.isEmpty = false := by simpa using h2
        rw [if_neg h1, h2', if_neg (by simp), if_pos h3] at hc
        simp only [Option.some.injEq] at hc
        subst hc
        refine ⟨rfl, hp, fun h => h1 h.symm, ?_, h3, rfl⟩
        intro hnil
        apply h2
        simp only [ClusterContact.create] at hnil
        simp [hnil]
      · simp [h1, h2, h3] at hc

theorem daughterStep_spec (cfg : Settings) (api : PandoraApi W) (w : W) (pClusterList : List ClusterPtr)
    (isFirstPass : Bool) (affectedClusters : Finset ClusterPtr) (m : ClusterContactMap)
    (hwf : m.WF) (d : ClusterPtr) :
    (daughterStep cfg api w pClusterList isFirstPass affectedClusters m d).WF ∧
      ∀ k, (daughterStep cfg api w pClusterList isFirstPass affectedClusters m d).find k =
        if k = d then
          rebuiltEntry cfg api w pClusterList isFirstPass affectedClusters (m.find d) d
        else m.find k := by
  by_cases hskip : (!isFirstPass) = true ∧ d ∉ affectedClusters
  · have hs : daughterStep cfg api w pClusterList isFirstPass affectedClusters m d = m := by
      simp only [daughterStep]
      rw [if_pos hskip]
    rw [hs]
    refine ⟨hwf, fun k => ?_⟩
    by_cases hk : k = d
    · subst hk
      simp only [rebuiltEntry, if_true]
      rw [if_pos hskip]
    · rw [if_neg hk]
  · -- the map after the optional erase
    obtain ⟨m1, hm1, hwf1, hfind1⟩ : ∃ m1 : ClusterContactMap,
        (if (!isFirstPass) = true then
          (match m.find d with
            | some _ => m.erase d
            | none => m)
          else m) = m1 ∧ m1.WF ∧
          ∀ k, m1.find k = if k = d then (if isFirstPass = true then m.find d else none)
            else m.find k := by
      refine ⟨_, rfl, ?_, ?_⟩
      · by_cases hfp : (!isFirstPass) = true
        · rw [if_pos hfp]
          cases hf : m.find d with
          | none => exact hwf
          | some v => exact ClusterContactMap.WF_erase hwf d
        · rw [if_neg hfp]
          exact hwf
      · intro k
        by_cases hfp : (!isFirstPass) = true
        · have hfp' : ¬ isFirstPass = true := by simpa using hfp
          rw [if_pos hfp, if_neg hfp']
          cases hf : m.find d with
          | none =>
            by_cases hk : k = d
            · subst hk
              simp [hf]
            · simp [hk]
          | some v =>
            rw [ClusterContactMap.find_erase hwf]
        · have hfp' : isFirstPass = true := by simpa using hfp
          rw [if_neg hfp, if_pos hfp']
          by_cases hk : k = d
          · rw [if_pos hk, hk]
          · rw [if_neg hk]
    by_cases hadm : admissibleDaughter cfg api w d = true
    · have hs : daughterStep cfg api w pClusterList isFirstPass affectedClusters m d =
          (contactsOfDaughter cfg api w pClusterList d).foldl (fun m c => m.pushBack d c) m1 := by
        simp only [daughterStep]
        rw [if_neg hskip, ← foldl_parentStep, ← hm1]
        simp only [admissibleDaughter, Bool.and_eq_true, Bool.not_eq_true', decide_eq_false_iff_not]
          at hadm
        obtain ⟨ht, hcut⟩ := hadm
        simp only [ht, Bool.not_true, Bool.false_eq_true, if_false]
        rw [if_neg hcut]
      rw [hs]
      obtain ⟨h1, h2⟩ := foldl_pushBack_spec d (contactsOfDaughter cfg api w pClusterList d) m1 hwf1
      refine ⟨h1, fun k => ?_⟩
      rw [h2 k]
      by_cases hk : k = d
      · subst hk
        simp only [if_true]
        rw [hfind1 k, if_pos rfl]
        simp only [rebuiltEntry]
        rw [if_neg hskip, if_pos hadm]
      · rw [if_neg hk, if_neg hk, hfind1 k, if_neg hk]
    · have hs : daughterStep cfg api w pClusterList isFirstPass affectedClusters m d = m1 := by
        simp only [daughterStep]
        rw [if_neg hskip, ← hm1]
        simp only [admissibleDaughter, Bool.and_eq_true, Bool.not_eq_true', decide_eq_false_iff_not,
          not_and, not_not] at hadm
        by_cases ht : (api.cluster w d).associatedTrackList.isEmpty = true
        · have hcut := hadm ht
          simp only [ht, Bool.not_true, Bool.false_eq_true, if_false]
          rw [if_pos hcut]
        · have ht' : (!(api.cluster w d).associatedTrackList.isEmpty) = true := by simpa using ht
          rw [if_pos ht']
      rw [hs]
      refine ⟨hwf1, fun k => ?_⟩
      rw [hfind1 k]
      by_cases hk : k = d
      · subst hk
        simp only [if_true]
        simp only [rebuiltEntry]
        rw [if_neg hskip, if_neg hadm]
        rfl
      · rw [if_neg hk, if_neg hk]

theorem foldl_daughterStep_spec (cfg : Settings) (api : PandoraApi W) (w : W)
    (pClusterList : List ClusterPtr) (isFirstPass : Bool) (affectedClusters : Finset ClusterPtr)
    (daughters : List ClusterPtr) (hnodup : daughters.Nodup) (m : ClusterContactMap) (hwf : m.WF) :
    (daughters.foldl (daughterStep cfg api w pClusterList isFirstPass affectedClusters) m).WF ∧
      ∀ k, (daughters.foldl (daughterStep cfg api w pClusterList isFirstPass affectedClusters) m).find k =
        if k ∈ daughters then
          rebuiltEntry cfg api w pClusterList isFirstPass affectedClusters (m.find k) k
        else m.find k := by
  induction daughters generalizing m with
  | nil => exact ⟨hwf, fun k => by simp⟩
  | cons d rest ih =>
    simp only [List.foldl_cons]
    obtain ⟨hd, hrest⟩ := List.nodup_cons.mp hnodup
    obtain ⟨hwf1, hfind1⟩ := daughterStep_spec cfg api w pClusterList isFirstPass affectedClusters m hwf d
    obtain ⟨h1, h2⟩ := ih hrest _ hwf1
    refine ⟨h1, fun k => ?_⟩
    rw [h2 k, hfind1 k]
    by_cases hk : k = d
    · subst hk
      simp [hd]
    · simp [hk]

/-- The closed form of a pass of `GetClusterContactMap` over a duplicate-free cluster list: the
pass succeeds, leaves `isFirstPass` false, keeps the keys strictly ascending, rebuilds the entry of
every cluster of the list and leaves every other entry as it was. -/
theorem GetClusterContactMap_spec (cfg : Settings) (api : PandoraApi W) (w : W) (isFirstPass : Bool)
    (affectedClusters : Finset ClusterPtr) (m : ClusterContactMap) (pClusterList : List ClusterPtr)
    (hwf : m.WF) (hlist : api.GetCurrentClusterList w = .ok pClusterList)
    (hnodup : pClusterList.Nodup) :
    ∃ m', GetClusterContactMap cfg api w isFirstPass affectedClusters m = .ok (false, m') ∧ m'.WF ∧
      ∀ k, m'.find k =
        if k ∈ pClusterList then
          rebuiltEntry cfg api w pClusterList isFirstPass affectedClusters (m.find k) k
        else m.find k := by
  obtain ⟨h1, h2⟩ := foldl_daughterStep_spec cfg api w pClusterList isFirstPass affectedClusters
    pClusterList hnodup m hwf
  refine ⟨_, ?_, h1, h2⟩
  simp only [GetClusterContactMap, hlist]

/-- C3: after a pass of `GetClusterContactMap` (a first pass or a later one) over a
duplicate-free cluster list, every entry of the map is the part retained from before the pass (the
former entry on a first pass and for a key that is not an affected cluster of the list, nothing
otherwise) followed by the contacts added by the pass, and every added contact is for a pair whose
daughter is the key and has an empty associated-track list, whose parent has a non-empty
associated-track list, and whose daughter and parent are different clusters. -/
theorem C3_contacts_trackless_daughter_tracked_parent (cfg : Settings) (api : PandoraApi W) (w : W)
    (isFirstPass : Bool) (affectedClusters : Finset ClusterPtr) (m : ClusterContactMap)
    (pClusterList : List ClusterPtr) (hwf : m.WF)
    (hlist : api.GetCurrentClusterList w = .ok pClusterList) (hnodup : pClusterList.Nodup) :
    ∃ m', GetClusterContactMap cfg api w isFirstPass affectedClusters m = .ok (false, m') ∧
      ∀ k v, m'.find k = some v →
        ∃ added,
          v = (if isFirstPass = true ∨ k ∉ affectedClusters ∨ k ∉ pClusterList then
              (m.find k).getD [] else []) ++ added ∧
          ∀ c ∈ added,
            c.daughterCluster = k ∧
            (api.cluster w c.daughterCluster).associatedTrackList = [] ∧
            (api.cluster w c.parentCluster).associatedTrackList ≠ [] ∧
            c.daughterCluster ≠ c.parentCluster := by
  obtain ⟨m', hrun, _, hfind⟩ := GetClusterContactMap_spec cfg api w isFirstPass affectedClusters m
    pClusterList hwf hlist hnodup
  refine ⟨m', hrun, fun k v hv => ?_⟩
  rw [hfind k] at hv
  by_cases hk : k ∈ pClusterList
  · rw [if_pos hk] at hv
    simp only [rebuiltEntry] at hv
    by_cases hskip : (!isFirstPass) = true ∧ k ∉ affectedClusters
    · rw [if_pos hskip] at hv
      refine ⟨[], ?_, by simp⟩
      rw [if_pos (Or.inr (Or.inl hskip.2)), hv]
      simp
    · rw [if_neg hskip] at hv
      have hkept : (if isFirstPass = true ∨ k ∉ affectedClusters ∨ k ∉ pClusterList then
          (m.find k).getD [] else []) =
          (if isFirstPass = true then m.find k else none).getD [] := by
        by_cases hfp : isFirstPass = true
        · rw [if_pos (Or.inl hfp), if_pos hfp]
        · have hin : k ∈ affectedClusters := by
            by_contra hout
            exact hskip ⟨by simpa using hfp, hout⟩
          rw [if_neg hfp, if_neg (by
            rintro (h | h | h)
            · exact hfp h
            · exact h hin
            · exact h hk)]
          rfl
      rw [hkept]
      by_cases hadm : admissibleDaughter cfg api w k = true
      · rw [if_pos hadm] at hv
        have hgood : ∀ c ∈ contactsOfDaughter cfg api w pClusterList k,
            c.daughterCluster = k ∧
            (api.cluster w c.daughterCluster).associatedTrackList = [] ∧
            (api.cluster w c.parentCluster).associatedTrackList ≠ [] ∧
            c.daughterCluster ≠ c.parentCluster := by
          intro c hc
          obtain ⟨h1, _, h3, h4, _, _⟩ := mem_contactsOfDaughter cfg api w pClusterList k c hc
          refine ⟨h1, ?_, h4, ?_⟩
          · rw [h1]
            simp only [admissibleDaughter, Bool.and_eq_true] at hadm
            simpa using hadm.1
          · rw [h1]
            exact fun h => h3 h.symm
        cases hcs : contactsOfDaughter cfg api w pClusterList k with
        | nil =>
          rw [hcs] at hv
          simp only [appendEntry] at hv
          refine ⟨[], ?_, by simp⟩
          rw [hv]
          simp
        | cons c rest =>
          rw [hcs] at hv hgood
          simp only [appendEntry, Option.some.injEq] at hv
          exact ⟨c :: rest, hv.symm, hgood⟩
      · rw [if_neg hadm] at hv
        simp only [appendEntry] at hv
        refine ⟨[], ?_, by simp⟩
        rw [hv]
        simp
  · rw [if_neg hk] at hv
    refine ⟨[], ?_, by simp⟩
    rw [if_pos (Or.inr (Or.inr hk)), hv]
    simp

/-- C3 at the example state with clusters `1`, `2`, `3`, on a first pass from the empty map. -/
theorem C3_contacts_trackless_daughter_tracked_parent_witness :
    ClusterContactMap.WF [] ∧ exampleApi.GetCurrentClusterList [1, 2, 3] = .ok [1, 2, 3] ∧
      [1, 2, 3].Nodup ∧
      ∃ m', GetClusterContactMap defaultSettings exampleApi [1, 2, 3] true ∅ [] = .ok (false, m') ∧
        ∀ k v, m'.find k = some v →
          ∃ added,
            v = (if true = true ∨ k ∉ (∅ : Finset ClusterPtr) ∨ k ∉ [1, 2, 3] then
                (ClusterContactMap.find [] k).getD [] else []) ++ added ∧
            ∀ c ∈ added,
              c.daughterCluster = k ∧
              (exampleApi.cluster [1, 2, 3] c.daughterCluster).associatedTrackList = [] ∧
              (exampleApi.cluster [1, 2, 3] c.parentCluster).associatedTrackList ≠ [] ∧
              c.daughterCluster ≠ c.parentCluster :=
  ⟨by decide, rfl, by decide,
    C3_contacts_trackless_daughter_tracked_parent defaultSettings exampleApi [1, 2, 3] true ∅ []
      [1, 2, 3] (by decide) rfl (by decide)⟩

/-- C10: on every pass of `GetClusterContactMap` over a duplicate-free cluster list, a cluster
that has an associated track, or whose calo-hit count is below `m_minDaughterCaloHits`, or whose
hadronic energy is below `m_minDaughterHadronicEnergy`, gets no contact added under its key: its
entry after the pass is its entry before the pass, except that a later pass that reconsiders it
(the cluster is in the list and in the affected set) discards the entry. So the map holds no entry
for it after a later pass that reconsiders it, and after any pass when it had none before, as on
the first pass of `Run`. -/
theorem C10_inadmissible_daughter_gets_no_contact (cfg : Settings) (api : PandoraApi W) (w : W)
    (isFirstPass : Bool) (affectedClusters : Finset ClusterPtr) (m : ClusterContactMap)
    (pClusterList : List ClusterPtr) (d : ClusterPtr) (hwf : m.WF)
    (hlist : api.GetCurrentClusterList w = .ok pClusterList) (hnodup : pClusterList.Nodup)
    (hcut : (api.cluster w d).associatedTrackList ≠ [] ∨
      (api.cluster w d).nCaloHits < cfg.m_minDaughterCaloHits ∨
      (api.cluster w d).hadronicEnergy < cfg.m_minDaughterHadronicEnergy) :
    ∃ m', GetClusterContactMap cfg api w isFirstPass affectedClusters m = .ok (false, m') ∧
      m'.find d =
        (if isFirstPass = false ∧ d ∈ affectedClusters ∧ d ∈ pClusterList then none
          else m.find d) ∧
      (isFirstPass = false ∧ d ∈ affectedClusters ∧ d ∈ pClusterList → m'.find d = none) ∧
      (m.find d = none → m'.find d = none) := by
  obtain ⟨m', hrun, _, hfind⟩ := GetClusterContactMap_spec cfg api w isFirstPass affectedClusters m
    pClusterList hwf hlist hnodup
  have hadm : ¬ admissibleDaughter cfg api w d = true := by
    simp only [admissibleDaughter, Bool.and_eq_true, Bool.not_eq_true', decide_eq_false_iff_not,
      not_and, not_not]
    intro ht
    rcases hcut with h | h | h
    · exfalso
      apply h
      simpa using ht
    · exact Or.inl h
    · exact Or.inr h
  have key : m'.find d =
      (if isFirstPass = false ∧ d ∈ affectedClusters ∧ d ∈ pClusterList then none
        else m.find d) := by
    rw [hfind d]
    by_cases hk : d ∈ pClusterList
    · rw [if_pos hk]
      simp only [rebuiltEntry]
      rw [if_neg hadm]
      by_cases hfp : isFirstPass = true
      · subst hfp
        simp [appendEntry]
      · have hfp' : isFirstPass = false := by simpa using hfp
        subst hfp'
        by_cases hin : d ∈ affectedClusters
        · simp [appendEntry, hin, hk]
        · simp [hin]
    · rw [if_neg hk, if_neg (fun h => hk h.2.2)]
  refine ⟨m', hrun, key, ?_, ?_⟩
  · intro h
    rw [key, if_pos h]
  · intro h
    rw [key, h]
    simp

/-- C10 at the example state: cluster `3` has three hits against the default threshold five, and
a later pass that reconsiders it leaves no entry for it. -/
theorem C10_inadmissible_daughter_gets_no_contact_witness :
    exampleMap.WF ∧ exampleApi.GetCurrentClusterList [1, 2, 3] = .ok [1, 2, 3] ∧ [1, 2, 3].Nodup ∧
      ((exampleApi.cluster [1, 2, 3] 3).associatedTrackList ≠ [] ∨
        (exampleApi.cluster [1, 2, 3] 3).nCaloHits < defaultSettings.m_minDaughterCaloHits ∨
        (exampleApi.cluster [1, 2, 3] 3).hadronicEnergy <
          defaultSettings.m_minDaughterHadronicEnergy) ∧
      ∃ m', GetClusterContactMap defaultSettings exampleApi [1, 2, 3] false {3} exampleMap =
          .ok (false, m') ∧
        m'.find 3 =
          (if false = false ∧ 3 ∈ ({3} : Finset ClusterPtr) ∧ 3 ∈ [1, 2, 3] then none
            else exampleMap.find 3) ∧
        (false = false ∧ 3 ∈ ({3} : Finset ClusterPtr) ∧ 3 ∈ [1, 2, 3] → m'.find 3 = none) ∧
        (exampleMap.find 3 = none → m'.find 3 = none) :=
  ⟨by decide, rfl, by decide, Or.inr (Or.inl (by decide)),
    C10_inadmissible_daughter_gets_no_contact defaultSettings exampleApi [1, 2, 3] false {3}
      exampleMap [1, 2, 3] 3 (by decide) rfl (by decide) (Or.inr (Or.inl (by decide)))⟩

theorem contactsOfDaughter_eq_filter (cfg : Settings) (api : PandoraApi W) (w : W)
    (parents : List ClusterPtr) (d : ClusterPtr) :
    contactsOfDaughter cfg api w parents d =
      (((parents.filter fun p => decide (p ≠ d) && !(api.cluster w p).associatedTrackList.isEmpty).map
        (ClusterContact.create api w d)).filter (PassesClusterContactCuts cfg api w)) := by
  induction parents with
  | nil => rfl
  | cons p rest ih =>
    have hstep : contactsOfDaughter cfg api w (p :: rest) d =
        (if d = p then []
          else if (api.cluster w p).associatedTrackList.isEmpty = true then []
          else if PassesClusterContactCuts cfg api w (ClusterContact.create api w d p) = true then
            [ClusterContact.create api w d p]
          else []) ++ contactsOfDaughter cfg api w rest d := by
      simp only [contactsOfDaughter, List.filterMap_cons]
      split_ifs <;> rfl
    rw [hstep, ih]
    by_cases h1 : d = p
    · subst h1
      simp
    · have h1' : p ≠ d := fun h => h1 h.symm
      by_cases h2 : (api.cluster w p).associatedTrackList.isEmpty = true
      · simp [h1, h1', h2]
      · by_cases h3 : PassesClusterContactCuts cfg api w (ClusterContact.create api w d p) = true
        · simp [h1, h1', h2, h3]
        · simp [h1, h1', h2, h3]

theorem rebuiltEntry_unaffected (cfg : Settings) (api : PandoraApi W) (w : W)
    (pClusterList : List ClusterPtr) (affectedClusters : Finset ClusterPtr)
    (former : Option ClusterContactVector) (k : ClusterPtr) (hk : k ∉ affectedClusters) :
    rebuiltEntry cfg api w pClusterList false affectedClusters former k = former := by
  simp [rebuiltEntry, hk]

theorem rebuiltEntry_affected (cfg : Settings) (api : PandoraApi W) (w : W)
    (pClusterList : List ClusterPtr) (affectedClusters : Finset ClusterPtr)
    (former : Option ClusterContactVector) (k : ClusterPtr) (hk : k ∈ affectedClusters) :
    rebuiltEntry cfg api w pClusterList false affectedClusters former k =
      appendEntry none
        (if admissibleDaughter cfg api w k = true then
          contactsOfDaughter cfg api w pClusterList k
        else []) := by
  simp [rebuiltEntry, hk]

/-- C13: on a pass of `GetClusterContactMap` that is not the first pass, over a duplicate-free
cluster list, the entry of every key that is not in the affected set is left unchanged; and for
every cluster of the list that is in the affected set the old entry is discarded: the cluster has
an entry afterwards only if it passes the daughter cuts and some contact is built, and that entry
is exactly the list of the contacts with the other clusters of the list that have a track and
whose contact passes `PassesClusterContactCuts`, in cluster-list order. -/
theorem C13_later_pass_rebuilds_affected_only (cfg : Settings) (api : PandoraApi W) (w : W)
    (affectedClusters : Finset ClusterPtr) (m : ClusterContactMap) (pClusterList : List ClusterPtr)
    (hwf : m.WF) (hlist : api.GetCurrentClusterList w = .ok pClusterList)
    (hnodup : pClusterList.Nodup) :
    ∃ m', GetClusterContactMap cfg api w false affectedClusters m = .ok (false, m') ∧
      (∀ k, k ∉ affectedClusters → m'.find k = m.find k) ∧
      (∀ k, k ∈ pClusterList → k ∈ affectedClusters →
        m'.find k =
          if (api.cluster w k).associatedTrackList = [] ∧
              ¬ ((api.cluster w k).nCaloHits < cfg.m_minDaughterCaloHits ∨
                (api.cluster w k).hadronicEnergy < cfg.m_minDaughterHadronicEnergy) ∧
              (((pClusterList.filter fun p =>
                  decide (p ≠ k) && !(api.cluster w p).associatedTrackList.isEmpty).map
                (ClusterContact.create api w k)).filter (PassesClusterContactCuts cfg api w)) ≠ []
          then
            some (((pClusterList.filter fun p =>
                  decide (p ≠ k) && !(api.cluster w p).associatedTrackList.isEmpty).map
                (ClusterContact.create api w k)).filter (PassesClusterContactCuts cfg api w))
          else none) := by
  obtain ⟨m', hrun, _, hfind⟩ := GetClusterContactMap_spec cfg api w false affectedClusters m
    pClusterList hwf hlist hnodup
  refine ⟨m', hrun, fun k hk => ?_, fun k hk hin => ?_⟩
  · rw [hfind k]
    by_cases hkl : k ∈ pClusterList
    · rw [if_pos hkl, rebuiltEntry_unaffected cfg api w pClusterList affectedClusters _ k hk]
    · rw [if_neg hkl]
  · rw [hfind k, if_pos hk, rebuiltEntry_affected cfg api w pClusterList affectedClusters _ k hin,
      ← contactsOfDaughter_eq_filter]
    by_cases hadm : admissibleDaughter cfg api w k = true
    · rw [if_pos hadm]
      have hadm' := hadm
      simp only [admissibleDaughter, Bool.and_eq_true, Bool.not_eq_true', decide_eq_false_iff_not]
        at hadm'
      have ht : (api.cluster w k).associatedTrackList = [] := by simpa using hadm'.1
      cases hcs : contactsOfDaughter cfg api w pClusterList k with
      | nil =>
        rw [if_neg (fun h => h.2.2 rfl)]
        rfl
      | cons c rest =>
        rw [if_pos ⟨ht, hadm'.2, by simp⟩]
        rfl
    · rw [if_neg hadm]
      have hneg : ¬ ((api.cluster w k).associatedTrackList = [] ∧
          ¬ ((api.cluster w k).nCaloHits < cfg.m_minDaughterCaloHits ∨
            (api.cluster w k).hadronicEnergy < cfg.m_minDaughterHadronicEnergy) ∧
          contactsOfDaughter cfg api w pClusterList k ≠ []) := by
        rintro ⟨h1, h2, _⟩
        apply hadm
        simp only [admissibleDaughter, Bool.and_eq_true, Bool.not_eq_true',
          decide_eq_false_iff_not]
        exact ⟨by simp [h1], h2⟩
      rw [if_neg hneg]
      rfl

/-- C13 at the example state with clusters `1`, `2`, `3`, the example map and the affected set
`{2, 3}`. -/
theorem C13_later_pass_rebuilds_affected_only_witness :
    exampleMap.WF ∧ exampleApi.GetCurrentClusterList [1, 2, 3] = .ok [1, 2, 3] ∧ [1, 2, 3].Nodup ∧
      ∃ m', GetClusterContactMap defaultSettings exampleApi [1, 2, 3] false {2, 3} exampleMap =
          .ok (false, m') ∧
        (∀ k, k ∉ ({2, 3} : Finset ClusterPtr) → m'.find k = exampleMap.find k) ∧
        (∀ k, k ∈ [1, 2, 3] → k ∈ ({2, 3} : Finset ClusterPtr) →
          m'.find k =
            if (exampleApi.cluster [1, 2, 3] k).associatedTrackList = [] ∧
                ¬ ((exampleApi.cluster [1, 2, 3] k).nCaloHits <
                    defaultSettings.m_minDaughterCaloHits ∨
                  (exampleApi.cluster [1, 2, 3] k).hadronicEnergy <
                    defaultSettings.m_minDaughterHadronicEnergy) ∧
                ((([1, 2, 3].filter fun p =>
                    decide (p ≠ k) &&
                      !(exampleApi.cluster [1, 2, 3] p).associatedTrackList.isEmpty).map
                  (ClusterContact.create exampleApi [1, 2, 3] k)).filter
                    (PassesClusterContactCuts defaultSettings exampleApi [1, 2, 3])) ≠ []
            then
              some ((([1, 2, 3].filter fun p =>
                    decide (p ≠ k) &&
                      !(exampleApi.cluster [1, 2, 3] p).associatedTrackList.isEmpty).map
                  (ClusterContact.create exampleApi [1, 2, 3] k)).filter
                    (PassesClusterContactCuts defaultSettings exampleApi [1, 2, 3]))
            else none) :=
  ⟨by decide, rfl, by decide,
    C13_later_pass_rebuilds_affected_only defaultSettings exampleApi [1, 2, 3] {2, 3} exampleMap
      [1, 2, 3] (by decide) rfl (by decide)⟩

end BuilderTheorems

/-! ## The merge selector -/

section SelectorTheorems

variable {W : Type}

theorem CacheFrom.refl (api : PandoraApi W) (w : W) (start : List CartesianVector) :
    CacheFrom api w start start := Or.inl rfl

/-- The count of compatible muon hits and the cache afterwards do not depend on whether the cache
was filled before the call or is filled by it. -/
theorem GetNCompatibleMuonHits_cacheFrom (api : PandoraApi W) (w : W)
    (start current : List CartesianVector) (h : CacheFrom api w start current) (p : ClusterPtr) :
    GetNCompatibleMuonHits api w current p = GetNCompatibleMuonHits api w start p ∧
      CacheFrom api w start (GetNCompatibleMuonHits api w start p).2 := by
  have hstart : CacheFrom api w start (GetNCompatibleMuonHits api w start p).2 := by
    simp only [GetNCompatibleMuonHits]
    cases start with
    | nil =>
      cases hm : api.muonHitDirections w with
      | error e => exact Or.inl (by simp)
      | ok dirs => exact Or.inr ⟨rfl, by simp [hm]⟩
    | cons d rest => exact Or.inl (by simp)
  refine ⟨?_, hstart⟩
  rcases h with h | ⟨h1, h2⟩
  · rw [h]
  · subst h1
    cases current with
    | nil => rfl
    | cons d rest => simp [GetNCompatibleMuonHits, h2]

theorem leavingCorrection_cacheFrom (cfg : Settings) (api : PandoraApi W) (w : W)
    (start current : List CartesianVector) (h : CacheFrom api w start current)
    (clusterContact : ClusterContact) :
    (leavingCorrection cfg api w current clusterContact).1 =
        (leavingCorrection cfg api w start clusterContact).1 ∧
      CacheFrom api w start (leavingCorrection cfg api w current clusterContact).2 := by
  obtain ⟨h1, h2⟩ := GetNCompatibleMuonHits_cacheFrom api w start current h clusterContact.parentCluster
  refine ⟨?_, ?_⟩
  · simp only [leavingCorrection, h1]
    split_ifs <;> rfl
  · simp only [leavingCorrection, h1]
    split_ifs <;> first | exact h2 | exact h

theorem GetRequiredEvidenceForMerge_cacheFrom (cfg : Settings) (api : PandoraApi W) (w : W)
    (start current : List CartesianVector) (h : CacheFrom api w start current)
    (pDaughterCluster : ClusterPtr) (clusterContact : ClusterContact) (correctionLayer : PseudoLayer)
    (globalDeltaChi2 : ℚ) :
    (GetRequiredEvidenceForMerge cfg api w current pDaughterCluster clusterContact correctionLayer
        globalDeltaChi2).1 =
      (GetRequiredEvidenceForMerge cfg api w start pDaughterCluster clusterContact correctionLayer
        globalDeltaChi2).1 ∧
    CacheFrom api w start
      (GetRequiredEvidenceForMerge cfg api w current pDaughterCluster clusterContact correctionLayer
        globalDeltaChi2).2 := by
  obtain ⟨h1, h2⟩ := leavingCorrection_cacheFrom cfg api w start current h clusterContact
  simp only [GetRequiredEvidenceForMerge, requiredEvidenceSum, h1]
  exact ⟨trivial, h2⟩

/-- What the inner loop of the selector does to the running best candidate. -/
theorem selectContacts_spec (cfg : Settings) (api : PandoraApi W) (w : W)
    (start : List CartesianVector) (D : ClusterPtr) (layer : PseudoLayer) (globalDeltaChi2 : ℚ)
    (contacts : List ClusterContact) (st st' : SelectorState)
    (hcache : CacheFrom api w start st.m_muonDirectionVector)
    (hrun : selectContacts cfg api w D layer globalDeltaChi2 contacts st = .ok st') :
    CacheFrom api w start st'.m_muonDirectionVector ∧
    st.highestExcessEvidence ≤ st'.highestExcessEvidence ∧
    (∀ c ∈ contacts, GetTotalEvidenceForMerge cfg api w c -
        (GetRequiredEvidenceForMerge cfg api w start D c layer globalDeltaChi2).1 ≤
      st'.highestExcessEvidence) ∧
    ((st'.highestExcessEvidence = st.highestExcessEvidence ∧
        st'.pBestParentCluster = st.pBestParentCluster ∧
        st'.pBestDaughterCluster = st.pBestDaughterCluster) ∨
      ∃ c ∈ contacts,
        st'.highestExcessEvidence = GetTotalEvidenceForMerge cfg api w c -
          (GetRequiredEvidenceForMerge cfg api w start D c layer globalDeltaChi2).1 ∧
        st.highestExcessEvidence < st'.highestExcessEvidence ∧
        st'.pBestParentCluster = some c.parentCluster ∧
        st'.pBestDaughterCluster = some D) := by
  induction contacts generalizing st with
  | nil =>
    simp only [selectContacts, Except.ok.injEq] at hrun
    subst hrun
    exact ⟨hcache, le_refl _, by simp, Or.inl ⟨rfl, rfl, rfl⟩⟩
  | cons c rest ih =>
    simp only [selectContacts] at hrun
    by_cases hd : D ≠ c.daughterCluster
    · rw [if_pos hd] at hrun
      cases hrun
    · rw [if_neg hd] at hrun
      obtain ⟨hval, hcache'⟩ := GetRequiredEvidenceForMerge_cacheFrom cfg api w start
        st.m_muonDirectionVector hcache D c layer globalDeltaChi2
      rw [hval] at hrun
      by_cases hgt : GetTotalEvidenceForMerge cfg api w c -
          (GetRequiredEvidenceForMerge cfg api w start D c layer globalDeltaChi2).1 >
          st.highestExcessEvidence
      · rw [if_pos hgt] at hrun
        obtain ⟨h1, h2, h3, h4⟩ := ih _ hcache' hrun
        simp only at h2 h4
        refine ⟨h1, le_trans (le_of_lt hgt) h2, ?_, ?_⟩
        · intro c' hc'
          rcases List.mem_cons.mp hc' with heq | hmem
          · subst heq
            exact h2
          · exact h3 c' hmem
        · right
          rcases h4 with ⟨e1, e2, e3⟩ | ⟨c', hc', e1, e2, e3, e4⟩
          · exact ⟨c, List.mem_cons_self _ _, e1, by rw [e1]; exact hgt, e2, e3⟩
          · exact ⟨c', List.mem_cons_of_mem _ hc', e1, lt_trans hgt e2, e3, e4⟩
      · rw [if_neg hgt] at hrun
        obtain ⟨h1, h2, h3, h4⟩ := ih _ hcache' hrun
        simp only at h2 h4
        refine ⟨h1, h2, ?_, ?_⟩
        · intro c' hc'
          rcases List.mem_cons.mp hc' with heq | hmem
          · subst heq
            exact le_trans (not_lt.mp hgt) h2
          · exact h3 c' hmem
        · rcases h4 with h4 | ⟨c', hc', e1, e2, e3, e4⟩
          · exact Or.inl h4
          · exact Or.inr ⟨c', List.mem_cons_of_mem _ hc', e1, e2, e3, e4⟩

/-- The inner loop of the selector returns normally when every contact's daughter is the key. -/
theorem selectContacts_ok (cfg : Settings) (api : PandoraApi W) (w : W) (D : ClusterPtr)
    (layer : PseudoLayer) (globalDeltaChi2 : ℚ) (contacts : List ClusterContact)
    (st : SelectorState) (hkey : ∀ c ∈ contacts, c.daughterCluster = D) :
    ∃ st', selectContacts cfg api w D layer globalDeltaChi2 contacts st = .ok st' := by
  induction contacts generalizing st with
  | nil => exact ⟨st, rfl⟩
  | cons c rest ih =>
    simp only [selectContacts]
    rw [if_neg (by simp [hkey c (List.mem_cons_self _ _)])]
    exact ih _ (fun c' hc' => hkey c' (List.mem_cons_of_mem _ hc'))

/-- What the outer loop of the selector does to the running best candidate. -/
theorem selectEntries_spec (cfg : Settings) (api : PandoraApi W) (w : W)
    (start : List CartesianVector) (m : ClusterContactMap) (st st' : SelectorState)
    (hcache : CacheFrom api w start st.m_muonDirectionVector)
    (hrun : selectEntries cfg api w m st = .ok st') :
    CacheFrom api w start st'.m_muonDirectionVector ∧
    st.highestExcessEvidence ≤ st'.highestExcessEvidence ∧
    (∀ e ∈ m, (PassesPreselection cfg api w e.1 e.2).1 = true →
      ∀ c ∈ e.2, excessEvidence cfg api w start e.1 e.2 c ≤ st'.highestExcessEvidence) ∧
    ((st'.highestExcessEvidence = st.highestExcessEvidence ∧
        st'.pBestParentCluster = st.pBestParentCluster ∧
        st'.pBestDaughterCluster = st.pBestDaughterCluster) ∨
      ∃ e ∈ m, (PassesPreselection cfg api w e.1 e.2).1 = true ∧ ∃ c ∈ e.2,
        st'.highestExcessEvidence = excessEvidence cfg api w start e.1 e.2 c ∧
        st.highestExcessEvidence < st'.highestExcessEvidence ∧
        st'.pBestParentCluster = some c.parentCluster ∧
        st'.pBestDaughterCluster = some e.1) := by
  induction m generalizing st with
  | nil =>
    simp only [selectEntries, Except.ok.injEq] at hrun
    subst hrun
    exact ⟨hcache, le_refl _, by simp, Or.inl ⟨rfl, rfl, rfl⟩⟩
  | cons e rest ih =>
    obtain ⟨D, entry⟩ := e
    simp only [selectEntries] at hrun
    by_cases hpre : (PassesPreselection cfg api w D entry).1 = true
    · simp only [hpre, Bool.not_true, Bool.false_eq_true, if_false] at hrun
      cases hsel : selectContacts cfg api w D (GetClusterCorrectionLayer cfg api w D)
          (PassesPreselection cfg api w D entry).2 entry st with
      | error err =>
        rw [hsel] at hrun
        cases hrun
      | ok st1 =>
        rw [hsel] at hrun
        simp only at hrun
        obtain ⟨a1, a2, a3, a4⟩ := selectContacts_spec cfg api w start D _ _ entry st st1 hcache hsel
        obtain ⟨b1, b2, b3, b4⟩ := ih st1 a1 hrun
        refine ⟨b1, le_trans a2 b2, ?_, ?_⟩
        · intro e he hp c hc
          rcases List.mem_cons.mp he with heq | hmem
          · subst heq
            exact le_trans (a3 c hc) b2
          · exact b3 e hmem hp c hc
        · rcases b4 with ⟨e1, e2, e3⟩ | ⟨e, he, hp, c, hc, e1, e2, e3, e4⟩
          · rcases a4 with ⟨f1, f2, f3⟩ | ⟨c, hc, f1, f2, f3, f4⟩
            · exact Or.inl ⟨e1.trans f1, e2.trans f2, e3.trans f3⟩
            · refine Or.inr ⟨(D, entry), List.mem_cons_self _ _, hpre, c, hc, ?_, ?_, ?_, ?_⟩
              · rw [e1, f1]
                rfl
              · rw [e1]
                exact f2
              · rw [e2, f3]
              · rw [e3, f4]
          · exact Or.inr ⟨e, List.mem_cons_of_mem _ he, hp, c, hc, e1, lt_of_le_of_lt a2 e2, e3, e4⟩
    · have hpre' : (!(PassesPreselection cfg api w D entry).1) = true := by simpa using hpre
      rw [if_pos hpre'] at hrun
      obtain ⟨b1, b2, b3, b4⟩ := ih st hcache hrun
      refine ⟨b1, b2, ?_, ?_⟩
      · intro e he hp c hc
        rcases List.mem_cons.mp he with heq | hmem
        · subst heq
          exact absurd hp hpre
        · exact b3 e hmem hp c hc
      · rcases b4 with b4 | ⟨e, he, hp, c, hc, e1, e2, e3, e4⟩
        · exact Or.inl b4
        · exact Or.inr ⟨e, List.mem_cons_of_mem _ he, hp, c, hc, e1, e2, e3, e4⟩

/-- The selector returns normally on a map in which every contact's daughter is the key. -/
theorem selectEntries_ok (cfg : Settings) (api : PandoraApi W) (w : W) (m : ClusterContactMap)
    (st : SelectorState) (hkey : KeyIsDaughter m) :
    ∃ st', selectEntries cfg api w m st = .ok st' := by
  induction m generalizing st with
  | nil => exact ⟨st, rfl⟩
  | cons e rest ih =>
    obtain ⟨D, entry⟩ := e
    have hrest : KeyIsDaughter rest := fun e he => hkey e (List.mem_cons_of_mem _ he)
    simp only [selectEntries]
    by_cases hpre : (!(PassesPreselection cfg api w D entry).1) = true
    · rw [if_pos hpre]
      exact ih st hrest
    · rw [if_neg hpre]
      obtain ⟨st1, h1⟩ := selectContacts_ok cfg api w D (GetClusterCorrectionLayer cfg api w D)
        (PassesPreselection cfg api w D entry).2 entry st (hkey (D, entry) (List.mem_cons_self _ _))
      rw [h1]
      exact ih st1 hrest

/-- C5: when `GetClusterMergingCandidates`, called with both output pointers null, returns a
non-null pair `(P, D)`, then `D` is a key of the map whose entry passes `PassesPreselection`, the
entry of `D` holds a contact with parent `P`, the excess evidence of that contact is strictly
positive, and it is at least the excess evidence of every contact of every daughter that passes
preselection. -/
theorem C5_selected_pair_has_greatest_excess (cfg : Settings) (api : PandoraApi W) (w : W)
    (m : ClusterContactMap) (m_muonDirectionVector : List CartesianVector) (st : SelectorState)
    (P D : ClusterPtr)
    (hrun : GetClusterMergingCandidates cfg api w m none none m_muonDirectionVector = .ok st)
    (hP : st.pBestParentCluster = some P) (hD : st.pBestDaughterCluster = some D) :
    ∃ entry, (D, entry) ∈ m ∧ (PassesPreselection cfg api w D entry).1 = true ∧
      ∃ c ∈ entry, c.parentCluster = P ∧
        0 < excessEvidence cfg api w m_muonDirectionVector D entry c ∧
        ∀ D' entry', (D', entry') ∈ m → (PassesPreselection cfg api w D' entry').1 = true →
          ∀ c' ∈ entry',
            excessEvidence cfg api w m_muonDirectionVector D' entry' c' ≤
              excessEvidence cfg api w m_muonDirectionVector D entry c := by
  obtain ⟨_, _, hmax, hbest⟩ := selectEntries_spec cfg api w m_muonDirectionVector m _ st
    (CacheFrom.refl api w m_muonDirectionVector) hrun
  rcases hbest with ⟨_, e2, _⟩ | ⟨e, he, hp, c, hc, e1, e2, e3, e4⟩
  · rw [hP] at e2
    cases e2
  · obtain ⟨D0, entry⟩ := e
    rw [hP] at e3
    rw [hD] at e4
    simp only [Option.some.injEq] at e3 e4
    subst e4
    refine ⟨entry, he, hp, c, hc, e3.symm, ?_, ?_⟩
    · rw [← e1]
      exact e2
    · intro D' entry' he' hp' c' hc'
      rw [← e1]
      exact hmax (D', entry') he' hp' c' hc'

/-- C6: on a map in which every contact's stored daughter is the key of its entry,
`GetClusterMergingCandidates`, called with both output pointers null, returns normally, and it
leaves both outputs null exactly when no contact of a daughter that passes preselection has
strictly positive excess evidence. -/
theorem C6_no_candidate_iff_no_positive_excess (cfg : Settings) (api : PandoraApi W) (w : W)
    (m : ClusterContactMap) (m_muonDirectionVector : List CartesianVector)
    (hkey : KeyIsDaughter m) :
    ∃ st, GetClusterMergingCandidates cfg api w m none none m_muonDirectionVector = .ok st ∧
      ((st.pBestParentCluster = none ∧ st.pBestDaughterCluster = none) ↔
        ∀ D entry, (D, entry) ∈ m → (PassesPreselection cfg api w D entry).1 = true →
          ∀ c ∈ entry, ¬ 0 < excessEvidence cfg api w m_muonDirectionVector D entry c) := by
  obtain ⟨st, hrun⟩ := selectEntries_ok cfg api w m
    { highestExcessEvidence := 0
      pBestParentCluster := none
      pBestDaughterCluster := none
      m_muonDirectionVector := m_muonDirectionVector } hkey
  refine ⟨st, hrun, ?_⟩
  obtain ⟨_, _, hmax, hbest⟩ := selectEntries_spec cfg api w m_muonDirectionVector m _ st
    (CacheFrom.refl api w m_muonDirectionVector) hrun
  constructor
  · rintro ⟨hP, _⟩ D entry he hp c hc
    rcases hbest with ⟨e1, _, _⟩ | ⟨_, _, _, _, _, _, _, e3, _⟩
    · have := hmax (D, entry) he hp c hc
      rw [e1] at this
      exact not_lt.mpr this
    · rw [hP] at e3
      cases e3
  · intro hnone
    rcases hbest with ⟨_, e2, e3⟩ | ⟨e, he, hp, c, hc, e1, e2, _, _⟩
    · exact ⟨e2, e3⟩
    · exfalso
      apply hnone e.1 e.2 he hp c hc
      rw [← e1]
      exact e2

/-- The selector on the example map over clusters `1` and `2` returns the pair `(1, 2)`. -/
theorem exampleSmallMap_selected :
    GetClusterMergingCandidates defaultSettings exampleApi [1, 2] exampleSmallMap none none [] =
      .ok exampleSelected := by
  simp [GetClusterMergingCandidates, selectEntries, selectContacts, PassesPreselection,
    preselectionStep, chi2Pair, GetClusterCorrectionLayer, correctionLayerLoop,
    GetTotalEvidenceForMerge, contactEvidence, coneEvidence, trackExtrapolationEvidence,
    distanceEvidence, GetRequiredEvidenceForMerge, requiredEvidenceSum, usingGlobalChi2,
    globalChi2Evidence, chi2Evidence, layerCorrection, leavingCorrection, energyCorrection,
    lowEnergyCorrection, angularCorrection, photonCorrection, stdMax, exampleApi, exampleCluster,
    exampleContact, exampleFeatures, exampleSmallMap, exampleSelected, ClusterContact.create,
    defaultSettings, uadd, usub, toInt32, UINT_MOD]
  norm_num

/-- C5 at the example map over clusters `1` and `2`, where the selector returns `(1, 2)`. -/
theorem C5_selected_pair_has_greatest_excess_witness :
    GetClusterMergingCandidates defaultSettings exampleApi [1, 2] exampleSmallMap none none [] =
        .ok exampleSelected ∧
      exampleSelected.pBestParentCluster = some 1 ∧ exampleSelected.pBestDaughterCluster = some 2 ∧
      ∃ entry, (2, entry) ∈ exampleSmallMap ∧
        (PassesPreselection defaultSettings exampleApi [1, 2] 2 entry).1 = true ∧
        ∃ c ∈ entry, c.parentCluster = 1 ∧
          0 < excessEvidence defaultSettings exampleApi [1, 2] [] 2 entry c ∧
          ∀ D' entry', (D', entry') ∈ exampleSmallMap →
            (PassesPreselection defaultSettings exampleApi [1, 2] D' entry').1 = true →
            ∀ c' ∈ entry',
              excessEvidence defaultSettings exampleApi [1, 2] [] D' entry' c' ≤
                excessEvidence defaultSettings exampleApi [1, 2] [] 2 entry c :=
  ⟨exampleSmallMap_selected, rfl, rfl,
    C5_selected_pair_has_greatest_excess defaultSettings exampleApi [1, 2] exampleSmallMap []
      exampleSelected 1 2 exampleSmallMap_selected rfl rfl⟩

/-- C6 at the example map over clusters `1` to `5`. -/
theorem C6_no_candidate_iff_no_positive_excess_witness :
    KeyIsDaughter exampleMap ∧
      ∃ st, GetClusterMergingCandidates defaultSettings exampleApi [1, 2, 3, 4, 5] exampleMap none
          none [] = .ok st ∧
        ((st.pBestParentCluster = none ∧ st.pBestDaughterCluster = none) ↔
          ∀ D entry, (D, entry) ∈ exampleMap →
            (PassesPreselection defaultSettings exampleApi [1, 2, 3, 4, 5] D entry).1 = true →
            ∀ c ∈ entry,
              ¬ 0 < excessEvidence defaultSettings exampleApi [1, 2, 3, 4, 5] [] D entry c) :=
  ⟨by unfold KeyIsDaughter; decide,
    C6_no_candidate_iff_no_positive_excess defaultSettings exampleApi [1, 2, 3, 4, 5] exampleMap []
      (by unfold KeyIsDaughter; decide)⟩

end SelectorTheorems

/-! ## The merge loop -/

section LoopTheorems

variable {W : Type}

theorem ClusterContactMap.mem_pushBack_contacts {m : ClusterContactMap} {k : ClusterPtr}
    {c : ClusterContact} {e : ClusterPtr × ClusterContactVector} (he : e ∈ m.pushBack k c) :
    e ∈ m ∨ (e.1 = k ∧ ∀ c' ∈ e.2, c' = c ∨ ∃ v, (k, v) ∈ m ∧ c' ∈ v) := by
  induction m with
  | nil =>
    simp only [ClusterContactMap.pushBack, List.mem_singleton] at he
    subst he
    exact Or.inr ⟨rfl, fun c' hc' => Or.inl (by simpa using hc')⟩
  | cons e' rest ih =>
    obtain ⟨key, vector⟩ := e'
    simp only [ClusterContactMap.pushBack] at he
    by_cases hk : key = k
    · rw [if_pos hk] at he
      rcases List.mem_cons.mp he with heq | hmem
      · subst heq
        refine Or.inr ⟨hk, fun c' hc' => ?_⟩
        rcases List.mem_append.mp hc' with h | h
        · exact Or.inr ⟨vector, by rw [← hk]; exact List.mem_cons_self _ _, h⟩
        · exact Or.inl (by simpa using h)
      · exact Or.inl (List.mem_cons_of_mem _ hmem)
    · rw [if_neg hk] at he
      by_cases hlt : k < key
      · rw [if_pos hlt] at he
        rcases List.mem_cons.mp he with heq | hmem
        · subst heq
          exact Or.inr ⟨rfl, fun c' hc' => Or.inl (by simpa using hc')⟩
        · exact Or.inl hmem
      · rw [if_neg hlt] at he
        rcases List.mem_cons.mp he with heq | hmem
        · subst heq
          exact Or.inl (List.mem_cons_self _ _)
        · rcases ih hmem with h | ⟨h1, h2⟩
          · exact Or.inl (List.mem_cons_of_mem _ h)
          · refine Or.inr ⟨h1, fun c' hc' => ?_⟩
            rcases h2 c' hc' with h | ⟨v, hv, hcv⟩
            · exact Or.inl h
            · exact Or.inr ⟨v, List.mem_cons_of_mem _ hv, hcv⟩

theorem parentStep_good (cfg : Settings) (api : PandoraApi W) (w : W) (l : List ClusterPtr)
    (d p : ClusterPtr) (m : ClusterContactMap) (hm : MapGood api w l m) (hd : d ∈ l)
    (htd : (api.cluster w d).associatedTrackList = []) (hp : p ∈ l) :
    MapGood api w l (parentStep cfg api w d m p) := by
  simp only [parentStep]
  split_ifs with h1 h2 h3
  · exact hm
  · exact hm
  · refine ⟨ClusterContactMap.WF_pushBack hm.1 d _, fun e he => ?_⟩
    rcases ClusterContactMap.mem_pushBack_contacts he with h | ⟨hk, hcs⟩
    · exact hm.2 e h
    · rw [hk]
      refine ⟨hd, htd, fun c' hc' => ?_⟩
      rcases hcs c' hc' with h | ⟨v, hv, hcv⟩
      · subst h
        refine ⟨rfl, hp, ?_⟩
        intro hnil
        apply h2
        simp only [ClusterContact.create] at hnil
        simp [hnil]
      · exact (hm.2 (d, v) hv).2.2 c' hcv
  · exact hm

theorem foldl_parentStep_good (cfg : Settings) (api : PandoraApi W) (w : W) (l : List ClusterPtr)
    (d : ClusterPtr) (parents : List ClusterPtr) (m : ClusterContactMap) (hm : MapGood api w l m)
    (hd : d ∈ l) (htd : (api.cluster w d).associatedTrackList = []) (hps : ∀ p ∈ parents, p ∈ l) :
    MapGood api w l (parents.foldl (parentStep cfg api w d) m) := by
  induction parents generalizing m with
  | nil => exact hm
  | cons p rest ih =>
    simp only [List.foldl_cons]
    exact ih _ (parentStep_good cfg api w l d p m hm hd htd (hps p (List.mem_cons_self _ _)))
      (fun q hq => hps q (List.mem_cons_of_mem _ hq))

theorem erase_good (api : PandoraApi W) (w : W) (l : List ClusterPtr) (m : ClusterContactMap)
    (hm : MapGood api w l m) (k : ClusterPtr) : MapGood api w l (m.erase k) :=
  ⟨ClusterContactMap.WF_erase hm.1 k,
    fun e he => hm.2 e ((ClusterContactMap.mem_erase hm.1).mp he).1⟩

theorem daughterStep_good (cfg : Settings) (api : PandoraApi W) (w : W) (l parents : List ClusterPtr)
    (isFirstPass : Bool) (affectedClusters : Finset ClusterPtr) (m : ClusterContactMap)
    (d : ClusterPtr) (hm : MapGood api w l m) (hd : d ∈ l) (hps : ∀ p ∈ parents, p ∈ l) :
    MapGood api w l (daughterStep cfg api w parents isFirstPass affectedClusters m d) := by
  have hm1 : MapGood api w l
      (if (!isFirstPass) = true then
        (match m.find d with
          | some _ => m.erase d
          | none => m)
        else m) := by
    split_ifs
    · cases m.find d with
      | none => exact hm
      | some v => exact erase_good api w l m hm d
    · exact hm
  simp only [daughterStep]
  by_cases h1 : (!isFirstPass) = true ∧ d ∉ affectedClusters
  · rw [if_pos h1]
    exact hm
  · rw [if_neg h1]
    by_cases h2 : (!(api.cluster w d).associatedTrackList.isEmpty) = true
    · rw [if_pos h2]
      exact hm1
    · rw [if_neg h2]
      by_cases h3 : (api.cluster w d).nCaloHits < cfg.m_minDaughterCaloHits ∨
          (api.cluster w d).hadronicEnergy < cfg.m_minDaughterHadronicEnergy
      · rw [if_pos h3]
        exact hm1
      · rw [if_neg h3]
        exact foldl_parentStep_good cfg api w l d parents _ hm1 hd (by simpa using h2) hps

theorem foldl_daughterStep_good (cfg : Settings) (api : PandoraApi W) (w : W)
    (l parents : List ClusterPtr) (isFirstPass : Bool) (affectedClusters : Finset ClusterPtr)
    (daughters : List ClusterPtr) (m : ClusterContactMap) (hm : MapGood api w l m)
    (hds : ∀ d ∈ daughters, d ∈ l) (hps : ∀ p ∈ parents, p ∈ l) :
    MapGood api w l
      (daughters.foldl (daughterStep cfg api w parents isFirstPass affectedClusters) m) := by
  induction daughters generalizing m with
  | nil => exact hm
  | cons d rest ih =>
    simp only [List.foldl_cons]
    exact ih _ (daughterStep_good cfg api w l parents isFirstPass affectedClusters m d hm
      (hds d (List.mem_cons_self _ _)) hps) (fun q hq => hds q (List.mem_cons_of_mem _ hq))

/-- A pass of the builder keeps the invariant of the contact map. -/
theorem GetClusterContactMap_good (cfg : Settings) (api : PandoraApi W) (w : W) (l : List ClusterPtr)
    (isFirstPass : Bool) (affectedClusters : Finset ClusterPtr) (m : ClusterContactMap)
    (hl : api.GetCurrentClusterList w = .ok l) (hm : MapGood api w l m) :
    ∃ m', GetClusterContactMap cfg api w isFirstPass affectedClusters m = .ok (false, m') ∧
      MapGood api w l m' := by
  refine ⟨l.foldl (daughterStep cfg api w l isFirstPass affectedClusters) m,
    by simp only [GetClusterContactMap, hl], ?_⟩
  exact foldl_daughterStep_good cfg api w l l isFirstPass affectedClusters l m hm
    (fun _ h => h) (fun _ h => h)

/-- A pair returned by the selector called with null outputs is a key of the map and the parent
of a contact of its entry. -/
theorem selected_pair_mem (cfg : Settings) (api : PandoraApi W) (w : W) (m : ClusterContactMap)
    (m_muonDirectionVector : List CartesianVector) (st : SelectorState) (P D : ClusterPtr)
    (hrun : GetClusterMergingCandidates cfg api w m none none m_muonDirectionVector = .ok st)
    (hP : st.pBestParentCluster = some P) (hD : st.pBestDaughterCluster = some D) :
    ∃ entry, (D, entry) ∈ m ∧ ∃ c ∈ entry, c.parentCluster = P := by
  obtain ⟨_, _, _, hbest⟩ := selectEntries_spec cfg api w m_muonDirectionVector m _ st
    (CacheFrom.refl api w m_muonDirectionVector) hrun
  rcases hbest with ⟨_, e2, _⟩ | ⟨e, he, _, c, hc, _, _, e3, e4⟩
  · rw [hP] at e2
    cases e2
  · obtain ⟨D0, entry⟩ := e
    rw [hP] at e3
    rw [hD] at e4
    simp only [Option.some.injEq] at e3 e4
    subst e4
    exact ⟨entry, he, c, hc, e3.symm⟩

theorem RunInv_initial (api : PandoraApi W) (w : W) (m_muonDirectionVector : List CartesianVector) :
    RunInv api (RunState.initial w m_muonDirectionVector) := by
  intro l _
  exact ⟨ClusterContactMap.WF_nil, fun e he => by simp [RunState.initial] at he⟩

/-- An iteration of `Run` that ends without a merge leaves the state of the framework as it was. -/
theorem RunIteration_stop (cfg : Settings) (api : PandoraApi W) (s s' : RunState W)
    (hrun : RunIteration cfg api s = .ok (none, s')) : s'.world = s.world := by
  simp only [RunIteration] at hrun
  split at hrun
  · cases hrun
  · split at hrun
    · cases hrun
    · split at hrun
      · split at hrun
        · cases hrun
        · split at hrun
          · cases hrun
          · cases hrun
      · simp only [Except.ok.injEq, Prod.mk.injEq, true_and] at hrun
        rw [← hrun]

/-- An iteration of `Run` that merges `(P, D)`, under the model of the merge: `D` is a trackless
cluster of the list, `P` a different cluster of the list with a track, the list afterwards is the
list without `D`, and the invariant holds again. -/
theorem RunIteration_merge (cfg : Settings) (api : PandoraApi W) (hmerge : MergeRemovesDaughter api)
    (s s' : RunState W) (P D : ClusterPtr) (hinv : RunInv api s)
    (hrun : RunIteration cfg api s = .ok (some (P, D), s')) :
    RunInv api s' ∧
      ∃ l, api.GetCurrentClusterList s.world = .ok l ∧
        api.GetCurrentClusterList s'.world = .ok (l.filter (· ≠ D)) ∧
        D ∈ l ∧ P ∈ l ∧ P ≠ D ∧
        (api.cluster s.world D).associatedTrackList = [] ∧
        (api.cluster s.world P).associatedTrackList ≠ [] := by
  simp only [RunIteration] at hrun
  cases hl : api.GetCurrentClusterList s.world with
  | error status =>
    simp only [GetClusterContactMap, hl] at hrun
    cases hrun
  | ok l =>
    obtain ⟨m', hbuild, hgood⟩ := GetClusterContactMap_good cfg api s.world l s.isFirstPass
      s.affectedClusters s.clusterContactMap hl (hinv l hl)
    rw [hbuild] at hrun
    simp only at hrun
    cases hsel : GetClusterMergingCandidates cfg api s.world m' none none s.m_muonDirectionVector with
    | error e =>
      rw [hsel] at hrun
      cases hrun
    | ok sel =>
      rw [hsel] at hrun
      simp only at hrun
      cases hP : sel.pBestParentCluster with
      | none =>
        rw [hP] at hrun
        cases hrun
      | some P0 =>
        cases hD : sel.pBestDaughterCluster with
        | none =>
          rw [hP, hD] at hrun
          cases hrun
        | some D0 =>
          rw [hP, hD] at hrun
          simp only at hrun
          cases haff : GetAffectedClusters m' P0 D0 s.affectedClusters with
          | error e =>
            rw [haff] at hrun
            cases hrun
          | ok affected =>
            rw [haff] at hrun
            simp only at hrun
            cases hmg : api.MergeAndDeleteClusters s.world P0 D0 with
            | error status =>
              rw [hmg] at hrun
              cases hrun
            | ok w' =>
              rw [hmg] at hrun
              simp only [Except.ok.injEq, Prod.mk.injEq, Option.some.injEq] at hrun
              obtain ⟨⟨hPeq, hDeq⟩, hs'⟩ := hrun
              subst hPeq hDeq hs'
              obtain ⟨entry, hentry, c, hc, hcP⟩ := selected_pair_mem cfg api s.world m'
                s.m_muonDirectionVector sel P0 D0 hsel hP hD
              obtain ⟨hDl, hDt, hcs⟩ := hgood.2 (D0, entry) hentry
              simp only at hDl hDt hcs
              obtain ⟨_, hPl, hPt⟩ := hcs c hc
              rw [hcP] at hPl hPt
              have hPD : P0 ≠ D0 := by
                intro h
                rw [h] at hPt
                exact hPt hDt
              obtain ⟨hlist', htracks⟩ := hmerge s.world w' P0 D0 hmg
              refine ⟨?_, l, rfl, hlist' l hl, hDl, hPl, hPD, hDt, hPt⟩
              intro l' hl'
              simp only at hl'
              rw [hlist' l hl] at hl'
              simp only [Except.ok.injEq] at hl'
              subst hl'
              refine ⟨ClusterContactMap.WF_erase hgood.1 D0, fun e he => ?_⟩
              obtain ⟨hem, hne⟩ := (ClusterContactMap.mem_erase hgood.1).mp he
              obtain ⟨h1, h2, h3⟩ := hgood.2 e hem
              refine ⟨?_, ?_, fun c' hc' => ?_⟩
              · exact List.mem_filter.mpr ⟨h1, by simpa using hne⟩
              · simp only
                rw [htracks e.1 hne]
                exact h2
              · obtain ⟨g1, g2, g3⟩ := h3 c' hc'
                have hne' : c'.parentCluster ≠ D0 := by
                  intro h
                  rw [h] at g3
                  exact g3 hDt
                refine ⟨g1, List.mem_filter.mpr ⟨g2, by simpa using hne'⟩, ?_⟩
                simp only
                rw [htracks _ hne']
                exact g3

/-- The loop of `Run` under the model of the merge: with more fuel than clusters it ends, every
world of the trace has at most as many clusters as the world the loop started in, the cluster
counts along the trace do not increase, the merges number at most the cluster count less one, and
there is one more iteration than merges. -/
theorem RunLoop_spec (cfg : Settings) (api : PandoraApi W) (hmerge : MergeRemovesDaughter api)
    (fuel : Nat) (s : RunState W) (hinv : RunInv api s) (hfuel : clusterCount api s.world < fuel) :
    ∃ r, RunLoop cfg api fuel s = some r ∧
      (∀ x ∈ r.worlds, clusterCount api x ≤ clusterCount api s.world) ∧
      (r.worlds.map (clusterCount api)).Sorted (· ≥ ·) ∧
      r.merges.length ≤ clusterCount api s.world - 1 ∧
      r.worlds.length = r.merges.length + 1 := by
  induction fuel generalizing s with
  | zero => exact absurd hfuel (Nat.not_lt_zero _)
  | succ fuel ih =>
    cases hit : RunIteration cfg api s with
    | error e =>
      simp only [RunLoop, hit]
      refine ⟨_, rfl, ?_, ?_, ?_, ?_⟩
      · intro x hx
        simp only [List.mem_singleton] at hx
        rw [hx]
      · simp [List.Sorted]
      · simp
      · simp
    | ok res =>
      obtain ⟨merged, s'⟩ := res
      cases merged with
      | none =>
        simp only [RunLoop, hit]
        refine ⟨_, rfl, ?_, ?_, ?_, ?_⟩
        · intro x hx
          simp only [List.mem_singleton] at hx
          rw [hx]
        · simp [List.Sorted]
        · simp
        · simp
      | some pair =>
        obtain ⟨P, D⟩ := pair
        obtain ⟨hinv', l, hl, hl', hDl, hPl, hPD, _, _⟩ :=
          RunIteration_merge cfg api hmerge s s' P D hinv hit
        have hcount : clusterCount api s.world = l.length := by
          simp only [clusterCount, hl]
        have hcount' : clusterCount api s'.world = (l.filter (· ≠ D)).length := by
          simp only [clusterCount, hl']
        have hlt : clusterCount api s'.world < clusterCount api s.world := by
          rw [hcount, hcount']
          exact List.length_filter_lt_length_iff_exists.mpr ⟨D, hDl, by simp⟩
        have hpos : 0 < clusterCount api s'.world := by
          rw [hcount']
          exact List.length_pos_of_mem (List.mem_filter.mpr ⟨hPl, by simpa using hPD⟩)
        obtain ⟨r, hr, h1, h2, h3, h4⟩ := ih s' hinv' (by omega)
        simp only [RunLoop, hit, hr]
        refine ⟨_, rfl, ?_, ?_, ?_, ?_⟩
        · intro x hx
          simp only [List.mem_cons] at hx
          rcases hx with hx | hx
          · rw [hx]
          · exact le_trans (h1 x hx) (le_of_lt hlt)
        · simp only [List.map_cons, List.sorted_cons]
          refine ⟨?_, h2⟩
          intro n hn
          obtain ⟨x, hx, hxn⟩ := List.mem_map.mp hn
          rw [← hxn]
          exact le_trans (h1 x hx) (le_of_lt hlt)
        · simp only [List.length_cons]
          omega
        · simp only [List.length_cons]
          omega

/-- C4: in the model where `MergeAndDeleteClusters(P, D)` removes `D` from the current cluster
list and leaves every other cluster's track associations unchanged, `Run` terminates for every
initial cluster list (with more fuel than there are clusters the loop ends), the cluster count
never increases from one iteration to the next, there is one iteration more than there are
merges, and the number of merges is at most the initial cluster count less one (none for an empty
list). -/
theorem C4_run_terminates_within_cluster_count (cfg : Settings) (api : PandoraApi W) (w : W)
    (m_muonDirectionVector : List CartesianVector) (fuel : Nat)
    (hmerge : MergeRemovesDaughter api) (hfuel : clusterCount api w < fuel) :
    ∃ r, Run cfg api w m_muonDirectionVector fuel = some r ∧
      (r.worlds.map (clusterCount api)).Sorted (· ≥ ·) ∧
      r.worlds.head? = some w ∧
      r.worlds.length = r.merges.length + 1 ∧
      r.merges.length ≤ clusterCount api w - 1 := by
  obtain ⟨r, hr, _, h2, h3, h4⟩ := RunLoop_spec cfg api hmerge fuel
    (RunState.initial w m_muonDirectionVector) (RunInv_initial api w m_muonDirectionVector) hfuel
  refine ⟨r, hr, h2, ?_, h4, h3⟩
  cases fuel with
  | zero => exact absurd hfuel (Nat.not_lt_zero _)
  | succ fuel =>
    simp only [RunLoop] at hr
    split at hr
    · simp only [Option.some.injEq] at hr
      rw [← hr]
      rfl
    · simp only [Option.some.injEq] at hr
      rw [← hr]
      rfl
    · split at hr
      · cases hr
      · simp only [Option.some.injEq] at hr
        rw [← hr]
        rfl

/-- The example framework follows the model of the merge. -/
theorem exampleApi_mergeRemovesDaughter : MergeRemovesDaughter exampleApi := by
  intro w w' P D h
  simp only [exampleApi, Except.ok.injEq] at h
  subst h
  refine ⟨fun l hl => ?_, fun C _ => rfl⟩
  simp only [exampleApi, Except.ok.injEq] at hl ⊢
  rw [hl]

/-- C4 at the example state with clusters `1`, `2`, `3` and fuel four. -/
theorem C4_run_terminates_within_cluster_count_witness :
    MergeRemovesDaughter exampleApi ∧ clusterCount exampleApi [1, 2, 3] < 4 ∧
      ∃ r, Run defaultSettings exampleApi [1, 2, 3] [] 4 = some r ∧
        (r.worlds.map (clusterCount exampleApi)).Sorted (· ≥ ·) ∧
        r.worlds.head? = some [1, 2, 3] ∧
        r.worlds.length = r.merges.length + 1 ∧
        r.merges.length ≤ clusterCount exampleApi [1, 2, 3] - 1 :=
  ⟨exampleApi_mergeRemovesDaughter, by decide,
    C4_run_terminates_within_cluster_count defaultSettings exampleApi [1, 2, 3] [] 4
      exampleApi_mergeRemovesDaughter (by decide)⟩

end LoopTheorems

/-! ## Contact cuts and total evidence -/

section EvidenceTheorems

variable {W : Type}

/-- C11: `PassesClusterContactCuts` returns true exactly when the closest-hit distance does not
exceed `m_contactCutMaxDistance` and either one of the six feature cuts holds, or the closest-hit
distance is below `m_contactCutNearECalDistance` and
`daughterInnerLayer + m_contactCutLayersFromECal > nECalLayers`. The sum is an `unsigned int` sum;
when it does not overflow it is the sum of the two numbers. -/
theorem C11_passes_cluster_contact_cuts_iff (cfg : Settings) (api : PandoraApi W) (w : W)
    (c : ClusterContact) :
    (PassesClusterContactCuts cfg api w c = true ↔
      c.distanceToClosestHit ≤ cfg.m_contactCutMaxDistance ∧
        ((c.nContactLayers > cfg.m_contactCutNLayers ∨
            c.coneFraction1 > cfg.m_contactCutConeFraction1 ∨
            c.closeHitFraction1 > cfg.m_contactCutCloseHitFraction1 ∨
            c.closeHitFraction2 > cfg.m_contactCutCloseHitFraction2 ∨
            c.meanDistanceToHelix < cfg.m_contactCutMeanDistanceToHelix ∨
            c.closestDistanceToHelix < cfg.m_contactCutClosestDistanceToHelix) ∨
          (c.distanceToClosestHit < cfg.m_contactCutNearECalDistance ∧
            uadd (api.cluster w c.daughterCluster).innerPseudoLayer cfg.m_contactCutLayersFromECal >
              api.nECalLayers))) ∧
    ((api.cluster w c.daughterCluster).innerPseudoLayer + cfg.m_contactCutLayersFromECal < UINT_MOD →
      (PassesClusterContactCuts cfg api w c = true ↔
        c.distanceToClosestHit ≤ cfg.m_contactCutMaxDistance ∧
          ((c.nContactLayers > cfg.m_contactCutNLayers ∨
              c.coneFraction1 > cfg.m_contactCutConeFraction1 ∨
              c.closeHitFraction1 > cfg.m_contactCutCloseHitFraction1 ∨
              c.closeHitFraction2 > cfg.m_contactCutCloseHitFraction2 ∨
              c.meanDistanceToHelix < cfg.m_contactCutMeanDistanceToHelix ∨
              c.closestDistanceToHelix < cfg.m_contactCutClosestDistanceToHelix) ∨
            (c.distanceToClosestHit < cfg.m_contactCutNearECalDistance ∧
              (api.cluster w c.daughterCluster).innerPseudoLayer + cfg.m_contactCutLayersFromECal >
                api.nECalLayers)))) := by
  have key : PassesClusterContactCuts cfg api w c = true ↔
      c.distanceToClosestHit ≤ cfg.m_contactCutMaxDistance ∧
        ((c.nContactLayers > cfg.m_contactCutNLayers ∨
            c.coneFraction1 > cfg.m_contactCutConeFraction1 ∨
            c.closeHitFraction1 > cfg.m_contactCutCloseHitFraction1 ∨
            c.closeHitFraction2 > cfg.m_contactCutCloseHitFraction2 ∨
            c.meanDistanceToHelix < cfg.m_contactCutMeanDistanceToHelix ∨
            c.closestDistanceToHelix < cfg.m_contactCutClosestDistanceToHelix) ∨
          (c.distanceToClosestHit < cfg.m_contactCutNearECalDistance ∧
            uadd (api.cluster w c.daughterCluster).innerPseudoLayer cfg.m_contactCutLayersFromECal >
              api.nECalLayers)) := by
    simp only [PassesClusterContactCuts]
    by_cases h1 : c.distanceToClosestHit > cfg.m_contactCutMaxDistance
    · rw [if_pos h1]
      constructor
      · intro h
        cases h
      · rintro ⟨h, _⟩
        exact absurd h (not_le.mpr h1)
    · rw [if_neg h1]
      by_cases h2 : c.nContactLayers > cfg.m_contactCutNLayers ∨
          c.coneFraction1 > cfg.m_contactCutConeFraction1 ∨
          c.closeHitFraction1 > cfg.m_contactCutCloseHitFraction1 ∨
          c.closeHitFraction2 > cfg.m_contactCutCloseHitFraction2 ∨
          c.meanDistanceToHelix < cfg.m_contactCutMeanDistanceToHelix ∨
          c.closestDistanceToHelix < cfg.m_contactCutClosestDistanceToHelix
      · rw [if_pos h2]
        exact ⟨fun _ => ⟨not_lt.mp h1, Or.inl h2⟩, fun _ => rfl⟩
      · rw [if_neg h2]
        simp only [decide_eq_true_eq]
        constructor
        · intro h
          exact ⟨not_lt.mp h1, Or.inr h⟩
        · rintro ⟨_, h | h⟩
          · exact absurd h h2
          · exact h
  refine ⟨key, fun hno => ?_⟩
  rw [key]
  have hsum : uadd (api.cluster w c.daughterCluster).innerPseudoLayer cfg.m_contactCutLayersFromECal =
      (api.cluster w c.daughterCluster).innerPseudoLayer + cfg.m_contactCutLayersFromECal := by
    simp only [uadd]
    exact Nat.mod_eq_of_lt hno
  rw [hsum]

/-- C11 at the example contact of cluster `2` with cluster `1`. -/
theorem C11_passes_cluster_contact_cuts_iff_witness :
    (exampleApi.cluster [1, 2] (exampleContact 2 1).daughterCluster).innerPseudoLayer +
        defaultSettings.m_contactCutLayersFromECal < UINT_MOD ∧
      (PassesClusterContactCuts defaultSettings exampleApi [1, 2] (exampleContact 2 1) = true ↔
        (exampleContact 2 1).distanceToClosestHit ≤ defaultSettings.m_contactCutMaxDistance ∧
          (((exampleContact 2 1).nContactLayers > defaultSettings.m_contactCutNLayers ∨
              (exampleContact 2 1).coneFraction1 > defaultSettings.m_contactCutConeFraction1 ∨
              (exampleContact 2 1).closeHitFraction1 >
                defaultSettings.m_contactCutCloseHitFraction1 ∨
              (exampleContact 2 1).closeHitFraction2 >
                defaultSettings.m_contactCutCloseHitFraction2 ∨
              (exampleContact 2 1).meanDistanceToHelix <
                defaultSettings.m_contactCutMeanDistanceToHelix ∨
              (exampleContact 2 1).closestDistanceToHelix <
                defaultSettings.m_contactCutClosestDistanceToHelix) ∨
            ((exampleContact 2 1).distanceToClosestHit <
                defaultSettings.m_contactCutNearECalDistance ∧
              (exampleApi.cluster [1, 2] (exampleContact 2 1).daughterCluster).innerPseudoLayer +
                  defaultSettings.m_contactCutLayersFromECal >
                exampleApi.nECalLayers))) :=
  ⟨by decide,
    (C11_passes_cluster_contact_cuts_iff defaultSettings exampleApi [1, 2] (exampleContact 2 1)).2
      (by decide)⟩

/-- C18: `GetTotalEvidenceForMerge` is the weighted sum of the four evidences, and for a contact
that passes no gate (contact layers at most each of the three layer thresholds, cone fraction 1
at most `m_coneEvidenceFraction1`, closest helix distance at least `m_closestTrackEvidence1`,
closest-hit distance at least `m_distanceEvidence1`) the result is `0` for every choice of the
four weights. -/
theorem C18_total_evidence_weighted_sum (cfg : Settings) (api : PandoraApi W) (w : W)
    (c : ClusterContact) :
    GetTotalEvidenceForMerge cfg api w c =
        cfg.m_contactWeight * contactEvidence cfg c + cfg.m_coneWeight * coneEvidence cfg api w c +
          cfg.m_distanceWeight * distanceEvidence cfg c +
          cfg.m_trackExtrapolationWeight * trackExtrapolationEvidence cfg c ∧
    (c.nContactLayers ≤ cfg.m_contactEvidenceNLayers1 →
      c.nContactLayers ≤ cfg.m_contactEvidenceNLayers2 →
      c.nContactLayers ≤ cfg.m_contactEvidenceNLayers3 →
      c.coneFraction1 ≤ cfg.m_coneEvidenceFraction1 →
      c.closestDistanceToHelix ≥ cfg.m_closestTrackEvidence1 →
      c.distanceToClosestHit ≥ cfg.m_distanceEvidence1 →
      ∀ contactWeight coneWeight distanceWeight trackExtrapolationWeight : ℚ,
        GetTotalEvidenceForMerge
          { cfg with
            m_contactWeight := contactWeight
            m_coneWeight := coneWeight
            m_distanceWeight := distanceWeight
            m_trackExtrapolationWeight := trackExtrapolationWeight } api w c = 0) := by
  refine ⟨rfl, ?_⟩
  intro h1 h2 h3 h4 h5 h6 contactWeight coneWeight distanceWeight trackExtrapolationWeight
  simp only [GetTotalEvidenceForMerge, contactEvidence, coneEvidence, distanceEvidence,
    trackExtrapolationEvidence]
  rw [if_neg (not_lt.mpr h1), if_neg (not_lt.mpr h2), if_neg (not_lt.mpr h3),
    if_neg (not_lt.mpr h4), if_neg (not_lt.mpr h6), if_neg (not_lt.mpr h5)]
  ring

/-- C18 at the example contact that passes no gate, under the default configuration. -/
theorem C18_total_evidence_weighted_sum_witness :
    exampleFarContact.nContactLayers ≤ defaultSettings.m_contactEvidenceNLayers1 ∧
      exampleFarContact.nContactLayers ≤ defaultSettings.m_contactEvidenceNLayers2 ∧
      exampleFarContact.nContactLayers ≤ defaultSettings.m_contactEvidenceNLayers3 ∧
      exampleFarContact.coneFraction1 ≤ defaultSettings.m_coneEvidenceFraction1 ∧
      exampleFarContact.closestDistanceToHelix ≥ defaultSettings.m_closestTrackEvidence1 ∧
      exampleFarContact.distanceToClosestHit ≥ defaultSettings.m_distanceEvidence1 ∧
      ∀ contactWeight coneWeight distanceWeight trackExtrapolationWeight : ℚ,
        GetTotalEvidenceForMerge
          { defaultSettings with
            m_contactWeight := contactWeight
            m_coneWeight := coneWeight
            m_distanceWeight := distanceWeight
            m_trackExtrapolationWeight := trackExtrapolationWeight } exampleApi [1, 2]
          exampleFarContact = 0 :=
  ⟨by decide, by decide, by decide,
    by norm_num [exampleFarContact, defaultSettings],
    by norm_num [exampleFarContact, defaultSettings],
    by norm_num [exampleFarContact, defaultSettings],
    (C18_total_evidence_weighted_sum defaultSettings exampleApi [1, 2] exampleFarContact).2
      (by decide) (by decide) (by decide)
      (by norm_num [exampleFarContact, defaultSettings])
      (by norm_num [exampleFarContact, defaultSettings])
      (by norm_num [exampleFarContact, defaultSettings])⟩

/-- The track-extrapolation evidence of a contact inside the closest-distance gate and the second
mean-distance band: the term added in that band has the closest distance in its numerator. -/
theorem trackExtrapolationEvidence_in_second_mean_band (cfg : Settings) (c : ClusterContact)
    (h1 : c.closestDistanceToHelix < cfg.m_closestTrackEvidence1)
    (h2 : c.meanDistanceToHelix < cfg.m_meanTrackEvidence2) :
    trackExtrapolationEvidence cfg c =
      (cfg.m_closestTrackEvidence1 - c.closestDistanceToHelix) / cfg.m_closestTrackEvidence1d +
        (if c.closestDistanceToHelix < cfg.m_closestTrackEvidence2 then
          (cfg.m_closestTrackEvidence2 - c.closestDistanceToHelix) / cfg.m_closestTrackEvidence2d
        else 0) +
        (cfg.m_meanTrackEvidence1 - c.meanDistanceToHelix) / cfg.m_meanTrackEvidence1d +
        (cfg.m_meanTrackEvidence2 - c.closestDistanceToHelix) / cfg.m_meanTrackEvidence2d := by
  simp only [trackExtrapolationEvidence]
  rw [if_pos h1, if_pos h2]
  split <;> ring

/-- C20 (fails on the code): at the example contact with closest helix distance `40` and mean
helix distance `45` under the default configuration, both inside the gate and the second mean
band, the term added for the second mean band is
`(m_meanTrackEvidence2 - closestDistanceToHelix) / m_meanTrackEvidence2d = 1/5`, not
`(m_meanTrackEvidence2 - meanDistanceToHelix) / m_meanTrackEvidence2d = 1/10`. -/
theorem C20_second_mean_term_uses_closest_distance :
    exampleHelixContact.closestDistanceToHelix < defaultSettings.m_closestTrackEvidence1 ∧
    exampleHelixContact.meanDistanceToHelix < defaultSettings.m_meanTrackEvidence2 ∧
    trackExtrapolationEvidence defaultSettings exampleHelixContact -
        ((defaultSettings.m_closestTrackEvidence1 - exampleHelixContact.closestDistanceToHelix) /
            defaultSettings.m_closestTrackEvidence1d +
          (defaultSettings.m_closestTrackEvidence2 - exampleHelixContact.closestDistanceToHelix) /
            defaultSettings.m_closestTrackEvidence2d +
          (defaultSettings.m_meanTrackEvidence1 - exampleHelixContact.meanDistanceToHelix) /
            defaultSettings.m_meanTrackEvidence1d) =
      (defaultSettings.m_meanTrackEvidence2 - exampleHelixContact.closestDistanceToHelix) /
        defaultSettings.m_meanTrackEvidence2d ∧
    (defaultSettings.m_meanTrackEvidence2 - exampleHelixContact.closestDistanceToHelix) /
        defaultSettings.m_meanTrackEvidence2d = 1 / 5 ∧
    (defaultSettings.m_meanTrackEvidence2 - exampleHelixContact.meanDistanceToHelix) /
        defaultSettings.m_meanTrackEvidence2d = 1 / 10 ∧
    trackExtrapolationEvidence defaultSettings exampleHelixContact = 77 / 20 := by
  refine ⟨?_, ?_, ?_, ?_, ?_, ?_⟩ <;>
    norm_num [trackExtrapolationEvidence, exampleHelixContact, exampleFeatures, defaultSettings]

end EvidenceTheorems

/-! ## Reading the configuration -/

section ReadSettingsTheorems

theorem readValue_ok {α : Type} (r : XmlRead α) (current : α)
    (h : r.status = StatusCode.SUCCESS ∨ r.status = StatusCode.NOT_FOUND) :
    readValue r current = .ok (r.store current) := by
  simp only [readValue]
  rw [if_neg]
  rintro ⟨h1, h2⟩
  rcases h with h | h
  · exact h1 h
  · exact h2 h

/-- A read whose status is success or not-found lets `ReadSettings` go on, unless the value read
for a checked scale parameter is zero. -/
theorem ReadStep.run_ok_or_invalid (xml : TiXmlHandle) (t : ReadStep) (cfg : Settings)
    (h : t.status xml = StatusCode.SUCCESS ∨ t.status xml = StatusCode.NOT_FOUND) :
    (∃ cfg', t.run xml cfg = .ok cfg') ∨ t.run xml cfg = .error StatusCode.INVALID_PARAMETER := by
  cases t with
  | uint key default set =>
    simp only [ReadStep.status] at h
    simp only [ReadStep.run, readValue_ok _ _ h]
    exact Or.inl ⟨_, rfl⟩
  | float key default set rejectZero =>
    simp only [ReadStep.status] at h
    simp only [ReadStep.run, readValue_ok _ _ h]
    split
    · exact Or.inr rfl
    · exact Or.inl ⟨_, rfl⟩
  | bool key default set =>
    simp only [ReadStep.status] at h
    simp only [ReadStep.run, readValue_ok _ _ h]
    exact Or.inl ⟨_, rfl⟩
  | int key default set =>
    simp only [ReadStep.status] at h
    simp only [ReadStep.run, readValue_ok _ _ h]
    exact Or.inl ⟨_, rfl⟩

/-- A zero value for a checked scale parameter makes the reads stop with invalid-parameter, when
no read before it returns another status than success or not-found. -/
theorem runSteps_zero_scale (xml : TiXmlHandle) (pre post : List ReadStep) (key : String)
    (default : ℚ) (set : Settings → ℚ → Settings) (cfg : Settings)
    (hpre : ∀ t ∈ pre, t.status xml = StatusCode.SUCCESS ∨ t.status xml = StatusCode.NOT_FOUND)
    (hzero : xml.readFloat key = .value 0) :
    runSteps xml (pre ++ ReadStep.float key default set true :: post) cfg =
      .error StatusCode.INVALID_PARAMETER := by
  induction pre generalizing cfg with
  | nil =>
    simp [runSteps, ReadStep.run, readValue, hzero, XmlRead.status, XmlRead.store]
  | cons t rest ih =>
    simp only [List.cons_append, runSteps]
    rcases ReadStep.run_ok_or_invalid xml t cfg (hpre t (List.mem_cons_self _ _)) with
      ⟨cfg', h⟩ | h
    · rw [h]
      exact ih cfg' (fun t' ht' => hpre t' (List.mem_cons_of_mem _ ht'))
    · rw [h]

theorem ReadStep.run_keeps (xml : TiXmlHandle) (get : Settings → ℚ) (t : ReadStep)
    (cfg cfg' : Settings) (hkeeps : StepKeeps get t) (hrun : t.run xml cfg = .ok cfg') :
    get cfg' = get cfg := by
  cases t with
  | uint key default set =>
    simp only [ReadStep.run] at hrun
    split at hrun
    · cases hrun
    · simp only [Except.ok.injEq] at hrun
      rw [← hrun]
      exact hkeeps _ _
  | float key default set rejectZero =>
    simp only [ReadStep.run] at hrun
    split at hrun
    · cases hrun
    · split at hrun
      · cases hrun
      · simp only [Except.ok.injEq] at hrun
        rw [← hrun]
        exact hkeeps _ _
  | bool key default set =>
    simp only [ReadStep.run] at hrun
    split at hrun
    · cases hrun
    · simp only [Except.ok.injEq] at hrun
      rw [← hrun]
      exact hkeeps _ _
  | int key default set =>
    simp only [ReadStep.run] at hrun
    split at hrun
    · cases hrun
    · simp only [Except.ok.injEq] at hrun
      rw [← hrun]
      exact hkeeps _ _

theorem ReadStep.run_sets (xml : TiXmlHandle) (get : Settings → ℚ) (t : ReadStep)
    (cfg cfg' : Settings) (hsets : StepSets get t) (hrun : t.run xml cfg = .ok cfg') :
    get cfg' ≠ 0 := by
  cases t with
  | uint key default set => exact absurd hsets (by simp [StepSets])
  | bool key default set => exact absurd hsets (by simp [StepSets])
  | int key default set => exact absurd hsets (by simp [StepSets])
  | float key default set rejectZero =>
    cases rejectZero with
    | false => exact absurd hsets (by simp [StepSets])
    | true =>
      simp only [StepSets] at hsets
      simp only [ReadStep.run] at hrun
      split at hrun
      · cases hrun
      · rename_i v _
        split at hrun
        · cases hrun
        · rename_i hv
          simp only [Except.ok.injEq] at hrun
          rw [← hrun, hsets]
          intro h0
          exact hv ⟨trivial, h0.symm⟩

/-- After a successful sequence of reads in which every read sets and checks a member or leaves
it alone, the member is not zero when it was not zero before or some read sets it. -/
theorem runSteps_nonzero (xml : TiXmlHandle) (get : Settings → ℚ) (steps : List ReadStep)
    (cfg cfg' : Settings) (hall : ∀ t ∈ steps, StepSets get t ∨ StepKeeps get t)
    (hsome : get cfg ≠ 0 ∨ ∃ t ∈ steps, StepSets get t)
    (hrun : runSteps xml steps cfg = .ok cfg') : get cfg' ≠ 0 := by
  induction steps generalizing cfg with
  | nil =>
    simp only [runSteps, Except.ok.injEq] at hrun
    rw [← hrun]
    rcases hsome with h | ⟨t, ht, _⟩
    · exact h
    · simp at ht
  | cons t rest ih =>
    simp only [runSteps] at hrun
    cases hstep : t.run xml cfg with
    | error status =>
      rw [hstep] at hrun
      cases hrun
    | ok cfg1 =>
      rw [hstep] at hrun
      simp only at hrun
      apply ih cfg1 (fun t' ht' => hall t' (List.mem_cons_of_mem _ ht')) _ hrun
      rcases hall t (List.mem_cons_self _ _) with hs | hk
      · exact Or.inl (ReadStep.run_sets xml get t cfg cfg1 hs hstep)
      · rcases hsome with h | ⟨t', ht', hs'⟩
        · left
          rw [ReadStep.run_keeps xml get t cfg cfg1 hk hstep]
          exact h
        · rcases List.mem_cons.mp ht' with heq | hmem
          · subst heq
            exact Or.inl (ReadStep.run_sets xml get t' cfg cfg1 hs' hstep)
          · exact Or.inr ⟨t', hmem, hs'⟩

/-- A property of every read of every section of `ReadSettings` is a property of every read. -/
theorem forall_mem_readSteps (P : ReadStep → Prop)
    (h0 : ∀ t ∈ readInitialDaughterClusterSelection, P t)
    (h1 : ∀ t ∈ readClusterContactCuts, P t)
    (h2 : ∀ t ∈ readTrackClusterConsistencyChi2Values, P t)
    (h3 : ∀ t ∈ readCorrectionLayerParameters, P t)
    (h4 : ∀ t ∈ readTotalEvidenceContactEvidence, P t)
    (h5 : ∀ t ∈ readConeEvidence, P t)
    (h6 : ∀ t ∈ readTrackExtrapolationEvidence, P t)
    (h7 : ∀ t ∈ readDistanceOfClosestApproachEvidence, P t)
    (h8 : ∀ t ∈ readEvidenceWeightings, P t)
    (h9 : ∀ t ∈ readRequiredEvidenceLayerCorrection, P t)
    (h10 : ∀ t ∈ readLeavingCorrection, P t)
    (h11 : ∀ t ∈ readEnergyCorrection, P t)
    (h12 : ∀ t ∈ readLowEnergyCorrection, P t)
    (h13 : ∀ t ∈ readAngularCorrection, P t)
    (h14 : ∀ t ∈ readPhotonCorrection, P t) :
    ∀ t ∈ readSteps, P t := by
  intro t ht
  simp only [readSteps, List.mem_append] at ht
  rcases ht with ((((((((((((((h | h) | h) | h) | h) | h) | h) | h) | h) | h) | h) | h) | h) | h) | h)
  · exact h0 t h
  · exact h1 t h
  · exact h2 t h
  · exact h3 t h
  · exact h4 t h
  · exact h5 t h
  · exact h6 t h
  · exact h7 t h
  · exact h8 t h
  · exact h9 t h
  · exact h10 t h
  · exact h11 t h
  · exact h12 t h
  · exact h13 t h
  · exact h14 t h

theorem readSteps_m_closestTrackEvidence1d :
    ∀ t ∈ readSteps, StepSets (·.m_closestTrackEvidence1d) t ∨ StepKeeps (·.m_closestTrackEvidence1d) t := by
  apply forall_mem_readSteps
  · intro t ht
    simp only [readInitialDaughterClusterSelection, List.mem_cons, List.mem_singleton, List.not_mem_nil, or_false] at ht
    rcases ht with rfl | rfl
    all_goals exact Or.inr (fun _ _ => rfl)
  · intro t ht
    simp only [readClusterContactCuts, List.mem_cons, List.mem_singleton, List.not_mem_nil, or_false] at ht
    rcases ht with rfl | rfl | rfl | rfl | rfl | rfl | rfl | rfl | rfl
    all_goals exact Or.inr (fun _ _ => rfl)
  · intro t ht
    simp only [readTrackClusterConsistencyChi2Values, List.mem_cons, List.mem_singleton, List.not_mem_nil, or_false] at ht
    rcases ht with rfl | rfl | rfl | rfl
    all_goals exact Or.inr (fun _ _ => rfl)
  · intro t ht
    simp only [readCorrectionLayerParameters, List.mem_cons, List.mem_singleton, List.not_mem_nil, or_false] at ht
    rcases ht with rfl | rfl
    all_goals exact Or.inr (fun _ _ => rfl)
  · intro t ht
    simp only [readTotalEvidenceContactEvidence, List.mem_cons, List.mem_singleton, List.not_mem_nil, or_false] at ht
    rcases ht with rfl | rfl | rfl | rfl | rfl | rfl
    all_goals exact Or.inr (fun _ _ => rfl)
  · intro t ht
    simp only [readConeEvidence, List.mem_cons, List.mem_singleton, List.not_mem_nil, or_false] at ht
    rcases ht with rfl | rfl
    all_goals exact Or.inr (fun _ _ => rfl)
  · intro t ht
    simp only [readTrackExtrapolationEvidence, List.mem_cons, List.mem_singleton, List.not_mem_nil, or_false] at ht
    rcases ht with rfl | rfl | rfl | rfl | rfl | rfl | rfl | rfl
    all_goals first | exact Or.inr (fun _ _ => rfl) | exact Or.inl (fun _ _ => rfl)
  · intro t ht
    simp only [readDistanceOfClosestApproachEvidence, List.mem_cons, List.mem_singleton, List.not_mem_nil, or_false] at ht
    rcases ht with rfl | rfl | rfl | rfl
    all_goals exact Or.inr (fun _ _ => rfl)
  · intro t ht
    simp only [readEvidenceWeightings, List.mem_cons, List.mem_singleton, List.not_mem_nil, or_false] at ht
    rcases ht with rfl | rfl | rfl | rfl
    all_goals exact Or.inr (fun _ _ => rfl)
  · intro t ht
    simp only [readRequiredEvidenceLayerCorrection, List.mem_cons, List.mem_singleton, List.not_mem_nil, or_false] at ht
    rcases ht with rfl | rfl | rfl | rfl | rfl | rfl | rfl | rfl | rfl | rfl
    all_goals exact Or.inr (fun _ _ => rfl)
  · intro t ht
    simp only [readLeavingCorrection, List.mem_cons, List.mem_singleton, List.not_mem_nil, or_false] at ht
    rcases ht with rfl | rfl | rfl
    all_goals exact Or.inr (fun _ _ => rfl)
  · intro t ht
    simp only [readEnergyCorrection, List.mem_cons, List.mem_singleton, List.not_mem_nil, or_false] at ht
    rcases ht with rfl
    all_goals exact Or.inr (fun _ _ => rfl)
  · intro t ht
    simp only [readLowEnergyCorrection, List.mem_cons, List.mem_singleton, List.not_mem_nil, or_false] at ht
    rcases ht with rfl | rfl | rfl | rfl | rfl | rfl
    all_goals exact Or.inr (fun _ _ => rfl)
  · intro t ht
    simp only [readAngularCorrection, List.mem_cons, List.mem_singleton, List.not_mem_nil, or_false] at ht
    rcases ht with rfl | rfl | rfl
    all_goals exact Or.inr (fun _ _ => rfl)
  · intro t ht
    simp only [readPhotonCorrection, List.mem_cons, List.mem_singleton, List.not_mem_nil, or_false] at ht
    rcases ht with rfl | rfl | rfl | rfl | rfl | rfl | rfl | rfl | rfl | rfl | rfl | rfl | rfl | rfl | rfl
    all_goals exact Or.inr (fun _ _ => rfl)

theorem readSteps_m_closestTrackEvidence2d :
    ∀ t ∈ readSteps, StepSets (·.m_closestTrackEvidence2d) t ∨ StepKeeps (·.m_closestTrackEvidence2d) t := by
  apply forall_mem_readSteps
  · intro t ht
    simp only [readInitialDaughterClusterSelection, List.mem_cons, List.mem_singleton, List.not_mem_nil, or_false] at ht
    rcases ht with rfl | rfl
    all_goals exact Or.inr (fun _ _ => rfl)
  · intro t ht
    simp only [readClusterContactCuts, List.mem_cons, List.mem_singleton, List.not_mem_nil, or_false] at ht
    rcases ht with rfl | rfl | rfl | rfl | rfl | rfl | rfl | rfl | rfl
    all_goals exact Or.inr (fun _ _ => rfl)
  · intro t ht
    simp only [readTrackClusterConsistencyChi2Values, List.mem_cons, List.mem_singleton, List.not_mem_nil, or_false] at ht
    rcases ht with rfl | rfl | rfl | rfl
    all_goals exact Or.inr (fun _ _ => rfl)
  · intro t ht
    simp only [readCorrectionLayerParameters, List.mem_cons, List.mem_singleton, List.not_mem_nil, or_false] at ht
    rcases ht with rfl | rfl
    all_goals exact Or.inr (fun _ _ => rfl)
  · intro t ht
    simp only [readTotalEvidenceContactEvidence, List.mem_cons, List.mem_singleton, List.not_mem_nil, or_false] at ht
    rcases ht with rfl | rfl | rfl | rfl | rfl | rfl
    all_goals exact Or.inr (fun _ _ => rfl)
  · intro t ht
    simp only [readConeEvidence, List.mem_cons, List.mem_singleton, List.not_mem_nil, or_false] at ht
    rcases ht with rfl | rfl
    all_goals exact Or.inr (fun _ _ => rfl)
  · intro t ht
    simp only [readTrackExtrapolationEvidence, List.mem_cons, List.mem_singleton, List.not_mem_nil, or_false] at ht
    rcases ht with rfl | rfl | rfl | rfl | rfl | rfl | rfl | rfl
    all_goals first | exact Or.inr (fun _ _ => rfl) | exact Or.inl (fun _ _ => rfl)
  · intro t ht
    simp only [readDistanceOfClosestApproachEvidence, List.mem_cons, List.mem_singleton, List.not_mem_nil, or_false] at ht
    rcases ht with rfl | rfl | rfl | rfl
    all_goals exact Or.inr (fun _ _ => rfl)
  · intro t ht
    simp only [readEvidenceWeightings, List.mem_cons, List.mem_singleton, List.not_mem_nil, or_false] at ht
    rcases ht with rfl | rfl | rfl | rfl
    all_goals exact Or.inr (fun _ _ => rfl)
  · intro t ht
    simp only [readRequiredEvidenceLayerCorrection, List.mem_cons, List.mem_singleton, List.not_mem_nil, or_false] at ht
    rcases ht with rfl | rfl | rfl | rfl | rfl | rfl | rfl | rfl | rfl | rfl
    all_goals exact Or.inr (fun _ _ => rfl)
  · intro t ht
    simp only [readLeavingCorrection, List.mem_cons, List.mem_singleton, List.not_mem_nil, or_false] at ht
    rcases ht with rfl | rfl | rfl
    all_goals exact Or.inr (fun _ _ => rfl)
  · intro t ht
    simp only [readEnergyCorrection, List.mem_cons, List.mem_singleton, List.not_mem_nil, or_false] at ht
    rcases ht with rfl
    all_goals exact Or.inr (fun _ _ => rfl)
  · intro t ht
    simp only [readLowEnergyCorrection, List.mem_cons, List.mem_singleton, List.not_mem_nil, or_false] at ht
    rcases ht with rfl | rfl | rfl | rfl | rfl | rfl
    all_goals exact Or.inr (fun _ _ => rfl)
  · intro t ht
    simp only [readAngularCorrection, List.mem_cons, List.mem_singleton, List.not_mem_nil, or_false] at ht
    rcases ht with rfl | rfl | rfl
    all_goals exact Or.inr (fun _ _ => rfl)
  · intro t ht
    simp only [readPhotonCorrection, List.mem_cons, List.mem_singleton, List.not_mem_nil, or_false] at ht
    rcases ht with rfl | rfl | rfl | rfl | rfl | rfl | rfl | rfl | rfl | rfl | rfl | rfl | rfl | rfl | rfl
    all_goals exact Or.inr (fun _ _ => rfl)

theorem readSteps_m_meanTrackEvidence1d :
    ∀ t ∈ readSteps, StepSets (·.m_meanTrackEvidence1d) t ∨ StepKeeps (·.m_meanTrackEvidence1d) t := by
  apply forall_mem_readSteps
  · intro t ht
    simp only [readInitialDaughterClusterSelection, List.mem_cons, List.mem_singleton, List.not_mem_nil, or_false] at ht
    rcases ht with rfl | rfl
    all_goals exact Or.inr (fun _ _ => rfl)
  · intro t ht
    simp only [readClusterContactCuts, List.mem_cons, List.mem_singleton, List.not_mem_nil, or_false] at ht
    rcases ht with rfl | rfl | rfl | rfl | rfl | rfl | rfl | rfl | rfl
    all_goals exact Or.inr (fun _ _ => rfl)
  · intro t ht
    simp only [readTrackClusterConsistencyChi2Values, List.mem_cons, List.mem_singleton, List.not_mem_nil, or_false] at ht
    rcases ht with rfl | rfl | rfl | rfl
    all_goals exact Or.inr (fun _ _ => rfl)
  · intro t ht
    simp only [readCorrectionLayerParameters, List.mem_cons, List.mem_singleton, List.not_mem_nil, or_false] at ht
    rcases ht with rfl | rfl
    all_goals exact Or.inr (fun _ _ => rfl)
  · intro t ht
    simp only [readTotalEvidenceContactEvidence, List.mem_cons, List.mem_singleton, List.not_mem_nil, or_false] at ht
    rcases ht with rfl | rfl | rfl | rfl | rfl | rfl
    all_goals exact Or.inr (fun _ _ => rfl)
  · intro t ht
    simp only [readConeEvidence, List.mem_cons, List.mem_singleton, List.not_mem_nil, or_false] at ht
    rcases ht with rfl | rfl
    all_goals exact Or.inr (fun _ _ => rfl)
  · intro t ht
    simp only [readTrackExtrapolationEvidence, List.mem_cons, List.mem_singleton, List.not_mem_nil, or_false] at ht
    rcases ht with rfl | rfl | rfl | rfl | rfl | rfl | rfl | rfl
    all_goals first | exact Or.inr (fun _ _ => rfl) | exact Or.inl (fun _ _ => rfl)
  · intro t ht
    simp only [readDistanceOfClosestApproachEvidence, List.mem_cons, List.mem_singleton, List.not_mem_nil, or_false] at ht
    rcases ht with rfl | rfl | rfl | rfl
    all_goals exact Or.inr (fun _ _ => rfl)
  · intro t ht
    simp only [readEvidenceWeightings, List.mem_cons, List.mem_singleton, List.not_mem_nil, or_false] at ht
    rcases ht with rfl | rfl | rfl | rfl
    all_goals exact Or.inr (fun _ _ => rfl)
  · intro t ht
    simp only [readRequiredEvidenceLayerCorrection, List.mem_cons, List.mem_singleton, List.not_mem_nil, or_false] at ht
    rcases ht with rfl | rfl | rfl | rfl | rfl | rfl | rfl | rfl | rfl | rfl
    all_goals exact Or.inr (fun _ _ => rfl)
  · intro t ht
    simp only [readLeavingCorrection, List.mem_cons, List.mem_singleton, List.not_mem_nil, or_false] at ht
    rcases ht with rfl | rfl | rfl
    all_goals exact Or.inr (fun _ _ => rfl)
  · intro t ht
    simp only [readEnergyCorrection, List.mem_cons, List.mem_singleton, List.not_mem_nil, or_false] at ht
    rcases ht with rfl
    all_goals exact Or.inr (fun _ _ => rfl)
  · intro t ht
    simp only [readLowEnergyCorrection, List.mem_cons, List.mem_singleton, List.not_mem_nil, or_false] at ht
    rcases ht with rfl | rfl | rfl | rfl | rfl | rfl
    all_goals exact Or.inr (fun _ _ => rfl)
  · intro t ht
    simp only [readAngularCorrection, List.mem_cons, List.mem_singleton, List.not_mem_nil, or_false] at ht
    rcases ht with rfl | rfl | rfl
    all_goals exact Or.inr (fun _ _ => rfl)
  · intro t ht
    simp only [readPhotonCorrection, List.mem_cons, List.mem_singleton, List.not_mem_nil, or_false] at ht
    rcases ht with rfl | rfl | rfl | rfl | rfl | rfl | rfl | rfl | rfl | rfl | rfl | rfl | rfl | rfl | rfl
    all_goals exact Or.inr (fun _ _ => rfl)

theorem readSteps_m_meanTrackEvidence2d :
    ∀ t ∈ readSteps, StepSets (·.m_meanTrackEvidence2d) t ∨ StepKeeps (·.m_meanTrackEvidence2d) t := by
  apply forall_mem_readSteps
  · intro t ht
    simp only [readInitialDaughterClusterSelection, List.mem_cons, List.mem_singleton, List.not_mem_nil, or_false] at ht
    rcases ht with rfl | rfl
    all_goals exact Or.inr (fun _ _ => rfl)
  · intro t ht
    simp only [readClusterContactCuts, List.mem_cons, List.mem_singleton, List.not_mem_nil, or_false] at ht
    rcases ht with rfl | rfl | rfl | rfl | rfl | rfl | rfl | rfl | rfl
    all_goals exact Or.inr (fun _ _ => rfl)
  · intro t ht
    simp only [readTrackClusterConsistencyChi2Values, List.mem_cons, List.mem_singleton, List.not_mem_nil, or_false] at ht
    rcases ht with rfl | rfl | rfl | rfl
    all_goals exact Or.inr (fun _ _ => rfl)
  · intro t ht
    simp only [readCorrectionLayerParameters, List.mem_cons, List.mem_singleton, List.not_mem_nil, or_false] at ht
    rcases ht with rfl | rfl
    all_goals exact Or.inr (fun _ _ => rfl)
  · intro t ht
    simp only [readTotalEvidenceContactEvidence, List.mem_cons, List.mem_singleton, List.not_mem_nil, or_false] at ht
    rcases ht with rfl | rfl | rfl | rfl | rfl | rfl
    all_goals exact Or.inr (fun _ _ => rfl)
  · intro t ht
    simp only [readConeEvidence, List.mem_cons, List.mem_singleton, List.not_mem_nil, or_false] at ht
    rcases ht with rfl | rfl
    all_goals exact Or.inr (fun _ _ => rfl)
  · intro t ht
    simp only [readTrackExtrapolationEvidence, List.mem_cons, List.mem_singleton, List.not_mem_nil, or_false] at ht
    rcases ht with rfl | rfl | rfl | rfl | rfl | rfl | rfl | rfl
    all_goals first | exact Or.inr (fun _ _ => rfl) | exact Or.inl (fun _ _ => rfl)
  · intro t ht
    simp only [readDistanceOfClosestApproachEvidence, List.mem_cons, List.mem_singleton, List.not_mem_nil, or_false] at ht
    rcases ht with rfl | rfl | rfl | rfl
    all_goals exact Or.inr (fun _ _ => rfl)
  · intro t ht
    simp only [readEvidenceWeightings, List.mem_cons, List.mem_singleton, List.not_mem_nil, or_false] at ht
    rcases ht with rfl | rfl | rfl | rfl
    all_goals exact Or.inr (fun _ _ => rfl)
  · intro t ht
    simp only [readRequiredEvidenceLayerCorrection, List.mem_cons, List.mem_singleton, List.not_mem_nil, or_false] at ht
    rcases ht with rfl | rfl | rfl | rfl | rfl | rfl | rfl | rfl | rfl | rfl
    all_goals exact Or.inr (fun _ _ => rfl)
  · intro t ht
    simp only [readLeavingCorrection, List.mem_cons, List.mem_singleton, List.not_mem_nil, or_false] at ht
    rcases ht with rfl | rfl | rfl
    all_goals exact Or.inr (fun _ _ => rfl)
  · intro t ht
    simp only [readEnergyCorrection, List.mem_cons, List.mem_singleton, List.not_mem_nil, or_false] at ht
    rcases ht with rfl
    all_goals exact Or.inr (fun _ _ => rfl)
  · intro t ht
    simp only [readLowEnergyCorrection, List.mem_cons, List.mem_singleton, List.not_mem_nil, or_false] at ht
    rcases ht with rfl | rfl | rfl | rfl | rfl | rfl
    all_goals exact Or.inr (fun _ _ => rfl)
  · intro t ht
    simp only [readAngularCorrection, List.mem_cons, List.mem_singleton, List.not_mem_nil, or_false] at ht
    rcases ht with rfl | rfl | rfl
    all_goals exact Or.inr (fun _ _ => rfl)
  · intro t ht
    simp only [readPhotonCorrection, List.mem_cons, List.mem_singleton, List.not_mem_nil, or_false] at ht
    rcases ht with rfl | rfl | rfl | rfl | rfl | rfl | rfl | rfl | rfl | rfl | rfl | rfl | rfl | rfl | rfl
    all_goals exact Or.inr (fun _ _ => rfl)

theorem readSteps_m_distanceEvidence1d :
    ∀ t ∈ readSteps, StepSets (·.m_distanceEvidence1d) t ∨ StepKeeps (·.m_distanceEvidence1d) t := by
  apply forall_mem_readSteps
  · intro t ht
    simp only [readInitialDaughterClusterSelection, List.mem_cons, List.mem_singleton, List.not_mem_nil, or_false] at ht
    rcases ht with rfl | rfl
    all_goals exact Or.inr (fun _ _ => rfl)
  · intro t ht
    simp only [readClusterContactCuts, List.mem_cons, List.mem_singleton, List.not_mem_nil, or_false] at ht
    rcases ht with rfl | rfl | rfl | rfl | rfl | rfl | rfl | rfl | rfl
    all_goals exact Or.inr (fun _ _ => rfl)
  · intro t ht
    simp only [readTrackClusterConsistencyChi2Values, List.mem_cons, List.mem_singleton, List.not_mem_nil, or_false] at ht
    rcases ht with rfl | rfl | rfl | rfl
    all_goals exact Or.inr (fun _ _ => rfl)
  · intro t ht
    simp only [readCorrectionLayerParameters, List.mem_cons, List.mem_singleton, List.not_mem_nil, or_false] at ht
    rcases ht with rfl | rfl
    all_goals exact Or.inr (fun _ _ => rfl)
  · intro t ht
    simp only [readTotalEvidenceContactEvidence, List.mem_cons, List.mem_singleton, List.not_mem_nil, or_false] at ht
    rcases ht with rfl | rfl | rfl | rfl | rfl | rfl
    all_goals exact Or.inr (fun _ _ => rfl)
  · intro t ht
    simp only [readConeEvidence, List.mem_cons, List.mem_singleton, List.not_mem_nil, or_false] at ht
    rcases ht with rfl | rfl
    all_goals exact Or.inr (fun _ _ => rfl)
  · intro t ht
    simp only [readTrackExtrapolationEvidence, List.mem_cons, List.mem_singleton, List.not_mem_nil, or_false] at ht
    rcases ht with rfl | rfl | rfl | rfl | rfl | rfl | rfl | rfl
    all_goals exact Or.inr (fun _ _ => rfl)
  · intro t ht
    simp only [readDistanceOfClosestApproachEvidence, List.mem_cons, List.mem_singleton, List.not_mem_nil, or_false] at ht
    rcases ht with rfl | rfl | rfl | rfl
    all_goals first | exact Or.inr (fun _ _ => rfl) | exact Or.inl (fun _ _ => rfl)
  · intro t ht
    simp only [readEvidenceWeightings, List.mem_cons, List.mem_singleton, List.not_mem_nil, or_false] at ht
    rcases ht with rfl | rfl | rfl | rfl
    all_goals exact Or.inr (fun _ _ => rfl)
  · intro t ht
    simp only [readRequiredEvidenceLayerCorrection, List.mem_cons, List.mem_singleton, List.not_mem_nil, or_false] at ht
    rcases ht with rfl | rfl | rfl | rfl | rfl | rfl | rfl | rfl | rfl | rfl
    all_goals exact Or.inr (fun _ _ => rfl)
  · intro t ht
    simp only [readLeavingCorrection, List.mem_cons, List.mem_singleton, List.not_mem_nil, or_false] at ht
    rcases ht with rfl | rfl | rfl
    all_goals exact Or.inr (fun _ _ => rfl)
  · intro t ht
    simp only [readEnergyCorrection, List.mem_cons, List.mem_singleton, List.not_mem_nil, or_false] at ht
    rcases ht with rfl
    all_goals exact Or.inr (fun _ _ => rfl)
  · intro t ht
    simp only [readLowEnergyCorrection, List.mem_cons, List.mem_singleton, List.not_mem_nil, or_false] at ht
    rcases ht with rfl | rfl | rfl | rfl | rfl | rfl
    all_goals exact Or.inr (fun _ _ => rfl)
  · intro t ht
    simp only [readAngularCorrection, List.mem_cons, List.mem_singleton, List.not_mem_nil, or_false] at ht
    rcases ht with rfl | rfl | rfl
    all_goals exact Or.inr (fun _ _ => rfl)
  · intro t ht
    simp only [readPhotonCorrection, List.mem_cons, List.mem_singleton, List.not_mem_nil, or_false] at ht
    rcases ht with rfl | rfl | rfl | rfl | rfl | rfl | rfl | rfl | rfl | rfl | rfl | rfl | rfl | rfl | rfl
    all_goals exact Or.inr (fun _ _ => rfl)

theorem readSteps_dropWhile_ClosestTrackEvidence1d :
    ∃ default set post, readSteps.dropWhile (fun t => t.key != "ClosestTrackEvidence1d") =
      ReadStep.float "ClosestTrackEvidence1d" default set true :: post :=
  ⟨_, _, _, rfl⟩

theorem readSteps_split_ClosestTrackEvidence1d :
    ∃ default set post,
      readSteps = readSteps.takeWhile (fun t => t.key != "ClosestTrackEvidence1d") ++
        ReadStep.float "ClosestTrackEvidence1d" default set true :: post := by
  obtain ⟨default, set, post, h⟩ := readSteps_dropWhile_ClosestTrackEvidence1d
  refine ⟨default, set, post, ?_⟩
  rw [← h, List.takeWhile_append_dropWhile]

theorem readSteps_dropWhile_ClosestTrackEvidence2d :
    ∃ default set post, readSteps.dropWhile (fun t => t.key != "ClosestTrackEvidence2d") =
      ReadStep.float "ClosestTrackEvidence2d" default set true :: post :=
  ⟨_, _, _, rfl⟩

theorem readSteps_split_ClosestTrackEvidence2d :
    ∃ default set post,
      readSteps = readSteps.takeWhile (fun t => t.key != "ClosestTrackEvidence2d") ++
        ReadStep.float "ClosestTrackEvidence2d" default set true :: post := by
  obtain ⟨default, set, post, h⟩ := readSteps_dropWhile_ClosestTrackEvidence2d
  refine ⟨default, set, post, ?_⟩
  rw [← h, List.takeWhile_append_dropWhile]

theorem readSteps_dropWhile_MeanTrackEvidence1d :
    ∃ default set post, readSteps.dropWhile (fun t => t.key != "MeanTrackEvidence1d") =
      ReadStep.float "MeanTrackEvidence1d" default set true :: post :=
  ⟨_, _, _, rfl⟩

theorem readSteps_split_MeanTrackEvidence1d :
    ∃ default set post,
      readSteps = readSteps.takeWhile (fun t => t.key != "MeanTrackEvidence1d") ++
        ReadStep.float "MeanTrackEvidence1d" default set true :: post := by
  obtain ⟨default, set, post, h⟩ := readSteps_dropWhile_MeanTrackEvidence1d
  refine ⟨default, set, post, ?_⟩
  rw [← h, List.takeWhile_append_dropWhile]

theorem readSteps_dropWhile_MeanTrackEvidence2d :
    ∃ default set post, readSteps.dropWhile (fun t => t.key != "MeanTrackEvidence2d") =
      ReadStep.float "MeanTrackEvidence2d" default set true :: post :=
  ⟨_, _, _, rfl⟩

theorem readSteps_split_MeanTrackEvidence2d :
    ∃ default set post,
      readSteps = readSteps.takeWhile (fun t => t.key != "MeanTrackEvidence2d") ++
        ReadStep.float "MeanTrackEvidence2d" default set true :: post := by
  obtain ⟨default, set, post, h⟩ := readSteps_dropWhile_MeanTrackEvidence2d
  refine ⟨default, set, post, ?_⟩
  rw [← h, List.takeWhile_append_dropWhile]

theorem readSteps_dropWhile_DistanceEvidence1d :
    ∃ default set post, readSteps.dropWhile (fun t => t.key != "DistanceEvidence1d") =
      ReadStep.float "DistanceEvidence1d" default set true :: post :=
  ⟨_, _, _, rfl⟩

theorem readSteps_split_DistanceEvidence1d :
    ∃ default set post,
      readSteps = readSteps.takeWhile (fun t => t.key != "DistanceEvidence1d") ++
        ReadStep.float "DistanceEvidence1d" default set true :: post := by
  obtain ⟨default, set, post, h⟩ := readSteps_dropWhile_DistanceEvidence1d
  refine ⟨default, set, post, ?_⟩
  rw [← h, List.takeWhile_append_dropWhile]

/-- Each of the five scale parameters is set and checked by a read of `ReadSettings`. -/
theorem readSteps_sets_scales :
    (∃ t ∈ readSteps, StepSets (·.m_closestTrackEvidence1d) t) ∧
    (∃ t ∈ readSteps, StepSets (·.m_closestTrackEvidence2d) t) ∧
    (∃ t ∈ readSteps, StepSets (·.m_meanTrackEvidence1d) t) ∧
    (∃ t ∈ readSteps, StepSets (·.m_meanTrackEvidence2d) t) ∧
    (∃ t ∈ readSteps, StepSets (·.m_distanceEvidence1d) t) := by
  refine ⟨⟨ReadStep.float "ClosestTrackEvidence1d" 100
      (fun cfg v => { cfg with m_closestTrackEvidence1d := v }) true, ?_, ?_⟩,
    ⟨ReadStep.float "ClosestTrackEvidence2d" 20
      (fun cfg v => { cfg with m_closestTrackEvidence2d := v }) true, ?_, ?_⟩,
    ⟨ReadStep.float "MeanTrackEvidence1d" 100
      (fun cfg v => { cfg with m_meanTrackEvidence1d := v }) true, ?_, ?_⟩,
    ⟨ReadStep.float "MeanTrackEvidence2d" 50
      (fun cfg v => { cfg with m_meanTrackEvidence2d := v }) true, ?_, ?_⟩,
    ⟨ReadStep.float "DistanceEvidence1d" 100
      (fun cfg v => { cfg with m_distanceEvidence1d := v }) true, ?_, ?_⟩⟩
  all_goals first
    | (intro cfg v; rfl)
    | simp [readSteps, readTrackExtrapolationEvidence, readDistanceOfClosestApproachEvidence]

/-- C14: with each XML read giving a value, not-found or another status: for each of the five
scale parameters `ClosestTrackEvidence1d`, `ClosestTrackEvidence2d`, `MeanTrackEvidence1d`,
`MeanTrackEvidence2d` and `DistanceEvidence1d`, if its configured value is `0` and no read before
it returns a status other than success or not-found, `ReadSettings` returns
`STATUS_CODE_INVALID_PARAMETER`; and whenever `ReadSettings` returns success, the five divisors
used by `GetTotalEvidenceForMerge` are non-zero. -/
theorem C14_zero_scale_parameter_rejected (xml : TiXmlHandle) (members : Settings) :
    (∀ key ∈ ["ClosestTrackEvidence1d", "ClosestTrackEvidence2d", "MeanTrackEvidence1d",
        "MeanTrackEvidence2d", "DistanceEvidence1d"],
      (∀ t ∈ readSteps.takeWhile (fun t => t.key != key),
        t.status xml = StatusCode.SUCCESS ∨ t.status xml = StatusCode.NOT_FOUND) →
      xml.readFloat key = .value 0 →
      ReadSettings xml members = .error StatusCode.INVALID_PARAMETER) ∧
    (∀ cfg, ReadSettings xml members = .ok cfg →
      cfg.m_closestTrackEvidence1d ≠ 0 ∧ cfg.m_closestTrackEvidence2d ≠ 0 ∧
      cfg.m_meanTrackEvidence1d ≠ 0 ∧ cfg.m_meanTrackEvidence2d ≠ 0 ∧
      cfg.m_distanceEvidence1d ≠ 0) := by
  constructor
  · intro key hkey hpre hzero
    simp only [List.mem_cons, List.mem_singleton, List.not_mem_nil, or_false] at hkey
    rcases hkey with rfl | rfl | rfl | rfl | rfl
    · obtain ⟨default, set, post, h⟩ := readSteps_split_ClosestTrackEvidence1d
      rw [ReadSettings, h]
      exact runSteps_zero_scale xml _ post _ default set members hpre hzero
    · obtain ⟨default, set, post, h⟩ := readSteps_split_ClosestTrackEvidence2d
      rw [ReadSettings, h]
      exact runSteps_zero_scale xml _ post _ default set members hpre hzero
    · obtain ⟨default, set, post, h⟩ := readSteps_split_MeanTrackEvidence1d
      rw [ReadSettings, h]
      exact runSteps_zero_scale xml _ post _ default set members hpre hzero
    · obtain ⟨default, set, post, h⟩ := readSteps_split_MeanTrackEvidence2d
      rw [ReadSettings, h]
      exact runSteps_zero_scale xml _ post _ default set members hpre hzero
    · obtain ⟨default, set, post, h⟩ := readSteps_split_DistanceEvidence1d
      rw [ReadSettings, h]
      exact runSteps_zero_scale xml _ post _ default set members hpre hzero
  · intro cfg hrun
    obtain ⟨s1, s2, s3, s4, s5⟩ := readSteps_sets_scales
    exact ⟨runSteps_nonzero xml _ readSteps members cfg readSteps_m_closestTrackEvidence1d
        (Or.inr s1) hrun,
      runSteps_nonzero xml _ readSteps members cfg readSteps_m_closestTrackEvidence2d
        (Or.inr s2) hrun,
      runSteps_nonzero xml _ readSteps members cfg readSteps_m_meanTrackEvidence1d
        (Or.inr s3) hrun,
      runSteps_nonzero xml _ readSteps members cfg readSteps_m_meanTrackEvidence2d
        (Or.inr s4) hrun,
      runSteps_nonzero xml _ readSteps members cfg readSteps_m_distanceEvidence1d
        (Or.inr s5) hrun⟩

/-- Every read of the example input with one zero key gives success or not-found. -/
theorem exampleZeroXml_status (key : String) (t : ReadStep) :
    t.status (exampleZeroXml key) = StatusCode.SUCCESS ∨
      t.status (exampleZeroXml key) = StatusCode.NOT_FOUND := by
  cases t with
  | uint k default set => exact Or.inr rfl
  | bool k default set => exact Or.inr rfl
  | int k default set => exact Or.inr rfl
  | float k default set rejectZero =>
    simp only [ReadStep.status, exampleZeroXml]
    split
    · exact Or.inl rfl
    · exact Or.inr rfl

/-- C14 at the input whose only key is `MeanTrackEvidence1d`, with value zero. -/
theorem C14_zero_scale_parameter_rejected_witness :
    (∀ t ∈ readSteps.takeWhile (fun t => t.key != "MeanTrackEvidence1d"),
        t.status (exampleZeroXml "MeanTrackEvidence1d") = StatusCode.SUCCESS ∨
          t.status (exampleZeroXml "MeanTrackEvidence1d") = StatusCode.NOT_FOUND) ∧
      (exampleZeroXml "MeanTrackEvidence1d").readFloat "MeanTrackEvidence1d" = .value 0 ∧
      ReadSettings (exampleZeroXml "MeanTrackEvidence1d") defaultSettings =
        .error StatusCode.INVALID_PARAMETER :=
  ⟨fun t _ => exampleZeroXml_status _ t, by simp [exampleZeroXml],
    (C14_zero_scale_parameter_rejected (exampleZeroXml "MeanTrackEvidence1d") defaultSettings).1
      "MeanTrackEvidence1d" (by simp) (fun t _ => exampleZeroXml_status _ t)
      (by simp [exampleZeroXml])⟩

/-- With no key configured `ReadSettings` returns the default configuration, whatever the
members held before. -/
theorem ReadSettings_empty (members : Settings) :
    ReadSettings exampleEmptyXml members = .ok defaultSettings := by
  cases members
  rfl

theorem defaultContactTier_mono (n n' : Nat) (h : n ≤ n') :
    defaultContactTier n ≤ defaultContactTier n' := by
  simp only [defaultContactTier]
  split_ifs <;> first | (exfalso; omega) | norm_num

/-- C19: with the default configuration, which `ReadSettings` returns when no key is configured
(layer thresholds `10`, `4`, `1` and tier values `2`, `1`, `0.5`), the contact-layer evidence of a
contact with `n` contact layers and contact fraction `f` is `t(n) * (1 + f)`, where `t(n)` is `2`
if `n > 10`, `1` if `4 < n ≤ 10`, `0.5` if `1 < n ≤ 4` and `0` otherwise; `t` is non-decreasing,
and a contact with twelve contact layers selects the top tier. -/
theorem C19_default_contact_layer_evidence (members : Settings) (c : ClusterContact) :
    ∃ cfg, ReadSettings exampleEmptyXml members = .ok cfg ∧
      cfg.m_contactEvidenceNLayers1 = 10 ∧ cfg.m_contactEvidenceNLayers2 = 4 ∧
      cfg.m_contactEvidenceNLayers3 = 1 ∧ cfg.m_contactEvidence1 = 2 ∧
      cfg.m_contactEvidence2 = 1 ∧ cfg.m_contactEvidence3 = 1 / 2 ∧
      contactEvidence cfg c = defaultContactTier c.nContactLayers * (1 + c.contactFraction) ∧
      (∀ n : Nat, defaultContactTier n =
        if n > 10 then 2 else if 4 < n ∧ n ≤ 10 then 1 else if 1 < n ∧ n ≤ 4 then 1 / 2 else 0) ∧
      (∀ n n' : Nat, n ≤ n' → defaultContactTier n ≤ defaultContactTier n') ∧
      (c.nContactLayers = 12 →
        defaultContactTier c.nContactLayers = 2 ∧
          contactEvidence cfg c = 2 * (1 + c.contactFraction)) := by
  refine ⟨defaultSettings, ReadSettings_empty members, rfl, rfl, rfl, rfl, rfl, rfl, rfl, ?_,
    defaultContactTier_mono, ?_⟩
  · intro n
    simp only [defaultContactTier]
    split_ifs <;> first | rfl | omega
  · intro h12
    have ht : defaultContactTier c.nContactLayers = 2 := by
      rw [h12]
      simp [defaultContactTier]
    refine ⟨ht, ?_⟩
    rw [← ht]
    rfl

/-- C19 at the example contact of cluster `2` with cluster `1`, which has twelve contact
layers. -/
theorem C19_default_contact_layer_evidence_witness :
    (exampleContact 2 1).nContactLayers = 12 ∧
      ∃ cfg, ReadSettings exampleEmptyXml defaultSettings = .ok cfg ∧
        defaultContactTier (exampleContact 2 1).nContactLayers = 2 ∧
        contactEvidence cfg (exampleContact 2 1) = 2 * (1 + (exampleContact 2 1).contactFraction) := by
  obtain ⟨cfg, h1, _, _, _, _, _, _, _, _, _, h2⟩ :=
    C19_default_contact_layer_evidence defaultSettings (exampleContact 2 1)
  exact ⟨rfl, cfg, h1, h2 rfl⟩

end ReadSettingsTheorems

/-! ## The merge loop: invariant of the stored daughters, convergence and failure -/

section LoopInvariantTheorems

variable {W : Type}

theorem ClusterContactMap.mem_of_mem_erase {m : ClusterContactMap} {k : ClusterPtr}
    {e : ClusterPtr × ClusterContactVector} (he : e ∈ m.erase k) : e ∈ m := by
  induction m with
  | nil => simp [ClusterContactMap.erase] at he
  | cons e' rest ih =>
    obtain ⟨key, vector⟩ := e'
    simp only [ClusterContactMap.erase] at he
    by_cases hk : key = k
    · rw [if_pos hk] at he
      exact List.mem_cons_of_mem _ he
    · rw [if_neg hk] at he
      rcases List.mem_cons.mp he with heq | hmem
      · rw [heq]
        exact List.mem_cons_self _ _
      · exact List.mem_cons_of_mem _ (ih hmem)

theorem KeyIsDaughter_erase (m : ClusterContactMap) (k : ClusterPtr) (hm : KeyIsDaughter m) :
    KeyIsDaughter (m.erase k) :=
  fun e he => hm e (ClusterContactMap.mem_of_mem_erase he)

theorem KeyIsDaughter_pushBack (m : ClusterContactMap) (k : ClusterPtr) (c : ClusterContact)
    (hm : KeyIsDaughter m) (hc : c.daughterCluster = k) : KeyIsDaughter (m.pushBack k c) := by
  intro e he c' hc'
  rcases ClusterContactMap.mem_pushBack_contacts he with h | ⟨hk, hcs⟩
  · exact hm e h c' hc'
  · rw [hk]
    rcases hcs c' hc' with h | ⟨v, hv, hcv⟩
    · rw [h]
      exact hc
    · exact hm (k, v) hv c' hcv

theorem parentStep_key (cfg : Settings) (api : PandoraApi W) (w : W) (d p : ClusterPtr)
    (m : ClusterContactMap) (hm : KeyIsDaughter m) :
    KeyIsDaughter (parentStep cfg api w d m p) := by
  simp only [parentStep]
  split_ifs
  · exact hm
  · exact hm
  · exact KeyIsDaughter_pushBack m d _ hm rfl
  · exact hm

theorem foldl_parentStep_key (cfg : Settings) (api : PandoraApi W) (w : W) (d : ClusterPtr)
    (parents : List ClusterPtr) (m : ClusterContactMap) (hm : KeyIsDaughter m) :
    KeyIsDaughter (parents.foldl (parentStep cfg api w d) m) := by
  induction parents generalizing m with
  | nil => exact hm
  | cons p rest ih =>
    simp only [List.foldl_cons]
    exact ih _ (parentStep_key cfg api w d p m hm)

theorem daughterStep_key (cfg : Settings) (api : PandoraApi W) (w : W) (parents : List ClusterPtr)
    (isFirstPass : Bool) (affectedClusters : Finset ClusterPtr) (m : ClusterContactMap)
    (d : ClusterPtr) (hm : KeyIsDaughter m) :
    KeyIsDaughter (daughterStep cfg api w parents isFirstPass affectedClusters m d) := by
  have hm1 : KeyIsDaughter
      (if (!isFirstPass) = true then
        (match m.find d with
          | some _ => m.erase d
          | none => m)
        else m) := by
    split_ifs
    · cases m.find d with
      | none => exact hm
      | some v => exact KeyIsDaughter_erase m d hm
    · exact hm
  simp only [daughterStep]
  by_cases h1 : (!isFirstPass) = true ∧ d ∉ affectedClusters
  · rw [if_pos h1]
    exact hm
  · rw [if_neg h1]
    by_cases h2 : (!(api.cluster w d).associatedTrackList.isEmpty) = true
    · rw [if_pos h2]
      exact hm1
    · rw [if_neg h2]
      by_cases h3 : (api.cluster w d).nCaloHits < cfg.m_minDaughterCaloHits ∨
          (api.cluster w d).hadronicEnergy < cfg.m_minDaughterHadronicEnergy
      · rw [if_pos h3]
        exact hm1
      · rw [if_neg h3]
        exact foldl_parentStep_key cfg api w d parents _ hm1

theorem foldl_daughterStep_key (cfg : Settings) (api : PandoraApi W) (w : W)
    (parents : List ClusterPtr) (isFirstPass : Bool) (affectedClusters : Finset ClusterPtr)
    (daughters : List ClusterPtr) (m : ClusterContactMap) (hm : KeyIsDaughter m) :
    KeyIsDaughter
      (daughters.foldl (daughterStep cfg api w parents isFirstPass affectedClusters) m) := by
  induction daughters generalizing m with
  | nil => exact hm
  | cons d rest ih =>
    simp only [List.foldl_cons]
    exact ih _ (daughterStep_key cfg api w parents isFirstPass affectedClusters m d hm)

/-- A pass of the builder keeps every stored daughter equal to the key of its entry. -/
theorem GetClusterContactMap_key (cfg : Settings) (api : PandoraApi W) (w : W) (isFirstPass : Bool)
    (affectedClusters : Finset ClusterPtr) (m m' : ClusterContactMap) (isFirstPass' : Bool)
    (hm : KeyIsDaughter m)
    (hrun : GetClusterContactMap cfg api w isFirstPass affectedClusters m =
      .ok (isFirstPass', m')) : KeyIsDaughter m' := by
  simp only [GetClusterContactMap] at hrun
  split at hrun
  · cases hrun
  · simp only [Except.ok.injEq, Prod.mk.injEq] at hrun
    rw [← hrun.2]
    exact foldl_daughterStep_key cfg api w _ isFirstPass affectedClusters _ m hm

/-- What an iteration of `Run` that does not abort has done: the builder and the selector have
succeeded, and either a pair was selected, the affected set computed and the pair merged, or no
pair was selected and nothing was merged. -/
theorem RunIteration_ok_inv (cfg : Settings) (api : PandoraApi W) (s s' : RunState W)
    (merged : Option (ClusterPtr × ClusterPtr))
    (hrun : RunIteration cfg api s = .ok (merged, s')) :
    ∃ isFirstPass m' sel,
      GetClusterContactMap cfg api s.world s.isFirstPass s.affectedClusters s.clusterContactMap =
        .ok (isFirstPass, m') ∧
      GetClusterMergingCandidates cfg api s.world m' none none s.m_muonDirectionVector = .ok sel ∧
      ((∃ P D affected world,
          sel.pBestParentCluster = some P ∧ sel.pBestDaughterCluster = some D ∧
          GetAffectedClusters m' P D s.affectedClusters = .ok affected ∧
          api.MergeAndDeleteClusters s.world P D = .ok world ∧
          merged = some (P, D) ∧
          s' = { world := world
                 isFirstPass := isFirstPass
                 affectedClusters := affected
                 clusterContactMap := m'.erase D
                 m_muonDirectionVector := sel.m_muonDirectionVector }) ∨
        ((sel.pBestParentCluster = none ∨ sel.pBestDaughterCluster = none) ∧
          merged = none ∧
          s' = { world := s.world
                 isFirstPass := isFirstPass
                 affectedClusters := s.affectedClusters
                 clusterContactMap := m'
                 m_muonDirectionVector := sel.m_muonDirectionVector })) := by
  simp only [RunIteration] at hrun
  cases hb : GetClusterContactMap cfg api s.world s.isFirstPass s.affectedClusters
      s.clusterContactMap with
  | error e =>
    rw [hb] at hrun
    cases hrun
  | ok built =>
    obtain ⟨isFirstPass, m'⟩ := built
    rw [hb] at hrun
    simp only at hrun
    cases hsel : GetClusterMergingCandidates cfg api s.world m' none none
        s.m_muonDirectionVector with
    | error e =>
      rw [hsel] at hrun
      cases hrun
    | ok sel =>
      rw [hsel] at hrun
      simp only at hrun
      refine ⟨isFirstPass, m', sel, rfl, hsel, ?_⟩
      cases hP : sel.pBestParentCluster with
      | none =>
        rw [hP] at hrun
        simp only [Except.ok.injEq, Prod.mk.injEq] at hrun
        exact Or.inr ⟨Or.inl rfl, hrun.1.symm, hrun.2.symm⟩
      | some P =>
        cases hD : sel.pBestDaughterCluster with
        | none =>
          rw [hP, hD] at hrun
          simp only [Except.ok.injEq, Prod.mk.injEq] at hrun
          exact Or.inr ⟨Or.inr rfl, hrun.1.symm, hrun.2.symm⟩
        | some D =>
          rw [hP, hD] at hrun
          simp only at hrun
          cases haff : GetAffectedClusters m' P D s.affectedClusters with
          | error e =>
            rw [haff] at hrun
            cases hrun
          | ok affected =>
            rw [haff] at hrun
            simp only at hrun
            cases hmg : api.MergeAndDeleteClusters s.world P D with
            | error status =>
              rw [hmg] at hrun
              cases hrun
            | ok world =>
              rw [hmg] at hrun
              simp only [Except.ok.injEq, Prod.mk.injEq] at hrun
              exact Or.inl ⟨P, D, affected, world, rfl, rfl, haff, hmg, hrun.1.symm, hrun.2.symm⟩

/-- An iteration of `Run` keeps every stored daughter equal to the key of its entry. -/
theorem RunIteration_key (cfg : Settings) (api : PandoraApi W) (s s' : RunState W)
    (merged : Option (ClusterPtr × ClusterPtr)) (hm : KeyIsDaughter s.clusterContactMap)
    (hrun : RunIteration cfg api s = .ok (merged, s')) : KeyIsDaughter s'.clusterContactMap := by
  obtain ⟨isFirstPass, m', sel, hb, _, hcase⟩ := RunIteration_ok_inv cfg api s s' merged hrun
  have hm' := GetClusterContactMap_key cfg api s.world s.isFirstPass s.affectedClusters
    s.clusterContactMap m' isFirstPass hm hb
  rcases hcase with ⟨P, D, affected, world, _, _, _, _, _, hs'⟩ | ⟨_, _, hs'⟩
  · rw [hs']
    exact KeyIsDaughter_erase m' D hm'
  · rw [hs']
    exact hm'

theorem Iterates_key (cfg : Settings) (api : PandoraApi W) (s s' : RunState W)
    (merges : List (ClusterPtr × ClusterPtr)) (hiter : Iterates cfg api s merges s')
    (hm : KeyIsDaughter s.clusterContactMap) : KeyIsDaughter s'.clusterContactMap := by
  induction hiter with
  | done s => exact hm
  | step s s1 s2 merged merges hfirst _ ih =>
    exact ih (RunIteration_key cfg api s s1 (some merged) hm hfirst)

/-- C12: in every state that the loop of `Run` reaches from its initial empty contact map, every
contact stored in the map has a stored daughter equal to the key of its entry; this also holds
for the map that the builder pass of the next iteration returns and after the erasure of any
entry, and the call of `GetClusterMergingCandidates` on the map that the builder returns is not
ended by the daughter-mismatch exception. -/
theorem C12_stored_daughter_is_key (cfg : Settings) (api : PandoraApi W) (w : W)
    (m_muonDirectionVector : List CartesianVector) (merges : List (ClusterPtr × ClusterPtr))
    (s : RunState W)
    (hiter : Iterates cfg api (RunState.initial w m_muonDirectionVector) merges s) :
    KeyIsDaughter s.clusterContactMap ∧
      ∀ isFirstPass m',
        GetClusterContactMap cfg api s.world s.isFirstPass s.affectedClusters
            s.clusterContactMap = .ok (isFirstPass, m') →
          KeyIsDaughter m' ∧
          (∃ sel, GetClusterMergingCandidates cfg api s.world m' none none
            s.m_muonDirectionVector = .ok sel) ∧
          ∀ D, KeyIsDaughter (m'.erase D) := by
  have hs : KeyIsDaughter s.clusterContactMap :=
    Iterates_key cfg api _ s merges hiter (fun e he => by simp [RunState.initial] at he)
  refine ⟨hs, fun isFirstPass m' hb => ?_⟩
  have hm' := GetClusterContactMap_key cfg api s.world s.isFirstPass s.affectedClusters
    s.clusterContactMap m' isFirstPass hs hb
  exact ⟨hm', selectEntries_ok cfg api s.world m' _ hm', fun D => KeyIsDaughter_erase m' D hm'⟩

/-- An iteration of `Run` in which the builder and the selector succeed and the selector leaves
an output null merges nothing. -/
theorem RunIteration_of_stop (cfg : Settings) (api : PandoraApi W) (s : RunState W)
    (isFirstPass : Bool) (m' : ClusterContactMap) (sel : SelectorState)
    (hb : GetClusterContactMap cfg api s.world s.isFirstPass s.affectedClusters
      s.clusterContactMap = .ok (isFirstPass, m'))
    (hsel : GetClusterMergingCandidates cfg api s.world m' none none s.m_muonDirectionVector =
      .ok sel)
    (hnull : sel.pBestParentCluster = none ∨ sel.pBestDaughterCluster = none) :
    RunIteration cfg api s =
      .ok (none,
        { world := s.world
          isFirstPass := isFirstPass
          affectedClusters := s.affectedClusters
          clusterContactMap := m'
          m_muonDirectionVector := sel.m_muonDirectionVector }) := by
  simp only [RunIteration, hb, hsel]
  rcases hnull with h | h
  · rw [h]
  · rw [h]
    cases sel.pBestParentCluster <;> rfl

/-- An iteration of `Run` in which the four calls succeed merges the selected pair. -/
theorem RunIteration_of_merge (cfg : Settings) (api : PandoraApi W) (s : RunState W)
    (isFirstPass : Bool) (m' : ClusterContactMap) (sel : SelectorState) (P D : ClusterPtr)
    (affected : Finset ClusterPtr) (world : W)
    (hb : GetClusterContactMap cfg api s.world s.isFirstPass s.affectedClusters
      s.clusterContactMap = .ok (isFirstPass, m'))
    (hsel : GetClusterMergingCandidates cfg api s.world m' none none s.m_muonDirectionVector =
      .ok sel)
    (hP : sel.pBestParentCluster = some P) (hD : sel.pBestDaughterCluster = some D)
    (haff : GetAffectedClusters m' P D s.affectedClusters = .ok affected)
    (hmg : api.MergeAndDeleteClusters s.world P D = .ok world) :
    RunIteration cfg api s =
      .ok (some (P, D),
        { world := world
          isFirstPass := isFirstPass
          affectedClusters := affected
          clusterContactMap := m'.erase D
          m_muonDirectionVector := sel.m_muonDirectionVector }) := by
  simp only [RunIteration, hb, hsel, hP, hD, haff, hmg]

/-- The four ways an iteration of `Run` is aborted: by the builder, by the selector, by the
affected-set computation, or by the merge call, whose status is then returned. -/
theorem RunIteration_of_failure (cfg : Settings) (api : PandoraApi W) (s : RunState W) (e : Abort)
    (hfail :
      GetClusterContactMap cfg api s.world s.isFirstPass s.affectedClusters
          s.clusterContactMap = .error e ∨
      (∃ isFirstPass m',
        GetClusterContactMap cfg api s.world s.isFirstPass s.affectedClusters
            s.clusterContactMap = .ok (isFirstPass, m') ∧
          (GetClusterMergingCandidates cfg api s.world m' none none s.m_muonDirectionVector =
              .error e ∨
            ∃ sel P D,
              GetClusterMergingCandidates cfg api s.world m' none none s.m_muonDirectionVector =
                  .ok sel ∧
                sel.pBestParentCluster = some P ∧ sel.pBestDaughterCluster = some D ∧
                (GetAffectedClusters m' P D s.affectedClusters = .error e ∨
                  ∃ affected status,
                    GetAffectedClusters m' P D s.affectedClusters = .ok affected ∧
                      api.MergeAndDeleteClusters s.world P D = .error status ∧
                      e = .returned status)))) :
    RunIteration cfg api s = .error e := by
  rcases hfail with hb | ⟨isFirstPass, m', hb, hsel | ⟨sel, P, D, hsel, hP, hD, haff |
    ⟨affected, status, haff, hmg, he⟩⟩⟩
  · simp only [RunIteration, hb]
  · simp only [RunIteration, hb, hsel]
  · simp only [RunIteration, hb, hsel, hP, hD, haff]
  · simp only [RunIteration, hb, hsel, hP, hD, haff, hmg, he]

/-- When the loop of `Run` is back at its head after some merges and the next iteration is
aborted, `Run` ends with that abort, with exactly these merges, in the state of the framework in
which the aborted iteration started. -/
theorem RunLoop_of_iterates_error (cfg : Settings) (api : PandoraApi W) (s0 s : RunState W)
    (merges : List (ClusterPtr × ClusterPtr)) (e : Abort)
    (hiter : Iterates cfg api s0 merges s) (herr : RunIteration cfg api s = .error e)
    (fuel : Nat) (hfuel : merges.length < fuel) :
    ∃ r, RunLoop cfg api fuel s0 = some r ∧ r.status = .error e ∧ r.world = s.world ∧
      r.merges = merges := by
  induction hiter generalizing fuel with
  | done s =>
    cases fuel with
    | zero => exact absurd hfuel (Nat.not_lt_zero _)
    | succ fuel =>
      simp only [RunLoop, herr]
      exact ⟨_, rfl, rfl, rfl, rfl⟩
  | step s s1 s2 merged merges hfirst _ ih =>
    cases fuel with
    | zero => exact absurd hfuel (Nat.not_lt_zero _)
    | succ fuel =>
      obtain ⟨r, hr, h1, h2, h3⟩ := ih herr fuel (by simpa using hfuel)
      simp only [RunLoop, hfirst, hr]
      exact ⟨_, rfl, h1, h2, by simp [h3]⟩

/-- When the loop of `Run` is back at its head after some merges and the next iteration merges
nothing, `Run` returns success, with exactly these merges. -/
theorem RunLoop_of_iterates_stop (cfg : Settings) (api : PandoraApi W) (s0 s s' : RunState W)
    (merges : List (ClusterPtr × ClusterPtr))
    (hiter : Iterates cfg api s0 merges s) (hstop : RunIteration cfg api s = .ok (none, s'))
    (fuel : Nat) (hfuel : merges.length < fuel) :
    ∃ r, RunLoop cfg api fuel s0 = some r ∧ r.status = .ok StatusCode.SUCCESS ∧
      r.world = s'.world ∧ r.merges = merges ∧ r.worlds.length = merges.length + 1 ∧
      r.m_muonDirectionVector = some [] := by
  induction hiter generalizing fuel with
  | done s =>
    cases fuel with
    | zero => exact absurd hfuel (Nat.not_lt_zero _)
    | succ fuel =>
      simp only [RunLoop, hstop]
      exact ⟨_, rfl, rfl, rfl, rfl, rfl, rfl⟩
  | step s s1 s2 merged merges hfirst _ ih =>
    cases fuel with
    | zero => exact absurd hfuel (Nat.not_lt_zero _)
    | succ fuel =>
      obtain ⟨r, hr, h1, h2, h3, h4, h5⟩ := ih hstop fuel (by simpa using hfuel)
      simp only [RunLoop, hfirst, hr]
      exact ⟨_, rfl, h1, h2, by simp [h3], by simp [h4], h5⟩

/-- C16: if in an iteration of `Run` the builder and the selector succeed and no contact of a
daughter that passes preselection has positive excess evidence, then the iteration issues no
merge, the state of the framework and so the cluster list are the same after the iteration as
before it, the loop stops and `Run` returns success. -/
theorem C16_no_positive_excess_converges (cfg : Settings) (api : PandoraApi W) (s : RunState W)
    (isFirstPass : Bool) (m' : ClusterContactMap) (sel : SelectorState)
    (hb : GetClusterContactMap cfg api s.world s.isFirstPass s.affectedClusters
      s.clusterContactMap = .ok (isFirstPass, m'))
    (hsel : GetClusterMergingCandidates cfg api s.world m' none none s.m_muonDirectionVector =
      .ok sel)
    (hno : ∀ D entry, (D, entry) ∈ m' → (PassesPreselection cfg api s.world D entry).1 = true →
      ∀ c ∈ entry, ¬ 0 < excessEvidence cfg api s.world s.m_muonDirectionVector D entry c) :
    ∃ s', RunIteration cfg api s = .ok (none, s') ∧ s'.world = s.world ∧
      api.GetCurrentClusterList s'.world = api.GetCurrentClusterList s.world ∧
      ∀ fuel, ∃ r, RunLoop cfg api (fuel + 1) s = some r ∧
        r.status = .ok StatusCode.SUCCESS ∧ r.merges = [] ∧ r.world = s.world ∧
        r.worlds = [s.world] := by
  have hnull : sel.pBestParentCluster = none := by
    obtain ⟨_, _, _, hbest⟩ := selectEntries_spec cfg api s.world s.m_muonDirectionVector m' _ sel
      (CacheFrom.refl api s.world s.m_muonDirectionVector) hsel
    rcases hbest with ⟨_, e2, _⟩ | ⟨e, he, hp, c, hc, e1, e2, _, _⟩
    · exact e2
    · exfalso
      apply hno e.1 e.2 he hp c hc
      rw [← e1]
      exact e2
  have hit := RunIteration_of_stop cfg api s isFirstPass m' sel hb hsel (Or.inl hnull)
  refine ⟨_, hit, rfl, rfl, fun fuel => ?_⟩
  simp only [RunLoop, hit]
  exact ⟨_, rfl, rfl, rfl, rfl, rfl⟩

/-- C17: if, after some iterations of `Run` that each ended in a merge, the builder, the
selector, the affected-set computation or the merge call of the next iteration does not succeed,
then `Run` ends at once with the same status (returned by the builder, the affected-set
computation or the merge call, thrown by the selector), the merges performed are exactly those
of the earlier iterations, and the state of the framework is the one those merges left. -/
theorem C17_failure_aborts_without_rollback (cfg : Settings) (api : PandoraApi W) (w : W)
    (m_muonDirectionVector : List CartesianVector) (merges : List (ClusterPtr × ClusterPtr))
    (s : RunState W) (e : Abort) (fuel : Nat)
    (hiter : Iterates cfg api (RunState.initial w m_muonDirectionVector) merges s)
    (hfail :
      GetClusterContactMap cfg api s.world s.isFirstPass s.affectedClusters
          s.clusterContactMap = .error e ∨
      (∃ isFirstPass m',
        GetClusterContactMap cfg api s.world s.isFirstPass s.affectedClusters
            s.clusterContactMap = .ok (isFirstPass, m') ∧
          (GetClusterMergingCandidates cfg api s.world m' none none s.m_muonDirectionVector =
              .error e ∨
            ∃ sel P D,
              GetClusterMergingCandidates cfg api s.world m' none none s.m_muonDirectionVector =
                  .ok sel ∧
                sel.pBestParentCluster = some P ∧ sel.pBestDaughterCluster = some D ∧
                (GetAffectedClusters m' P D s.affectedClusters = .error e ∨
                  ∃ affected status,
                    GetAffectedClusters m' P D s.affectedClusters = .ok affected ∧
                      api.MergeAndDeleteClusters s.world P D = .error status ∧
                      e = .returned status))))
    (hfuel : merges.length < fuel) :
    ∃ r, Run cfg api w m_muonDirectionVector fuel = some r ∧ r.status = .error e ∧
      r.merges = merges ∧ r.world = s.world := by
  obtain ⟨r, h1, h2, h3, h4⟩ := RunLoop_of_iterates_error cfg api _ s merges e hiter
    (RunIteration_of_failure cfg api s e hfail) fuel hfuel
  exact ⟨r, h1, h2, h4, h3⟩

theorem two_cluster_list (l : List ClusterPtr) (P D : ClusterPtr) (hnodup : l.Nodup)
    (hlen : l.length = 2) (hP : P ∈ l) (hD : D ∈ l) (hPD : P ≠ D) :
    l.filter (· ≠ D) = [P] ∧ ∀ x ∈ l, x = P ∨ x = D := by
  match l, hlen with
  | [a, b], _ =>
    simp only [List.nodup_cons, List.mem_singleton, List.not_mem_nil, not_false_eq_true,
      List.nodup_nil, and_true] at hnodup
    simp only [List.mem_cons, List.mem_singleton, List.not_mem_nil, or_false] at hP hD
    rcases hP with rfl | rfl <;> rcases hD with rfl | rfl
    · exact absurd rfl hPD
    · refine ⟨by simp [List.filter_cons, hPD], fun x hx => by simpa using hx⟩
    · refine ⟨by simp [List.filter_cons, hPD], fun x hx => ?_⟩
      simp only [List.mem_cons, List.mem_singleton, List.not_mem_nil, or_false] at hx
      exact hx.symm
    · exact absurd rfl hPD

/-- C15: for an initial cluster list of exactly two clusters on which the first selector call
returns a candidate `(P, D)`, and a merge that succeeds, removes `D` from the list and keeps the
tracks of `P`: the first iteration of `Run` merges `D` into `P`; on the second pass the builder
returns the empty map, the selector finds no candidate; and `Run` returns success after exactly
this one merge, with a cluster list that holds `P` only. -/
theorem C15_two_clusters_one_merge (cfg : Settings) (api : PandoraApi W) (w w' : W)
    (m_muonDirectionVector : List CartesianVector) (l : List ClusterPtr) (m1 : ClusterContactMap)
    (sel : SelectorState) (P D : ClusterPtr)
    (hl : api.GetCurrentClusterList w = .ok l) (hnodup : l.Nodup) (hlen : l.length = 2)
    (hbuild : GetClusterContactMap cfg api w true ∅ [] = .ok (false, m1))
    (hsel : GetClusterMergingCandidates cfg api w m1 none none m_muonDirectionVector = .ok sel)
    (hP : sel.pBestParentCluster = some P) (hD : sel.pBestDaughterCluster = some D)
    (hmerge : api.MergeAndDeleteClusters w P D = .ok w')
    (hremoved : api.GetCurrentClusterList w' = .ok (l.filter (· ≠ D)))
    (hkept : (api.cluster w' P).associatedTrackList = (api.cluster w P).associatedTrackList) :
    api.GetCurrentClusterList w' = .ok [P] ∧
    (∃ s1, RunIteration cfg api (RunState.initial w m_muonDirectionVector) =
        .ok (some (P, D), s1) ∧
      s1.world = w' ∧
      GetClusterContactMap cfg api s1.world s1.isFirstPass s1.affectedClusters
        s1.clusterContactMap = .ok (false, []) ∧
      ∃ sel2, GetClusterMergingCandidates cfg api s1.world [] none none
          s1.m_muonDirectionVector = .ok sel2 ∧
        sel2.pBestParentCluster = none ∧ sel2.pBestDaughterCluster = none) ∧
    ∀ fuel, 2 ≤ fuel →
      ∃ r, Run cfg api w m_muonDirectionVector fuel = some r ∧
        r.status = .ok StatusCode.SUCCESS ∧ r.merges = [(P, D)] ∧ r.world = w' ∧
        r.worlds.length = 2 := by
  -- the map of the first pass is good for the list
  obtain ⟨m1', hbuild', hgood⟩ := GetClusterContactMap_good cfg api w l true ∅ [] hl
    ⟨ClusterContactMap.WF_nil, fun e he => by simp at he⟩
  rw [hbuild] at hbuild'
  simp only [Except.ok.injEq, Prod.mk.injEq, true_and] at hbuild'
  subst hbuild'
  obtain ⟨entry, hentry, c, hc, hcP⟩ := selected_pair_mem cfg api w m1 m_muonDirectionVector sel
    P D hsel hP hD
  obtain ⟨hDl, hDt, hcs⟩ := hgood.2 (D, entry) hentry
  simp only at hDl hDt hcs
  obtain ⟨_, hPl, hPt⟩ := hcs c hc
  rw [hcP] at hPl hPt
  have hPD : P ≠ D := by
    intro h
    rw [h] at hPt
    exact hPt hDt
  obtain ⟨hfilter, hall⟩ := two_cluster_list l P D hnodup hlen hPl hDl hPD
  rw [hfilter] at hremoved
  -- the affected set is computed
  have haff : GetAffectedClusters m1 P D ∅ =
      .ok (m1.foldl (affectedStep P D) ∅) := by
    simp only [GetAffectedClusters, ClusterContactMap.find_of_mem hgood.1 hentry]
  -- after the erasure the map is empty
  have hempty : m1.erase D = [] := by
    apply List.eq_nil_iff_forall_not_mem.mpr
    intro e he
    obtain ⟨hem, hne⟩ := (ClusterContactMap.mem_erase hgood.1).mp he
    obtain ⟨h1, h2, _⟩ := hgood.2 e hem
    rcases hall e.1 h1 with h | h
    · rw [h] at h2
      exact hPt h2
    · exact hne h
  have hit1 := RunIteration_of_merge cfg api (RunState.initial w m_muonDirectionVector) false m1
    sel P D _ w' hbuild hsel hP hD haff hmerge
  rw [hempty] at hit1
  -- the second pass
  have hPt' : (api.cluster w' P).associatedTrackList.isEmpty = false := by
    rw [hkept]
    cases ht : (api.cluster w P).associatedTrackList with
    | nil => exact absurd ht hPt
    | cons a rest => rfl
  have hbuild2 : GetClusterContactMap cfg api w' false (m1.foldl (affectedStep P D) ∅) [] =
      .ok (false, []) := by
    simp [GetClusterContactMap, hremoved, daughterStep, ClusterContactMap.find, hPt']
  have hsel2 : GetClusterMergingCandidates cfg api w' [] none none sel.m_muonDirectionVector =
      .ok { highestExcessEvidence := 0
            pBestParentCluster := none
            pBestDaughterCluster := none
            m_muonDirectionVector := sel.m_muonDirectionVector } := rfl
  refine ⟨hremoved, ⟨_, hit1, rfl, hbuild2, _, hsel2, rfl, rfl⟩, fun fuel hfuel => ?_⟩
  have hit2 := RunIteration_of_stop cfg api
    { world := w'
      isFirstPass := false
      affectedClusters := m1.foldl (affectedStep P D) ∅
      clusterContactMap := []
      m_muonDirectionVector := sel.m_muonDirectionVector } false [] _ hbuild2 hsel2 (Or.inl rfl)
  obtain ⟨r, h1, h2, h3, h4, h5, _⟩ := RunLoop_of_iterates_stop cfg api _ _ _ [(P, D)]
    (Iterates.step _ _ _ (P, D) [] hit1 (Iterates.done _)) hit2 fuel (by simpa using hfuel)
  exact ⟨r, h1, h2, h4, h3, h5⟩

/-- In the example with clusters `1` and `2` the first builder pass returns the example map. -/
theorem exampleBuilder_first :
    GetClusterContactMap defaultSettings exampleApi [1, 2] true ∅ [] =
      .ok (false, exampleSmallMap) := by
  simp [GetClusterContactMap, daughterStep, parentStep, PassesClusterContactCuts,
    ClusterContactMap.pushBack, exampleApi, exampleCluster, exampleContact, exampleFeatures,
    exampleSmallMap, ClusterContact.create, defaultSettings]
  norm_num

/-- In the example with clusters `1` and `2` the first iteration of `Run` merges cluster `2` into
cluster `1`. -/
theorem exampleIteration_first :
    RunIteration defaultSettings exampleApi (RunState.initial [1, 2] []) =
      .ok (some (1, 2), exampleStateAfterMerge) :=
  RunIteration_of_merge defaultSettings exampleApi (RunState.initial [1, 2] []) false
    exampleSmallMap exampleSelected 1 2 {1} [1] exampleBuilder_first exampleSmallMap_selected
    rfl rfl rfl rfl

/-- C12 at the example with clusters `1` and `2`, in the state after the merge. -/
theorem C12_stored_daughter_is_key_witness :
    Iterates defaultSettings exampleApi (RunState.initial [1, 2] []) [(1, 2)]
        exampleStateAfterMerge ∧
      KeyIsDaughter exampleStateAfterMerge.clusterContactMap ∧
      ∀ isFirstPass m',
        GetClusterContactMap defaultSettings exampleApi exampleStateAfterMerge.world
            exampleStateAfterMerge.isFirstPass exampleStateAfterMerge.affectedClusters
            exampleStateAfterMerge.clusterContactMap = .ok (isFirstPass, m') →
          KeyIsDaughter m' ∧
          (∃ sel, GetClusterMergingCandidates defaultSettings exampleApi
            exampleStateAfterMerge.world m' none none
            exampleStateAfterMerge.m_muonDirectionVector = .ok sel) ∧
          ∀ D, KeyIsDaughter (m'.erase D) :=
  ⟨Iterates.step _ _ _ (1, 2) [] exampleIteration_first (Iterates.done _),
    C12_stored_daughter_is_key defaultSettings exampleApi [1, 2] [] [(1, 2)]
      exampleStateAfterMerge
      (Iterates.step _ _ _ (1, 2) [] exampleIteration_first (Iterates.done _))⟩

/-- C15 at the example with clusters `1` and `2`. -/
theorem C15_two_clusters_one_merge_witness :
    exampleApi.GetCurrentClusterList [1, 2] = .ok [1, 2] ∧ [1, 2].Nodup ∧ [1, 2].length = 2 ∧
      GetClusterContactMap defaultSettings exampleApi [1, 2] true ∅ [] =
        .ok (false, exampleSmallMap) ∧
      GetClusterMergingCandidates defaultSettings exampleApi [1, 2] exampleSmallMap none none [] =
        .ok exampleSelected ∧
      exampleSelected.pBestParentCluster = some 1 ∧ exampleSelected.pBestDaughterCluster = some 2 ∧
      exampleApi.MergeAndDeleteClusters [1, 2] 1 2 = .ok [1] ∧
      exampleApi.GetCurrentClusterList [1] = .ok ([1, 2].filter (· ≠ 2)) ∧
      (exampleApi.cluster [1] 1).associatedTrackList =
        (exampleApi.cluster [1, 2] 1).associatedTrackList ∧
      ∀ fuel, 2 ≤ fuel →
        ∃ r, Run defaultSettings exampleApi [1, 2] [] fuel = some r ∧
          r.status = .ok StatusCode.SUCCESS ∧ r.merges = [(1, 2)] ∧ r.world = [1] ∧
          r.worlds.length = 2 :=
  ⟨rfl, by decide, rfl, exampleBuilder_first, exampleSmallMap_selected, rfl, rfl, rfl, rfl, rfl,
    (C15_two_clusters_one_merge defaultSettings exampleApi [1, 2] [1] [] [1, 2] exampleSmallMap
      exampleSelected 1 2 rfl (by decide) rfl exampleBuilder_first exampleSmallMap_selected rfl
      rfl rfl rfl rfl).2.2⟩

/-- In the weak example with clusters `1` and `2` the first builder pass stores the contact of
cluster `2` with cluster `1`. -/
theorem exampleWeakBuilder_first :
    GetClusterContactMap defaultSettings exampleWeakApi [1, 2] true ∅ [] =
      .ok (false, [(2, [exampleWeakContact])]) := by
  simp [GetClusterContactMap, daughterStep, parentStep, PassesClusterContactCuts,
    ClusterContactMap.pushBack, exampleWeakApi, exampleApi, exampleCluster, exampleWeakContact,
    exampleWeakFeatures, ClusterContact.create, defaultSettings]
  norm_num

/-- In the weak example the entry of cluster `2` passes preselection. -/
theorem exampleWeak_preselected :
    (PassesPreselection defaultSettings exampleWeakApi [1, 2] 2 [exampleWeakContact]).1 = true := by
  simp [PassesPreselection, preselectionStep, chi2Pair, exampleWeakApi, exampleApi, exampleCluster,
    exampleWeakContact, exampleWeakFeatures, ClusterContact.create, defaultSettings]
  norm_num

/-- In the weak example the excess evidence of the contact of cluster `2` with cluster `1` is
`-1/2`: the total evidence is `0` and the required evidence is its floor `0.5`. -/
theorem exampleWeak_excess :
    excessEvidence defaultSettings exampleWeakApi [1, 2] [] 2 [exampleWeakContact]
      exampleWeakContact = -(1 / 2) := by
  simp [excessEvidence, PassesPreselection,
    preselectionStep, chi2Pair, GetClusterCorrectionLayer, correctionLayerLoop,
    GetTotalEvidenceForMerge, contactEvidence, coneEvidence, trackExtrapolationEvidence,
    distanceEvidence, GetRequiredEvidenceForMerge, requiredEvidenceSum, usingGlobalChi2,
    globalChi2Evidence, chi2Evidence, layerCorrection, leavingCorrection, energyCorrection,
    lowEnergyCorrection, angularCorrection, photonCorrection, stdMax, exampleWeakApi, exampleApi,
    exampleCluster, exampleWeakContact, exampleWeakFeatures, ClusterContact.create,
    defaultSettings, uadd, usub, toInt32, UINT_MOD]
  norm_num

/-- The selector on the map of the weak example returns no pair. -/
theorem exampleWeak_selected :
    GetClusterMergingCandidates defaultSettings exampleWeakApi [1, 2] [(2, [exampleWeakContact])]
        none none [] =
      .ok { highestExcessEvidence := 0
            pBestParentCluster := none
            pBestDaughterCluster := none
            m_muonDirectionVector := [] } := by
  simp [GetClusterMergingCandidates, selectEntries, selectContacts, PassesPreselection,
    preselectionStep, chi2Pair, GetClusterCorrectionLayer, correctionLayerLoop,
    GetTotalEvidenceForMerge, contactEvidence, coneEvidence, trackExtrapolationEvidence,
    distanceEvidence, GetRequiredEvidenceForMerge, requiredEvidenceSum, usingGlobalChi2,
    globalChi2Evidence, chi2Evidence, layerCorrection, leavingCorrection, energyCorrection,
    lowEnergyCorrection, angularCorrection, photonCorrection, stdMax, exampleWeakApi, exampleApi,
    exampleCluster, exampleWeakContact, exampleWeakFeatures, ClusterContact.create,
    defaultSettings, uadd, usub, toInt32, UINT_MOD]
  norm_num

/-- C16 at the weak example with clusters `1` and `2`: the first pass stores the contact of
cluster `2` with cluster `1`, the entry passes preselection, the excess evidence of the contact is
`-1/2`, the selector returns no pair, and the loop ends after this one iteration without a
merge. -/
theorem C16_no_positive_excess_converges_witness :
    GetClusterContactMap defaultSettings exampleWeakApi (RunState.initial [1, 2] []).world
        (RunState.initial [1, 2] []).isFirstPass (RunState.initial [1, 2] []).affectedClusters
        (RunState.initial [1, 2] []).clusterContactMap =
        .ok (false, [(2, [exampleWeakContact])]) ∧
      (PassesPreselection defaultSettings exampleWeakApi [1, 2] 2 [exampleWeakContact]).1 = true ∧
      excessEvidence defaultSettings exampleWeakApi [1, 2] [] 2 [exampleWeakContact]
        exampleWeakContact = -(1 / 2) ∧
      GetClusterMergingCandidates defaultSettings exampleWeakApi [1, 2]
          [(2, [exampleWeakContact])] none none [] =
        .ok { highestExcessEvidence := 0
              pBestParentCluster := none
              pBestDaughterCluster := none
              m_muonDirectionVector := [] } ∧
      ∃ s', RunIteration defaultSettings exampleWeakApi (RunState.initial [1, 2] []) =
          .ok (none, s') ∧
        s'.world = [1, 2] ∧
        exampleWeakApi.GetCurrentClusterList s'.world = .ok [1, 2] ∧
        ∀ fuel, ∃ r, RunLoop defaultSettings exampleWeakApi (fuel + 1)
            (RunState.initial [1, 2] []) = some r ∧
          r.status = .ok StatusCode.SUCCESS ∧ r.merges = [] ∧
          r.world = [1, 2] ∧ r.worlds = [[1, 2]] :=
  ⟨exampleWeakBuilder_first, exampleWeak_preselected, exampleWeak_excess, exampleWeak_selected,
    C16_no_positive_excess_converges defaultSettings exampleWeakApi (RunState.initial [1, 2] [])
      false [(2, [exampleWeakContact])] _ exampleWeakBuilder_first exampleWeak_selected
      (fun D entry he _ c hc => by
        have he2 : D = 2 ∧ entry = [exampleWeakContact] := by simpa using he
        obtain ⟨rfl, rfl⟩ := he2
        have hc2 : c = exampleWeakContact := by simpa using hc
        subst hc2
        have hx := exampleWeak_excess
        simp only [RunState.initial] at hx ⊢
        rw [hx]
        norm_num)⟩

/-- In the failing example with clusters `1` and `2` the first builder pass returns the example
map. -/
theorem exampleFailingBuilder_first :
    GetClusterContactMap defaultSettings exampleFailingApi [1, 2] true ∅ [] =
      .ok (false, exampleSmallMap) := by
  simp [GetClusterContactMap, daughterStep, parentStep, PassesClusterContactCuts,
    ClusterContactMap.pushBack, exampleFailingApi, exampleApi, exampleCluster, exampleContact,
    exampleFeatures, exampleSmallMap, ClusterContact.create, defaultSettings]
  norm_num

/-- In the failing example the selector returns the pair `(1, 2)` on the example map. -/
theorem exampleFailingSelected :
    GetClusterMergingCandidates defaultSettings exampleFailingApi [1, 2] exampleSmallMap none
      none [] = .ok exampleSelected := by
  simp [GetClusterMergingCandidates, selectEntries, selectContacts, PassesPreselection,
    preselectionStep, chi2Pair, GetClusterCorrectionLayer, correctionLayerLoop,
    GetTotalEvidenceForMerge, contactEvidence, coneEvidence, trackExtrapolationEvidence,
    distanceEvidence, GetRequiredEvidenceForMerge, requiredEvidenceSum, usingGlobalChi2,
    globalChi2Evidence, chi2Evidence, layerCorrection, leavingCorrection, energyCorrection,
    lowEnergyCorrection, angularCorrection, photonCorrection, stdMax, exampleFailingApi,
    exampleApi, exampleCluster, exampleContact, exampleFeatures, exampleSmallMap,
    exampleSelected, ClusterContact.create, defaultSettings, uadd, usub, toInt32, UINT_MOD]
  norm_num

/-- C17 at the failing example with clusters `1` and `2`: after the merge of cluster `2` into
cluster `1` the builder of the second iteration returns a failure, and `Run` returns it with
the merge in place. -/
theorem C17_failure_aborts_without_rollback_witness :
    Iterates defaultSettings exampleFailingApi (RunState.initial [1, 2] []) [(1, 2)]
        exampleStateAfterMerge ∧
      GetClusterContactMap defaultSettings exampleFailingApi exampleStateAfterMerge.world
          exampleStateAfterMerge.isFirstPass exampleStateAfterMerge.affectedClusters
          exampleStateAfterMerge.clusterContactMap =
        .error (.returned StatusCode.FAILURE) ∧
      [(1, 2)].length < 2 ∧
      ∃ r, Run defaultSettings exampleFailingApi [1, 2] [] 2 = some r ∧
        r.status = .error (.returned StatusCode.FAILURE) ∧ r.merges = [(1, 2)] ∧
        r.world = exampleStateAfterMerge.world :=
  ⟨Iterates.step _ _ _ (1, 2) []
      (RunIteration_of_merge defaultSettings exampleFailingApi (RunState.initial [1, 2] [])
        false exampleSmallMap exampleSelected 1 2 {1} [1] exampleFailingBuilder_first
        exampleFailingSelected rfl rfl rfl rfl) (Iterates.done _),
    rfl, by decide,
    C17_failure_aborts_without_rollback defaultSettings exampleFailingApi [1, 2] [] [(1, 2)]
      exampleStateAfterMerge (.returned StatusCode.FAILURE) 2
      (Iterates.step _ _ _ (1, 2) []
        (RunIteration_of_merge defaultSettings exampleFailingApi (RunState.initial [1, 2] [])
          false exampleSmallMap exampleSelected 1 2 {1} [1] exampleFailingBuilder_first
          exampleFailingSelected rfl rfl rfl rfl) (Iterates.done _))
      (Or.inl rfl) (by decide)⟩

end LoopInvariantTheorems

/-! ## The track-extrapolation bands and the corrections of the required evidence -/

section CorrectionTheorems

variable {W : Type}

/-- C21 (fails on the code): at the example contact with closest helix distance `150` and mean
helix distance `400` under the default configuration, whose four scale parameters are positive,
the closest distance is inside the first closest-distance band and the mean distance is outside
the first mean-distance band, yet the first mean-distance term contributes
`(m_meanTrackEvidence1 - meanDistanceToHelix) / m_meanTrackEvidence1d = -2` instead of `0`, and the
track-extrapolation evidence is `-3/2`, a negative number. -/
theorem C21_first_mean_term_is_unguarded :
    0 < defaultSettings.m_closestTrackEvidence1d ∧ 0 < defaultSettings.m_closestTrackEvidence2d ∧
    0 < defaultSettings.m_meanTrackEvidence1d ∧ 0 < defaultSettings.m_meanTrackEvidence2d ∧
    exampleWideContact.closestDistanceToHelix < defaultSettings.m_closestTrackEvidence1 ∧
    ¬ exampleWideContact.closestDistanceToHelix < defaultSettings.m_closestTrackEvidence2 ∧
    ¬ exampleWideContact.meanDistanceToHelix < defaultSettings.m_meanTrackEvidence1 ∧
    ¬ exampleWideContact.meanDistanceToHelix < defaultSettings.m_meanTrackEvidence2 ∧
    PassesClusterContactCuts defaultSettings exampleApi [1, 2] exampleWideContact = true ∧
    trackExtrapolationEvidence defaultSettings exampleWideContact -
        (defaultSettings.m_closestTrackEvidence1 - exampleWideContact.closestDistanceToHelix) /
          defaultSettings.m_closestTrackEvidence1d =
      (defaultSettings.m_meanTrackEvidence1 - exampleWideContact.meanDistanceToHelix) /
        defaultSettings.m_meanTrackEvidence1d ∧
    (defaultSettings.m_meanTrackEvidence1 - exampleWideContact.meanDistanceToHelix) /
        defaultSettings.m_meanTrackEvidence1d = -2 ∧
    trackExtrapolationEvidence defaultSettings exampleWideContact = -3 / 2 ∧
    trackExtrapolationEvidence defaultSettings exampleWideContact < 0 := by
  refine ⟨?_, ?_, ?_, ?_, ?_, ?_, ?_, ?_, ?_, ?_, ?_, ?_, ?_⟩ <;>
    norm_num [trackExtrapolationEvidence, PassesClusterContactCuts, exampleWideContact,
      exampleFeatures, defaultSettings]

/-- Rounding to nearest gives the integer below or the one above. -/
theorem roundNearestEven_bounds (x : ℚ) :
    ⌊x⌋ ≤ roundNearestEven x ∧ roundNearestEven x ≤ ⌊x⌋ + 1 := by
  unfold roundNearestEven
  split_ifs <;> constructor <;> omega

/-- Rounding to nearest is monotone. -/
theorem roundNearestEven_mono {x y : ℚ} (h : x ≤ y) : roundNearestEven x ≤ roundNearestEven y := by
  have hfl : ⌊x⌋ ≤ ⌊y⌋ := Int.floor_le_floor h
  rcases lt_or_eq_of_le hfl with hlt | heq
  · have h1 := (roundNearestEven_bounds x).2
    have h2 := (roundNearestEven_bounds y).1
    omega
  · have hfr : Int.fract x ≤ Int.fract y := by
      rw [← Int.self_sub_floor, ← Int.self_sub_floor, heq]
      linarith
    unfold roundNearestEven
    rw [heq]
    split_ifs <;> first | omega | (exfalso; linarith)

/-- Rounding to nearest leaves an integer unchanged. -/
theorem roundNearestEven_intCast (n : Int) : roundNearestEven (n : ℚ) = n := by
  simp [roundNearestEven]

/-- Rounding to nearest gives the integer that is less than one half away. -/
theorem roundNearestEven_eq_of_near (x : ℚ) (n : Int) (h1 : (n : ℚ) - 1 / 2 < x)
    (h2 : x < (n : ℚ) + 1 / 2) : roundNearestEven x = n := by
  by_cases hx : (n : ℚ) ≤ x
  · have hfloor : ⌊x⌋ = n := Int.floor_eq_iff.mpr ⟨hx, by linarith⟩
    have hfract : Int.fract x < 1 / 2 := by
      rw [← Int.self_sub_floor, hfloor]
      linarith
    unfold roundNearestEven
    rw [if_pos hfract, hfloor]
  · have hfloor : ⌊x⌋ = n - 1 := Int.floor_eq_iff.mpr ⟨by push_cast; linarith, by
      push_cast; linarith⟩
    have hfract : 1 / 2 < Int.fract x := by
      rw [← Int.self_sub_floor, hfloor]
      push_cast
      linarith
    have hnot : ¬ Int.fract x < 1 / 2 := not_lt.mpr hfract.le
    unfold roundNearestEven
    rw [if_neg hnot, if_pos hfract, hfloor]
    omega

/-- The spacing of the binary32 values is positive. -/
theorem float32Ulp_pos (x : ℚ) : 0 < float32Ulp x := by
  unfold float32Ulp
  positivity

/-- The binary32 exponent of a magnitude grows with the magnitude. -/
theorem float32Exponent_mono {x y : ℚ} (hx : 0 < x) (h : x ≤ y) :
    float32Exponent x ≤ float32Exponent y := by
  unfold float32Exponent
  exact max_le_max (Int.log_mono_right hx h) le_rfl

/-- A magnitude is below the next power of two above its binary32 exponent. -/
theorem lt_zpow_float32Exponent (x : ℚ) : x < 2 ^ (float32Exponent x + 1) := by
  have h1 : x < ((2 : ℕ) : ℚ) ^ (Int.log 2 x + 1) := Int.lt_zpow_succ_log_self (by norm_num) x
  have h2 : ((2 : ℕ) : ℚ) ^ (Int.log 2 x + 1) ≤ ((2 : ℕ) : ℚ) ^ (float32Exponent x + 1) := by
    apply zpow_le_zpow_right₀ (by norm_num)
    unfold float32Exponent
    have := le_max_left (Int.log 2 x) (-126)
    omega
  have h3 := lt_of_lt_of_le h1 h2
  simpa using h3

/-- The rounded magnitude of a non-negative number is non-negative. -/
theorem float32RoundMagnitude_nonneg {x : ℚ} (hx : 0 ≤ x) : 0 ≤ float32RoundMagnitude x := by
  unfold float32RoundMagnitude
  have hu := float32Ulp_pos x
  have hq : (0 : ℚ) ≤ x / float32Ulp x := div_nonneg hx hu.le
  have h0 : (0 : Int) ≤ roundNearestEven (x / float32Ulp x) := by
    have := roundNearestEven_mono hq
    simpa [roundNearestEven] using this
  have h0q : (0 : ℚ) ≤ (roundNearestEven (x / float32Ulp x) : ℚ) := by exact_mod_cast h0
  exact mul_nonneg h0q hu.le

/-- The rounded magnitude is at most the next power of two above the exponent. -/
theorem float32RoundMagnitude_le (x : ℚ) :
    float32RoundMagnitude x ≤ 2 ^ (float32Exponent x + 1) := by
  have hu := float32Ulp_pos x
  have hsplit : (2 : ℚ) ^ (float32Exponent x + 1) = 2 ^ (24 : ℤ) * float32Ulp x := by
    unfold float32Ulp
    rw [← zpow_add₀ (by norm_num : (2 : ℚ) ≠ 0)]
    congr 1
    ring
  have hq : x / float32Ulp x ≤ ((16777216 : Int) : ℚ) := by
    rw [div_le_iff₀ hu]
    have := (lt_zpow_float32Exponent x).le
    rw [hsplit] at this
    norm_num at this ⊢
    exact this
  have hr := roundNearestEven_mono hq
  rw [roundNearestEven_intCast] at hr
  have hrq : (roundNearestEven (x / float32Ulp x) : ℚ) ≤ 16777216 := by exact_mod_cast hr
  rw [hsplit]
  unfold float32RoundMagnitude
  have : (2 : ℚ) ^ (24 : ℤ) = 16777216 := by norm_num
  rw [this]
  exact mul_le_mul_of_nonneg_right hrq hu.le

/-- The rounded magnitude of a normal number is at least the power of two of its exponent. -/
theorem le_float32RoundMagnitude {x : ℚ} (hx : 0 < x) (hnormal : -126 < float32Exponent x) :
    2 ^ float32Exponent x ≤ float32RoundMagnitude x := by
  have hu := float32Ulp_pos x
  have hlog : float32Exponent x = Int.log 2 x := by
    unfold float32Exponent at hnormal ⊢
    rcases max_cases (Int.log 2 x) (-126) with ⟨h, _⟩ | ⟨h, _⟩
    · exact h
    · rw [h] at hnormal
      omega
  have hle : (2 : ℚ) ^ float32Exponent x ≤ x := by
    have := Int.zpow_log_le_self (by norm_num : 1 < 2) hx
    rw [hlog]
    simpa using this
  have hsplit : (2 : ℚ) ^ float32Exponent x = 2 ^ (23 : ℤ) * float32Ulp x := by
    unfold float32Ulp
    rw [← zpow_add₀ (by norm_num : (2 : ℚ) ≠ 0)]
    congr 1
    ring
  have hq : ((8388608 : Int) : ℚ) ≤ x / float32Ulp x := by
    rw [le_div_iff₀ hu]
    rw [hsplit] at hle
    norm_num at hle ⊢
    exact hle
  have hr := roundNearestEven_mono hq
  rw [roundNearestEven_intCast] at hr
  have hrq : (8388608 : ℚ) ≤ (roundNearestEven (x / float32Ulp x) : ℚ) := by exact_mod_cast hr
  rw [hsplit]
  unfold float32RoundMagnitude
  have : (2 : ℚ) ^ (23 : ℤ) = 8388608 := by norm_num
  rw [this]
  exact mul_le_mul_of_nonneg_right hrq hu.le

/-- Rounding of magnitudes to binary32 is monotone. -/
theorem float32RoundMagnitude_mono {x y : ℚ} (hx : 0 ≤ x) (h : x ≤ y) :
    float32RoundMagnitude x ≤ float32RoundMagnitude y := by
  rcases eq_or_lt_of_le hx with h0 | hpos
  · have hzero : float32RoundMagnitude x = 0 := by
      rw [← h0]
      simp [float32RoundMagnitude, roundNearestEven]
    rw [hzero]
    exact float32RoundMagnitude_nonneg (hx.trans h)
  · have he := float32Exponent_mono hpos h
    rcases eq_or_lt_of_le he with heq | hlt
    · have hu : float32Ulp x = float32Ulp y := by
        unfold float32Ulp
        rw [heq]
      unfold float32RoundMagnitude
      rw [hu]
      have hq : x / float32Ulp y ≤ y / float32Ulp y :=
        div_le_div_of_nonneg_right h (float32Ulp_pos y).le
      have hr := roundNearestEven_mono hq
      have hrq : (roundNearestEven (x / float32Ulp y) : ℚ) ≤
          (roundNearestEven (y / float32Ulp y) : ℚ) := by exact_mod_cast hr
      exact mul_le_mul_of_nonneg_right hrq (float32Ulp_pos y).le
    · have h1 := float32RoundMagnitude_le x
      have hnormal : -126 < float32Exponent y := by
        have : -126 ≤ float32Exponent x := by
          unfold float32Exponent
          exact le_max_right _ _
        omega
      have h2 := le_float32RoundMagnitude (lt_of_lt_of_le hpos h) hnormal
      have h3 : (2 : ℚ) ^ (float32Exponent x + 1) ≤ 2 ^ float32Exponent y :=
        zpow_le_zpow_right₀ (by norm_num) (by omega)
      linarith

/-- Rounding to binary32 is monotone. -/
theorem float32Round_mono {x y : ℚ} (h : x ≤ y) : float32Round x ≤ float32Round y := by
  unfold float32Round
  by_cases hx : x < 0
  · by_cases hy : y < 0
    · rw [if_pos hx, if_pos hy]
      have := float32RoundMagnitude_mono (by linarith : (0 : ℚ) ≤ -y) (by linarith : -y ≤ -x)
      linarith
    · rw [if_pos hx, if_neg hy]
      have h1 := float32RoundMagnitude_nonneg (by linarith : (0 : ℚ) ≤ -x)
      have h2 := float32RoundMagnitude_nonneg (not_lt.mp hy)
      linarith
  · have hy : ¬ y < 0 := by
      intro hy
      exact hx (lt_of_le_of_lt h hy)
    rw [if_neg hx, if_neg hy]
    exact float32RoundMagnitude_mono (not_lt.mp hx) h

/-- Rounding to binary32 keeps a number that is not positive from becoming positive. -/
theorem float32Round_nonpos {x : ℚ} (hx : x ≤ 0) : float32Round x ≤ 0 := by
  have h0 : float32Round 0 = 0 := by
    simp [float32Round, float32RoundMagnitude, roundNearestEven]
  have := float32Round_mono hx
  rw [h0] at this
  exact this

/-- The rounded magnitude of a normal number between two consecutive powers of two. -/
theorem float32RoundMagnitude_eq (x : ℚ) (e n : Int) (he : -126 ≤ e) (hlo : (2 : ℚ) ^ e ≤ x)
    (hhi : x < (2 : ℚ) ^ (e + 1)) (hn : roundNearestEven (x / 2 ^ (e - 23)) = n) :
    float32RoundMagnitude x = n * 2 ^ (e - 23) := by
  have hpos : 0 < x := lt_of_lt_of_le (by positivity) hlo
  have hlog : Int.log 2 x = e := by
    apply le_antisymm
    · have : Int.log 2 x < e + 1 := by
        rw [← Int.lt_zpow_iff_log_lt (by norm_num) hpos]
        simpa using hhi
      omega
    · rw [← Int.zpow_le_iff_le_log (by norm_num) hpos]
      simpa using hlo
  have hexp : float32Exponent x = e := by
    unfold float32Exponent
    rw [hlog]
    exact max_eq_left he
  unfold float32RoundMagnitude float32Ulp
  rw [hexp, hn]

/-- The binary32 values of the example: `1/2`, its successor, and the default threshold `3`. -/
theorem float32Round_examples :
    float32Round (1 / 2) = 1 / 2 ∧ float32Round (8388609 / 16777216) = 8388609 / 16777216 ∧
      float32Round 3 = 3 := by
  refine ⟨?_, ?_, ?_⟩
  · have h := float32RoundMagnitude_eq (1 / 2) (-1) 8388608 (by norm_num) (by norm_num)
      (by norm_num) (by
        have : ((1 : ℚ) / 2) / 2 ^ ((-1 : ℤ) - 23) = ((8388608 : Int) : ℚ) := by norm_num
        rw [this, roundNearestEven_intCast])
    simp only [float32Round]
    rw [if_neg (by norm_num), h]
    norm_num
  · have h := float32RoundMagnitude_eq (8388609 / 16777216) (-1) 8388609 (by norm_num)
      (by norm_num) (by norm_num) (by
        have : ((8388609 : ℚ) / 16777216) / 2 ^ ((-1 : ℤ) - 23) = ((8388609 : Int) : ℚ) := by
          norm_num
        rw [this, roundNearestEven_intCast])
    simp only [float32Round]
    rw [if_neg (by norm_num), h]
    norm_num
  · have h := float32RoundMagnitude_eq 3 1 12582912 (by norm_num) (by norm_num)
      (by norm_num) (by
        have : (3 : ℚ) / 2 ^ ((1 : ℤ) - 23) = ((12582912 : Int) : ℚ) := by norm_num
        rw [this, roundNearestEven_intCast])
    simp only [float32Round]
    rw [if_neg (by norm_num), h]
    norm_num

/-- The binary32 difference of `1/2` and `3`, and of the successor of `1/2` and `3`: the second
exact difference lies a quarter of the spacing `2 ^ (-22)` above `-5/2` and is rounded to it. -/
theorem float32Round_differences :
    float32Round (1 / 2 - 3) = -(5 / 2) ∧ float32Round (8388609 / 16777216 - 3) = -(5 / 2) := by
  constructor
  · have h := float32RoundMagnitude_eq (5 / 2) 1 10485760 (by norm_num) (by norm_num)
      (by norm_num) (by
        have : ((5 : ℚ) / 2) / 2 ^ ((1 : ℤ) - 23) = ((10485760 : Int) : ℚ) := by norm_num
        rw [this, roundNearestEven_intCast])
    simp only [float32Round]
    rw [if_pos (by norm_num)]
    have hx : -((1 : ℚ) / 2 - 3) = 5 / 2 := by norm_num
    rw [hx, h]
    norm_num
  · have h := float32RoundMagnitude_eq (41943039 / 16777216) 1 10485760 (by norm_num)
      (by norm_num) (by norm_num) (by
        apply roundNearestEven_eq_of_near <;> norm_num)
    simp only [float32Round]
    rw [if_pos (by norm_num)]
    have hx : -((8388609 : ℚ) / 16777216 - 3) = 41943039 / 16777216 := by norm_num
    rw [hx, h]
    norm_num

/-- The largest finite binary32 value is a binary32 value. -/
theorem float32RoundMagnitude_max : float32RoundMagnitude float32Max = float32Max := by
  have h := float32RoundMagnitude_eq float32Max 127 16777215 (by norm_num)
    (by norm_num [float32Max]) (by norm_num [float32Max]) (by
      have : float32Max / 2 ^ ((127 : ℤ) - 23) = ((16777215 : Int) : ℚ) := by
        norm_num [float32Max]
      rw [this, roundNearestEven_intCast])
  rw [h]
  norm_num [float32Max]

/-- Rounding to binary32 keeps a number of the finite range in the finite range. -/
theorem float32Round_abs_le {x : ℚ} (h : |x| ≤ float32Max) : |float32Round x| ≤ float32Max := by
  have hpos : (0 : ℚ) < float32Max := by norm_num [float32Max]
  have hup : float32Round float32Max = float32Max := by
    simp only [float32Round]
    rw [if_neg (not_lt.mpr hpos.le), float32RoundMagnitude_max]
  have hdown : float32Round (-float32Max) = -float32Max := by
    simp only [float32Round]
    rw [if_pos (by linarith), neg_neg, float32RoundMagnitude_max]
  have hx := abs_le.mp h
  rw [abs_le]
  constructor
  · rw [← hdown]
    exact float32Round_mono hx.1
  · rw [← hup]
    exact float32Round_mono hx.2

/-- Where the exact difference is a binary32 value, the binary32 energy correction is the energy
correction in exact arithmetic. -/
theorem energyCorrectionFloat_eq_exact (cfg : Settings) (daughterClusterEnergy : ℚ)
    (h : float32Round (daughterClusterEnergy - cfg.m_energyCorrectionThreshold) =
      daughterClusterEnergy - cfg.m_energyCorrectionThreshold) :
    energyCorrectionFloat cfg daughterClusterEnergy = energyCorrection cfg daughterClusterEnergy := by
  simp only [energyCorrectionFloat, energyCorrection, h]

/-- C22 (as stated, fails on the code): at the default threshold `3`, the daughter energies `1/2`
and `1/2 + 2 ^ (-24)` are two binary32 values below the threshold, the first lower than the second,
and the `float` subtraction of line 361 gives `-5/2` for both, since the exact difference
`-5/2 + 2 ^ (-24)` of the second lies a quarter of the spacing `2 ^ (-22)` of the binary32 values
from `-5/2`: the lower-energy daughter does not get a lower energy correction. -/
theorem C22_float_difference_is_not_strict :
    defaultSettings.m_energyCorrectionThreshold = 3 ∧
    float32Round 3 = 3 ∧ float32Round (1 / 2) = 1 / 2 ∧
    float32Round (8388609 / 16777216) = 8388609 / 16777216 ∧
    (8388609 / 16777216 : ℚ) = 1 / 2 + 2 ^ (-24 : ℤ) ∧
    (1 / 2 : ℚ) < 8388609 / 16777216 ∧
    (8388609 / 16777216 : ℚ) < defaultSettings.m_energyCorrectionThreshold ∧
    energyCorrectionFloat defaultSettings (1 / 2) = -(5 / 2) ∧
    energyCorrectionFloat defaultSettings (8388609 / 16777216) = -(5 / 2) ∧
    ¬ energyCorrectionFloat defaultSettings (1 / 2) <
      energyCorrectionFloat defaultSettings (8388609 / 16777216) := by
  have hthr : defaultSettings.m_energyCorrectionThreshold = 3 := rfl
  have h1 : energyCorrectionFloat defaultSettings (1 / 2) = -(5 / 2) := by
    simp only [energyCorrectionFloat, hthr]
    rw [if_pos (by norm_num), float32Round_differences.1]
  have h2 : energyCorrectionFloat defaultSettings (8388609 / 16777216) = -(5 / 2) := by
    simp only [energyCorrectionFloat, hthr]
    rw [if_pos (by norm_num), float32Round_differences.2]
  refine ⟨hthr, float32Round_examples.2.2, float32Round_examples.1, float32Round_examples.2.1,
    by norm_num, by norm_num, by rw [hthr]; norm_num, h1, h2, ?_⟩
  rw [h1, h2]
  exact lt_irrefl _

/-- C22 (amended): the energy correction of `GetRequiredEvidenceForMerge` is the `float`
difference of the daughter's hadronic energy and `m_energyCorrectionThreshold`, that is the exact
difference rounded to binary32, when that energy is below the threshold, and `0` otherwise. It is
never positive, it is finite when the exact difference is in the finite range of binary32, and
below the threshold it is non-decreasing in the daughter's energy: a lower-energy daughter gets an
energy correction that is not higher, and a lower one when the two differences are binary32 values
(the subtraction is then exact). -/
theorem C22_energy_correction_non_decreasing (cfg : Settings) (daughterClusterEnergy : ℚ) :
    (daughterClusterEnergy < cfg.m_energyCorrectionThreshold →
      energyCorrectionFloat cfg daughterClusterEnergy =
        float32Round (daughterClusterEnergy - cfg.m_energyCorrectionThreshold)) ∧
    (¬ daughterClusterEnergy < cfg.m_energyCorrectionThreshold →
      energyCorrectionFloat cfg daughterClusterEnergy = 0) ∧
    energyCorrectionFloat cfg daughterClusterEnergy ≤ 0 ∧
    (|daughterClusterEnergy - cfg.m_energyCorrectionThreshold| ≤ float32Max →
      |energyCorrectionFloat cfg daughterClusterEnergy| ≤ float32Max) ∧
    (∀ lowerEnergy : ℚ, lowerEnergy < daughterClusterEnergy →
      daughterClusterEnergy < cfg.m_energyCorrectionThreshold →
      energyCorrectionFloat cfg lowerEnergy ≤ energyCorrectionFloat cfg daughterClusterEnergy) ∧
    (∀ lowerEnergy : ℚ, lowerEnergy < daughterClusterEnergy →
      daughterClusterEnergy < cfg.m_energyCorrectionThreshold →
      float32Round (lowerEnergy - cfg.m_energyCorrectionThreshold) =
        lowerEnergy - cfg.m_energyCorrectionThreshold →
      float32Round (daughterClusterEnergy - cfg.m_energyCorrectionThreshold) =
        daughterClusterEnergy - cfg.m_energyCorrectionThreshold →
      energyCorrectionFloat cfg lowerEnergy < energyCorrectionFloat cfg daughterClusterEnergy) := by
  refine ⟨?_, ?_, ?_, ?_, ?_, ?_⟩
  · intro h
    simp only [energyCorrectionFloat]
    rw [if_pos h]
  · intro h
    simp only [energyCorrectionFloat]
    rw [if_neg h]
  · simp only [energyCorrectionFloat]
    split
    · exact float32Round_nonpos (by linarith)
    · exact le_refl _
  · intro hfinite
    simp only [energyCorrectionFloat]
    split
    · exact float32Round_abs_le hfinite
    · norm_num [float32Max]
  · intro lowerEnergy hlt hthr
    simp only [energyCorrectionFloat]
    rw [if_pos hthr, if_pos (lt_trans hlt hthr)]
    exact float32Round_mono (by linarith)
  · intro lowerEnergy hlt hthr hlow hexact
    rw [energyCorrectionFloat_eq_exact cfg lowerEnergy hlow,
      energyCorrectionFloat_eq_exact cfg daughterClusterEnergy hexact]
    simp only [energyCorrection]
    rw [if_pos hthr, if_pos (lt_trans hlt hthr)]
    linarith

/-- The binary32 differences of the energies `1` and `2` and the default threshold `3` are
exact. -/
theorem float32Round_exact_differences :
    float32Round (1 - 3) = 1 - 3 ∧ float32Round (2 - 3) = 2 - 3 := by
  constructor
  · have h := float32RoundMagnitude_eq 2 1 8388608 (by norm_num) (by norm_num)
      (by norm_num) (by
        have : (2 : ℚ) / 2 ^ ((1 : ℤ) - 23) = ((8388608 : Int) : ℚ) := by norm_num
        rw [this, roundNearestEven_intCast])
    simp only [float32Round]
    rw [if_pos (by norm_num)]
    have hx : -((1 : ℚ) - 3) = 2 := by norm_num
    rw [hx, h]
    norm_num
  · have h := float32RoundMagnitude_eq 1 0 8388608 (by norm_num) (by norm_num)
      (by norm_num) (by
        have : (1 : ℚ) / 2 ^ ((0 : ℤ) - 23) = ((8388608 : Int) : ℚ) := by norm_num
        rw [this, roundNearestEven_intCast])
    simp only [float32Round]
    rw [if_pos (by norm_num)]
    have hx : -((2 : ℚ) - 3) = 1 := by norm_num
    rw [hx, h]
    norm_num

/-- C22 (amended) at the default configuration: the daughter of energy `1/2 + 2 ^ (-24)` gets the
binary32 difference `-5/2`, which is not positive and finite, the daughter of energy `4` gets `0`,
the daughter of energy `1/2` gets a correction that is not higher than the one of the daughter of
energy `1/2 + 2 ^ (-24)`, and the daughter of energy `1` a lower correction than the daughter of
energy `2`. -/
theorem C22_energy_correction_non_decreasing_witness :
    energyCorrectionFloat defaultSettings (8388609 / 16777216) =
        float32Round (8388609 / 16777216 - defaultSettings.m_energyCorrectionThreshold) ∧
      float32Round (8388609 / 16777216 - defaultSettings.m_energyCorrectionThreshold) = -(5 / 2) ∧
      energyCorrectionFloat defaultSettings 4 = 0 ∧
      energyCorrectionFloat defaultSettings (8388609 / 16777216) ≤ 0 ∧
      |energyCorrectionFloat defaultSettings (8388609 / 16777216)| ≤ float32Max ∧
      energyCorrectionFloat defaultSettings (1 / 2) ≤
        energyCorrectionFloat defaultSettings (8388609 / 16777216) ∧
      energyCorrectionFloat defaultSettings 1 < energyCorrectionFloat defaultSettings 2 :=
  ⟨(C22_energy_correction_non_decreasing defaultSettings (8388609 / 16777216)).1
      (by norm_num [defaultSettings]),
    float32Round_differences.2,
    (C22_energy_correction_non_decreasing defaultSettings 4).2.1 (by norm_num [defaultSettings]),
    (C22_energy_correction_non_decreasing defaultSettings (8388609 / 16777216)).2.2.1,
    (C22_energy_correction_non_decreasing defaultSettings (8388609 / 16777216)).2.2.2.1
      (by rw [abs_le]; constructor <;> norm_num [defaultSettings, float32Max]),
    (C22_energy_correction_non_decreasing defaultSettings (8388609 / 16777216)).2.2.2.2.1 (1 / 2)
      (by norm_num) (by norm_num [defaultSettings]),
    (C22_energy_correction_non_decreasing defaultSettings 2).2.2.2.2.2 1 (by norm_num)
      (by norm_num [defaultSettings]) float32Round_exact_differences.1
      float32Round_exact_differences.2⟩

/-- C30: the angular correction of `GetRequiredEvidenceForMerge`, with the cosine taken as the
daughter's radial-direction cosine when its fit to all hits is successful and as `0` otherwise, is
`0` when the cosine is not below `m_angularCorrectionOffset` and
`m_angularCorrectionConstant + (cosine - m_angularCorrectionOffset) * m_angularCorrectionGradient`
when it is; a daughter whose fit is unsuccessful gets the correction of a daughter with a
successful fit and cosine `0`. -/
theorem C30_angular_correction_below_offset (cfg : Settings) (daughter : Cluster) :
    let cosine : ℚ := if daughter.fitSuccessful then daughter.radialDirectionCosine else 0
    (¬ cosine < cfg.m_angularCorrectionOffset → angularCorrection cfg daughter = 0) ∧
    (cosine < cfg.m_angularCorrectionOffset →
      angularCorrection cfg daughter =
        cfg.m_angularCorrectionConstant +
          (cosine - cfg.m_angularCorrectionOffset) * cfg.m_angularCorrectionGradient) ∧
    (daughter.fitSuccessful = false →
      angularCorrection cfg daughter =
        angularCorrection cfg { daughter with fitSuccessful := true, radialDirectionCosine := 0 }) := by
  intro cosine
  refine ⟨?_, ?_, ?_⟩
  · intro h
    simp only [angularCorrection]
    rw [if_neg h]
  · intro h
    simp only [angularCorrection]
    rw [if_pos h]
  · intro h
    simp [angularCorrection, h]

/-- C30 at the default configuration: a daughter with a successful fit and cosine `0.9` gets no
correction, and the same daughter with an unsuccessful fit gets
`m_angularCorrectionConstant + (0 - m_angularCorrectionOffset) * m_angularCorrectionGradient`. -/
theorem C30_angular_correction_below_offset_witness :
    angularCorrection defaultSettings (exampleCluster 2) = 0 ∧
      angularCorrection defaultSettings { exampleCluster 2 with fitSuccessful := false } =
        defaultSettings.m_angularCorrectionConstant +
          (0 - defaultSettings.m_angularCorrectionOffset) *
            defaultSettings.m_angularCorrectionGradient :=
  ⟨(C30_angular_correction_below_offset defaultSettings (exampleCluster 2)).1
      (by norm_num [exampleCluster, defaultSettings]),
    (C30_angular_correction_below_offset defaultSettings
      { exampleCluster 2 with fitSuccessful := false }).2.1
      (by norm_num [exampleCluster, defaultSettings])⟩

/-- The last condition of a list that holds decides `lastMatch`: when a condition holds and every
later one fails, the value is the one paired with it. -/
theorem lastMatch_append (pre post : List (Bool × ℚ)) (value : ℚ)
    (hpost : ∀ p ∈ post, p.1 = false) : lastMatch (pre ++ (true, value) :: post) = value := by
  have hfilter : post.filter (fun p => p.1) = [] := by
    rw [List.filter_eq_nil_iff]
    intro p hp
    simp [hpost p hp]
  simp [lastMatch, List.filter_append, List.filter_cons, hfilter]

/-- When no condition of a list holds, `lastMatch` is `0`. -/
theorem lastMatch_none (conditions : List (Bool × ℚ)) (hnone : ∀ p ∈ conditions, p.1 = false) :
    lastMatch conditions = 0 := by
  have hfilter : conditions.filter (fun p => p.1) = [] := by
    rw [List.filter_eq_nil_iff]
    intro p hp
    simp [hnone p hp]
  simp [lastMatch, hfilter]

/-- The value of `lastMatch` is the one left by assigning, front to back, the value of every pair
whose condition holds to a variable that starts at `0`. -/
theorem lastMatch_eq_foldl (conditions : List (Bool × ℚ)) :
    lastMatch conditions = conditions.foldl (fun acc p => if p.1 then p.2 else acc) 0 := by
  have key : ∀ (l : List (Bool × ℚ)) (acc : ℚ),
      l.foldl (fun acc p => if p.1 then p.2 else acc) acc =
        match (l.filter (fun p => p.1)).getLast? with
        | some p => p.2
        | none => acc := by
    intro l
    induction l with
    | nil => intro acc; rfl
    | cons p rest ih =>
      intro acc
      rw [List.foldl_cons, ih]
      by_cases hp : p.1 = true
      · rw [if_pos hp, List.filter_cons_of_pos hp, List.getLast?_cons]
        cases (rest.filter (fun p => p.1)).getLast? <;> rfl
      · rw [if_neg hp, List.filter_cons_of_neg hp]
  exact (key conditions 0).symm

/-- The photon correction of a photon-like daughter is decided by the last of the seven conditions
that holds. -/
theorem photonCorrection_eq_lastMatch (cfg : Settings) (daughter : Cluster)
    (hphoton : daughter.isPhotonFast = true) :
    photonCorrection cfg daughter = lastMatch (photonConditions cfg daughter) := by
  rw [lastMatch_eq_foldl]
  simp only [photonCorrection, hphoton, if_true, photonConditions, List.foldl_cons, List.foldl_nil,
    decide_eq_true_eq]

/-- C23: the photon correction of `GetRequiredEvidenceForMerge` is `0` for a daughter that is not
flagged photon-like; for a photon-like daughter it is the correction paired with the last of the
seven conditions, taken in the order `1` to `7` with the corrections `m_photonCorrection1` to
`m_photonCorrection7`, that holds, whatever the earlier conditions are, and `0` when none of the
seven holds. -/
theorem C23_photon_correction_last_match (cfg : Settings) (daughter : Cluster) :
    (daughter.isPhotonFast = false → photonCorrection cfg daughter = 0) ∧
    (daughter.isPhotonFast = true →
      photonCorrection cfg daughter = lastMatch (photonConditions cfg daughter) ∧
      (∀ (pre post : List (Bool × ℚ)) (value : ℚ),
        photonConditions cfg daughter = pre ++ (true, value) :: post →
        (∀ p ∈ post, p.1 = false) → photonCorrection cfg daughter = value) ∧
      ((∀ p ∈ photonConditions cfg daughter, p.1 = false) → photonCorrection cfg daughter = 0)) ∧
    (photonConditions cfg daughter).map Prod.snd =
      [cfg.m_photonCorrection1, cfg.m_photonCorrection2, cfg.m_photonCorrection3,
        cfg.m_photonCorrection4, cfg.m_photonCorrection5, cfg.m_photonCorrection6,
        cfg.m_photonCorrection7] := by
  refine ⟨?_, ?_, rfl⟩
  · intro h
    simp [photonCorrection, h]
  · intro h
    have key := photonCorrection_eq_lastMatch cfg daughter h
    refine ⟨key, ?_, ?_⟩
    · intro pre post value hsplit hpost
      rw [key, hsplit]
      exact lastMatch_append pre post value hpost
    · intro hnone
      rw [key]
      exact lastMatch_none _ hnone

/-- C23 at the default configuration and the example photon-like cluster of energy `1.5` with
shower start `3`: the fifth condition is the last that holds, and the correction is
`m_photonCorrection5`. -/
theorem C23_photon_correction_last_match_witness :
    examplePhotonCluster.isPhotonFast = true ∧
      photonConditions defaultSettings examplePhotonCluster =
        [(false, 10), (false, 100), (false, 5), (false, 10)] ++
          (true, defaultSettings.m_photonCorrection5) :: [(false, 2), (false, 0)] ∧
      photonCorrection defaultSettings examplePhotonCluster = defaultSettings.m_photonCorrection5 := by
  have hsplit : photonConditions defaultSettings examplePhotonCluster =
      [(false, 10), (false, 100), (false, 5), (false, 10)] ++
        (true, defaultSettings.m_photonCorrection5) :: [(false, 2), (false, 0)] := by
    simp [photonConditions, examplePhotonCluster, exampleCluster, defaultSettings]
    norm_num
  exact ⟨rfl, hsplit,
    ((C23_photon_correction_last_match defaultSettings examplePhotonCluster).2.1 rfl).2.1
      _ _ _ hsplit (by simp)⟩

/-- C28: the layer correction of `GetRequiredEvidenceForMerge` is decided by this precedence:
`m_layerCorrection6` if `|correctionLayer - nECalLayers| < m_layerCorrectionLayersFromECal`;
otherwise `m_layerCorrection5` if `outerLayer - innerLayer < m_layerCorrectionLayerSpan` and
`innerLayer > m_layerCorrectionMinInnerLayer`; otherwise `m_layerCorrection4` if
`correctionLayer > nECalLayers + m_nDeepInHCalLayers`; otherwise `m_layerCorrection3` if
`correctionLayer > nECalLayers`; otherwise `m_layerCorrection2` if
`correctionLayer > nECalLayers / 2`; otherwise `m_layerCorrection1`. This holds with the
differences and the sum computed as the source computes them (`unsigned int` and `int`
arithmetic), and, for a daughter with `outerLayer ≥ innerLayer`, with the plain difference and sum
of the numbers when these are within the range of the machine types. The correction is always one
of the six constants. -/
theorem C28_layer_correction_precedence (cfg : Settings)
    (nECalLayers innerLayer outerLayer correctionLayer : Nat) :
    (layerCorrection cfg nECalLayers innerLayer outerLayer correctionLayer =
      if ((toInt32 correctionLayer - toInt32 nECalLayers).natAbs : Int) <
          cfg.m_layerCorrectionLayersFromECal then cfg.m_layerCorrection6
      else if usub outerLayer innerLayer < cfg.m_layerCorrectionLayerSpan ∧
          innerLayer > cfg.m_layerCorrectionMinInnerLayer then cfg.m_layerCorrection5
      else if correctionLayer > uadd nECalLayers cfg.m_nDeepInHCalLayers then cfg.m_layerCorrection4
      else if correctionLayer > nECalLayers then cfg.m_layerCorrection3
      else if correctionLayer > nECalLayers / 2 then cfg.m_layerCorrection2
      else cfg.m_layerCorrection1) ∧
    (innerLayer ≤ outerLayer → outerLayer < UINT_MOD → correctionLayer < 2 ^ 31 →
      nECalLayers < 2 ^ 31 → nECalLayers + cfg.m_nDeepInHCalLayers < UINT_MOD →
      layerCorrection cfg nECalLayers innerLayer outerLayer correctionLayer =
        if |(correctionLayer : Int) - (nECalLayers : Int)| < cfg.m_layerCorrectionLayersFromECal then
          cfg.m_layerCorrection6
        else if outerLayer - innerLayer < cfg.m_layerCorrectionLayerSpan ∧
            innerLayer > cfg.m_layerCorrectionMinInnerLayer then cfg.m_layerCorrection5
        else if correctionLayer > nECalLayers + cfg.m_nDeepInHCalLayers then cfg.m_layerCorrection4
        else if correctionLayer > nECalLayers then cfg.m_layerCorrection3
        else if correctionLayer > nECalLayers / 2 then cfg.m_layerCorrection2
        else cfg.m_layerCorrection1) ∧
    (layerCorrection cfg nECalLayers innerLayer outerLayer correctionLayer = cfg.m_layerCorrection1 ∨
      layerCorrection cfg nECalLayers innerLayer outerLayer correctionLayer = cfg.m_layerCorrection2 ∨
      layerCorrection cfg nECalLayers innerLayer outerLayer correctionLayer = cfg.m_layerCorrection3 ∨
      layerCorrection cfg nECalLayers innerLayer outerLayer correctionLayer = cfg.m_layerCorrection4 ∨
      layerCorrection cfg nECalLayers innerLayer outerLayer correctionLayer = cfg.m_layerCorrection5 ∨
      layerCorrection cfg nECalLayers innerLayer outerLayer correctionLayer =
        cfg.m_layerCorrection6) := by
  have key : layerCorrection cfg nECalLayers innerLayer outerLayer correctionLayer =
      if ((toInt32 correctionLayer - toInt32 nECalLayers).natAbs : Int) <
          cfg.m_layerCorrectionLayersFromECal then cfg.m_layerCorrection6
      else if usub outerLayer innerLayer < cfg.m_layerCorrectionLayerSpan ∧
          innerLayer > cfg.m_layerCorrectionMinInnerLayer then cfg.m_layerCorrection5
      else if correctionLayer > uadd nECalLayers cfg.m_nDeepInHCalLayers then cfg.m_layerCorrection4
      else if correctionLayer > nECalLayers then cfg.m_layerCorrection3
      else if correctionLayer > nECalLayers / 2 then cfg.m_layerCorrection2
      else cfg.m_layerCorrection1 := by
    simp only [layerCorrection]
    by_cases h6 : ((toInt32 correctionLayer - toInt32 nECalLayers).natAbs : Int) <
        cfg.m_layerCorrectionLayersFromECal
    · rw [if_pos h6, if_pos h6]
    · rw [if_neg h6, if_neg h6]
      by_cases h5 : usub outerLayer innerLayer < cfg.m_layerCorrectionLayerSpan ∧
          innerLayer > cfg.m_layerCorrectionMinInnerLayer
      · rw [if_pos h5, if_pos h5]
      · rw [if_neg h5, if_neg h5]
        by_cases h4 : correctionLayer > uadd nECalLayers cfg.m_nDeepInHCalLayers
        · rw [if_pos h4, if_pos h4]
        · rw [if_neg h4, if_neg h4]
          by_cases h3 : correctionLayer > nECalLayers
          · rw [if_pos h3, if_pos h3]
          · rw [if_neg h3, if_neg h3]
            by_cases h2 : correctionLayer > nECalLayers / 2
            · rw [if_pos ⟨h2, not_lt.mp h3⟩, if_pos h2]
            · rw [if_neg (fun h => h2 h.1), if_neg h2, if_pos (not_lt.mp h2)]
  refine ⟨key, ?_, ?_⟩
  · intro hio ho hc hn hsum
    have hM : UINT_MOD = 4294967296 := rfl
    have hsub : usub outerLayer innerLayer = outerLayer - innerLayer := by
      have hi : innerLayer < UINT_MOD := lt_of_le_of_lt hio ho
      simp only [usub, Nat.mod_eq_of_lt hi]
      have : outerLayer + UINT_MOD - innerLayer = (outerLayer - innerLayer) + UINT_MOD := by omega
      rw [this, Nat.add_mod_right]
      exact Nat.mod_eq_of_lt (by omega)
    have hadd : uadd nECalLayers cfg.m_nDeepInHCalLayers = nECalLayers + cfg.m_nDeepInHCalLayers := by
      simp only [uadd]
      exact Nat.mod_eq_of_lt hsum
    have hcl : toInt32 correctionLayer = (correctionLayer : Int) := by
      have h1 : correctionLayer < UINT_MOD := by omega
      simp only [toInt32, Nat.mod_eq_of_lt h1]
      rw [if_pos hc]
    have hnl : toInt32 nECalLayers = (nECalLayers : Int) := by
      have h1 : nECalLayers < UINT_MOD := by omega
      simp only [toInt32, Nat.mod_eq_of_lt h1]
      rw [if_pos hn]
    rw [key, hsub, hadd, hcl, hnl, Int.natCast_natAbs]
  · rw [key]
    split_ifs
    · exact Or.inr (Or.inr (Or.inr (Or.inr (Or.inr rfl))))
    · exact Or.inr (Or.inr (Or.inr (Or.inr (Or.inl rfl))))
    · exact Or.inr (Or.inr (Or.inr (Or.inl rfl)))
    · exact Or.inr (Or.inr (Or.inl rfl))
    · exact Or.inr (Or.inl rfl)
    · exact Or.inl rfl

/-- C28 at the default configuration with `30` ECal layers: for a daughter spanning the layers
`20` to `32` whose correction layer is `20`, no special case applies and the correction is
`m_layerCorrection2`. -/
theorem C28_layer_correction_precedence_witness :
    layerCorrection defaultSettings 30 20 32 20 =
      if |((20 : Nat) : Int) - ((30 : Nat) : Int)| < defaultSettings.m_layerCorrectionLayersFromECal then
        defaultSettings.m_layerCorrection6
      else if 32 - 20 < defaultSettings.m_layerCorrectionLayerSpan ∧
          20 > defaultSettings.m_layerCorrectionMinInnerLayer then defaultSettings.m_layerCorrection5
      else if 20 > 30 + defaultSettings.m_nDeepInHCalLayers then defaultSettings.m_layerCorrection4
      else if 20 > 30 then defaultSettings.m_layerCorrection3
      else if 20 > 30 / 2 then defaultSettings.m_layerCorrection2
      else defaultSettings.m_layerCorrection1 :=
  (C28_layer_correction_precedence defaultSettings 30 20 32 20).2.1 (by decide) (by decide)
    (by decide) (by decide) (by decide)

/-- The count that `GetNCompatibleMuonHits` returns is taken over the cache as the call leaves
it. -/
theorem GetNCompatibleMuonHits_eq (api : PandoraApi W) (w : W)
    (m_muonDirectionVector : List CartesianVector) (pParentCluster : ClusterPtr) :
    GetNCompatibleMuonHits api w m_muonDirectionVector pParentCluster =
      (compatibleDirections api w (muonDirectionCache api w m_muonDirectionVector) pParentCluster,
        muonDirectionCache api w m_muonDirectionVector) := by
  simp only [GetNCompatibleMuonHits, muonDirectionCache, compatibleDirections]
  cases m_muonDirectionVector with
  | nil => cases h : api.muonHitDirections w <;> simp
  | cons d rest => simp

/-- The leaving correction in closed form, over the cache as `GetNCompatibleMuonHits` leaves
it. -/
theorem leavingCorrection_eq (cfg : Settings) (api : PandoraApi W) (w : W)
    (m_muonDirectionVector : List CartesianVector) (clusterContact : ClusterContact) :
    (leavingCorrection cfg api w m_muonDirectionVector clusterContact).1 =
      if (api.cluster w clusterContact.parentCluster).isLeavingDetector = true then
        if cfg.m_useMuonHitsInLeavingCorrection = true ∧
            muonDirectionCache api w m_muonDirectionVector ≠ [] then
          if compatibleDirections api w (muonDirectionCache api w m_muonDirectionVector)
              clusterContact.parentCluster = 0 then 2
          else if compatibleDirections api w (muonDirectionCache api w m_muonDirectionVector)
              clusterContact.parentCluster > 5 then 10
          else cfg.m_leavingCorrection
        else cfg.m_leavingCorrection
      else 0 := by
  simp only [leavingCorrection,
    GetNCompatibleMuonHits_eq api w m_muonDirectionVector clusterContact.parentCluster]
  by_cases h : (api.cluster w clusterContact.parentCluster).isLeavingDetector = true
  · rw [if_pos h, if_pos h]
    by_cases hu : cfg.m_useMuonHitsInLeavingCorrection = true
    · rw [if_pos hu]
      by_cases hc : muonDirectionCache api w m_muonDirectionVector = []
      · have he : (!(muonDirectionCache api w m_muonDirectionVector).isEmpty) = false := by
          simp [hc]
        have hcond : ¬ (cfg.m_useMuonHitsInLeavingCorrection = true ∧
            muonDirectionCache api w m_muonDirectionVector ≠ []) := fun hh => hh.2 hc
        rw [if_neg hcond]
        simp only [he, Bool.false_eq_true, if_false]
      · have he : (!(muonDirectionCache api w m_muonDirectionVector).isEmpty) = true := by
          simpa [List.isEmpty_iff] using hc
        have hcond : cfg.m_useMuonHitsInLeavingCorrection = true ∧
            muonDirectionCache api w m_muonDirectionVector ≠ [] := ⟨hu, hc⟩
        rw [if_pos hcond]
        simp only [he, if_true]
    · have hcond : ¬ (cfg.m_useMuonHitsInLeavingCorrection = true ∧
          muonDirectionCache api w m_muonDirectionVector ≠ []) := fun hh => hu hh.1
      rw [if_neg hu, if_neg hcond]
  · rw [if_neg h, if_neg h]

/-- C29: the leaving correction of `GetRequiredEvidenceForMerge` is `0` when the parent is not
leaving the detector. When it is leaving, the correction is `m_leavingCorrection`, except that
with `m_useMuonHitsInLeavingCorrection` set and a non-empty muon-direction cache (the member when
it is non-empty, otherwise the directions of the muon hit list) it is `2` when no cached direction
has a dot product above `0.8` with the parent's outer-layer direction and `10` when more than five
have. When the cache is empty and the muon hit list is absent or empty, the correction is
`m_leavingCorrection`. -/
theorem C29_leaving_correction_cases (cfg : Settings) (api : PandoraApi W) (w : W)
    (m_muonDirectionVector : List CartesianVector) (clusterContact : ClusterContact) :
    let cache := muonDirectionCache api w m_muonDirectionVector
    let nCompatibleMuonHits := compatibleDirections api w cache clusterContact.parentCluster
    ((api.cluster w clusterContact.parentCluster).isLeavingDetector = false →
      (leavingCorrection cfg api w m_muonDirectionVector clusterContact).1 = 0) ∧
    ((api.cluster w clusterContact.parentCluster).isLeavingDetector = true →
      (leavingCorrection cfg api w m_muonDirectionVector clusterContact).1 =
        if cfg.m_useMuonHitsInLeavingCorrection = true ∧ cache ≠ [] then
          if nCompatibleMuonHits = 0 then 2
          else if nCompatibleMuonHits > 5 then 10
          else cfg.m_leavingCorrection
        else cfg.m_leavingCorrection) ∧
    ((api.cluster w clusterContact.parentCluster).isLeavingDetector = true →
      m_muonDirectionVector = [] →
      (api.muonHitDirections w = .ok [] ∨ ∃ status, api.muonHitDirections w = .error status) →
      (leavingCorrection cfg api w m_muonDirectionVector clusterContact).1 =
        cfg.m_leavingCorrection) := by
  intro cache nCompatibleMuonHits
  have hleaving : (api.cluster w clusterContact.parentCluster).isLeavingDetector = true →
      (leavingCorrection cfg api w m_muonDirectionVector clusterContact).1 =
        if cfg.m_useMuonHitsInLeavingCorrection = true ∧ cache ≠ [] then
          if nCompatibleMuonHits = 0 then 2
          else if nCompatibleMuonHits > 5 then 10
          else cfg.m_leavingCorrection
        else cfg.m_leavingCorrection := by
    intro h
    rw [leavingCorrection_eq, if_pos h]
  refine ⟨?_, hleaving, ?_⟩
  · intro h
    simp [leavingCorrection, h]
  · intro h hempty hlist
    rw [hleaving h]
    have hc : cache = [] := by
      simp only [cache, muonDirectionCache, hempty]
      rcases hlist with hl | ⟨status, hl⟩ <;> simp [hl]
    have hcond : ¬ (cfg.m_useMuonHitsInLeavingCorrection = true ∧ cache ≠ []) :=
      fun hh => hh.2 hc
    rw [if_neg hcond]

/-- C29 at the default configuration, which uses the muon hits, in the example whose parent `1`
is leaving the detector and whose muon hit list holds six hits in the parent's direction: the
cache is filled from the list and the correction is `10`. -/
theorem C29_leaving_correction_cases_witness :
    (exampleMuonApi.cluster [1, 2] (exampleContact 2 1).parentCluster).isLeavingDetector = true ∧
      compatibleDirections exampleMuonApi [1, 2] (muonDirectionCache exampleMuonApi [1, 2] [])
        (exampleContact 2 1).parentCluster = 6 ∧
      (leavingCorrection defaultSettings exampleMuonApi [1, 2] [] (exampleContact 2 1)).1 = 10 := by
  have hcount : compatibleDirections exampleMuonApi [1, 2]
      (muonDirectionCache exampleMuonApi [1, 2] []) (exampleContact 2 1).parentCluster = 6 := by
    simp [compatibleDirections, muonDirectionCache, exampleMuonApi, exampleApi, exampleCluster,
      exampleContact, ClusterContact.create, CartesianVector.GetDotProduct, List.replicate]
    norm_num
  refine ⟨rfl, hcount, ?_⟩
  rw [(C29_leaving_correction_cases defaultSettings exampleMuonApi [1, 2] []
    (exampleContact 2 1)).2.1 rfl, hcount]
  simp [defaultSettings, muonDirectionCache, exampleMuonApi, List.replicate]

/-- C26 (as stated, fails on the code): for daughter `2` of the example with its contact with
cluster `1`, under the default configuration, the global evidence value computed from the
`globalDeltaChi2` of `PassesPreselection` is not `m_chi2Base - globalDeltaChi2`. -/
theorem C26_global_evidence_is_not_base_minus_delta :
    globalChi2Evidence defaultSettings
        (PassesPreselection defaultSettings exampleApi [1, 2] 2 [exampleContact 2 1]).2 ≠
      defaultSettings.m_chi2Base -
        (PassesPreselection defaultSettings exampleApi [1, 2] 2 [exampleContact 2 1]).2 := by
  simp only [globalChi2Evidence]
  norm_num [defaultSettings]

/-- C26 (amended): the global evidence value of `GetRequiredEvidenceForMerge`, for the
`globalDeltaChi2` that `PassesPreselection` computes from the aggregate energies of all the
daughter's contacts, is `m_chi2Base + m_globalChi2Penalty - (oldChi2Total - newChi2Total)`, while
the local value is `m_chi2Base - (oldChi2 - newChi2)`; the global value is
`m_chi2Base - globalDeltaChi2` exactly when `m_globalChi2Penalty` is `0`. -/
theorem C26_global_evidence_includes_penalty (cfg : Settings) (api : PandoraApi W) (w : W)
    (pDaughterCluster : ClusterPtr) (contacts : ClusterContactVector)
    (clusterContact : ClusterContact) (globalDeltaChi2 : ℚ) :
    let chi := api.GetTrackClusterCompatibility
    let daughterEnergy := (api.cluster w pDaughterCluster).correctedHadronicEnergy
    let parentEnergy := fun (c : ClusterContact) =>
      (api.cluster w c.parentCluster).correctedHadronicEnergy
    let oldChi2 := chi (parentEnergy clusterContact) clusterContact.parentTrackEnergy *
      chi (parentEnergy clusterContact) clusterContact.parentTrackEnergy
    let newChi2 := chi (daughterEnergy + parentEnergy clusterContact) clusterContact.parentTrackEnergy *
      chi (daughterEnergy + parentEnergy clusterContact) clusterContact.parentTrackEnergy
    let totalClusterEnergy := (contacts.map parentEnergy).sum
    let totalTrackEnergy := (contacts.map (·.parentTrackEnergy)).sum
    let oldChi2Total :=
      chi totalClusterEnergy totalTrackEnergy * chi totalClusterEnergy totalTrackEnergy
    let newChi2Total :=
      chi (daughterEnergy + totalClusterEnergy) totalTrackEnergy *
        chi (daughterEnergy + totalClusterEnergy) totalTrackEnergy
    globalChi2Evidence cfg (PassesPreselection cfg api w pDaughterCluster contacts).2 =
        cfg.m_chi2Base + cfg.m_globalChi2Penalty - (oldChi2Total - newChi2Total) ∧
    chi2Evidence cfg api w pDaughterCluster clusterContact = cfg.m_chi2Base - (oldChi2 - newChi2) ∧
    globalChi2Evidence cfg globalDeltaChi2 = cfg.m_chi2Base + cfg.m_globalChi2Penalty - globalDeltaChi2 ∧
    (globalChi2Evidence cfg globalDeltaChi2 = cfg.m_chi2Base - globalDeltaChi2 ↔
      cfg.m_globalChi2Penalty = 0) := by
  intro chi daughterEnergy parentEnergy oldChi2 newChi2 totalClusterEnergy totalTrackEnergy
    oldChi2Total newChi2Total
  have h := preselection_foldl cfg api w daughterEnergy contacts
    { passesPreselection := false, totalTrackEnergy := 0, totalClusterEnergy := 0 }
  simp only [zero_add] at h
  obtain ⟨_, h2, h3⟩ := h
  refine ⟨?_, rfl, rfl, ?_⟩
  · simp only [globalChi2Evidence, PassesPreselection]
    rw [h2, h3]
    rfl
  · simp only [globalChi2Evidence]
    constructor
    · intro h
      linarith
    · intro h
      rw [h]
      ring

end CorrectionTheorems

/-! ## The affected set of a merge -/

section AffectedTheorems

variable {W : Type}

/-- C25: when an iteration of the loop of `Run` merges the pair `(P, D)` that the selector
returned, the affected set computed by `GetAffectedClusters` for that merge, which is the set the
next builder pass receives, contains `P`; so it is not empty, and the next pass is not a first
pass. -/
theorem C25_affected_set_contains_parent (cfg : Settings) (api : PandoraApi W) (s s' : RunState W)
    (P D : ClusterPtr) (hrun : RunIteration cfg api s = .ok (some (P, D), s')) :
    P ∈ s'.affectedClusters ∧ s'.affectedClusters.Nonempty ∧ s'.isFirstPass = false ∧
      ∃ isFirstPass m' sel,
        GetClusterContactMap cfg api s.world s.isFirstPass s.affectedClusters s.clusterContactMap =
          .ok (isFirstPass, m') ∧
        GetClusterMergingCandidates cfg api s.world m' none none s.m_muonDirectionVector = .ok sel ∧
        sel.pBestParentCluster = some P ∧ sel.pBestDaughterCluster = some D ∧
        GetAffectedClusters m' P D s.affectedClusters = .ok s'.affectedClusters := by
  obtain ⟨isFirstPass, m', sel, hb, hsel, hcase⟩ := RunIteration_ok_inv cfg api s s' _ hrun
  rcases hcase with ⟨P', D', affected, world, hP, hD, haff, _, hm, hs'⟩ | ⟨_, hm, _⟩
  · simp only [Option.some.injEq, Prod.mk.injEq] at hm
    obtain ⟨rfl, rfl⟩ := hm
    obtain ⟨entry, he, c, hc, hcP⟩ := selected_pair_mem cfg api s.world m' s.m_muonDirectionVector
      sel P D hsel hP hD
    have hfirst : isFirstPass = false := by
      simp only [GetClusterContactMap] at hb
      split at hb
      · cases hb
      · simp only [Except.ok.injEq, Prod.mk.injEq] at hb
        exact hb.1.symm
    have hmem : P ∈ affected := by
      simp only [GetAffectedClusters] at haff
      split at haff
      · cases haff
      · simp only [Except.ok.injEq] at haff
        rw [← haff, mem_foldl_affectedStep]
        exact Or.inr (Or.inl ⟨(D, entry), he, rfl, c, hc, hcP⟩)
    rw [hs']
    exact ⟨hmem, ⟨P, hmem⟩, hfirst, isFirstPass, m', sel, hb, hsel, hP, hD, haff⟩
  · cases hm

/-- C25 at the first iteration of `Run` on the example with clusters `1` and `2`, which merges
cluster `2` into cluster `1`. -/
theorem C25_affected_set_contains_parent_witness :
    RunIteration defaultSettings exampleApi (RunState.initial [1, 2] []) =
        .ok (some (1, 2), exampleStateAfterMerge) ∧
      1 ∈ exampleStateAfterMerge.affectedClusters ∧
      exampleStateAfterMerge.affectedClusters.Nonempty :=
  ⟨exampleIteration_first,
    (C25_affected_set_contains_parent defaultSettings exampleApi (RunState.initial [1, 2] [])
      exampleStateAfterMerge 1 2 exampleIteration_first).1,
    (C25_affected_set_contains_parent defaultSettings exampleApi (RunState.initial [1, 2] [])
      exampleStateAfterMerge 1 2 exampleIteration_first).2.1⟩

end AffectedTheorems

/-! ## The correction layer -/

section CorrectionLayerTheorems

variable {W : Type}

/-- Adding up the energies of the hits of a layer, one at a time, adds their sum. -/
theorem foldl_add_eq_sum (hits : List ℚ) (energySum : ℚ) :
    hits.foldl (fun acc e => acc + e) energySum = energySum + hits.sum := by
  induction hits generalizing energySum with
  | nil => simp
  | cons e rest ih =>
    rw [List.foldl_cons, ih, List.sum_cons]
    ring

theorem accumulatedEnergy_zero (layers : List (PseudoLayer × List ℚ)) :
    accumulatedEnergy layers 0 = 0 := by
  simp [accumulatedEnergy]

theorem accumulatedEnergy_cons (layer : PseudoLayer × List ℚ) (rest : List (PseudoLayer × List ℚ))
    (n : Nat) :
    accumulatedEnergy (layer :: rest) (n + 1) = layer.2.sum + accumulatedEnergy rest n := by
  simp [accumulatedEnergy]

/-- The loop of `GetClusterCorrectionLayer`, entered with a running energy sum and layer counter:
it returns at the first layer at which the counter has reached `m_correctionLayerNHitLayers` or
the energy sum exceeds the fraction of the total energy, and ends without returning when there is
no such layer. -/
theorem correctionLayerLoop_spec (cfg : Settings) (totalClusterEnergy : ℚ)
    (layers : List (PseudoLayer × List ℚ)) (energySum : ℚ) (layerCounter : Nat)
    (hcounter : layerCounter + layers.length < UINT_MOD) :
    (∀ i (hi : i < layers.length),
      (layerCounter + i + 1 ≥ cfg.m_correctionLayerNHitLayers ∨
        energySum + accumulatedEnergy layers (i + 1) >
          cfg.m_correctionLayerEnergyFraction * totalClusterEnergy) →
      (∀ j, j < i → ¬ (layerCounter + j + 1 ≥ cfg.m_correctionLayerNHitLayers ∨
        energySum + accumulatedEnergy layers (j + 1) >
          cfg.m_correctionLayerEnergyFraction * totalClusterEnergy)) →
      correctionLayerLoop cfg totalClusterEnergy layers energySum layerCounter =
        some (layers.get ⟨i, hi⟩).1) ∧
    ((∀ i, i < layers.length → ¬ (layerCounter + i + 1 ≥ cfg.m_correctionLayerNHitLayers ∨
        energySum + accumulatedEnergy layers (i + 1) >
          cfg.m_correctionLayerEnergyFraction * totalClusterEnergy)) →
      correctionLayerLoop cfg totalClusterEnergy layers energySum layerCounter = none) := by
  induction layers generalizing energySum layerCounter with
  | nil =>
    refine ⟨fun i hi => absurd hi (Nat.not_lt_zero i), fun _ => rfl⟩
  | cons head rest ih =>
    obtain ⟨layer, hits⟩ := head
    have hlen : layerCounter + 1 + rest.length < UINT_MOD := by
      simp only [List.length_cons] at hcounter
      omega
    have hadd : uadd layerCounter 1 = layerCounter + 1 := by
      simp only [uadd]
      exact Nat.mod_eq_of_lt (by omega)
    have hstep : correctionLayerLoop cfg totalClusterEnergy ((layer, hits) :: rest) energySum
        layerCounter =
        if layerCounter + 1 ≥ cfg.m_correctionLayerNHitLayers ∨
            energySum + hits.sum > cfg.m_correctionLayerEnergyFraction * totalClusterEnergy then
          some layer
        else correctionLayerLoop cfg totalClusterEnergy rest (energySum + hits.sum)
          (layerCounter + 1) := by
      simp only [correctionLayerLoop, foldl_add_eq_sum, hadd]
    have hzero : (layerCounter + 0 + 1 ≥ cfg.m_correctionLayerNHitLayers ∨
        energySum + accumulatedEnergy ((layer, hits) :: rest) (0 + 1) >
          cfg.m_correctionLayerEnergyFraction * totalClusterEnergy) ↔
        (layerCounter + 1 ≥ cfg.m_correctionLayerNHitLayers ∨
          energySum + hits.sum > cfg.m_correctionLayerEnergyFraction * totalClusterEnergy) := by
      rw [accumulatedEnergy_cons, accumulatedEnergy_zero]
      simp
    have hshift : ∀ k : Nat, (layerCounter + (k + 1) + 1 ≥ cfg.m_correctionLayerNHitLayers ∨
        energySum + accumulatedEnergy ((layer, hits) :: rest) (k + 1 + 1) >
          cfg.m_correctionLayerEnergyFraction * totalClusterEnergy) ↔
        (layerCounter + 1 + k + 1 ≥ cfg.m_correctionLayerNHitLayers ∨
          energySum + hits.sum + accumulatedEnergy rest (k + 1) >
            cfg.m_correctionLayerEnergyFraction * totalClusterEnergy) := by
      intro k
      rw [accumulatedEnergy_cons]
      have h1 : layerCounter + (k + 1) + 1 = layerCounter + 1 + k + 1 := by omega
      have h2 : energySum + ((layer, hits).2.sum + accumulatedEnergy rest (k + 1)) =
          energySum + hits.sum + accumulatedEnergy rest (k + 1) := by ring
      rw [h1, h2]
    obtain ⟨ih1, ih2⟩ := ih (energySum + hits.sum) (layerCounter + 1) hlen
    refine ⟨?_, ?_⟩
    · intro i hi hreached hfirst
      cases i with
      | zero =>
        rw [hstep, if_pos (hzero.mp hreached)]
        rfl
      | succ k =>
        rw [hstep, if_neg (fun h => hfirst 0 (Nat.succ_pos k) (hzero.mpr h))]
        have hk : k < rest.length := by
          simp only [List.length_cons] at hi
          omega
        rw [ih1 k hk ((hshift k).mp hreached)
          (fun j hj h => hfirst (j + 1) (Nat.succ_lt_succ hj) ((hshift j).mpr h))]
        rfl
    · intro hnone
      rw [hstep, if_neg (fun h => hnone 0 (by simp) (hzero.mpr h))]
      exact ih2 (fun i hi h => hnone (i + 1) (by simp only [List.length_cons]; omega)
        ((hshift i).mpr h))

/-- C27 (as stated, fails on the code): the example cluster of energy `1` has four occupied
layers; under the default configuration the innermost occupied layer at which the accumulated
energy exceeds `m_correctionLayerEnergyFraction` times the total energy is layer `23`, the fourth,
but `GetClusterCorrectionLayer` returns layer `22`, the third, where the accumulated energy is
`0.03`. -/
theorem C27_layer_count_ends_the_scan :
    (exampleDeepApi.cluster [1, 2] 2).orderedCaloHitList =
      [(20, [1 / 100]), (21, [1 / 100]), (22, [1 / 100]), (23, [97 / 100])] ∧
    energyFractionReached defaultSettings (exampleDeepApi.cluster [1, 2] 2).hadronicEnergy
      (exampleDeepApi.cluster [1, 2] 2).orderedCaloHitList 3 ∧
    (∀ j, j < 3 →
      ¬ energyFractionReached defaultSettings (exampleDeepApi.cluster [1, 2] 2).hadronicEnergy
        (exampleDeepApi.cluster [1, 2] 2).orderedCaloHitList j) ∧
    accumulatedEnergy (exampleDeepApi.cluster [1, 2] 2).orderedCaloHitList 3 = 3 / 100 ∧
    GetClusterCorrectionLayer defaultSettings exampleDeepApi [1, 2] 2 = 22 := by
  refine ⟨rfl, ?_, ?_, ?_, ?_⟩
  · norm_num [energyFractionReached, accumulatedEnergy, exampleDeepApi, exampleDeepCluster,
      exampleCluster, defaultSettings]
  · intro j hj
    interval_cases j <;>
      norm_num [energyFractionReached, accumulatedEnergy, exampleDeepApi, exampleDeepCluster,
        exampleCluster, defaultSettings]
  · norm_num [accumulatedEnergy, exampleDeepApi, exampleDeepCluster, exampleCluster]
  · simp [GetClusterCorrectionLayer, correctionLayerLoop, exampleDeepApi, exampleDeepCluster,
      exampleCluster, defaultSettings, uadd, UINT_MOD]
    norm_num

/-- C27 (amended): for a daughter with fewer than `2 ^ 32` occupied layers,
`GetClusterCorrectionLayer` returns the innermost occupied pseudolayer at which either the number
of occupied layers counted from the inner edge has reached `m_correctionLayerNHitLayers` or the
hadronic energy accumulated from the inner edge exceeds `m_correctionLayerEnergyFraction` times the
daughter's total hadronic energy; it returns the daughter's inner pseudolayer when there is no
such layer. In particular it returns the innermost occupied pseudolayer at which the accumulated
energy exceeds the fraction of the total whenever fewer than `m_correctionLayerNHitLayers` layers
are occupied up to and including that layer. -/
theorem C27_correction_layer_first_reached (cfg : Settings) (api : PandoraApi W) (w : W)
    (pDaughterCluster : ClusterPtr)
    (hlen : (api.cluster w pDaughterCluster).orderedCaloHitList.length < UINT_MOD) :
    (∀ i (hi : i < (api.cluster w pDaughterCluster).orderedCaloHitList.length),
      correctionLayerReached cfg (api.cluster w pDaughterCluster).hadronicEnergy
        (api.cluster w pDaughterCluster).orderedCaloHitList i →
      (∀ j, j < i → ¬ correctionLayerReached cfg (api.cluster w pDaughterCluster).hadronicEnergy
        (api.cluster w pDaughterCluster).orderedCaloHitList j) →
      GetClusterCorrectionLayer cfg api w pDaughterCluster =
        ((api.cluster w pDaughterCluster).orderedCaloHitList.get ⟨i, hi⟩).1) ∧
    ((∀ i, i < (api.cluster w pDaughterCluster).orderedCaloHitList.length →
        ¬ correctionLayerReached cfg (api.cluster w pDaughterCluster).hadronicEnergy
          (api.cluster w pDaughterCluster).orderedCaloHitList i) →
      GetClusterCorrectionLayer cfg api w pDaughterCluster =
        (api.cluster w pDaughterCluster).innerPseudoLayer) ∧
    (∀ i (hi : i < (api.cluster w pDaughterCluster).orderedCaloHitList.length),
      i + 1 < cfg.m_correctionLayerNHitLayers →
      energyFractionReached cfg (api.cluster w pDaughterCluster).hadronicEnergy
        (api.cluster w pDaughterCluster).orderedCaloHitList i →
      (∀ j, j < i → ¬ energyFractionReached cfg (api.cluster w pDaughterCluster).hadronicEnergy
        (api.cluster w pDaughterCluster).orderedCaloHitList j) →
      GetClusterCorrectionLayer cfg api w pDaughterCluster =
        ((api.cluster w pDaughterCluster).orderedCaloHitList.get ⟨i, hi⟩).1) := by
  obtain ⟨h1, h2⟩ := correctionLayerLoop_spec cfg (api.cluster w pDaughterCluster).hadronicEnergy
    (api.cluster w pDaughterCluster).orderedCaloHitList 0 0 (by omega)
  simp only [zero_add] at h1 h2
  have hfirst : ∀ i (hi : i < (api.cluster w pDaughterCluster).orderedCaloHitList.length),
      correctionLayerReached cfg (api.cluster w pDaughterCluster).hadronicEnergy
        (api.cluster w pDaughterCluster).orderedCaloHitList i →
      (∀ j, j < i → ¬ correctionLayerReached cfg (api.cluster w pDaughterCluster).hadronicEnergy
        (api.cluster w pDaughterCluster).orderedCaloHitList j) →
      GetClusterCorrectionLayer cfg api w pDaughterCluster =
        ((api.cluster w pDaughterCluster).orderedCaloHitList.get ⟨i, hi⟩).1 := by
    intro i hi hreached hbefore
    simp only [GetClusterCorrectionLayer]
    rw [h1 i hi hreached hbefore]
  refine ⟨hfirst, ?_, ?_⟩
  · intro hnone
    simp only [GetClusterCorrectionLayer]
    rw [h2 hnone]
  · intro i hi hcount hreached hbefore
    refine hfirst i hi (Or.inr hreached) ?_
    intro j hj hr
    rcases hr with hr | hr
    · have hr' : j + 1 ≥ cfg.m_correctionLayerNHitLayers := hr
      omega
    · exact hbefore j hj hr

/-- C27 (amended) at cluster `2` of the example, with three occupied layers of energy `0.01` each
and total energy `0.03`: the energy of the innermost layer `20` already exceeds a quarter of the
total, and `GetClusterCorrectionLayer` returns `20`. -/
theorem C27_correction_layer_first_reached_witness :
    (exampleApi.cluster [1, 2] 2).orderedCaloHitList.length < UINT_MOD ∧
      correctionLayerReached defaultSettings (exampleApi.cluster [1, 2] 2).hadronicEnergy
        (exampleApi.cluster [1, 2] 2).orderedCaloHitList 0 ∧
      GetClusterCorrectionLayer defaultSettings exampleApi [1, 2] 2 = 20 :=
  ⟨by decide,
    by norm_num [correctionLayerReached, accumulatedEnergy, exampleApi, exampleCluster,
      defaultSettings],
    (C27_correction_layer_first_reached defaultSettings exampleApi [1, 2] 2 (by decide)).1 0
      (by decide)
      (by norm_num [correctionLayerReached, accumulatedEnergy, exampleApi, exampleCluster,
        defaultSettings])
      (fun j hj => absurd hj (Nat.not_lt_zero j))⟩

end CorrectionLayerTheorems

/-! ## The daughter-mismatch exception of the selector -/

section MismatchTheorems

variable {W : Type}

/-- The inner loop of the selector is ended by an exception exactly when a contact of the vector
stores a daughter other than the key, and the exception is then `STATUS_CODE_FAILURE`. -/
theorem selectContacts_error (cfg : Settings) (api : PandoraApi W) (w : W) (D : ClusterPtr)
    (layer : PseudoLayer) (globalDeltaChi2 : ℚ) (contacts : List ClusterContact)
    (st : SelectorState) :
    (∀ e, selectContacts cfg api w D layer globalDeltaChi2 contacts st = .error e →
      e = .thrown StatusCode.FAILURE) ∧
    ((∃ e, selectContacts cfg api w D layer globalDeltaChi2 contacts st = .error e) ↔
      ∃ c ∈ contacts, c.daughterCluster ≠ D) := by
  induction contacts generalizing st with
  | nil =>
    refine ⟨fun e h => ?_, ⟨fun h => ?_, fun h => ?_⟩⟩
    · simp [selectContacts] at h
    · obtain ⟨e, h⟩ := h
      simp [selectContacts] at h
    · obtain ⟨c, hc, _⟩ := h
      simp at hc
  | cons c rest ih =>
    by_cases hd : D ≠ c.daughterCluster
    · have hstep : selectContacts cfg api w D layer globalDeltaChi2 (c :: rest) st =
          .error (.thrown StatusCode.FAILURE) := by
        simp only [selectContacts]
        rw [if_pos hd]
      rw [hstep]
      refine ⟨fun e h => ?_, ⟨fun _ => ⟨c, List.mem_cons_self _ _, fun h => hd h.symm⟩,
        fun _ => ⟨_, rfl⟩⟩⟩
      simp only [Except.error.injEq] at h
      exact h.symm
    · have hd' : c.daughterCluster = D := by
        by_contra h
        exact hd (fun h' => h h'.symm)
      obtain ⟨st1, hstep⟩ : ∃ st1, selectContacts cfg api w D layer globalDeltaChi2 (c :: rest) st =
          selectContacts cfg api w D layer globalDeltaChi2 rest st1 := by
        simp only [selectContacts]
        rw [if_neg hd]
        exact ⟨_, rfl⟩
      rw [hstep]
      obtain ⟨ih1, ih2⟩ := ih st1
      refine ⟨ih1, ih2.trans ⟨?_, ?_⟩⟩
      · rintro ⟨c', hc', hne⟩
        exact ⟨c', List.mem_cons_of_mem _ hc', hne⟩
      · rintro ⟨c', hc', hne⟩
        rcases List.mem_cons.mp hc' with heq | hmem
        · subst heq
          exact absurd hd' hne
        · exact ⟨c', hmem, hne⟩

/-- The outer loop of the selector is ended by an exception exactly when an entry that passes
preselection holds a contact whose stored daughter is not the key of the entry, and the exception
is then `STATUS_CODE_FAILURE`. -/
theorem selectEntries_error (cfg : Settings) (api : PandoraApi W) (w : W) (m : ClusterContactMap)
    (st : SelectorState) :
    (∀ e, selectEntries cfg api w m st = .error e → e = .thrown StatusCode.FAILURE) ∧
    ((∃ e, selectEntries cfg api w m st = .error e) ↔ ScannedMismatch cfg api w m) := by
  induction m generalizing st with
  | nil =>
    refine ⟨fun e h => ?_, ⟨fun h => ?_, fun h => ?_⟩⟩
    · simp [selectEntries] at h
    · obtain ⟨e, h⟩ := h
      simp [selectEntries] at h
    · obtain ⟨e, he, _⟩ := h
      simp at he
  | cons head rest ih =>
    obtain ⟨D, entry⟩ := head
    by_cases hpre : (PassesPreselection cfg api w D entry).1 = true
    · obtain ⟨hc1, hc2⟩ := selectContacts_error cfg api w D (GetClusterCorrectionLayer cfg api w D)
        (PassesPreselection cfg api w D entry).2 entry st
      cases hsel : selectContacts cfg api w D (GetClusterCorrectionLayer cfg api w D)
          (PassesPreselection cfg api w D entry).2 entry st with
      | error err =>
        have hstep : selectEntries cfg api w ((D, entry) :: rest) st = .error err := by
          simp only [selectEntries, hpre, Bool.not_true, Bool.false_eq_true, if_false, hsel]
        rw [hstep]
        have herr := hc1 err hsel
        obtain ⟨c, hc, hne⟩ := hc2.mp ⟨err, hsel⟩
        refine ⟨fun e h => ?_, ⟨fun _ => ⟨(D, entry), List.mem_cons_self _ _, hpre, c, hc, hne⟩,
          fun _ => ⟨_, rfl⟩⟩⟩
        simp only [Except.error.injEq] at h
        rw [← h]
        exact herr
      | ok st1 =>
        have hstep : selectEntries cfg api w ((D, entry) :: rest) st =
            selectEntries cfg api w rest st1 := by
          simp only [selectEntries, hpre, Bool.not_true, Bool.false_eq_true, if_false, hsel]
        rw [hstep]
        obtain ⟨ih1, ih2⟩ := ih st1
        refine ⟨ih1, ih2.trans ⟨?_, ?_⟩⟩
        · rintro ⟨e, he, hp, hmis⟩
          exact ⟨e, List.mem_cons_of_mem _ he, hp, hmis⟩
        · rintro ⟨e, he, hp, hmis⟩
          rcases List.mem_cons.mp he with heq | hmem
          · subst heq
            obtain ⟨err, herr⟩ := hc2.mpr hmis
            rw [hsel] at herr
            cases herr
          · exact ⟨e, hmem, hp, hmis⟩
    · have hpre' : (!(PassesPreselection cfg api w D entry).1) = true := by simpa using hpre
      have hstep : selectEntries cfg api w ((D, entry) :: rest) st =
          selectEntries cfg api w rest st := by
        simp only [selectEntries]
        rw [if_pos hpre']
      rw [hstep]
      obtain ⟨ih1, ih2⟩ := ih st
      refine ⟨ih1, ih2.trans ⟨?_, ?_⟩⟩
      · rintro ⟨e, he, hp, hmis⟩
        exact ⟨e, List.mem_cons_of_mem _ he, hp, hmis⟩
      · rintro ⟨e, he, hp, hmis⟩
        rcases List.mem_cons.mp he with heq | hmem
        · subst heq
          exact absurd hp hpre
        · exact ⟨e, hmem, hp, hmis⟩

/-- C24 (as stated, fails on the code): the example map whose only entry, of key `2`, holds a
contact with stored daughter `3` contains a contact whose stored daughter differs from the key of
its entry, but the entry fails preselection and `GetClusterMergingCandidates` returns normally,
with both outputs null. -/
theorem C24_mismatch_in_skipped_entry_goes_unnoticed :
    (∃ e ∈ exampleSkippedMap, ∃ c ∈ e.2, c.daughterCluster ≠ e.1) ∧
    (PassesPreselection defaultSettings exampleApi [1, 2] 2 [exampleStrayContact]).1 = false ∧
    GetClusterMergingCandidates defaultSettings exampleApi [1, 2] exampleSkippedMap none none [] =
      .ok { highestExcessEvidence := 0
            pBestParentCluster := none
            pBestDaughterCluster := none
            m_muonDirectionVector := [] } := by
  have hpre : (PassesPreselection defaultSettings exampleApi [1, 2] 2 [exampleStrayContact]).1 =
      false := by
    simp [PassesPreselection, preselectionStep, chi2Pair, exampleApi, exampleCluster,
      exampleStrayContact, exampleFeatures, defaultSettings]
    norm_num
  refine ⟨⟨(2, [exampleStrayContact]), by simp [exampleSkippedMap], exampleStrayContact,
    by simp, by decide⟩, hpre, ?_⟩
  simp only [GetClusterMergingCandidates, exampleSkippedMap, selectEntries, hpre, Bool.not_false,
    if_true]

/-- C24 (amended): `GetClusterMergingCandidates` throws `STATUS_CODE_FAILURE` exactly when the
contact map holds, in an entry that passes `PassesPreselection`, a contact whose stored daughter
differs from the key of the entry; it is ended by no other exception or status, and an entry that
fails preselection is skipped without its contacts being examined. -/
theorem C24_mismatch_in_preselected_entry_throws (cfg : Settings) (api : PandoraApi W) (w : W)
    (m : ClusterContactMap) (pBestParentCluster pBestDaughterCluster : Option ClusterPtr)
    (m_muonDirectionVector : List CartesianVector) :
    (GetClusterMergingCandidates cfg api w m pBestParentCluster pBestDaughterCluster
        m_muonDirectionVector = .error (.thrown StatusCode.FAILURE) ↔
      ScannedMismatch cfg api w m) ∧
    (∀ e, GetClusterMergingCandidates cfg api w m pBestParentCluster pBestDaughterCluster
        m_muonDirectionVector = .error e → e = .thrown StatusCode.FAILURE) ∧
    (∀ D entry, (PassesPreselection cfg api w D entry).1 = false →
      GetClusterMergingCandidates cfg api w ((D, entry) :: m) pBestParentCluster
          pBestDaughterCluster m_muonDirectionVector =
        GetClusterMergingCandidates cfg api w m pBestParentCluster pBestDaughterCluster
          m_muonDirectionVector) := by
  obtain ⟨h1, h2⟩ := selectEntries_error cfg api w m
    { highestExcessEvidence := 0
      pBestParentCluster := pBestParentCluster
      pBestDaughterCluster := pBestDaughterCluster
      m_muonDirectionVector := m_muonDirectionVector }
  refine ⟨⟨fun h => h2.mp ⟨_, h⟩, fun h => ?_⟩, h1, ?_⟩
  · obtain ⟨e, he⟩ := h2.mpr h
    have := h1 e he
    subst this
    exact he
  · intro D entry hpre
    simp only [GetClusterMergingCandidates, selectEntries, hpre, Bool.not_false, if_true]

/-- C24 (amended) at the example map whose only entry, of key `2`, passes preselection and holds a
contact with stored daughter `3`: the selector throws `STATUS_CODE_FAILURE`. -/
theorem C24_mismatch_in_preselected_entry_throws_witness :
    ScannedMismatch defaultSettings exampleApi [1, 2] exampleMismatchMap ∧
      GetClusterMergingCandidates defaultSettings exampleApi [1, 2] exampleMismatchMap none none [] =
        .error (.thrown StatusCode.FAILURE) := by
  have hmis : ScannedMismatch defaultSettings exampleApi [1, 2] exampleMismatchMap := by
    refine ⟨(2, [exampleContact 3 1]), by simp [exampleMismatchMap], ?_, exampleContact 3 1,
      by simp, by decide⟩
    simp [PassesPreselection, preselectionStep, chi2Pair, exampleApi, exampleCluster,
      exampleContact, ClusterContact.create, exampleFeatures, defaultSettings]
    norm_num
  exact ⟨hmis,
    (C24_mismatch_in_preselected_entry_throws defaultSettings exampleApi [1, 2] exampleMismatchMap
      none none []).1.mpr hmis⟩

end MismatchTheorems

/-! ## The near-boundary branch of the contact cuts -/

section BoundaryTheorems

variable {W : Type}

/-- C31 (as stated, fails on the code): in the example with `30` ECal layers and the default
margin `m_contactCutLayersFromECal = 10`, a contact that passes none of the six feature cuts,
whose closest-hit distance is below `m_contactCutNearECalDistance` and whose daughter has inner
pseudolayer `60`, thirty layers beyond the ECal boundary, is admitted by the second branch of
`PassesClusterContactCuts`. -/
theorem C31_inner_layer_far_beyond_boundary_is_admitted :
    ¬ (exampleNearContact.nContactLayers > defaultSettings.m_contactCutNLayers ∨
        exampleNearContact.coneFraction1 > defaultSettings.m_contactCutConeFraction1 ∨
        exampleNearContact.closeHitFraction1 > defaultSettings.m_contactCutCloseHitFraction1 ∨
        exampleNearContact.closeHitFraction2 > defaultSettings.m_contactCutCloseHitFraction2 ∨
        exampleNearContact.meanDistanceToHelix < defaultSettings.m_contactCutMeanDistanceToHelix ∨
        exampleNearContact.closestDistanceToHelix <
          defaultSettings.m_contactCutClosestDistanceToHelix) ∧
    (exampleHCalApi.cluster [1, 2] exampleNearContact.daughterCluster).innerPseudoLayer = 60 ∧
    exampleHCalApi.nECalLayers = 30 ∧
    ¬ (|(((exampleHCalApi.cluster [1, 2] exampleNearContact.daughterCluster).innerPseudoLayer : Nat) :
          Int) - ((exampleHCalApi.nECalLayers : Nat) : Int)| <
        ((defaultSettings.m_contactCutLayersFromECal : Nat) : Int)) ∧
    PassesClusterContactCuts defaultSettings exampleHCalApi [1, 2] exampleNearContact = true := by
  refine ⟨?_, rfl, rfl, by decide, ?_⟩
  · norm_num [exampleNearContact, exampleFarContact, defaultSettings]
  · simp [PassesClusterContactCuts, exampleNearContact, exampleFarContact, defaultSettings,
      exampleHCalApi, exampleApi, exampleCluster, uadd, UINT_MOD]
    norm_num

/-- C31 (amended): when none of the six feature cuts holds, `PassesClusterContactCuts` admits a
contact exactly when its closest-hit distance is at most `m_contactCutMaxDistance` and below
`m_contactCutNearECalDistance` and `daughterInnerLayer + m_contactCutLayersFromECal > nECalLayers`
(an `unsigned int` sum). When the sum does not overflow, this bounds the inner layer from below
only: the contact is admitted only if the inner layer lies fewer than `m_contactCutLayersFromECal`
layers before `nECalLayers` or anywhere beyond it; an inner layer that differs from `nECalLayers`
by less than the margin on either side satisfies the bound, and so does every deeper one. -/
theorem C31_near_boundary_branch_is_one_sided (cfg : Settings) (api : PandoraApi W) (w : W)
    (c : ClusterContact)
    (hcuts : ¬ (c.nContactLayers > cfg.m_contactCutNLayers ∨
      c.coneFraction1 > cfg.m_contactCutConeFraction1 ∨
      c.closeHitFraction1 > cfg.m_contactCutCloseHitFraction1 ∨
      c.closeHitFraction2 > cfg.m_contactCutCloseHitFraction2 ∨
      c.meanDistanceToHelix < cfg.m_contactCutMeanDistanceToHelix ∨
      c.closestDistanceToHelix < cfg.m_contactCutClosestDistanceToHelix)) :
    (PassesClusterContactCuts cfg api w c = true ↔
      c.distanceToClosestHit ≤ cfg.m_contactCutMaxDistance ∧
        c.distanceToClosestHit < cfg.m_contactCutNearECalDistance ∧
        uadd (api.cluster w c.daughterCluster).innerPseudoLayer cfg.m_contactCutLayersFromECal >
          api.nECalLayers) ∧
    ((api.cluster w c.daughterCluster).innerPseudoLayer + cfg.m_contactCutLayersFromECal < UINT_MOD →
      (PassesClusterContactCuts cfg api w c = true ↔
        c.distanceToClosestHit ≤ cfg.m_contactCutMaxDistance ∧
          c.distanceToClosestHit < cfg.m_contactCutNearECalDistance ∧
          (api.cluster w c.daughterCluster).innerPseudoLayer + cfg.m_contactCutLayersFromECal >
            api.nECalLayers) ∧
      (|(((api.cluster w c.daughterCluster).innerPseudoLayer : Nat) : Int) -
          ((api.nECalLayers : Nat) : Int)| < ((cfg.m_contactCutLayersFromECal : Nat) : Int) →
        (api.cluster w c.daughterCluster).innerPseudoLayer + cfg.m_contactCutLayersFromECal >
          api.nECalLayers) ∧
      ∀ deeper : Nat, (api.cluster w c.daughterCluster).innerPseudoLayer ≤ deeper →
        (api.cluster w c.daughterCluster).innerPseudoLayer + cfg.m_contactCutLayersFromECal >
          api.nECalLayers →
        deeper + cfg.m_contactCutLayersFromECal > api.nECalLayers) := by
  have key : PassesClusterContactCuts cfg api w c = true ↔
      c.distanceToClosestHit ≤ cfg.m_contactCutMaxDistance ∧
        c.distanceToClosestHit < cfg.m_contactCutNearECalDistance ∧
        uadd (api.cluster w c.daughterCluster).innerPseudoLayer cfg.m_contactCutLayersFromECal >
          api.nECalLayers := by
    simp only [PassesClusterContactCuts]
    by_cases h1 : c.distanceToClosestHit > cfg.m_contactCutMaxDistance
    · rw [if_pos h1]
      constructor
      · intro h
        cases h
      · rintro ⟨h, _⟩
        exact absurd h (not_le.mpr h1)
    · rw [if_neg h1, if_neg hcuts]
      simp only [decide_eq_true_eq]
      exact ⟨fun h => ⟨not_lt.mp h1, h⟩, fun h => h.2⟩
  refine ⟨key, fun hno => ⟨?_, ?_, ?_⟩⟩
  · have hsum : uadd (api.cluster w c.daughterCluster).innerPseudoLayer
        cfg.m_contactCutLayersFromECal =
        (api.cluster w c.daughterCluster).innerPseudoLayer + cfg.m_contactCutLayersFromECal := by
      simp only [uadd]
      exact Nat.mod_eq_of_lt hno
    rw [key, hsum]
  · intro habs
    have hgen : ∀ a n k : Nat, |(a : Int) - (n : Int)| < (k : Int) → a + k > n := by
      intro a n k h
      have h' := abs_lt.mp h
      omega
    exact hgen _ _ _ habs
  · intro deeper hle h
    have hgen : ∀ a n k d : Nat, a ≤ d → a + k > n → d + k > n := by
      intro a n k d h1 h2
      omega
    exact hgen _ _ _ _ hle h

/-- C31 (amended) at the example contact in the hadronic section. -/
theorem C31_near_boundary_branch_is_one_sided_witness :
    PassesClusterContactCuts defaultSettings exampleHCalApi [1, 2] exampleNearContact = true ↔
      exampleNearContact.distanceToClosestHit ≤ defaultSettings.m_contactCutMaxDistance ∧
        exampleNearContact.distanceToClosestHit < defaultSettings.m_contactCutNearECalDistance ∧
        uadd (exampleHCalApi.cluster [1, 2] exampleNearContact.daughterCluster).innerPseudoLayer
            defaultSettings.m_contactCutLayersFromECal > exampleHCalApi.nECalLayers :=
  (C31_near_boundary_branch_is_one_sided defaultSettings exampleHCalApi [1, 2] exampleNearContact
    (by norm_num [exampleNearContact, exampleFarContact, defaultSettings])).1

end BoundaryTheorems

/-! ## The erased entry and the affected set -/

section EraseTheorems

variable {W : Type}

/-- A key that has an entry in the map is found. -/
theorem ClusterContactMap.find_isSome_of_mem {m : ClusterContactMap} {k : ClusterPtr}
    {v : ClusterContactVector} (h : (k, v) ∈ m) : ∃ entry, m.find k = some entry := by
  induction m with
  | nil => simp at h
  | cons e rest ih =>
    obtain ⟨key, vector⟩ := e
    simp only [ClusterContactMap.find]
    by_cases hk : key = k
    · rw [if_pos hk]
      exact ⟨vector, rfl⟩
    · rw [if_neg hk]
      rcases List.mem_cons.mp h with heq | hmem
      · simp only [Prod.mk.injEq] at heq
        exact absurd heq.1.symm hk
      · exact ih hmem

/-- C38: in every iteration of `Run` in which the selector returns a non-null pair `(P, D)`, the
contact map that the builder returned has an entry keyed by `D` and `GetAffectedClusters`
succeeds; whenever `GetAffectedClusters` succeeds for a daughter `D`, the map has an entry keyed
by `D`. So in an iteration that merges `(P, D)`, `clusterContactMap.find(D)` is not the end
iterator when `Run` erases it, and the map afterwards is the builder's map without that entry. -/
theorem C38_erased_entry_exists (cfg : Settings) (api : PandoraApi W) (s : RunState W) :
    (∀ (m : ClusterContactMap) (P D : ClusterPtr) (prior affected : Finset ClusterPtr),
      GetAffectedClusters m P D prior = .ok affected → ∃ entry, m.find D = some entry) ∧
    (∀ (isFirstPass : Bool) (m' : ClusterContactMap) (sel : SelectorState) (P D : ClusterPtr),
      GetClusterContactMap cfg api s.world s.isFirstPass s.affectedClusters s.clusterContactMap =
        .ok (isFirstPass, m') →
      GetClusterMergingCandidates cfg api s.world m' none none s.m_muonDirectionVector = .ok sel →
      sel.pBestParentCluster = some P → sel.pBestDaughterCluster = some D →
      (∃ entry, m'.find D = some entry) ∧
        ∃ affected, GetAffectedClusters m' P D s.affectedClusters = .ok affected) ∧
    (∀ (s' : RunState W) (P D : ClusterPtr),
      RunIteration cfg api s = .ok (some (P, D), s') →
      ∃ isFirstPass m' entry,
        GetClusterContactMap cfg api s.world s.isFirstPass s.affectedClusters s.clusterContactMap =
          .ok (isFirstPass, m') ∧
        m'.find D = some entry ∧ s'.clusterContactMap = m'.erase D) := by
  have hfirst : ∀ (m : ClusterContactMap) (P D : ClusterPtr) (prior affected : Finset ClusterPtr),
      GetAffectedClusters m P D prior = .ok affected → ∃ entry, m.find D = some entry := by
    intro m P D prior affected h
    simp only [GetAffectedClusters] at h
    cases hfind : m.find D with
    | none =>
      rw [hfind] at h
      cases h
    | some entry => exact ⟨entry, rfl⟩
  have hsecond : ∀ (isFirstPass : Bool) (m' : ClusterContactMap) (sel : SelectorState)
      (P D : ClusterPtr),
      GetClusterContactMap cfg api s.world s.isFirstPass s.affectedClusters s.clusterContactMap =
        .ok (isFirstPass, m') →
      GetClusterMergingCandidates cfg api s.world m' none none s.m_muonDirectionVector = .ok sel →
      sel.pBestParentCluster = some P → sel.pBestDaughterCluster = some D →
      (∃ entry, m'.find D = some entry) ∧
        ∃ affected, GetAffectedClusters m' P D s.affectedClusters = .ok affected := by
    intro isFirstPass m' sel P D _ hsel hP hD
    obtain ⟨entry, he, _⟩ := selected_pair_mem cfg api s.world m' s.m_muonDirectionVector sel P D
      hsel hP hD
    obtain ⟨found, hfound⟩ := ClusterContactMap.find_isSome_of_mem he
    refine ⟨⟨found, hfound⟩, ?_⟩
    simp only [GetAffectedClusters, hfound]
    exact ⟨_, rfl⟩
  refine ⟨hfirst, hsecond, ?_⟩
  intro s' P D hrun
  obtain ⟨isFirstPass, m', sel, hb, hsel, hcase⟩ := RunIteration_ok_inv cfg api s s' _ hrun
  rcases hcase with ⟨P', D', affected, world, hP, hD, _, _, hm, hs'⟩ | ⟨_, hm, _⟩
  · simp only [Option.some.injEq, Prod.mk.injEq] at hm
    obtain ⟨rfl, rfl⟩ := hm
    obtain ⟨⟨entry, hentry⟩, _⟩ := hsecond isFirstPass m' sel P D hb hsel hP hD
    exact ⟨isFirstPass, m', entry, hb, hentry, by rw [hs']⟩
  · cases hm

/-- C38 at the first iteration of `Run` on the example with clusters `1` and `2`, which merges
cluster `2` into cluster `1`. -/
theorem C38_erased_entry_exists_witness :
    RunIteration defaultSettings exampleApi (RunState.initial [1, 2] []) =
        .ok (some (1, 2), exampleStateAfterMerge) ∧
      ∃ isFirstPass m' entry,
        GetClusterContactMap defaultSettings exampleApi (RunState.initial [1, 2] []).world
            (RunState.initial [1, 2] []).isFirstPass (RunState.initial [1, 2] []).affectedClusters
            (RunState.initial [1, 2] []).clusterContactMap = .ok (isFirstPass, m') ∧
          m'.find 2 = some entry ∧ exampleStateAfterMerge.clusterContactMap = m'.erase 2 :=
  ⟨exampleIteration_first,
    (C38_erased_entry_exists defaultSettings exampleApi (RunState.initial [1, 2] [])).2.2
      exampleStateAfterMerge 1 2 exampleIteration_first⟩

/-- C35: for every contact map in which no contact has as parent the daughter under whose key it
is stored, and so for every map in which every contact stores its key as daughter and no contact
has its own daughter as parent, the affected set that `GetAffectedClusters(map, P, D)` computes
does not contain `D`; a later builder pass over that set then leaves the map as it is at the
cluster `D`. Every map that a builder pass returns from a map of trackless keys and tracked parents
(the empty map is one) is such a map. -/
theorem C35_affected_set_excludes_daughter (cfg : Settings) (api : PandoraApi W) (w : W)
    (m : ClusterContactMap) (P D : ClusterPtr) (prior affected : Finset ClusterPtr)
    (hrun : GetAffectedClusters m P D prior = .ok affected) :
    ((∀ e ∈ m, ∀ c ∈ e.2, c.parentCluster ≠ e.1) → D ∉ affected) ∧
    (KeyIsDaughter m → (∀ e ∈ m, ∀ c ∈ e.2, c.parentCluster ≠ c.daughterCluster) →
      D ∉ affected) ∧
    (D ∉ affected → ∀ (pClusterList : List ClusterPtr) (current : ClusterContactMap),
      daughterStep cfg api w pClusterList false affected current D = current) ∧
    (∀ (l : List ClusterPtr) (isFirstPass isFirstPass' : Bool) (affected0 : Finset ClusterPtr)
      (m0 built : ClusterContactMap),
      api.GetCurrentClusterList w = .ok l → MapGood api w l m0 →
      GetClusterContactMap cfg api w isFirstPass affected0 m0 = .ok (isFirstPass', built) →
      ∀ e ∈ built, ∀ c ∈ e.2, c.parentCluster ≠ e.1 ∧ c.parentCluster ≠ c.daughterCluster) := by
  have hmem : D ∈ affected → ∃ e ∈ m, ∃ c ∈ e.2, c.parentCluster = e.1 := by
    intro hD
    simp only [GetAffectedClusters] at hrun
    split at hrun
    · cases hrun
    · simp only [Except.ok.injEq] at hrun
      rw [← hrun, mem_foldl_affectedStep] at hD
      rcases hD with h | ⟨e, he, h1, c, hc, h2⟩ | ⟨e, _, h1, h2, _⟩
      · simp at h
      · exact ⟨e, he, c, hc, by rw [h2, h1]⟩
      · exact absurd h2 h1
  refine ⟨?_, ?_, ?_, ?_⟩
  · intro hno hD
    obtain ⟨e, he, c, hc, h⟩ := hmem hD
    exact hno e he c hc h
  · intro hkey hno hD
    obtain ⟨e, he, c, hc, h⟩ := hmem hD
    exact hno e he c hc (by rw [h, hkey e he c hc])
  · intro hD pClusterList current
    simp [daughterStep, hD]
  · intro l isFirstPass isFirstPass' affected0 m0 built hl hgood hbuild e he c hc
    obtain ⟨m', hm', hgood'⟩ := GetClusterContactMap_good cfg api w l isFirstPass affected0 m0 hl
      hgood
    rw [hm'] at hbuild
    simp only [Except.ok.injEq, Prod.mk.injEq] at hbuild
    rw [← hbuild.2] at he
    obtain ⟨_, htrackless, hcontacts⟩ := hgood'.2 e he
    obtain ⟨hdaughter, _, htracked⟩ := hcontacts c hc
    have hne : c.parentCluster ≠ e.1 := by
      intro h
      rw [h] at htracked
      exact htracked htrackless
    exact ⟨hne, by rw [hdaughter]; exact hne⟩

/-- C35 at the example map with parent `1` and daughter `2`. -/
theorem C35_affected_set_excludes_daughter_witness :
    GetAffectedClusters exampleMap 1 2 ∅ = .ok (exampleMap.foldl (affectedStep 1 2) ∅) ∧
      (∀ e ∈ exampleMap, ∀ c ∈ e.2, c.parentCluster ≠ e.1) ∧
      2 ∉ exampleMap.foldl (affectedStep 1 2) ∅ :=
  ⟨rfl, by decide,
    (C35_affected_set_excludes_daughter defaultSettings exampleApi [1, 2, 3, 4, 5] exampleMap 1 2 ∅
      (exampleMap.foldl (affectedStep 1 2) ∅) rfl).1 (by decide)⟩

end EraseTheorems

/-! ## Ties between candidates -/

section TieTheorems

variable {W : Type}

/-- A candidate that exceeds the running best, everything before it and is not exceeded by
anything after it is the one the updates leave. -/
theorem foldl_pickStep_first (pre post : List (ℚ × ClusterPtr × ClusterPtr))
    (x : ℚ × ClusterPtr × ClusterPtr) (best : ℚ × Option ClusterPtr × Option ClusterPtr)
    (hbest : best.1 < x.1) (hpre : ∀ y ∈ pre, y.1 < x.1) (hpost : ∀ y ∈ post, y.1 ≤ x.1) :
    (pre ++ x :: post).foldl pickStep best = (x.1, some x.2.1, some x.2.2) := by
  have hbefore : ∀ (l : List (ℚ × ClusterPtr × ClusterPtr))
      (b : ℚ × Option ClusterPtr × Option ClusterPtr), b.1 < x.1 → (∀ y ∈ l, y.1 < x.1) →
      (l.foldl pickStep b).1 < x.1 := by
    intro l
    induction l with
    | nil => intro b hb _; exact hb
    | cons y rest ih =>
      intro b hb hl
      rw [List.foldl_cons]
      apply ih
      · simp only [pickStep]
        split
        · exact hl y (List.mem_cons_self _ _)
        · exact hb
      · exact fun z hz => hl z (List.mem_cons_of_mem _ hz)
  have hafter : ∀ (l : List (ℚ × ClusterPtr × ClusterPtr)), (∀ y ∈ l, y.1 ≤ x.1) →
      l.foldl pickStep (x.1, some x.2.1, some x.2.2) = (x.1, some x.2.1, some x.2.2) := by
    intro l
    induction l with
    | nil => intro _; rfl
    | cons y rest ih =>
      intro hl
      rw [List.foldl_cons]
      have hy : ¬ y.1 > x.1 := not_lt.mpr (hl y (List.mem_cons_self _ _))
      have hstep : pickStep (x.1, some x.2.1, some x.2.2) y = (x.1, some x.2.1, some x.2.2) := by
        simp only [pickStep]
        rw [if_neg hy]
      rw [hstep]
      exact ih (fun z hz => hl z (List.mem_cons_of_mem _ hz))
  rw [List.foldl_append, List.foldl_cons]
  have hx : pickStep (pre.foldl pickStep best) x = (x.1, some x.2.1, some x.2.2) := by
    simp only [pickStep]
    rw [if_pos (hbefore pre best hbest hpre)]
  rw [hx]
  exact hafter post hpost

/-- The inner loop of the selector updates the running best by the candidates of the entry, in
the order of the vector. -/
theorem selectContacts_foldl (cfg : Settings) (api : PandoraApi W) (w : W)
    (start : List CartesianVector) (D : ClusterPtr) (layer : PseudoLayer) (globalDeltaChi2 : ℚ)
    (contacts : List ClusterContact) (st st' : SelectorState)
    (hcache : CacheFrom api w start st.m_muonDirectionVector)
    (hrun : selectContacts cfg api w D layer globalDeltaChi2 contacts st = .ok st') :
    CacheFrom api w start st'.m_muonDirectionVector ∧
    (st'.highestExcessEvidence, st'.pBestParentCluster, st'.pBestDaughterCluster) =
      (contacts.map fun c => (GetTotalEvidenceForMerge cfg api w c -
          (GetRequiredEvidenceForMerge cfg api w start D c layer globalDeltaChi2).1,
        c.parentCluster, D)).foldl pickStep
        (st.highestExcessEvidence, st.pBestParentCluster, st.pBestDaughterCluster) := by
  induction contacts generalizing st with
  | nil =>
    simp only [selectContacts, Except.ok.injEq] at hrun
    subst hrun
    exact ⟨hcache, rfl⟩
  | cons c rest ih =>
    simp only [selectContacts] at hrun
    by_cases hd : D ≠ c.daughterCluster
    · rw [if_pos hd] at hrun
      cases hrun
    · rw [if_neg hd] at hrun
      obtain ⟨hval, hcache'⟩ := GetRequiredEvidenceForMerge_cacheFrom cfg api w start
        st.m_muonDirectionVector hcache D c layer globalDeltaChi2
      rw [hval] at hrun
      simp only [List.map_cons, List.foldl_cons]
      by_cases hgt : GetTotalEvidenceForMerge cfg api w c -
          (GetRequiredEvidenceForMerge cfg api w start D c layer globalDeltaChi2).1 >
          st.highestExcessEvidence
      · rw [if_pos hgt] at hrun
        obtain ⟨h1, h2⟩ := ih _ hcache' hrun
        refine ⟨h1, ?_⟩
        rw [h2]
        simp only [pickStep]
        rw [if_pos hgt]
      · rw [if_neg hgt] at hrun
        obtain ⟨h1, h2⟩ := ih _ hcache' hrun
        refine ⟨h1, ?_⟩
        rw [h2]
        simp only [pickStep]
        rw [if_neg hgt]

/-- The outer loop of the selector updates the running best by the candidates of the map, in the
order in which they are examined. -/
theorem selectEntries_foldl (cfg : Settings) (api : PandoraApi W) (w : W)
    (start : List CartesianVector) (m : ClusterContactMap) (st st' : SelectorState)
    (hcache : CacheFrom api w start st.m_muonDirectionVector)
    (hrun : selectEntries cfg api w m st = .ok st') :
    CacheFrom api w start st'.m_muonDirectionVector ∧
    (st'.highestExcessEvidence, st'.pBestParentCluster, st'.pBestDaughterCluster) =
      (mergeCandidates cfg api w start m).foldl pickStep
        (st.highestExcessEvidence, st.pBestParentCluster, st.pBestDaughterCluster) := by
  induction m generalizing st with
  | nil =>
    simp only [selectEntries, Except.ok.injEq] at hrun
    subst hrun
    exact ⟨hcache, rfl⟩
  | cons e rest ih =>
    obtain ⟨D, entry⟩ := e
    simp only [selectEntries] at hrun
    simp only [mergeCandidates, List.flatMap_cons, List.foldl_append]
    by_cases hpre : (PassesPreselection cfg api w D entry).1 = true
    · simp only [hpre, Bool.not_true, Bool.false_eq_true, if_false] at hrun
      cases hsel : selectContacts cfg api w D (GetClusterCorrectionLayer cfg api w D)
          (PassesPreselection cfg api w D entry).2 entry st with
      | error err =>
        rw [hsel] at hrun
        cases hrun
      | ok st1 =>
        rw [hsel] at hrun
        simp only at hrun
        obtain ⟨a1, a2⟩ := selectContacts_foldl cfg api w start D _ _ entry st st1 hcache hsel
        obtain ⟨b1, b2⟩ := ih st1 a1 hrun
        refine ⟨b1, ?_⟩
        rw [b2, a2]
        simp only [hpre, if_true, mergeCandidates]
        rfl
    · have hpre' : (!(PassesPreselection cfg api w D entry).1) = true := by simpa using hpre
      rw [if_pos hpre'] at hrun
      obtain ⟨b1, b2⟩ := ih st hcache hrun
      refine ⟨b1, ?_⟩
      rw [b2]
      simp only [hpre, Bool.false_eq_true, if_false, List.foldl_nil, mergeCandidates]

/-- C36: the pair that `GetClusterMergingCandidates` returns is determined by the candidates in the
order in which the map is iterated (the entries in key order, the contacts of an entry in the
order of its vector): it is what remains when a running best that starts at excess `0` with both
pointers null is replaced by each candidate whose excess evidence is strictly greater. So when a
candidate has positive excess evidence, every earlier candidate has a strictly smaller one and no
later candidate a greater one, in particular when it is the first of several that share the
greatest positive excess evidence, its pair is the one returned. -/
theorem C36_ties_go_to_the_earliest_contact (cfg : Settings) (api : PandoraApi W) (w : W)
    (m : ClusterContactMap) (m_muonDirectionVector : List CartesianVector) (st : SelectorState)
    (hrun : GetClusterMergingCandidates cfg api w m none none m_muonDirectionVector = .ok st) :
    (st.highestExcessEvidence, st.pBestParentCluster, st.pBestDaughterCluster) =
      (mergeCandidates cfg api w m_muonDirectionVector m).foldl pickStep (0, none, none) ∧
    ∀ (pre post : List (ℚ × ClusterPtr × ClusterPtr)) (x : ℚ × ClusterPtr × ClusterPtr),
      mergeCandidates cfg api w m_muonDirectionVector m = pre ++ x :: post →
      0 < x.1 → (∀ y ∈ pre, y.1 < x.1) → (∀ y ∈ post, y.1 ≤ x.1) →
      st.pBestParentCluster = some x.2.1 ∧ st.pBestDaughterCluster = some x.2.2 ∧
        st.highestExcessEvidence = x.1 := by
  obtain ⟨_, hfold⟩ := selectEntries_foldl cfg api w m_muonDirectionVector m _ st
    (CacheFrom.refl api w m_muonDirectionVector) hrun
  refine ⟨hfold, ?_⟩
  intro pre post x hsplit hpos hpre hpost
  rw [hsplit, foldl_pickStep_first pre post x (0, none, none) hpos hpre hpost] at hfold
  simp only [Prod.mk.injEq] at hfold
  exact ⟨hfold.2.1, hfold.2.2, hfold.1⟩

/-- The candidates of the example map with a tie: the contact of cluster `2` and the contact of
cluster `4` with cluster `1`, both with excess evidence `46/5`. -/
theorem exampleTieMap_candidates :
    mergeCandidates defaultSettings exampleApi [1, 2, 4] [] exampleTieMap =
      [] ++ (46 / 5, 1, 2) :: [(46 / 5, 1, 4)] := by
  simp [mergeCandidates, excessEvidence, PassesPreselection,
    preselectionStep, chi2Pair, GetClusterCorrectionLayer, correctionLayerLoop,
    GetTotalEvidenceForMerge, contactEvidence, coneEvidence, trackExtrapolationEvidence,
    distanceEvidence, GetRequiredEvidenceForMerge, requiredEvidenceSum, usingGlobalChi2,
    globalChi2Evidence, chi2Evidence, layerCorrection, leavingCorrection, energyCorrection,
    lowEnergyCorrection, angularCorrection, photonCorrection, stdMax, exampleApi, exampleCluster,
    exampleContact, exampleFeatures, exampleTieMap, ClusterContact.create,
    defaultSettings, uadd, usub, toInt32, UINT_MOD]
  norm_num

/-- The selector returns normally on the example map with a tie. -/
theorem exampleTieMap_ok :
    ∃ st, GetClusterMergingCandidates defaultSettings exampleApi [1, 2, 4] exampleTieMap none none
      [] = .ok st :=
  selectEntries_ok defaultSettings exampleApi [1, 2, 4] exampleTieMap _
    (by unfold KeyIsDaughter; decide)

/-- C36 at the example map in which the contacts of the clusters `2` and `4` with cluster `1` tie
at excess evidence `46/5`: the selector returns the pair `(1, 2)` of the earlier entry. -/
theorem C36_ties_go_to_the_earliest_contact_witness :
    ∃ st, GetClusterMergingCandidates defaultSettings exampleApi [1, 2, 4] exampleTieMap none none
        [] = .ok st ∧
      mergeCandidates defaultSettings exampleApi [1, 2, 4] [] exampleTieMap =
        [] ++ (46 / 5, 1, 2) :: [(46 / 5, 1, 4)] ∧
      st.pBestParentCluster = some 1 ∧ st.pBestDaughterCluster = some 2 ∧
      st.highestExcessEvidence = 46 / 5 := by
  obtain ⟨st, hst⟩ := exampleTieMap_ok
  exact ⟨st, hst, exampleTieMap_candidates,
    (C36_ties_go_to_the_earliest_contact defaultSettings exampleApi [1, 2, 4] exampleTieMap [] st
      hst).2 [] [(46 / 5, 1, 4)] (46 / 5, 1, 2) exampleTieMap_candidates (by norm_num)
      (by simp) (by simp)⟩

end TieTheorems

/-! ## Tracked clusters are never deleted -/

section TrackedTheorems

variable {W : Type}

/-- Removing an element that satisfies a predicate from a list that holds it lowers the number of
elements that satisfy the predicate. -/
theorem countP_filter_ne_lt (p : ClusterPtr → Bool) (l : List ClusterPtr) (D : ClusterPtr)
    (hD : D ∈ l) (hp : p D = true) : (l.filter (· ≠ D)).countP p < l.countP p := by
  induction l with
  | nil => simp at hD
  | cons a rest ih =>
    by_cases ha : a = D
    · subst ha
      have hle : (rest.filter (· ≠ a)).countP p ≤ rest.countP p :=
        List.Sublist.countP_le _ (List.filter_sublist rest)
      simp only [ne_eq, not_true_eq_false, decide_False, Bool.false_eq_true, not_false_eq_true,
        List.filter_cons_of_neg, List.countP_cons_of_pos _ _ hp]
      exact Nat.lt_succ_of_le hle
    · have hmem : D ∈ rest := by
        rcases List.mem_cons.mp hD with h | h
        · exact absurd h.symm ha
        · exact h
      have hlt := ih hmem
      have hfilter : (a :: rest).filter (· ≠ D) = a :: rest.filter (· ≠ D) := by
        simp [ha]
      rw [hfilter]
      by_cases hpa : p a = true
      · rw [List.countP_cons_of_pos _ _ hpa, List.countP_cons_of_pos _ _ hpa]
        omega
      · rw [List.countP_cons_of_neg _ _ hpa, List.countP_cons_of_neg _ _ hpa]
        exact hlt

/-- The loop of `Run` under the model of the merge, entered in a state whose cluster list is `l`:
every merged pair has a trackless daughter and a tracked parent, both clusters of `l`; the
clusters of `l` with a track are in the cluster list when the loop ends, with their tracks; and
there are at most as many merges as `l` has trackless clusters. -/
theorem RunLoop_tracks (cfg : Settings) (api : PandoraApi W) (hmerge : MergeRemovesDaughter api)
    (fuel : Nat) (s : RunState W) (hinv : RunInv api s) (l : List ClusterPtr)
    (hl : api.GetCurrentClusterList s.world = .ok l) (r : RunResult W)
    (hrun : RunLoop cfg api fuel s = some r) :
    (∀ x ∈ r.worlds.zip r.merges,
      (api.cluster x.1 x.2.2).associatedTrackList = [] ∧
        (api.cluster x.1 x.2.1).associatedTrackList ≠ []) ∧
    (∀ pd ∈ r.merges, pd.1 ∈ l ∧ pd.2 ∈ l ∧
      (api.cluster s.world pd.2).associatedTrackList = [] ∧
      (api.cluster s.world pd.1).associatedTrackList ≠ []) ∧
    (∃ lf, api.GetCurrentClusterList r.world = .ok lf ∧
      ∀ C ∈ l, (api.cluster s.world C).associatedTrackList ≠ [] →
        C ∈ lf ∧ (api.cluster r.world C).associatedTrackList =
          (api.cluster s.world C).associatedTrackList) ∧
    r.merges.length ≤ l.countP (fun C => (api.cluster s.world C).associatedTrackList.isEmpty) := by
  induction fuel generalizing s l r with
  | zero => simp [RunLoop] at hrun
  | succ fuel ih =>
    cases hit : RunIteration cfg api s with
    | error e =>
      simp only [RunLoop, hit, Option.some.injEq] at hrun
      subst hrun
      exact ⟨by simp, by simp, ⟨l, hl, fun C hC _ => ⟨hC, rfl⟩⟩, by simp⟩
    | ok res =>
      obtain ⟨merged, s'⟩ := res
      cases merged with
      | none =>
        have hw := RunIteration_stop cfg api s s' hit
        simp only [RunLoop, hit, Option.some.injEq] at hrun
        subst hrun
        refine ⟨by simp, by simp, ⟨l, ?_, fun C hC _ => ⟨hC, ?_⟩⟩, by simp⟩
        · simp only
          rw [hw]
          exact hl
        · simp only
          rw [hw]
      | some pair =>
        obtain ⟨P, D⟩ := pair
        obtain ⟨hinv', l1, hl1, hl', hDl, hPl, hPD, hDt, hPt⟩ :=
          RunIteration_merge cfg api hmerge s s' P D hinv hit
        rw [hl] at hl1
        simp only [Except.ok.injEq] at hl1
        subst hl1
        obtain ⟨_, _, _, hb, _, hcase⟩ := RunIteration_ok_inv cfg api s s' _ hit
        have htracks : ∀ C, C ≠ D →
            (api.cluster s'.world C).associatedTrackList =
              (api.cluster s.world C).associatedTrackList := by
          rcases hcase with ⟨P', D', affected, world, _, _, _, hmg, hm, hs'⟩ | ⟨_, hm, _⟩
          · simp only [Option.some.injEq, Prod.mk.injEq] at hm
            obtain ⟨rfl, rfl⟩ := hm
            intro C hC
            rw [hs']
            exact (hmerge s.world world P D hmg).2 C hC
          · cases hm
        simp only [RunLoop, hit] at hrun
        cases hrest : RunLoop cfg api fuel s' with
        | none =>
          rw [hrest] at hrun
          cases hrun
        | some r' =>
          rw [hrest] at hrun
          simp only [Option.some.injEq] at hrun
          subst hrun
          obtain ⟨h1, h2, ⟨lf, hlf, h3⟩, h4⟩ := ih s' hinv' (l.filter (· ≠ D)) hl' r' hrest
          have hne : ∀ C, C ∈ l.filter (· ≠ D) → C ∈ l ∧ C ≠ D := by
            intro C hC
            have := List.mem_filter.mp hC
            exact ⟨this.1, by simpa using this.2⟩
          refine ⟨?_, ?_, ⟨lf, hlf, ?_⟩, ?_⟩
          · intro x hx
            simp only [List.zip_cons_cons, List.mem_cons] at hx
            rcases hx with hx | hx
            · rw [hx]
              exact ⟨hDt, hPt⟩
            · exact h1 x hx
          · intro pd hpd
            simp only [List.mem_cons] at hpd
            rcases hpd with hpd | hpd
            · rw [hpd]
              exact ⟨hPl, hDl, hDt, hPt⟩
            · obtain ⟨a1, a2, a3, a4⟩ := h2 pd hpd
              obtain ⟨b1, b1'⟩ := hne _ a1
              obtain ⟨b2, b2'⟩ := hne _ a2
              rw [htracks _ b2'] at a3
              rw [htracks _ b1'] at a4
              exact ⟨b1, b2, a3, a4⟩
          · intro C hC hCt
            have hCD : C ≠ D := by
              intro h
              rw [h] at hCt
              exact hCt hDt
            have hC' : C ∈ l.filter (· ≠ D) := List.mem_filter.mpr ⟨hC, by simpa using hCD⟩
            have hCt' : (api.cluster s'.world C).associatedTrackList ≠ [] := by
              rw [htracks C hCD]
              exact hCt
            obtain ⟨c1, c2⟩ := h3 C hC' hCt'
            exact ⟨c1, by rw [c2, htracks C hCD]⟩
          · have hcongr : (l.filter (· ≠ D)).countP
                (fun C => (api.cluster s'.world C).associatedTrackList.isEmpty) =
                (l.filter (· ≠ D)).countP
                  (fun C => (api.cluster s.world C).associatedTrackList.isEmpty) := by
              apply List.countP_congr
              intro C hC
              rw [htracks C (hne C hC).2]
            have hlt := countP_filter_ne_lt
              (fun C => (api.cluster s.world C).associatedTrackList.isEmpty) l D hDl
              (by simp [hDt])
            simp only [List.length_cons]
            rw [hcongr] at h4
            omega

/-- C34: in the model where `MergeAndDeleteClusters(P, D)` removes `D` from the current cluster
list and leaves every other cluster's track associations unchanged, in every run of `Run` (which
ends when it has more fuel than there are clusters) every merged pair `(P, D)` has `D` without an
associated track and `P` with one, at the time of the merge and in the initial state; every
cluster of the initial list that has an associated track is in the cluster list when `Run` ends
and still has its tracks; and the number of merges is at most the number of clusters of the
initial list without an associated track. -/
theorem C34_tracked_cluster_is_never_deleted (cfg : Settings) (api : PandoraApi W) (w : W)
    (m_muonDirectionVector : List CartesianVector) (fuel : Nat) (l : List ClusterPtr)
    (hmerge : MergeRemovesDaughter api) (hl : api.GetCurrentClusterList w = .ok l)
    (hfuel : clusterCount api w < fuel) :
    ∃ r, Run cfg api w m_muonDirectionVector fuel = some r ∧
      (∀ x ∈ r.worlds.zip r.merges,
        (api.cluster x.1 x.2.2).associatedTrackList = [] ∧
          (api.cluster x.1 x.2.1).associatedTrackList ≠ []) ∧
      (∀ pd ∈ r.merges, pd.1 ∈ l ∧ pd.2 ∈ l ∧
        (api.cluster w pd.2).associatedTrackList = [] ∧
        (api.cluster w pd.1).associatedTrackList ≠ []) ∧
      (∃ lf, api.GetCurrentClusterList r.world = .ok lf ∧
        ∀ C ∈ l, (api.cluster w C).associatedTrackList ≠ [] →
          C ∈ lf ∧ (api.cluster r.world C).associatedTrackList =
            (api.cluster w C).associatedTrackList) ∧
      r.merges.length ≤ l.countP (fun C => (api.cluster w C).associatedTrackList.isEmpty) := by
  obtain ⟨r, hr, _⟩ := RunLoop_spec cfg api hmerge fuel
    (RunState.initial w m_muonDirectionVector) (RunInv_initial api w m_muonDirectionVector) hfuel
  exact ⟨r, hr, RunLoop_tracks cfg api hmerge fuel (RunState.initial w m_muonDirectionVector)
    (RunInv_initial api w m_muonDirectionVector) l hl r hr⟩

/-- C34 at the example state with clusters `1`, `2`, `3` and fuel four: cluster `1` has a track,
clusters `2` and `3` have none. -/
theorem C34_tracked_cluster_is_never_deleted_witness :
    MergeRemovesDaughter exampleApi ∧ exampleApi.GetCurrentClusterList [1, 2, 3] = .ok [1, 2, 3] ∧
      clusterCount exampleApi [1, 2, 3] < 4 ∧
      ∃ r, Run defaultSettings exampleApi [1, 2, 3] [] 4 = some r ∧
        (∀ x ∈ r.worlds.zip r.merges,
          (exampleApi.cluster x.1 x.2.2).associatedTrackList = [] ∧
            (exampleApi.cluster x.1 x.2.1).associatedTrackList ≠ []) ∧
        (∀ pd ∈ r.merges, pd.1 ∈ [1, 2, 3] ∧ pd.2 ∈ [1, 2, 3] ∧
          (exampleApi.cluster [1, 2, 3] pd.2).associatedTrackList = [] ∧
          (exampleApi.cluster [1, 2, 3] pd.1).associatedTrackList ≠ []) ∧
        (∃ lf, exampleApi.GetCurrentClusterList r.world = .ok lf ∧
          ∀ C ∈ [1, 2, 3], (exampleApi.cluster [1, 2, 3] C).associatedTrackList ≠ [] →
            C ∈ lf ∧ (exampleApi.cluster r.world C).associatedTrackList =
              (exampleApi.cluster [1, 2, 3] C).associatedTrackList) ∧
        r.merges.length ≤ [1, 2, 3].countP
          (fun C => (exampleApi.cluster [1, 2, 3] C).associatedTrackList.isEmpty) :=
  ⟨exampleApi_mergeRemovesDaughter, rfl, by decide,
    C34_tracked_cluster_is_never_deleted defaultSettings exampleApi [1, 2, 3] [] 4 [1, 2, 3]
      exampleApi_mergeRemovesDaughter rfl (by decide)⟩

end TrackedTheorems

/-! ## The incremental pass and the full rebuild -/

section RefinementTheorems

variable {W : Type}

/-- Two maps with strictly ascending keys that give the same answer to every lookup are equal. -/
theorem ClusterContactMap.ext_find {m1 m2 : ClusterContactMap} (h1 : m1.WF) (h2 : m2.WF)
    (h : ∀ k, m1.find k = m2.find k) : m1 = m2 := by
  induction m1 generalizing m2 with
  | nil =>
    cases m2 with
    | nil => rfl
    | cons e rest =>
      obtain ⟨k, v⟩ := e
      have := h k
      simp [ClusterContactMap.find] at this
  | cons e1 r1 ih =>
    obtain ⟨k1, v1⟩ := e1
    cases m2 with
    | nil =>
      have := h k1
      simp [ClusterContactMap.find] at this
    | cons e2 r2 =>
      obtain ⟨k2, v2⟩ := e2
      have hw1 := ClusterContactMap.WF_cons.mp h1
      have hw2 := ClusterContactMap.WF_cons.mp h2
      have hk : k1 = k2 := by
        by_contra hne
        have ha := h k1
        simp only [ClusterContactMap.find, if_true] at ha
        rw [if_neg (fun h' => hne h'.symm)] at ha
        have hb := h k2
        simp only [ClusterContactMap.find, if_true] at hb
        rw [if_neg hne] at hb
        have hlt1 := hw2.1 (k1, v1) (ClusterContactMap.mem_of_find ha.symm)
        have hlt2 := hw1.1 (k2, v2) (ClusterContactMap.mem_of_find hb)
        simp only at hlt1 hlt2
        exact Nat.lt_asymm hlt1 hlt2
      subst hk
      have hv : v1 = v2 := by
        have ha := h k1
        simpa [ClusterContactMap.find] using ha
      subst hv
      have hrest : r1 = r2 := by
        apply ih hw1.2 hw2.2
        intro k
        by_cases hkk : k1 = k
        · subst hkk
          rw [ClusterContactMap.find_none_of_lt hw1.1, ClusterContactMap.find_none_of_lt hw2.1]
        · have ha := h k
          simp only [ClusterContactMap.find] at ha
          rw [if_neg hkk, if_neg hkk] at ha
          exact ha
      rw [hrest]

/-- Leaving out of a list an element at which a partial function gives nothing does not change
what the function collects from the list. -/
theorem filterMap_filter_ne (f g : ClusterPtr → Option ClusterContact) (l : List ClusterPtr)
    (D : ClusterPtr) (hD : D ∈ l → f D = none) (h : ∀ X ∈ l, X ≠ D → f X = g X) :
    l.filterMap f = (l.filter (· ≠ D)).filterMap g := by
  induction l with
  | nil => rfl
  | cons a rest ih =>
    have hrest := ih (fun hm => hD (List.mem_cons_of_mem _ hm))
      (fun X hX hne => h X (List.mem_cons_of_mem _ hX) hne)
    by_cases ha : a = D
    · subst ha
      have hfa := hD (List.mem_cons_self _ _)
      simp only [List.filterMap_cons, hfa, ne_eq, not_true_eq_false, decide_False,
        Bool.false_eq_true, not_false_eq_true, List.filter_cons_of_neg]
      exact hrest
    · have hfilter : (a :: rest).filter (· ≠ D) = a :: rest.filter (· ≠ D) := by
        simp [ha]
      rw [hfilter, List.filterMap_cons, List.filterMap_cons, h a (List.mem_cons_self _ _) ha,
        hrest]

/-- The contact cuts give the same answer in two states in which the daughter of the contact has
the same attributes. -/
theorem PassesClusterContactCuts_congr (cfg : Settings) (api : PandoraApi W) (w w' : W)
    (c : ClusterContact) (h : api.cluster w' c.daughterCluster = api.cluster w c.daughterCluster) :
    PassesClusterContactCuts cfg api w' c = PassesClusterContactCuts cfg api w c := by
  simp only [PassesClusterContactCuts, h]

/-- The entry of a cluster of the list after a first pass. -/
theorem rebuiltEntry_first (cfg : Settings) (api : PandoraApi W) (w : W)
    (pClusterList : List ClusterPtr) (affectedClusters : Finset ClusterPtr)
    (former : Option ClusterContactVector) (k : ClusterPtr) :
    rebuiltEntry cfg api w pClusterList true affectedClusters former k =
      appendEntry former
        (if admissibleDaughter cfg api w k = true then
          contactsOfDaughter cfg api w pClusterList k
        else []) := by
  simp [rebuiltEntry]

/-- The contact that the builder pushes for a pair, if any: the function that
`contactsOfDaughter` collects over the cluster list. -/
theorem contactsOfDaughter_eq (cfg : Settings) (api : PandoraApi W) (w : W)
    (pClusterList : List ClusterPtr) (pDaughterCluster : ClusterPtr) :
    contactsOfDaughter cfg api w pClusterList pDaughterCluster =
      pClusterList.filterMap fun pParentCluster =>
        if pDaughterCluster = pParentCluster then none
        else if (api.cluster w pParentCluster).associatedTrackList.isEmpty then none
        else if PassesClusterContactCuts cfg api w
            (ClusterContact.create api w pDaughterCluster pParentCluster) then
          some (ClusterContact.create api w pDaughterCluster pParentCluster)
        else none := rfl

/-- Under the assumptions on the merge, a cluster outside the affected set that passes the
daughter cuts gets the same contacts from the list after the merge as from the list before it. -/
theorem contactsOfDaughter_unaffected (cfg : Settings) (api : PandoraApi W) (w w' : W)
    (l : List ClusterPtr) (P D K : ClusterPtr) (affected : Finset ClusterPtr)
    (hmerge : MergeChangesOnlyParent api w w' l P D)
    (hnew : NoNewContactWithParent cfg api w' (l.filter (· ≠ D)) affected P)
    (hK : K ∈ l) (hKP : K ≠ P) (hKD : K ≠ D) (hKA : K ∉ affected)
    (hadm : admissibleDaughter cfg api w' K = true)
    (hold : ∀ c ∈ contactsOfDaughter cfg api w l K, c.parentCluster ≠ P ∧ c.parentCluster ≠ D) :
    contactsOfDaughter cfg api w l K = contactsOfDaughter cfg api w' (l.filter (· ≠ D)) K := by
  obtain ⟨_, _, hcluster, hfeatures⟩ := hmerge
  have hnone : ∀ X, X ∈ l → (X = P ∨ X = D) →
      (if K = X then none
        else if (api.cluster w X).associatedTrackList.isEmpty then none
        else if PassesClusterContactCuts cfg api w (ClusterContact.create api w K X) then
          some (ClusterContact.create api w K X)
        else none) = none := by
    intro X hX hPD
    by_contra hsome
    obtain ⟨c, hc⟩ := Option.ne_none_iff_exists'.mp hsome
    have hmem : c ∈ contactsOfDaughter cfg api w l K := by
      rw [contactsOfDaughter_eq]
      exact List.mem_filterMap.mpr ⟨X, hX, hc⟩
    have hparent : c.parentCluster = X := by
      split_ifs at hc
      simp only [Option.some.injEq] at hc
      rw [← hc]
      rfl
    rcases hPD with h | h
    · exact (hold c hmem).1 (hparent.trans h)
    · exact (hold c hmem).2 (hparent.trans h)
  rw [contactsOfDaughter_eq, contactsOfDaughter_eq]
  apply filterMap_filter_ne
  · intro hD
    exact hnone D hD (Or.inr rfl)
  · intro X hX hXD
    by_cases hXP : X = P
    · subst hXP
      rw [hnone X hX (Or.inl rfl)]
      by_cases htrack : (api.cluster w' X).associatedTrackList = []
      · simp [hKP, htrack]
      · have hfail := hnew K (List.mem_filter.mpr ⟨hK, by simpa using hKD⟩) hKA hadm htrack
        have hempty : (api.cluster w' X).associatedTrackList.isEmpty = false := by
          simpa [List.isEmpty_iff] using htrack
        simp [hKP, hempty, hfail]
    · have hc : ClusterContact.create api w' K X = ClusterContact.create api w K X := by
        simp only [ClusterContact.create, hfeatures K X hKP hKD hXP hXD]
      have hcuts : PassesClusterContactCuts cfg api w' (ClusterContact.create api w K X) =
          PassesClusterContactCuts cfg api w (ClusterContact.create api w K X) :=
        PassesClusterContactCuts_congr cfg api w w' _ (hcluster K hKP hKD)
      rw [hc, hcuts, hcluster X hXP hXD]

/-- C32 (as stated, fails on the code): in the example with clusters `1`, `2` and `4`, in which
the merge of cluster `2` into cluster `1` changes only the contact of cluster `4` with cluster `1`
(it passes the contact cuts after the merge and not before), the first pass builds the map with
the single entry of `2`, the affected set of the merge is `{1}`, and the later pass over it,
started from the map without the entry of `2`, returns the empty map, while a first pass on the
cluster list after the merge builds the entry of cluster `4`. -/
theorem C32_incremental_pass_misses_a_new_contact :
    MergeChangesOnlyParent (exampleSparseApi true) [1, 2, 4] [1, 4] [1, 2, 4] 1 2 ∧
    (exampleSparseApi true).MergeAndDeleteClusters [1, 2, 4] 1 2 = .ok [1, 4] ∧
    GetClusterContactMap defaultSettings (exampleSparseApi true) [1, 2, 4] true ∅ [] =
      .ok (false, [(2, [exampleContact 2 1])]) ∧
    GetAffectedClusters [(2, [exampleContact 2 1])] 1 2 ∅ = .ok {1} ∧
    GetClusterContactMap defaultSettings (exampleSparseApi true) [1, 4] false {1}
      (ClusterContactMap.erase [(2, [exampleContact 2 1])] 2) = .ok (false, []) ∧
    GetClusterContactMap defaultSettings (exampleSparseApi true) [1, 4] true ∅ [] =
      .ok (false, [(4, [exampleContact 4 1])]) := by
  refine ⟨⟨rfl, rfl, fun _ _ _ => rfl, ?_⟩, rfl, ?_, rfl, ?_, ?_⟩
  · intro K X _ _ hX _
    simp [exampleSparseApi, hX]
  · simp [GetClusterContactMap, daughterStep, parentStep, PassesClusterContactCuts,
      ClusterContactMap.pushBack, exampleSparseApi, exampleApi, exampleCluster, exampleContact,
      exampleFeatures, exampleFarContact, ClusterContact.create, defaultSettings, uadd, UINT_MOD]
    norm_num
  · simp [GetClusterContactMap, daughterStep, parentStep, PassesClusterContactCuts,
      ClusterContactMap.pushBack, ClusterContactMap.erase, ClusterContactMap.find,
      exampleSparseApi, exampleApi, exampleCluster, exampleContact,
      exampleFeatures, exampleFarContact, ClusterContact.create, defaultSettings, uadd, UINT_MOD]
  · simp [GetClusterContactMap, daughterStep, parentStep, PassesClusterContactCuts,
      ClusterContactMap.pushBack, exampleSparseApi, exampleApi, exampleCluster, exampleContact,
      exampleFeatures, exampleFarContact, ClusterContact.create, defaultSettings, uadd, UINT_MOD]
    norm_num

/-- C32 (amended): let the first pass have built the map `m` on the state `w`, whose cluster list
`l` has no duplicate, let `(P, D)` be a pair of `m` (the entry of `D` holds a contact with parent
`P`), and let a merge of `D` into `P` lead to the state `w'`, changing only the attributes of `P`
and the contact features of the pairs that involve `P` or `D`, and removing `D` from the list.
If in addition the merge brings no cluster outside the affected set into contact with `P`, then
the later pass of `GetClusterContactMap` over the affected set of the merge, started from `m`
without the entry of `D`, returns what a first pass from the empty map returns on `w'`. -/
theorem C32_incremental_pass_equals_full_rebuild (cfg : Settings) (api : PandoraApi W) (w w' : W)
    (l : List ClusterPtr) (P D : ClusterPtr) (m : ClusterContactMap)
    (prior affected : Finset ClusterPtr) (hnodup : l.Nodup)
    (hmerge : MergeChangesOnlyParent api w w' l P D)
    (hfull : GetClusterContactMap cfg api w true ∅ [] = .ok (false, m))
    (hpair : ∃ entry, m.find D = some entry ∧ ∃ c ∈ entry, c.parentCluster = P)
    (haff : GetAffectedClusters m P D prior = .ok affected)
    (hnew : NoNewContactWithParent cfg api w' (l.filter (· ≠ D)) affected P) :
    GetClusterContactMap cfg api w' false affected (m.erase D) =
      GetClusterContactMap cfg api w' true ∅ [] := by
  have hl := hmerge.1
  have hl' := hmerge.2.1
  have hcluster := hmerge.2.2.1
  obtain ⟨m0, hm0, hwf, hfind⟩ := GetClusterContactMap_spec cfg api w true ∅ [] l
    ClusterContactMap.WF_nil hl hnodup
  rw [hfull] at hm0
  simp only [Except.ok.injEq, Prod.mk.injEq, true_and] at hm0
  subst hm0
  have hnodup' : (l.filter (· ≠ D)).Nodup := hnodup.filter _
  obtain ⟨mi, hmi, hwfi, hfindi⟩ := GetClusterContactMap_spec cfg api w' false affected
    (m.erase D) (l.filter (· ≠ D)) (ClusterContactMap.WF_erase hwf D) hl' hnodup'
  obtain ⟨mf, hmf, hwff, hfindf⟩ := GetClusterContactMap_spec cfg api w' true ∅ []
    (l.filter (· ≠ D)) ClusterContactMap.WF_nil hl' hnodup'
  have haffected : ∀ C, C ∈ affected ↔
      (∃ e ∈ m, e.1 = D ∧ ∃ c ∈ e.2, c.parentCluster = C) ∨
        (∃ e ∈ m, e.1 ≠ D ∧ e.1 = C ∧ ∃ c ∈ e.2, c.parentCluster = P ∨ c.parentCluster = D) := by
    intro C
    simp only [GetAffectedClusters] at haff
    split at haff
    · cases haff
    · simp only [Except.ok.injEq] at haff
      rw [← haff, mem_foldl_affectedStep]
      simp
  have hP : P ∈ affected := by
    obtain ⟨entry, hentry, c, hc, hcP⟩ := hpair
    exact (haffected P).mpr (Or.inl ⟨(D, entry), ClusterContactMap.mem_of_find hentry, rfl, c, hc,
      hcP⟩)
  have hnil : ∀ k, ClusterContactMap.find [] k = none := fun _ => rfl
  rw [hmi, hmf]
  have hmaps : mi = mf := by
    apply ClusterContactMap.ext_find hwfi hwff
    intro k
    rw [hfindi k, hfindf k]
    by_cases hk : k ∈ l.filter (· ≠ D)
    · have hkl : k ∈ l := (List.mem_filter.mp hk).1
      have hkD : k ≠ D := by simpa using (List.mem_filter.mp hk).2
      rw [if_pos hk, if_pos hk, rebuiltEntry_first, hnil]
      by_cases hkA : k ∈ affected
      · rw [rebuiltEntry_affected _ _ _ _ _ _ _ hkA]
      · have hkP : k ≠ P := fun h => hkA (h ▸ hP)
        rw [rebuiltEntry_unaffected _ _ _ _ _ _ _ hkA, ClusterContactMap.find_erase hwf,
          if_neg hkD, hfind k, if_pos hkl, rebuiltEntry_first, hnil]
        have hadm : admissibleDaughter cfg api w' k = admissibleDaughter cfg api w k := by
          simp only [admissibleDaughter, hcluster k hkP hkD]
        rw [hadm]
        by_cases ha : admissibleDaughter cfg api w k = true
        · rw [if_pos ha, if_pos ha]
          have hentry : m.find k = appendEntry none (contactsOfDaughter cfg api w l k) := by
            rw [hfind k, if_pos hkl, rebuiltEntry_first, hnil, if_pos ha]
          have hold : ∀ c ∈ contactsOfDaughter cfg api w l k,
              c.parentCluster ≠ P ∧ c.parentCluster ≠ D := by
            intro c hc
            have hsome : m.find k = some (contactsOfDaughter cfg api w l k) := by
              rw [hentry]
              cases hcs : contactsOfDaughter cfg api w l k with
              | nil =>
                rw [hcs] at hc
                simp at hc
              | cons c0 rest => simp [appendEntry]
            have hin := ClusterContactMap.mem_of_find hsome
            constructor
            · intro h
              exact hkA ((haffected k).mpr (Or.inr ⟨_, hin, hkD, rfl, c, hc, Or.inl h⟩))
            · intro h
              exact hkA ((haffected k).mpr (Or.inr ⟨_, hin, hkD, rfl, c, hc, Or.inr h⟩))
          rw [contactsOfDaughter_unaffected cfg api w w' l P D k affected hmerge hnew hkl hkP hkD
            hkA (hadm.trans ha) hold]
        · rw [if_neg ha, if_neg ha]
    · rw [if_neg hk, if_neg hk, hnil, ClusterContactMap.find_erase hwf]
      by_cases hkD : k = D
      · rw [if_pos hkD]
      · rw [if_neg hkD, hfind k]
        have hkl : k ∉ l := fun h => hk (List.mem_filter.mpr ⟨h, by simpa using hkD⟩)
        rw [if_neg hkl, hnil]
  rw [hmaps]

/-- C32 (amended) at the example with clusters `1`, `2`, `4`, `5` and `6`, in which clusters `1`
and `6` have a track and cluster `4` stays far from cluster `1`. The first pass builds the entries
of `2`, `4` and `5`; the affected set of the merge of cluster `2` into cluster `1` is `{1, 5, 6}`.
After the merge the later pass keeps the entry of cluster `4`, which is outside the affected set,
and builds the entry of cluster `5` again, and the map it returns is the one of a first pass on
the clusters `1`, `4`, `5` and `6`, with the entries of `4` and of `5`. -/
theorem C32_incremental_pass_equals_full_rebuild_witness :
    [1, 2, 4, 5, 6].Nodup ∧
      MergeChangesOnlyParent exampleTwoTrackApi [1, 2, 4, 5, 6] [1, 4, 5, 6] [1, 2, 4, 5, 6] 1 2 ∧
      GetClusterContactMap defaultSettings exampleTwoTrackApi [1, 2, 4, 5, 6] true ∅ [] =
        .ok (false, exampleTwoTrackMap) ∧
      GetAffectedClusters exampleTwoTrackMap 1 2 ∅ = .ok {1, 5, 6} ∧
      NoNewContactWithParent defaultSettings exampleTwoTrackApi [1, 4, 5, 6]
        ([1, 2, 4, 5, 6].filter (· ≠ 2)) {1, 5, 6} 1 ∧
      admissibleDaughter defaultSettings exampleTwoTrackApi [1, 4, 5, 6] 4 = true ∧
      (4 : ClusterPtr) ∉ ({1, 5, 6} : Finset ClusterPtr) ∧
      (5 : ClusterPtr) ∈ ({1, 5, 6} : Finset ClusterPtr) ∧
      ClusterContactMap.erase exampleTwoTrackMap 2 = exampleTwoTrackMerged ∧
      GetClusterContactMap defaultSettings exampleTwoTrackApi [1, 4, 5, 6] true ∅ [] =
        .ok (false, exampleTwoTrackMerged) ∧
      GetClusterContactMap defaultSettings exampleTwoTrackApi [1, 4, 5, 6] false {1, 5, 6}
          (ClusterContactMap.erase exampleTwoTrackMap 2) =
        GetClusterContactMap defaultSettings exampleTwoTrackApi [1, 4, 5, 6] true ∅ [] := by
  have hmerge : MergeChangesOnlyParent exampleTwoTrackApi [1, 2, 4, 5, 6] [1, 4, 5, 6]
      [1, 2, 4, 5, 6] 1 2 := by
    refine ⟨rfl, rfl, fun _ _ _ => rfl, ?_⟩
    intro K X _ _ hX _
    simp [exampleTwoTrackApi, exampleSparseApi, hX]
  have hfull : GetClusterContactMap defaultSettings exampleTwoTrackApi [1, 2, 4, 5, 6] true ∅ [] =
      .ok (false, exampleTwoTrackMap) := by
    simp [GetClusterContactMap, daughterStep, parentStep, PassesClusterContactCuts,
      ClusterContactMap.pushBack, exampleTwoTrackApi, exampleSparseApi, exampleApi, exampleCluster,
      exampleContact, exampleTwoTrackMap,
      exampleFeatures, exampleFarContact, ClusterContact.create, defaultSettings, uadd, UINT_MOD]
    norm_num
    rfl
  have hfull2 : GetClusterContactMap defaultSettings exampleTwoTrackApi [1, 4, 5, 6] true ∅ [] =
      .ok (false, exampleTwoTrackMerged) := by
    simp [GetClusterContactMap, daughterStep, parentStep, PassesClusterContactCuts,
      ClusterContactMap.pushBack, exampleTwoTrackApi, exampleSparseApi, exampleApi, exampleCluster,
      exampleContact, exampleTwoTrackMerged,
      exampleFeatures, exampleFarContact, ClusterContact.create, defaultSettings, uadd, UINT_MOD]
    norm_num
    rfl
  have haff : GetAffectedClusters exampleTwoTrackMap 1 2 ∅ = .ok {1, 5, 6} := by
    simp [GetAffectedClusters, exampleTwoTrackMap, ClusterContactMap.find, affectedStep,
      affectedByParent, exampleContact, ClusterContact.create]
    decide
  have hnew : NoNewContactWithParent defaultSettings exampleTwoTrackApi [1, 4, 5, 6]
      ([1, 2, 4, 5, 6].filter (· ≠ 2)) {1, 5, 6} 1 := by
    intro K hK hKA _ _
    have hK' : K = 1 ∨ K = 4 ∨ K = 5 ∨ K = 6 := by
      have : K ∈ [1, 4, 5, 6] := hK
      simpa using this
    rcases hK' with rfl | rfl | rfl | rfl
    · simp at hKA
    · simp [PassesClusterContactCuts, exampleTwoTrackApi, exampleSparseApi, exampleApi,
        exampleCluster, exampleFarContact, ClusterContact.create, defaultSettings, uadd, UINT_MOD]
      norm_num
    · simp at hKA
    · simp at hKA
  have hadm : admissibleDaughter defaultSettings exampleTwoTrackApi [1, 4, 5, 6] 4 = true := by
    simp [admissibleDaughter, exampleTwoTrackApi, exampleSparseApi, exampleApi, exampleCluster,
      defaultSettings]
    norm_num
  exact ⟨by decide, hmerge, hfull, haff, hnew, hadm, by decide, by decide, rfl, hfull2,
    C32_incremental_pass_equals_full_rebuild defaultSettings exampleTwoTrackApi [1, 2, 4, 5, 6]
      [1, 4, 5, 6] [1, 2, 4, 5, 6] 1 2 exampleTwoTrackMap ∅ {1, 5, 6} (by decide) hmerge hfull
      ⟨[exampleContact 2 1, exampleContact 2 6], rfl, exampleContact 2 1, by simp, rfl⟩ haff hnew⟩

end RefinementTheorems

end MainFragmentRemoval

/-! ## Looping tracks: the member that no key sets -/

namespace LoopingTracks

/-- A property of the members that every step of a list keeps holds after the steps when it holds
before them. -/
theorem runSteps_keeps (P : Settings → Prop)
    (steps : List (Settings → Except MainFragmentRemoval.StatusCode Settings))
    (hsteps : ∀ step ∈ steps, ∀ a b, step a = .ok b → P a → P b) (a b : Settings)
    (hrun : runSteps steps a = .ok b) (ha : P a) : P b := by
  induction steps generalizing a with
  | nil =>
    simp only [runSteps, Except.ok.injEq] at hrun
    rw [← hrun]
    exact ha
  | cons step rest ih =>
    simp only [runSteps] at hrun
    cases hstep : step a with
    | error status =>
      rw [hstep] at hrun
      cases hrun
    | ok c =>
      rw [hstep] at hrun
      exact ih (fun t ht => hsteps t (List.mem_cons_of_mem _ ht)) c hrun
        (hsteps step (List.mem_cons_self _ _) a c hstep ha)

/-- Running two lists of steps one after the other. -/
theorem runSteps_append (pre post : List (Settings → Except MainFragmentRemoval.StatusCode Settings))
    (a b : Settings) (hrun : runSteps (pre ++ post) a = .ok b) :
    ∃ c, runSteps pre a = .ok c ∧ runSteps post c = .ok b := by
  induction pre generalizing a with
  | nil => exact ⟨a, rfl, hrun⟩
  | cons step rest ih =>
    simp only [List.cons_append, runSteps] at hrun ⊢
    cases hstep : step a with
    | error status =>
      rw [hstep] at hrun
      cases hrun
    | ok c =>
      rw [hstep] at hrun
      exact ih c hrun

/-- What a step that succeeds leaves in the members. -/
theorem assignAndRead_ok {α : Type} (assign : Settings → Settings)
    (r : MainFragmentRemoval.XmlRead α) (get : Settings → α) (set : Settings → α → Settings)
    (a b : Settings) (hrun : assignAndRead assign r get set a = .ok b) :
    b = set (assign a) (r.store (get (assign a))) := by
  simp only [assignAndRead, MainFragmentRemoval.readValue] at hrun
  split at hrun
  · cases hrun
  · rename_i v hv
    split at hv
    · cases hv
    · simp only [Except.ok.injEq] at hv hrun
      rw [← hrun, ← hv]

/-- The last four steps of `ReadSettings`: the step that assigns the default of
`m_goodFeaturesMaxFitDotProduct` and reads the key `NGoodFeaturesForClusterMerge` into
`m_nGoodFeaturesForClusterMerge`, and the three steps after it. -/
theorem readSteps_drop (xml : MainFragmentRemoval.TiXmlHandle) :
    (readSteps xml).drop 16 =
      [ assignAndRead (fun s => { s with m_goodFeaturesMaxFitDotProduct := (-1 / 2) })
          (xml.readUInt "NGoodFeaturesForClusterMerge") (fun s => s.m_nGoodFeaturesForClusterMerge)
          (fun s v => { s with m_nGoodFeaturesForClusterMerge := v }),
        assignAndRead (fun s => { s with m_goodFeaturesMaxFitApproach := 50 })
          (xml.readFloat "GoodFeaturesMaxFitApproach") (fun s => s.m_goodFeaturesMaxFitApproach)
          (fun s v => { s with m_goodFeaturesMaxFitApproach := v }),
        assignAndRead (fun s => { s with m_goodFeaturesMaxLayerDifference := 4 })
          (xml.readUInt "GoodFeaturesMaxLayerDifference")
          (fun s => s.m_goodFeaturesMaxLayerDifference)
          (fun s v => { s with m_goodFeaturesMaxLayerDifference := v }),
        assignAndRead (fun s => { s with m_goodFeaturesMinMipFraction := (9 / 10) })
          (xml.readFloat "GoodFeaturesMinMipFraction") (fun s => s.m_goodFeaturesMinMipFraction)
          (fun s v => { s with m_goodFeaturesMinMipFraction := v }) ] := rfl

/-- C37: for every configuration input and every prior content of the members, when
`LoopingTracksAlgorithm::ReadSettings` returns success the member `m_goodFeaturesMaxFitDotProduct`
holds its default `-0.5`: no read stores into it, since the read that follows its default
assignment has the key `NGoodFeaturesForClusterMerge` and stores into
`m_nGoodFeaturesForClusterMerge`, which therefore holds the value of that key when the key is
present. -/
theorem C37_good_features_dot_product_stays_default (xml : MainFragmentRemoval.TiXmlHandle)
    (members s : Settings) (hrun : ReadSettings xml members = .ok s) :
    s.m_goodFeaturesMaxFitDotProduct = -1 / 2 ∧
      ∀ v, xml.readUInt "NGoodFeaturesForClusterMerge" = .value v →
        s.m_nGoodFeaturesForClusterMerge = v := by
  have hsplit : runSteps ((readSteps xml).take 16 ++ (readSteps xml).drop 16) members = .ok s := by
    rw [List.take_append_drop]
    exact hrun
  obtain ⟨c, _, hpost⟩ := runSteps_append _ _ members s hsplit
  rw [readSteps_drop] at hpost
  simp only [runSteps] at hpost
  split at hpost
  · cases hpost
  · rename_i c1 h1
    split at hpost
    · cases hpost
    · rename_i c2 h2
      split at hpost
      · cases hpost
      · rename_i c3 h3
        split at hpost
        · cases hpost
        · rename_i c4 h4
          simp only [Except.ok.injEq] at hpost
          have e1 := assignAndRead_ok _ _ _ _ _ _ h1
          have e2 := assignAndRead_ok _ _ _ _ _ _ h2
          have e3 := assignAndRead_ok _ _ _ _ _ _ h3
          have e4 := assignAndRead_ok _ _ _ _ _ _ h4
          subst hpost
          refine ⟨?_, ?_⟩
          · rw [e4, e3, e2, e1]
          · intro v hv
            simp only [e4, e3, e2, e1, hv, MainFragmentRemoval.XmlRead.store]

/-- The run of `ReadSettings` on the configuration input in which every key is present, from
members that all hold zero. -/
theorem exampleFullXml_read :
    ∃ s, ReadSettings exampleFullXml exampleZeroMembers = .ok s ∧
      s.m_goodFeaturesMaxFitApproach = 1 / 4 := by
  simp [ReadSettings, readSteps, runSteps, assignAndRead, MainFragmentRemoval.readValue,
    MainFragmentRemoval.XmlRead.status, MainFragmentRemoval.XmlRead.store, exampleFullXml]

/-- C37 at the configuration input in which every key is present with a value other than the
default: `ReadSettings` returns success, `m_goodFeaturesMaxFitApproach` holds the value read, and
`m_goodFeaturesMaxFitDotProduct` holds `-0.5`. -/
theorem C37_good_features_dot_product_stays_default_witness :
    ∃ s, ReadSettings exampleFullXml exampleZeroMembers = .ok s ∧
      s.m_goodFeaturesMaxFitApproach = 1 / 4 ∧
      s.m_goodFeaturesMaxFitDotProduct = -1 / 2 ∧ s.m_nGoodFeaturesForClusterMerge = 7 := by
  obtain ⟨s, hs, ha⟩ := exampleFullXml_read
  exact ⟨s, hs, ha,
    (C37_good_features_dot_product_stays_default exampleFullXml exampleZeroMembers s hs).1,
    (C37_good_features_dot_product_stays_default exampleFullXml exampleZeroMembers s hs).2 7 rfl⟩

end LoopingTracks

/-! ## Muon reconstruction: matching in the lineage -/

namespace MuonReconstruction

/-- The particles reachable from `p` are `p` and the particles reachable from a daughter of
`p`. -/
theorem reaches_iff (store : MCParticleStore) (p q : MCParticlePtr) :
    Reaches store p q ↔ q = p ∨ ∃ d ∈ (store p).daughterList, Reaches store d q := by
  constructor
  · intro h
    rcases Relation.ReflTransGen.cases_head h with heq | ⟨d, hd, hrest⟩
    · exact Or.inl heq.symm
    · exact Or.inr ⟨d, hd, hrest⟩
  · rintro (heq | ⟨d, hd, hrest⟩)
    · rw [heq]
      exact Relation.ReflTransGen.refl
    · exact Relation.ReflTransGen.head hd hrest

/-- The daughter tree of a daughter of `p` is finite and acyclic when that of `p` is. -/
theorem FiniteAcyclicFrom.daughter {store : MCParticleStore} {height : MCParticlePtr → Nat}
    {p d : MCParticlePtr} (h : FiniteAcyclicFrom store height p) (hd : IsDaughter store p d) :
    FiniteAcyclicFrom store height d :=
  fun q e hq he => h q e (Relation.ReflTransGen.head hd hq) he

/-- The loop over a daughter list whose recursive calls all return: it returns, and it returns
true exactly when some daughter of the list has the uid or its recursive call returns true. -/
theorem daughterLoop_spec (store : MCParticleStore) (uid : Uid)
    (recurse : MCParticlePtr → Option Bool) (found : MCParticlePtr → Prop)
    (daughters : List MCParticlePtr)
    (hrec : ∀ d ∈ daughters, ∃ b, recurse d = some b ∧ (b = true ↔ found d)) :
    ∃ b, daughterLoop store uid recurse daughters = some b ∧
      (b = true ↔ ∃ d ∈ daughters, uid = (store d).uid ∨ found d) := by
  induction daughters with
  | nil => exact ⟨false, rfl, by simp⟩
  | cons d rest ih =>
    obtain ⟨b', hb', hrest⟩ := ih (fun e he => hrec e (List.mem_cons_of_mem _ he))
    simp only [daughterLoop]
    by_cases hu : uid = (store d).uid
    · rw [if_pos hu]
      exact ⟨true, rfl, by simpa using Or.inl (Or.inl hu)⟩
    · rw [if_neg hu]
      obtain ⟨b, hb, hfound⟩ := hrec d (List.mem_cons_self _ _)
      rw [hb]
      cases b with
      | true =>
        refine ⟨true, rfl, ?_⟩
        simp only [true_iff]
        exact ⟨d, List.mem_cons_self _ _, Or.inr (hfound.mp rfl)⟩
      | false =>
        refine ⟨b', hb', ?_⟩
        rw [hrest]
        have hnot : ¬ found d := fun h => by simpa using hfound.mpr h
        constructor
        · rintro ⟨e, he, h⟩
          exact ⟨e, List.mem_cons_of_mem _ he, h⟩
        · rintro ⟨e, he, h⟩
          rcases List.mem_cons.mp he with heq | hmem
          · subst heq
            rcases h with h | h
            · exact absurd h hu
            · exact absurd h hnot
          · exact ⟨e, hmem, h⟩

/-- With more fuel than the height of `p`, `IsMatchedMCParticle` returns, and it returns true
exactly when a particle reachable from `p` has the uid. -/
theorem IsMatchedMCParticle_spec (store : MCParticleStore) (height : MCParticlePtr → Nat)
    (uid : Uid) (fuel : Nat) (p : MCParticlePtr) (hacyclic : FiniteAcyclicFrom store height p)
    (hfuel : height p < fuel) :
    ∃ b, IsMatchedMCParticle store fuel p uid = some b ∧
      (b = true ↔ ∃ q, Reaches store p q ∧ (store q).uid = uid) := by
  induction fuel generalizing p with
  | zero => exact absurd hfuel (Nat.not_lt_zero _)
  | succ fuel ih =>
    simp only [IsMatchedMCParticle]
    by_cases hu : uid = (store p).uid
    · rw [if_pos hu]
      exact ⟨true, rfl, by simpa using ⟨p, Relation.ReflTransGen.refl, hu.symm⟩⟩
    · rw [if_neg hu]
      have hrec : ∀ d ∈ (store p).daughterList,
          ∃ b, (fun pDaughter => IsMatchedMCParticle store fuel pDaughter uid) d = some b ∧
            (b = true ↔ ∃ q, Reaches store d q ∧ (store q).uid = uid) := by
        intro d hd
        have hlt : height d < height p := hacyclic p d Relation.ReflTransGen.refl hd
        exact ih d (hacyclic.daughter hd) (by omega)
      obtain ⟨b, hb, hfound⟩ := daughterLoop_spec store uid _ _ (store p).daughterList hrec
      refine ⟨b, hb, ?_⟩
      rw [hfound]
      constructor
      · rintro ⟨d, hd, h | ⟨q, hq, hquid⟩⟩
        · exact ⟨d, Relation.ReflTransGen.single hd, h.symm⟩
        · exact ⟨q, Relation.ReflTransGen.head hd hq, hquid⟩
      · rintro ⟨q, hq, hquid⟩
        rcases (reaches_iff store p q).mp hq with heq | ⟨d, hd, hrest⟩
        · rw [heq] at hquid
          exact absurd hquid.symm hu
        · exact ⟨d, hd, Or.inr ⟨q, hrest, hquid⟩⟩

/-- C33: for every MC particle `p` whose daughter tree is finite and acyclic (the particles
reachable from `p` have heights that decrease from parent to daughter),
`IsMatchedMCParticle(p, uid)` terminates, with every bound on the nesting of calls that exceeds the
height of `p` in the tree, and the value it returns is true if and only if `uid` is the uid of `p`
or of a particle reachable from `p` through daughter lists. -/
theorem C33_is_matched_iff_uid_in_lineage (store : MCParticleStore)
    (height : MCParticlePtr → Nat) (p : MCParticlePtr) (uid : Uid)
    (hacyclic : FiniteAcyclicFrom store height p) :
    ∃ b, (∀ fuel, height p < fuel → IsMatchedMCParticle store fuel p uid = some b) ∧
      (b = true ↔ (store p).uid = uid ∨
        ∃ q, q ≠ p ∧ Reaches store p q ∧ (store q).uid = uid) := by
  obtain ⟨b, hb, hiff⟩ := IsMatchedMCParticle_spec store height uid (height p + 1) p hacyclic
    (Nat.lt_succ_self _)
  refine ⟨b, ?_, ?_⟩
  · intro fuel hfuel
    obtain ⟨b', hb', hiff'⟩ := IsMatchedMCParticle_spec store height uid fuel p hacyclic hfuel
    have : b' = b := by
      have hsame : b' = true ↔ b = true := hiff'.trans hiff.symm
      cases b <;> cases b' <;> simp at hsame ⊢
    rw [hb', this]
  · rw [hiff]
    constructor
    · rintro ⟨q, hq, hquid⟩
      by_cases hqp : q = p
      · rw [hqp] at hquid
        exact Or.inl hquid
      · exact Or.inr ⟨q, hqp, hq, hquid⟩
    · rintro (h | ⟨q, _, hq, hquid⟩)
      · exact ⟨p, Relation.ReflTransGen.refl, h⟩
      · exact ⟨q, hq, hquid⟩

/-- The example memory is finite and acyclic from particle `1`. -/
theorem exampleStore_acyclic : FiniteAcyclicFrom exampleStore exampleHeight 1 := by
  intro q d _ hd
  simp only [IsDaughter, exampleStore] at hd
  by_cases h1 : q = 1
  · subst h1
    simp only [if_true, List.mem_cons, List.mem_singleton, List.not_mem_nil, or_false] at hd
    rcases hd with rfl | rfl <;> decide
  · by_cases h2 : q = 2
    · subst h2
      simp only [if_neg h1, if_true, List.mem_singleton] at hd
      subst hd
      decide
    · simp [h1, h2] at hd

/-- C33 at the example memory: particle `4` is a daughter of a daughter of particle `1`, and
`IsMatchedMCParticle(1, 40)` returns true with three nested calls. -/
theorem C33_is_matched_iff_uid_in_lineage_witness :
    FiniteAcyclicFrom exampleStore exampleHeight 1 ∧
      IsMatchedMCParticle exampleStore 3 1 40 = some true ∧
      ∃ b, (∀ fuel, exampleHeight 1 < fuel → IsMatchedMCParticle exampleStore fuel 1 40 = some b) ∧
        (b = true ↔ (exampleStore 1).uid = 40 ∨
          ∃ q, q ≠ 1 ∧ Reaches exampleStore 1 q ∧ (exampleStore q).uid = 40) :=
  ⟨exampleStore_acyclic, by decide,
    C33_is_matched_iff_uid_in_lineage exampleStore exampleHeight 1 40 exampleStore_acyclic⟩

end MuonReconstruction
